import Mathlib

/-!
# Fortunopoly rules engine

A shallow embedding of the game engine of the Fortunopoly repository
(`src/game/tiles.js`, `player.js`, `cards.js`, `gameState.js`, `trading.js`)
and theorems about it.

Conventions of the embedding:

* JavaScript numbers that the engine only ever uses as integers are `Int`;
  array indices and tile ids are `Nat`.
* A player object is addressed by its index in `GameState.players`; every
  mutation of a player object is a `List.set` at that index, so two
  references to the same object (aliasing) behave as in the source.
* `undefined` is `none`.  A function whose source can yield `undefined` or
  `NaN` returns an `Option`.
* The objects `propertyOwners` and `propertyHouses` are partial maps
  `Nat → Option _`; `delete` maps a key back to `none`.
* Log entries keep their category only: the text and the timestamp are
  narration.
* `Math.random()` outcomes are explicit arguments.
-/

namespace Fortunopoly

/-! ## tiles.js -/

inductive TileType where
  | start | property | railroad | utility | chance | tax | jail | gotojail | parking
  deriving DecidableEq, Repr, Inhabited

/-- The keys of `PROPERTY_GROUPS`. -/
inductive Group where
  | brown | lightblue | pink | orange | red | yellow | green | blue
  deriving DecidableEq, Repr, Inhabited

inductive Subtype where
  | fortune | fate
  deriving DecidableEq, Repr, Inhabited

/-- A board tile.  Absent fields of the source object are `none`
(`rent` and `rentMultiplier`: the empty list). -/
structure Tile where
  id : Nat
  type : TileType
  group : Option Group := none
  price : Option Int := none
  rent : List Int := []
  rentMultiplier : List Int := []
  housePrice : Option Int := none
  amount : Option Int := none
  subtype : Option Subtype := none
  deriving DecidableEq, Repr, Inhabited

/-- Source `PROPERTY_GROUPS[g].properties`. -/
def PROPERTY_GROUPS : Group → Nat
  | .brown => 2
  | .lightblue => 3
  | .pink => 3
  | .orange => 3
  | .red => 3
  | .yellow => 3
  | .green => 3
  | .blue => 2

def mkProperty (id : Nat) (g : Group) (price : Int) (rent : List Int) (housePrice : Int) : Tile :=
  { id := id, type := .property, group := some g, price := some price, rent := rent,
    housePrice := some housePrice }

def mkRailroad (id : Nat) : Tile :=
  { id := id, type := .railroad, price := some 200, rent := [25, 50, 100, 200] }

def mkUtility (id : Nat) : Tile :=
  { id := id, type := .utility, price := some 150, rentMultiplier := [4, 10] }

def mkChance (id : Nat) (st : Subtype) : Tile :=
  { id := id, type := .chance, subtype := some st }

def mkTax (id : Nat) (amount : Int) : Tile :=
  { id := id, type := .tax, amount := some amount }

/-- All 40 tiles of the board, index = id. -/
def TILES : List Tile :=
  [ { id := 0, type := .start },
    mkProperty 1 .brown 60 [2, 10, 30, 90, 160, 250] 50,
    mkChance 2 .fortune,
    mkProperty 3 .brown 60 [4, 20, 60, 180, 320, 450] 50,
    mkTax 4 200,
    mkRailroad 5,
    mkProperty 6 .lightblue 100 [6, 30, 90, 270, 400, 550] 50,
    mkChance 7 .fate,
    mkProperty 8 .lightblue 100 [6, 30, 90, 270, 400, 550] 50,
    mkProperty 9 .lightblue 120 [8, 40, 100, 300, 450, 600] 50,
    { id := 10, type := .jail },
    mkProperty 11 .pink 140 [10, 50, 150, 450, 625, 750] 100,
    mkUtility 12,
    mkProperty 13 .pink 140 [10, 50, 150, 450, 625, 750] 100,
    mkProperty 14 .pink 160 [12, 60, 180, 500, 700, 900] 100,
    mkRailroad 15,
    mkProperty 16 .orange 180 [14, 70, 200, 550, 750, 950] 100,
    mkChance 17 .fortune,
    mkProperty 18 .orange 180 [14, 70, 200, 550, 750, 950] 100,
    mkProperty 19 .orange 200 [16, 80, 220, 600, 800, 1000] 100,
    { id := 20, type := .parking },
    mkProperty 21 .red 220 [18, 90, 250, 700, 875, 1050] 150,
    mkChance 22 .fate,
    mkProperty 23 .red 220 [18, 90, 250, 700, 875, 1050] 150,
    mkProperty 24 .red 240 [20, 100, 300, 750, 925, 1100] 150,
    mkRailroad 25,
    mkProperty 26 .yellow 260 [22, 110, 330, 800, 975, 1150] 150,
    mkProperty 27 .yellow 260 [22, 110, 330, 800, 975, 1150] 150,
    mkUtility 28,
    mkProperty 29 .yellow 280 [24, 120, 360, 850, 1025, 1200] 150,
    { id := 30, type := .gotojail },
    mkProperty 31 .green 300 [26, 130, 390, 900, 1100, 1275] 200,
    mkProperty 32 .green 300 [26, 130, 390, 900, 1100, 1275] 200,
    mkChance 33 .fortune,
    mkProperty 34 .green 320 [28, 150, 450, 1000, 1200, 1400] 200,
    mkRailroad 35,
    mkChance 36 .fate,
    mkProperty 37 .blue 350 [35, 175, 500, 1100, 1300, 1500] 200,
    mkTax 38 100,
    mkProperty 39 .blue 400 [50, 200, 600, 1400, 1700, 2000] 200 ]

/-- Source `getTile(id)`: `TILES[id]`, `undefined` outside the board. -/
def getTile (id : Nat) : Option Tile := TILES[id]?

/-- Source `getPropertiesInGroup(group)`; the argument may be `undefined`. -/
def getPropertiesInGroup (group : Option Group) : List Tile :=
  TILES.filter (fun tile => decide (tile.type = .property) && decide (tile.group = group))

def isTileBuyable (tile : Tile) : Bool :=
  decide (tile.type = .property) || decide (tile.type = .railroad) || decide (tile.type = .utility)

/-- JavaScript array read `arr[i]` for an integer index. -/
def jsIndex (arr : List Int) (i : Int) : Option Int :=
  if i < 0 then none else arr[i.toNat]?

/-! ## player.js -/

def STARTING_MONEY : Int := 1500
def START_BONUS : Int := 200
def JAIL_BAIL : Int := 50
def MAX_JAIL_TURNS : Nat := 3

inductive Difficulty where
  | easy | medium | hard
  deriving DecidableEq, Repr, Inhabited

structure Player where
  id : Nat
  money : Int := STARTING_MONEY
  position : Int := 0
  properties : List Nat := []
  mortgagedProperties : List Nat := []
  inJail : Bool := false
  jailTurns : Nat := 0
  hasJailFreeCard : Bool := false
  isBankrupt : Bool := false
  isBot : Bool := false
  botDifficulty : Difficulty := .medium
  deriving DecidableEq, Repr, Inhabited

namespace Player

/-- Assignment `player.money = m`. -/
def setMoney (p : Player) (m : Int) : Player := { p with money := m }

/-- Assignment `player.position = n`. -/
def setPosition (p : Player) (n : Int) : Player := { p with position := n }

def addMoney (p : Player) (amount : Int) : Player :=
  p.setMoney (p.money + amount)

/-- Source `subtractMoney(amount)`: the returned flag and the player afterwards. -/
def subtractMoney (p : Player) (amount : Int) : Bool × Player :=
  if p.money ≥ amount then (true, p.setMoney (p.money - amount)) else (false, p)

def canAfford (p : Player) (amount : Int) : Bool := decide (p.money ≥ amount)

def addProperty (p : Player) (tileId : Nat) : Player :=
  if tileId ∈ p.properties then p else { p with properties := p.properties ++ [tileId] }

/-- Source `removeProperty`: `indexOf` then `splice(index, 1)` drops the first occurrence. -/
def removeProperty (p : Player) (tileId : Nat) : Player :=
  { p with properties := p.properties.erase tileId }

def ownsProperty (p : Player) (tileId : Nat) : Bool := decide (tileId ∈ p.properties)

def countPropertiesInGroup (p : Player) (group : Option Group) : Nat :=
  (p.properties.filter (fun tileId =>
    match getTile tileId with
    | some tile => decide (tile.group = group)
    | none => false)).length

def hasMonopoly (p : Player) (group : Option Group) : Bool :=
  match group with
  | none => false
  | some g => decide (p.countPropertiesInGroup (some g) = PROPERTY_GROUPS g)

def countRailroads (p : Player) : Nat :=
  (p.properties.filter (fun tileId =>
    match getTile tileId with
    | some tile => decide (tile.type = .railroad)
    | none => false)).length

def countUtilities (p : Player) : Nat :=
  (p.properties.filter (fun tileId =>
    match getTile tileId with
    | some tile => decide (tile.type = .utility)
    | none => false)).length

/-- Source `moveTo(newPosition, collectStartBonus)`: the returned flag and the player. -/
def moveTo (p : Player) (newPosition : Int) (collectStartBonus : Bool) : Bool × Player :=
  let passedStart := decide (newPosition < p.position) && decide (newPosition ≠ 10)
  let p1 := p.setPosition newPosition
  if passedStart && collectStartBonus && !p1.inJail then (true, p1.addMoney START_BONUS)
  else (false, p1)

/-- Source `moveSpaces(spaces)`: `(newPosition, passedStart)` and the player.
`%` is the truncating remainder of JavaScript. -/
def moveSpaces (p : Player) (spaces : Int) : (Int × Bool) × Player :=
  let oldPosition := p.position
  let r := Int.tmod (p.position + spaces) 40
  let newPosition := if r < 0 then r + 40 else r
  let passedStart := decide (spaces > 0) && decide (newPosition < oldPosition)
  let p1 := p.setPosition newPosition
  let p2 := if passedStart && !p1.inJail then p1.addMoney START_BONUS else p1
  ((newPosition, passedStart), p2)

def goToJail (p : Player) : Player :=
  { p with position := 10, inJail := true, jailTurns := 0 }

def leaveJail (p : Player) : Player :=
  { p with inJail := false, jailTurns := 0 }

def incrementJailTurn (p : Player) : Bool × Player :=
  let p1 := { p with jailTurns := p.jailTurns + 1 }
  (decide (p1.jailTurns ≥ MAX_JAIL_TURNS), p1)

def goBankrupt (p : Player) : Player :=
  { p with isBankrupt := true, money := 0 }

def getNetWorth (p : Player) : Int :=
  p.properties.foldl (fun worth tileId =>
    match getTile tileId with
    | some tile =>
      match tile.price with
      | some price => if price ≠ 0 then worth + price else worth
      | none => worth
    | none => worth) p.money

def isMortgaged (p : Player) (tileId : Nat) : Bool := decide (tileId ∈ p.mortgagedProperties)

/-- Assignment `player.properties = l`. -/
def setProperties (p : Player) (l : List Nat) : Player := { p with properties := l }

/-- Assignment `player.mortgagedProperties = l` (the effect of `push` and `splice`). -/
def setMortgaged (p : Player) (l : List Nat) : Player := { p with mortgagedProperties := l }

/-- Assignment `player.hasJailFreeCard = b`. -/
def setJailFreeCard (p : Player) (b : Bool) : Player := { p with hasJailFreeCard := b }

end Player

/-- Source `createPlayer(id, name, colorIndex)`. -/
def createPlayer (id : Nat) : Player := { id := id }

/-! ## cards.js -/

inductive CardEffect where
  | money (amount : Int)
  | move (position : Nat) (collectStart : Bool)
  | moveRelative (spaces : Int)
  | jail
  | jailFree
  | collectFromAll (amount : Int)
  | payToAll (amount : Int)
  | payPerProperty (amount : Int)
  | stealFromRichest (amount : Int)
  | stealFromAll (amount : Int)
  | stealChoice (amount : Int)
  | freeArson
  | everyoneLoses (amount : Int)
  | gamble (winAmount : Int) (loseAmount : Int)
  deriving DecidableEq, Repr, Inhabited

structure Card where
  id : Nat
  effect : CardEffect
  deriving DecidableEq, Repr, Inhabited

def FATE_CARDS : List Card :=
  [ ⟨1, .money 200⟩, ⟨2, .money 100⟩, ⟨3, .money 50⟩, ⟨4, .money 150⟩, ⟨5, .money 75⟩,
    ⟨6, .money 50⟩, ⟨7, .money (-50)⟩, ⟨9, .money (-100)⟩, ⟨10, .money (-75)⟩,
    ⟨19, .jailFree⟩, ⟨20, .collectFromAll 25⟩, ⟨22, .payPerProperty 25⟩ ]

def FORTUNE_CARDS : List Card :=
  [ ⟨8, .money (-15)⟩, ⟨11, .money (-20)⟩, ⟨12, .move 0 true⟩, ⟨13, .move 5 true⟩,
    ⟨14, .move 20 true⟩, ⟨15, .move 21 true⟩, ⟨16, .moveRelative 3⟩,
    ⟨17, .moveRelative (-3)⟩, ⟨18, .jail⟩, ⟨21, .payToAll 10⟩, ⟨23, .stealFromRichest 100⟩,
    ⟨24, .freeArson⟩, ⟨25, .stealFromAll 50⟩, ⟨26, .stealChoice 150⟩,
    ⟨27, .everyoneLoses 75⟩, ⟨28, .gamble 200 100⟩ ]

/-- The two working decks (module variables of cards.js); the last element
is the one `pop()` returns. -/
structure Decks where
  fortuneDeck : List Card := []
  fateDeck : List Card := []
  deriving DecidableEq, Repr, Inhabited

/-- The destructuring swap `[a[i], a[j]] = [a[j], a[i]]`. -/
def swapAt (arr : List Card) (i j : Nat) : List Card :=
  match arr[i]?, arr[j]? with
  | some a, some b => (arr.set i b).set j a
  | _, _ => arr

/-- The loop of `shuffleArray` from index `i` down to 1; `rnd i` stands for
the outcome of `Math.random()` in the iteration for `i`, and
`rnd i % (i + 1)` for `Math.floor(Math.random() * (i + 1))`. -/
def shuffleLoop (rnd : Nat → Nat) : Nat → List Card → List Card
  | 0, arr => arr
  | i + 1, arr => shuffleLoop rnd i (swapAt arr (i + 1) (rnd (i + 1) % (i + 2)))

def shuffleArray (rnd : Nat → Nat) (array : List Card) : List Card :=
  shuffleLoop rnd (array.length - 1) array

def shuffleDecks (rndFortune rndFate : Nat → Nat) : Decks :=
  { fortuneDeck := shuffleArray rndFortune FORTUNE_CARDS,
    fateDeck := shuffleArray rndFate FATE_CARDS }

def drawFortuneCard (rnd : Nat → Nat) (d : Decks) : Option Card × Decks :=
  let deck := if d.fortuneDeck.length = 0 then shuffleArray rnd FORTUNE_CARDS else d.fortuneDeck
  (deck.getLast?, { d with fortuneDeck := deck.dropLast })

def drawFateCard (rnd : Nat → Nat) (d : Decks) : Option Card × Decks :=
  let deck := if d.fateDeck.length = 0 then shuffleArray rnd FATE_CARDS else d.fateDeck
  (deck.getLast?, { d with fateDeck := deck.dropLast })

/-! ## gameState.js -/

inductive GamePhase where
  | setup | playing | gameOver
  deriving DecidableEq, Repr, Inhabited

inductive TurnPhase where
  | waiting | rolled | moving | landed | buying | paying | card | endTurn
  deriving DecidableEq, Repr, Inhabited

/-- The second argument of `addLog`. -/
inductive LogType where
  | plain | card | purchase | jail | money | rent | trade
  deriving DecidableEq, Repr, Inhabited

structure HouseRules where
  parkingJackpot : Bool := false
  doubleGo : Bool := false
  deriving DecidableEq, Repr, Inhabited

/-- The singleton `GameState`.  `freeParkingPot = none` stands for `NaN`. -/
structure GameState where
  phase : GamePhase := .setup
  players : List Player := []
  currentPlayerIndex : Nat := 0
  turnPhase : TurnPhase := .waiting
  lastDiceRoll : Int × Int := (0, 0)
  consecutiveDoubles : Nat := 0
  propertyOwners : Nat → Option Nat := fun _ => none
  propertyHouses : Nat → Option Int := fun _ => none
  log : List LogType := []
  round : Nat := 1
  houseRules : HouseRules := {}
  freeParkingPot : Option Int := some 0

/-- Assignment `obj[k] = v`. -/
def setKey {α : Type} (m : Nat → Option α) (k : Nat) (v : α) : Nat → Option α :=
  fun x => if x = k then some v else m x

/-- Statement `delete obj[k]`. -/
def deleteKey {α : Type} (m : Nat → Option α) (k : Nat) : Nat → Option α :=
  fun x => if x = k then none else m x

/-- Source `players.find(pred)` as the index of the first match. -/
def findIndex (f : Player → Bool) : List Player → Option Nat
  | [] => none
  | p :: ps => if f p then some 0 else (findIndex f ps).map (· + 1)

namespace GameState

/-- The player object at index `i` (a default player outside the list;
every operation below is meant for an index inside it). -/
def getPlayer (s : GameState) (i : Nat) : Player := s.players.getD i default

/-- Write back the player object at index `i`. -/
def setPlayer (s : GameState) (i : Nat) (p : Player) : GameState :=
  { s with players := s.players.set i p }

/-- Assignment `this.propertyOwners[tileId] = id`. -/
def setOwner (s : GameState) (tileId id : Nat) : GameState :=
  { s with propertyOwners := setKey s.propertyOwners tileId id }

/-- Assignment `this.propertyHouses[tileId] = n`. -/
def setHouses (s : GameState) (tileId : Nat) (n : Int) : GameState :=
  { s with propertyHouses := setKey s.propertyHouses tileId n }

/-- Statement `delete this.propertyOwners[tileId]`. -/
def deleteOwner (s : GameState) (tileId : Nat) : GameState :=
  { s with propertyOwners := deleteKey s.propertyOwners tileId }

/-- Statement `delete this.propertyHouses[tileId]`. -/
def deleteHouses (s : GameState) (tileId : Nat) : GameState :=
  { s with propertyHouses := deleteKey s.propertyHouses tileId }

/-- Assignment `this.phase = v`. -/
def setPhase (s : GameState) (v : GamePhase) : GameState := { s with phase := v }

/-- Assignment `this.lastDiceRoll = v`. -/
def setLastDiceRoll (s : GameState) (v : Int × Int) : GameState := { s with lastDiceRoll := v }

/-- Assignment `this.consecutiveDoubles = v`. -/
def setConsecutiveDoubles (s : GameState) (v : Nat) : GameState :=
  { s with consecutiveDoubles := v }

/-- Assignment `this.round = v`. -/
def setRound (s : GameState) (v : Nat) : GameState := { s with round := v }

/-- Assignment `this.currentPlayerIndex = v`. -/
def setCurrentPlayerIndex (s : GameState) (v : Nat) : GameState :=
  { s with currentPlayerIndex := v }

/-- Assignment `this.turnPhase = v`. -/
def setTurnPhase (s : GameState) (v : TurnPhase) : GameState := { s with turnPhase := v }

/-- Assignment `this.freeParkingPot = v`. -/
def setFreeParkingPot (s : GameState) (v : Option Int) : GameState :=
  { s with freeParkingPot := v }

def addLog (s : GameState) (type : LogType := .plain) : GameState :=
  let log := s.log ++ [type]
  { s with log := if log.length > 100 then log.tail else log }

/-- One entry of `playerData`. -/
structure PlayerData where
  isBot : Bool := false
  botDifficulty : Option Difficulty := none
  deriving DecidableEq, Repr, Inhabited

/-- Source `init(playerData, rules)`; the decks are shuffled separately by
`shuffleDecks`.  With no players the source throws on
`getCurrentPlayer().name`: `none`. -/
def init (playerData : List PlayerData) (rules : HouseRules := {}) : Option GameState :=
  let players := playerData.enum.map (fun (index, data) =>
    { createPlayer index with
      isBot := data.isBot, botDifficulty := data.botDifficulty.getD .medium })
  let s : GameState :=
    { phase := .playing, players := players, currentPlayerIndex := 0, turnPhase := .waiting,
      lastDiceRoll := (0, 0), consecutiveDoubles := 0, propertyOwners := fun _ => none,
      propertyHouses := fun _ => none, log := [], round := 1,
      houseRules := { parkingJackpot := rules.parkingJackpot, doubleGo := rules.doubleGo },
      freeParkingPot := some 0 }
  let s1 := s.addLog
  if players.length = 0 then none else some s1.addLog

/-- Indices of the players `getActivePlayers()` returns. -/
def getActivePlayers (s : GameState) : List Nat :=
  (List.range s.players.length).filter (fun i => !(s.getPlayer i).isBankrupt)

structure DiceRoll where
  die1 : Int
  die2 : Int
  total : Int
  isDoubles : Bool
  deriving DecidableEq, Repr, Inhabited

/-- Source `rollDice()` with the two dice outcomes as arguments. -/
def rollDice (s : GameState) (die1 die2 : Int) : DiceRoll × GameState :=
  let isDoubles := decide (die1 = die2)
  let s1 := s.setLastDiceRoll (die1, die2)
  let s2 := if isDoubles then s1.setConsecutiveDoubles (s1.consecutiveDoubles + 1)
            else s1.setConsecutiveDoubles 0
  ({ die1 := die1, die2 := die2, total := die1 + die2, isDoubles := isDoubles }, s2)

structure MoveResult where
  oldPosition : Int
  newPosition : Int
  passedStart : Bool
  deriving DecidableEq, Repr, Inhabited

def moveCurrentPlayer (s : GameState) (spaces : Int) : MoveResult × GameState :=
  let i := s.currentPlayerIndex
  let player := s.getPlayer i
  let oldPosition := player.position
  let ((newPosition, passedStart), player1) := player.moveSpaces spaces
  let s1 := s.setPlayer i player1
  let s2 := if passedStart then s1.addLog else s1
  ({ oldPosition := oldPosition, newPosition := newPosition, passedStart := passedStart }, s2)

/-- Source `calculateRent(tile, owner)`; `none` is an `undefined` or `NaN` result. -/
def calculateRent (s : GameState) (tile : Tile) (owner : Player) : Option Int :=
  if owner.isMortgaged tile.id then some 0
  else if tile.type = .property then
    let houseCount := (s.propertyHouses tile.id).getD 0
    if houseCount > 0 then jsIndex tile.rent houseCount
    else
      let rent := jsIndex tile.rent 0
      if owner.hasMonopoly tile.group then rent.map (· * 2) else rent
  else if tile.type = .railroad then
    let railroadsOwned : Int := owner.countRailroads
    jsIndex tile.rent (railroadsOwned - 1)
  else if tile.type = .utility then
    let utilitiesOwned : Int := owner.countUtilities
    let multiplier := jsIndex tile.rentMultiplier (utilitiesOwned - 1)
    let diceTotal := s.lastDiceRoll.1 + s.lastDiceRoll.2
    multiplier.map (diceTotal * ·)
  else some 0

/-- Source `buyProperty(player, tile)`; `money >= undefined` is false. -/
def buyProperty (s : GameState) (i : Nat) (tile : Tile) : Bool × GameState :=
  match tile.price with
  | none => (false, s)
  | some price =>
    let (ok, player1) := (s.getPlayer i).subtractMoney price
    if ok then
      let s1 := s.setPlayer i (player1.addProperty tile.id)
      let s2 := s1.setOwner tile.id (s1.getPlayer i).id
      let s3 := s2.setHouses tile.id 0
      (true, s3.addLog .purchase)
    else (false, s)

def buildHouse (s : GameState) (i : Nat) (tile : Tile) : Bool × GameState :=
  let player := s.getPlayer i
  if !player.ownsProperty tile.id then (false, s)
  else if !player.hasMonopoly tile.group then (false, s)
  else
    let currentHouses := (s.propertyHouses tile.id).getD 0
    if currentHouses ≥ 5 then (false, s)
    else
      match tile.housePrice with
      | none => (false, s)
      | some housePrice =>
        let (ok, player1) := player.subtractMoney housePrice
        if ok then
          let s1 := s.setPlayer i player1
          let s2 := s1.setHouses tile.id (currentHouses + 1)
          (true, s2.addLog .purchase)
        else (false, s)

/-- Source `sabotageProperty(player, tile)`.  The result is `none` when the source
throws on `owner.name` (no player carries the recorded owner id); the money
and the level have been changed by then. -/
def sabotageProperty (s : GameState) (i : Nat) (tile : Tile) : Option Bool × GameState :=
  let SABOTAGE_COST : Int := 150
  let player := s.getPlayer i
  let houses := (s.propertyHouses tile.id).getD 0
  if houses ≤ 0 then (some false, s)
  else if s.propertyOwners tile.id = some player.id then (some false, s)
  else
    let (ok, player1) := player.subtractMoney SABOTAGE_COST
    if ok then
      let s1 := s.setPlayer i player1
      let s2 := s1.setHouses tile.id (houses - 1)
      let owner := findIndex (fun p => decide (some p.id = s2.propertyOwners tile.id)) s2.players
      match owner with
      | none => (none, s2)
      | some _ => (some true, s2.addLog .jail)
    else (some false, s)

inductive RejectReason where
  | mustSellHousesFirst
  | sellBuildingsInGroupFirst
  | alreadyMortgaged
  | notEnoughMoney
  | notMortgaged
  deriving DecidableEq, Repr, Inhabited

/-- What `mortgageProperty` and `unmortgageProperty` return: the bare
`false`, `{ success: true }` or `{ success: false, reason }`. -/
inductive MortgageResult where
  | bareFalse
  | success
  | failure (reason : RejectReason)
  deriving DecidableEq, Repr, Inhabited

/-- Source `mortgageProperty(player, tile)`.  `none`: the source throws on
`this.players[0].properties` (no players), or computes with an undefined
price (`NaN` money). -/
def mortgageProperty (s : GameState) (i : Nat) (tile : Tile) : Option (MortgageResult × GameState) :=
  let player := s.getPlayer i
  if !player.ownsProperty tile.id then some (.bareFalse, s)
  else if s.players.length = 0 then none
  else if (s.propertyHouses tile.id).getD 0 > 0 then some (.failure .mustSellHousesFirst, s)
  else
    let hasHousesInGroup : Bool :=
      (getPropertiesInGroup tile.group).any (fun t => decide ((s.propertyHouses t.id).getD 0 > 0))
    if hasHousesInGroup then some (.failure .sellBuildingsInGroupFirst, s)
    else if !player.isMortgaged tile.id then
      match tile.price with
      | none => none
      | some price =>
        let mortgageValue := price / 2
        let player1 := player.addMoney mortgageValue
        let player2 := player1.setMortgaged (player1.mortgagedProperties ++ [tile.id])
        some (.success, (s.setPlayer i player2).addLog .money)
    else some (.failure .alreadyMortgaged, s)

/-- Source `unmortgageProperty(player, tile)`.  `Math.ceil(mortgageValue * 0.1)` is
the integer ceiling of a tenth: the double 0.1 exceeds a tenth by the factor
1 + 2^-54, so for an integer `mortgageValue` the product rounds to the exact
tenth when that is an integer and stays strictly between the same two
integers otherwise.  With an undefined price the cost is `NaN` and
`money >= NaN` is false. -/
def unmortgageProperty (s : GameState) (i : Nat) (tile : Tile) : MortgageResult × GameState :=
  let player := s.getPlayer i
  if !player.ownsProperty tile.id then (.bareFalse, s)
  else if player.isMortgaged tile.id then
    match tile.price with
    | none => (.failure .notEnoughMoney, s)
    | some price =>
      let mortgageValue := price / 2
      let interest := -((-mortgageValue) / 10)
      let cost := mortgageValue + interest
      let (ok, player1) := player.subtractMoney cost
      if ok then
        let player2 := player1.setMortgaged (player1.mortgagedProperties.erase tile.id)
        (.success, (s.setPlayer i player2).addLog .purchase)
      else (.failure .notEnoughMoney, s)
  else (.failure .notMortgaged, s)

def endGame (s : GameState) : GameState :=
  (s.setPhase .gameOver).addLog

/-- The `forEach` callback of `declareBankruptcy` with a creditor. -/
def creditorTakes (c : Nat) (st : GameState) (tileId : Nat) : GameState :=
  let st1 := st.setPlayer c ((st.getPlayer c).addProperty tileId)
  st1.setOwner tileId (st1.getPlayer c).id

/-- The `forEach` callback of `declareBankruptcy` without a creditor. -/
def bankTakes (st : GameState) (tileId : Nat) : GameState :=
  (st.deleteOwner tileId).deleteHouses tileId

/-- Source `declareBankruptcy(player, creditor)`; `creditor = none` is `null`. -/
def declareBankruptcy (s : GameState) (i : Nat) (creditor : Option Nat) : GameState :=
  let s1 := (s.setPlayer i (s.getPlayer i).goBankrupt).addLog .jail
  let properties := (s1.getPlayer i).properties
  let s2 :=
    match creditor with
    | some c => (properties.foldl (creditorTakes c) s1).addLog
    | none => properties.foldl bankTakes s1
  let s3 := s2.setPlayer i ((s2.getPlayer i).setProperties [])
  if s3.getActivePlayers.length ≤ 1 then s3.endGame else s3

/-- The state `declareBankruptcy` has built when it reaches its game-over
check (used to state facts about `declareBankruptcy`). -/
def bankruptcyCore (s : GameState) (i : Nat) (creditor : Option Nat) : GameState :=
  let s1 := (s.setPlayer i (s.getPlayer i).goBankrupt).addLog .jail
  let s2 :=
    match creditor with
    | some c => ((s1.getPlayer i).properties.foldl (creditorTakes c) s1).addLog
    | none => (s1.getPlayer i).properties.foldl bankTakes s1
  s2.setPlayer i ((s2.getPlayer i).setProperties [])

/-- Source `payRent(player, owner, amount)`. -/
def payRent (s : GameState) (i : Nat) (owner : Nat) (amount : Int) : Bool × GameState :=
  let (ok, player1) := (s.getPlayer i).subtractMoney amount
  if ok then
    let s1 := s.setPlayer i player1
    let s2 := s1.setPlayer owner ((s1.getPlayer owner).addMoney amount)
    (true, s2.addLog .rent)
  else
    let available := (s.getPlayer i).money
    let s1 := s.setPlayer i ((s.getPlayer i).setMoney 0)
    let s2 := s1.setPlayer owner ((s1.getPlayer owner).addMoney available)
    let s3 := s2.addLog .rent
    (false, s3.declareBankruptcy i (some owner))

/-- What `processLanding` and its helpers return (`action` and payload).
`threw`: the source throws a `TypeError`. -/
inductive LandingResult where
  | noAction
  | canBuy (tile : Tile)
  | cantAfford (tile : Tile)
  | ownProperty
  | ownerInJail
  | payRent (tile : Tile) (owner : Nat) (rent : Option Int)
  | chanceCard (card : Option Card) (cardType : Subtype)
  | taxPaid
  | jailed
  | threw
  deriving DecidableEq, Repr, Inhabited

/-- Source `processTax(player, tile)`; `money >= undefined` is false and
`freeParkingPot += undefined` is `NaN`. -/
def processTax (s : GameState) (i : Nat) (tile : Tile) : LandingResult × GameState :=
  let paid : Bool × Player :=
    match tile.amount with
    | some amount => (s.getPlayer i).subtractMoney amount
    | none => (false, s.getPlayer i)
  let s1 :=
    if paid.1 then (s.setPlayer i paid.2).addLog .rent
    else
      let s0 := s.setPlayer i ((s.getPlayer i).setMoney 0)
      ((s0.addLog .rent).addLog .rent).declareBankruptcy i none
  let s2 :=
    if s1.houseRules.parkingJackpot then
      (s1.setFreeParkingPot
        (match s1.freeParkingPot, tile.amount with
          | some pot, some amount => some (pot + amount)
          | _, _ => none)).addLog
    else s1
  (.taxPaid, s2)

def sendToJail (s : GameState) (i : Nat) : LandingResult × GameState :=
  let s1 := s.setPlayer i (s.getPlayer i).goToJail
  (.jailed, (s1.setConsecutiveDoubles 0).addLog .jail)

def processPropertyLanding (s : GameState) (i : Nat) (tile : Tile) : LandingResult × GameState :=
  let player := s.getPlayer i
  match findIndex (fun p => p.ownsProperty tile.id) s.players with
  | none =>
    let affordable : Bool :=
      match tile.price with
      | some price => player.canAfford price
      | none => false
    if affordable then (.canBuy tile, s) else (.cantAfford tile, s.addLog)
  | some o =>
    let owner := s.getPlayer o
    if owner.id = player.id then (.ownProperty, s.addLog)
    else if owner.inJail then (.ownerInJail, s.addLog)
    else (.payRent tile o (s.calculateRent tile owner), s)

/-- Source `processChanceCard(player, tile)`; `tile = none` is an undefined tile. -/
def processChanceCard (s : GameState) (d : Decks) (rnd : Nat → Nat) (tile : Option Tile) :
    LandingResult × GameState × Decks :=
  let isFate : Bool :=
    match tile with
    | some t => decide (t.subtype = some .fate)
    | none => false
  if isFate then
    let (card, d1) := drawFateCard rnd d
    (.chanceCard card .fate, s.addLog .card, d1)
  else
    let (card, d1) := drawFortuneCard rnd d
    (.chanceCard card .fortune, s.addLog .card, d1)

/-- Source `processLanding(player)`; the tile is `getTile(player.position)`. -/
def processLanding (s : GameState) (d : Decks) (rnd : Nat → Nat) (i : Nat) :
    LandingResult × GameState × Decks :=
  let player := s.getPlayer i
  let tile? := if player.position < 0 then none else getTile player.position.toNat
  match tile? with
  | none => (.threw, s, d)
  | some tile =>
    match tile.type with
    | .start =>
      let s1 := s.addLog
      if s1.houseRules.doubleGo then
        (.noAction, ((s1.setPlayer i ((s1.getPlayer i).addMoney START_BONUS)).addLog .card), d)
      else (.noAction, s1, d)
    | .property | .railroad | .utility =>
      let r := s.processPropertyLanding i tile
      (r.1, r.2, d)
    | .chance => s.processChanceCard d rnd (some tile)
    | .tax =>
      let r := s.processTax i tile
      (r.1, r.2, d)
    | .jail => (.noAction, s.addLog, d)
    | .gotojail =>
      let r := s.sendToJail i
      (r.1, r.2, d)
    | .parking =>
      let jackpot : Bool :=
        match s.freeParkingPot with
        | some pot => s.houseRules.parkingJackpot && decide (pot > 0)
        | none => false
      if jackpot then
        let s1 := s.setPlayer i ((s.getPlayer i).addMoney (s.freeParkingPot.getD 0))
        (.noAction, (s1.addLog .card).setFreeParkingPot (some 0), d)
      else (.noAction, s.addLog, d)

inductive ChoiceType where
  | stealChoice | freeArson
  deriving DecidableEq, Repr, Inhabited

/-- The object `applyCardEffect` returns; an absent key is `none`. -/
structure CardResult where
  needsLandingProcess : Bool
  needsPlayerChoice : Option Bool := none
  choiceType : Option ChoiceType := none
  amount : Option Int := none
  deriving DecidableEq, Repr, Inhabited

/-- The `forEach` callback of `collectFromAll` and `stealFromAll`, on the
state and the running sum. -/
def takeFromOne (i : Nat) (amount : Int) (acc : GameState × Int) (j : Nat) : GameState × Int :=
  let p := acc.1.getPlayer j
  if p.id ≠ (acc.1.getPlayer i).id then
    let taken := min amount p.money
    (acc.1.setPlayer j (p.subtractMoney taken).2, acc.2 + taken)
  else acc

/-- The `forEach` of `collectFromAll` and `stealFromAll`: the state and the
final sum. -/
def takeFromOthers (s : GameState) (i : Nat) (amount : Int) : GameState × Int :=
  s.getActivePlayers.foldl (takeFromOne i amount) (s, 0)

/-- The `forEach` callback of `payToAll`. -/
def payOne (amount : Int) (st : GameState) (j : Nat) : GameState :=
  st.setPlayer j ((st.getPlayer j).addMoney amount)

/-- The `forEach` callback of `everyoneLoses`. -/
def loseOne (i : Nat) (amount : Int) (st : GameState) (j : Nat) : GameState :=
  let p := st.getPlayer j
  if p.canAfford amount then st.setPlayer j (p.subtractMoney amount).2
  else
    let st1 := st.setPlayer j (p.setMoney 0)
    if p.id ≠ (st1.getPlayer i).id then st1.declareBankruptcy j none else st1

/-- Source `applyCardEffect(player, card)`; `won` is the outcome of
`Math.random() > 0.5`.  The result is `none` when the source throws on
`getTile(...).name`. -/
def applyCardEffect (s : GameState) (i : Nat) (card : Card) (won : Bool) :
    Option CardResult × GameState :=
  let player := s.getPlayer i
  match card.effect with
  | .money amount =>
    if amount > 0 then
      (some { needsLandingProcess := false }, (s.setPlayer i (player.addMoney amount)).addLog .card)
    else
      let (ok, player1) := player.subtractMoney (-amount)
      if !ok then (some { needsLandingProcess := false }, s.declareBankruptcy i none)
      else (some { needsLandingProcess := false }, (s.setPlayer i player1).addLog .card)
  | .move position collectStart =>
    let oldPos := player.position
    let s1 := s.setPlayer i (player.moveTo position collectStart).2
    let s2 := if collectStart && decide ((position : Int) < oldPos) then s1.addLog .card else s1
    match getTile position with
    | none => (none, s2)
    | some _ => (some { needsLandingProcess := true }, s2.addLog .card)
  | .moveRelative spaces =>
    let ((newPosition, passedStart), player1) := player.moveSpaces spaces
    let s1 := s.setPlayer i player1
    let s2 := if passedStart then s1.addLog .card else s1
    match (if newPosition < 0 then none else getTile newPosition.toNat) with
    | none => (none, s2)
    | some _ => (some { needsLandingProcess := true }, s2.addLog .card)
  | .jail => (some { needsLandingProcess := false }, (s.sendToJail i).2)
  | .jailFree =>
    (some { needsLandingProcess := false },
      (s.setPlayer i (player.setJailFreeCard true)).addLog .card)
  | .collectFromAll amount =>
    let (s1, collected) := s.takeFromOthers i amount
    (some { needsLandingProcess := false },
      (s1.setPlayer i ((s1.getPlayer i).addMoney collected)).addLog .card)
  | .payToAll amount =>
    let otherPlayers := s.getActivePlayers.filter (fun j => (s.getPlayer j).id ≠ player.id)
    let totalToPay := amount * otherPlayers.length
    if player.canAfford totalToPay then
      let s1 := s.setPlayer i (player.subtractMoney totalToPay).2
      let s2 := otherPlayers.foldl (payOne amount) s1
      (some { needsLandingProcess := false }, s2.addLog .card)
    else (some { needsLandingProcess := false }, s.declareBankruptcy i none)
  | .payPerProperty amount =>
    let propertyCost := amount * player.properties.length
    if player.canAfford propertyCost then
      (some { needsLandingProcess := false },
        (s.setPlayer i (player.subtractMoney propertyCost).2).addLog .card)
    else (some { needsLandingProcess := false }, s.declareBankruptcy i none)
  | .stealFromRichest amount =>
    let sorted :=
      (s.getActivePlayers.filter (fun j => (s.getPlayer j).id ≠ player.id)).insertionSort
        (fun a b => (s.getPlayer a).money ≥ (s.getPlayer b).money)
    match sorted.head? with
    | some r =>
      let richestPlayer := s.getPlayer r
      let stealAmount := min amount richestPlayer.money
      let s1 := s.setPlayer r (richestPlayer.subtractMoney stealAmount).2
      let s2 := s1.setPlayer i ((s1.getPlayer i).addMoney stealAmount)
      (some { needsLandingProcess := false }, s2.addLog .card)
    | none => (some { needsLandingProcess := false }, s)
  | .stealFromAll amount =>
    let (s1, totalStolen) := s.takeFromOthers i amount
    (some { needsLandingProcess := false },
      (s1.setPlayer i ((s1.getPlayer i).addMoney totalStolen)).addLog .card)
  | .stealChoice amount =>
    (some { needsLandingProcess := false, needsPlayerChoice := some true,
            choiceType := some .stealChoice, amount := some amount }, s)
  | .freeArson =>
    (some { needsLandingProcess := false, needsPlayerChoice := some true,
            choiceType := some .freeArson }, s)
  | .everyoneLoses amount =>
    let s1 := s.getActivePlayers.foldl (loseOne i amount) s
    (some { needsLandingProcess := false }, s1.addLog .card)
  | .gamble winAmount loseAmount =>
    if won then
      (some { needsLandingProcess := false }, (s.setPlayer i (player.addMoney winAmount)).addLog .card)
    else if player.canAfford loseAmount then
      (some { needsLandingProcess := false },
        (s.setPlayer i (player.subtractMoney loseAmount).2).addLog .card)
    else (some { needsLandingProcess := false }, (s.addLog .card).declareBankruptcy i none)

structure JailResult where
  escaped : Bool
  canMove : Bool
  deriving DecidableEq, Repr, Inhabited

def processJailTurn (s : GameState) (i : Nat) (diceRoll : DiceRoll) : JailResult × GameState :=
  let player := s.getPlayer i
  if diceRoll.isDoubles then
    ({ escaped := true, canMove := true }, (s.setPlayer i player.leaveJail).addLog .jail)
  else
    let (forcedToLeave, player1) := player.incrementJailTurn
    let s1 := s.setPlayer i player1
    if forcedToLeave then
      if player1.canAfford JAIL_BAIL then
        let player2 := ((player1.subtractMoney JAIL_BAIL).2).leaveJail
        ({ escaped := true, canMove := true }, (s1.setPlayer i player2).addLog .jail)
      else ({ escaped := false, canMove := false }, s1.declareBankruptcy i none)
    else ({ escaped := false, canMove := false }, s1.addLog .jail)

def payJailBail (s : GameState) (i : Nat) : Bool × GameState :=
  let player := s.getPlayer i
  if player.hasJailFreeCard then
    (true, (s.setPlayer i (player.setJailFreeCard false).leaveJail).addLog .jail)
  else
    let (ok, player1) := player.subtractMoney JAIL_BAIL
    if ok then (true, (s.setPlayer i player1.leaveJail).addLog .jail)
    else (false, s)

/-- The `do ... while` of `endTurn`, with the remaining number of iterations
as fuel; returns the state and `nextIndex`. -/
def endTurnLoop : Nat → GameState → Nat → Nat → GameState × Nat
  | 0, s, nextIndex, _ => (s, nextIndex)
  | fuel + 1, s, nextIndex, checked =>
    let nextIndex1 := (nextIndex + 1) % s.players.length
    let checked1 := checked + 1
    let s1 := if nextIndex1 = 0 then (s.setRound (s.round + 1)).addLog else s
    if (s1.getPlayer nextIndex1).isBankrupt && decide (checked1 < s1.players.length) then
      endTurnLoop fuel s1 nextIndex1 checked1
    else (s1, nextIndex1)

/-- Source `endTurn()`: the index of the next player and the state.  With no
players the source throws: `none`. -/
def endTurn (s : GameState) : Option (Nat × GameState) :=
  if s.players.length = 0 then none
  else
    let s1 := s.setConsecutiveDoubles 0
    let (s2, nextIndex) := endTurnLoop s1.players.length s1 s1.currentPlayerIndex 0
    let s3 := (s2.setCurrentPlayerIndex nextIndex).setTurnPhase .waiting
    some (nextIndex, s3.addLog)

end GameState

/-! ## trading.js -/

structure TradeProposal where
  fromPlayerId : Nat
  toPlayerId : Nat
  offeredProperties : List Nat := []
  offeredMoney : Int := 0
  requestedProperties : List Nat := []
  requestedMoney : Int := 0
  deriving DecidableEq, Repr, Inhabited

/-- The singleton `TradeSystem`; `activeTrade = none` is `null`. -/
structure TradeSystem where
  activeTrade : Option TradeProposal := none
  deriving DecidableEq, Repr, Inhabited

/-- The reason strings of `validateTrade`, with the interpolated player
(by index) and tile. -/
inductive TradeReason where
  | noActiveTrade
  | invalidPlayers
  | bankruptPlayer
  | doesNotOwn (player : Nat) (tileId : Nat)
  | hasBuildings (tileId : Nat)
  | lacksMoney (player : Nat) (amount : Int)
  | tradeIsEmpty
  deriving DecidableEq, Repr, Inhabited

/-- What `validateTrade` does: `{ valid: true }`, `{ valid: false, reason }`,
or a `TypeError` from `getTile(tileId).name` for a tile id off the board. -/
inductive Validation where
  | valid
  | invalid (reason : TradeReason)
  | threw
  deriving DecidableEq, Repr, Inhabited

/-- What `executeTrade` does. -/
inductive TradeOutcome where
  | success
  | failure (reason : TradeReason)
  | threw
  deriving DecidableEq, Repr, Inhabited

namespace TradeSystem

def createProposal (_ts : TradeSystem) (fromPlayer toPlayer : Player) : TradeSystem :=
  { activeTrade := some { fromPlayerId := fromPlayer.id, toPlayerId := toPlayer.id } }

/-- Source `addOfferedProperty(tileId)`: the returned flag and the trade system. -/
def addOfferedProperty (ts : TradeSystem) (tileId : Nat) : Bool × TradeSystem :=
  match ts.activeTrade with
  | none => (false, ts)
  | some t =>
    if tileId ∉ t.offeredProperties then
      (true, { activeTrade := some { t with offeredProperties := t.offeredProperties ++ [tileId] } })
    else (false, ts)

def removeOfferedProperty (ts : TradeSystem) (tileId : Nat) : Bool × TradeSystem :=
  match ts.activeTrade with
  | none => (false, ts)
  | some t =>
    if tileId ∈ t.offeredProperties then
      (true, { activeTrade := some { t with offeredProperties := t.offeredProperties.erase tileId } })
    else (false, ts)

def setOfferedMoney (ts : TradeSystem) (amount : Int) : Bool × TradeSystem :=
  match ts.activeTrade with
  | none => (false, ts)
  | some t => (true, { activeTrade := some { t with offeredMoney := max 0 amount } })

def addRequestedProperty (ts : TradeSystem) (tileId : Nat) : Bool × TradeSystem :=
  match ts.activeTrade with
  | none => (false, ts)
  | some t =>
    if tileId ∉ t.requestedProperties then
      (true,
        { activeTrade := some { t with requestedProperties := t.requestedProperties ++ [tileId] } })
    else (false, ts)

def removeRequestedProperty (ts : TradeSystem) (tileId : Nat) : Bool × TradeSystem :=
  match ts.activeTrade with
  | none => (false, ts)
  | some t =>
    if tileId ∈ t.requestedProperties then
      (true,
        { activeTrade := some { t with requestedProperties := t.requestedProperties.erase tileId } })
    else (false, ts)

def setRequestedMoney (ts : TradeSystem) (amount : Int) : Bool × TradeSystem :=
  match ts.activeTrade with
  | none => (false, ts)
  | some t => (true, { activeTrade := some { t with requestedMoney := max 0 amount } })

def cancelTrade (_ts : TradeSystem) : TradeSystem := { activeTrade := none }

/-- One `for ... of` loop of `validateTrade` over the tiles a party gives. -/
def checkTiles (gs : GameState) (who : Nat) : List Nat → Validation
  | [] => .valid
  | tileId :: rest =>
    if !(gs.getPlayer who).ownsProperty tileId then
      match getTile tileId with
      | some _ => .invalid (.doesNotOwn who tileId)
      | none => .threw
    else if (match gs.propertyHouses tileId with
             | some h => decide (h > 0)
             | none => false) then
      match getTile tileId with
      | some _ => .invalid (.hasBuildings tileId)
      | none => .threw
    else checkTiles gs who rest

def validateTrade (ts : TradeSystem) (gs : GameState) : Validation :=
  match ts.activeTrade with
  | none => .invalid .noActiveTrade
  | some t =>
    match findIndex (fun p => decide (p.id = t.fromPlayerId)) gs.players,
          findIndex (fun p => decide (p.id = t.toPlayerId)) gs.players with
    | some f, some o =>
      let fromPlayer := gs.getPlayer f
      let toPlayer := gs.getPlayer o
      if fromPlayer.isBankrupt || toPlayer.isBankrupt then .invalid .bankruptPlayer
      else
        match checkTiles gs f t.offeredProperties with
        | .valid =>
          match checkTiles gs o t.requestedProperties with
          | .valid =>
            if t.offeredMoney > fromPlayer.money then .invalid (.lacksMoney f t.offeredMoney)
            else if t.requestedMoney > toPlayer.money then
              .invalid (.lacksMoney o t.requestedMoney)
            else if t.offeredProperties.length = 0 ∧ t.offeredMoney = 0 ∧
                t.requestedProperties.length = 0 ∧ t.requestedMoney = 0 then
              .invalid .tradeIsEmpty
            else .valid
          | r => r
        | r => r
    | _, _ => .invalid .invalidPlayers

/-- The body of a transfer loop of `executeTrade`: one tile moves from
`giver` to `taker`. -/
def transferTile (giver taker : Nat) (st : GameState) (tileId : Nat) : GameState :=
  let st1 := st.setPlayer giver ((st.getPlayer giver).removeProperty tileId)
  let st2 := st1.setPlayer taker ((st1.getPlayer taker).addProperty tileId)
  st2.setOwner tileId (st2.getPlayer taker).id

/-- One transfer loop of `executeTrade`. -/
def transferTiles (gs : GameState) (giver taker : Nat) (tiles : List Nat) : GameState :=
  tiles.foldl (transferTile giver taker) gs

/-- One money block of `executeTrade`:
`if (amount > 0) { payer.subtractMoney(amount); payee.addMoney(amount); }`. -/
def transferMoney (gs : GameState) (payer payee : Nat) (amount : Int) : GameState :=
  if amount > 0 then
    let g := gs.setPlayer payer ((gs.getPlayer payer).subtractMoney amount).2
    g.setPlayer payee ((g.getPlayer payee).addMoney amount)
  else gs

/-- Source `executeTrade(gameState)`: the outcome, the trade system and the game
state afterwards. -/
def executeTrade (ts : TradeSystem) (gs : GameState) : TradeOutcome × TradeSystem × GameState :=
  match ts.validateTrade gs with
  | .threw => (.threw, ts, gs)
  | .invalid reason => (.failure reason, ts, gs)
  | .valid =>
    match ts.activeTrade with
    | none => (.threw, ts, gs)
    | some t =>
      match findIndex (fun p => decide (p.id = t.fromPlayerId)) gs.players,
            findIndex (fun p => decide (p.id = t.toPlayerId)) gs.players with
      | some f, some o =>
        let gs1 := transferTiles gs f o t.offeredProperties
        let gs2 := transferTiles gs1 o f t.requestedProperties
        let gs3 := transferMoney gs2 f o t.offeredMoney
        let gs4 := transferMoney gs3 o f t.requestedMoney
        (.success, { ts with activeTrade := none }, gs4.addLog .trade)
      | _, _ => (.threw, ts, gs)

end TradeSystem

/-! ## Sequences of engine calls -/

/-- One call on the engine or on `TradeSystem.executeTrade`, with its
arguments.  What the call reads from outside the game state (the working
decks, the random outcomes, the trade system) is part of the call. -/
inductive EngineCall where
  | rollDice (die1 die2 : Int)
  | moveCurrentPlayer (spaces : Int)
  | processLanding (player : Nat) (decks : Decks) (rnd : Nat → Nat)
  | buyProperty (player : Nat) (tile : Tile)
  | buildHouse (player : Nat) (tile : Tile)
  | sabotageProperty (player : Nat) (tile : Tile)
  | mortgageProperty (player : Nat) (tile : Tile)
  | unmortgageProperty (player : Nat) (tile : Tile)
  | payRent (player owner : Nat) (amount : Int)
  | processTax (player : Nat) (tile : Tile)
  | applyCardEffect (player : Nat) (card : Card) (won : Bool)
  | sendToJail (player : Nat)
  | processJailTurn (player : Nat) (diceRoll : GameState.DiceRoll)
  | payJailBail (player : Nat)
  | declareBankruptcy (player : Nat) (creditor : Option Nat)
  | endTurn
  | executeTrade (ts : TradeSystem)

namespace EngineCall

/-- The game state after the call.  Where the source throws, the state is
the one reached at the throw. -/
def run (s : GameState) : EngineCall → GameState
  | rollDice die1 die2 => (s.rollDice die1 die2).2
  | moveCurrentPlayer spaces => (s.moveCurrentPlayer spaces).2
  | processLanding player decks rnd => (s.processLanding decks rnd player).2.1
  | buyProperty player tile => (s.buyProperty player tile).2
  | buildHouse player tile => (s.buildHouse player tile).2
  | sabotageProperty player tile => (s.sabotageProperty player tile).2
  | mortgageProperty player tile =>
    match s.mortgageProperty player tile with
    | some r => r.2
    | none => s
  | unmortgageProperty player tile => (s.unmortgageProperty player tile).2
  | payRent player owner amount => (s.payRent player owner amount).2
  | processTax player tile => (s.processTax player tile).2
  | applyCardEffect player card won => (s.applyCardEffect player card won).2
  | sendToJail player => (s.sendToJail player).2
  | processJailTurn player diceRoll => (s.processJailTurn player diceRoll).2
  | payJailBail player => (s.payJailBail player).2
  | declareBankruptcy player creditor => s.declareBankruptcy player creditor
  | endTurn =>
    match s.endTurn with
    | some r => r.2
    | none => s
  | executeTrade ts => (ts.executeTrade s).2.2

/-- The arguments are of the kind the engine is called with: players of
the game, tiles of the board, cards of the two decks, dice from 1 to 6, a
rent that is not negative. -/
def WellFormed (s : GameState) : EngineCall → Prop
  | rollDice die1 die2 => 1 ≤ die1 ∧ die1 ≤ 6 ∧ 1 ≤ die2 ∧ die2 ≤ 6
  | moveCurrentPlayer _ => True
  | processLanding player _ _ => player < s.players.length
  | buyProperty player tile => player < s.players.length ∧ tile ∈ TILES
  | buildHouse player tile => player < s.players.length ∧ tile ∈ TILES
  | sabotageProperty player tile => player < s.players.length ∧ tile ∈ TILES
  | mortgageProperty player tile => player < s.players.length ∧ tile ∈ TILES
  | unmortgageProperty player tile => player < s.players.length ∧ tile ∈ TILES
  | payRent player owner amount =>
    player < s.players.length ∧ owner < s.players.length ∧ 0 ≤ amount
  | processTax player tile => player < s.players.length ∧ tile ∈ TILES
  | applyCardEffect player card _ =>
    player < s.players.length ∧ (card ∈ FORTUNE_CARDS ∨ card ∈ FATE_CARDS)
  | sendToJail player => player < s.players.length
  | processJailTurn player _ => player < s.players.length
  | payJailBail player => player < s.players.length
  | declareBankruptcy player creditor =>
    player < s.players.length ∧ ∀ c, creditor = some c → c < s.players.length
  | endTurn => True
  | executeTrade _ => True

/-- The conditions under which the game flow makes the calls that move
tiles: a tile is bought only while no player owns it (the `canBuy` answer of
`processPropertyLanding`), and rent is paid, or a bankrupt estate handed
over, to another player than the one who pays. -/
def Guarded (s : GameState) : EngineCall → Prop
  | buyProperty _ tile => ∀ j, j < s.players.length → tile.id ∉ (s.getPlayer j).properties
  | payRent player owner _ => player ≠ owner
  | declareBankruptcy player creditor => creditor ≠ some player
  | _ => True

end EngineCall

/-- The states reached from `GameState.init` by engine calls. -/
inductive Reachable : GameState → Prop where
  | init (playerData : List GameState.PlayerData) (rules : HouseRules) (s : GameState) :
      GameState.init playerData rules = some s → Reachable s
  | step (s : GameState) (c : EngineCall) :
      Reachable s → c.WellFormed s → Reachable (c.run s)

/-- The states reached from `GameState.init` by guarded engine calls. -/
inductive ReachableGuarded : GameState → Prop where
  | init (playerData : List GameState.PlayerData) (rules : HouseRules) (s : GameState) :
      GameState.init playerData rules = some s → ReachableGuarded s
  | step (s : GameState) (c : EngineCall) :
      ReachableGuarded s → c.WellFormed s → c.Guarded s → ReachableGuarded (c.run s)

namespace GameState

/-- No player has negative money. -/
def MoneyOk (s : GameState) : Prop := ∀ j, 0 ≤ (s.getPlayer j).money

/-- The ownership records agree: ids are positions in the player list, a
properties list holds no tile twice, no tile is in two lists, and
`propertyOwners` names exactly the holder of each tile. -/
structure OwnershipOk (s : GameState) : Prop where
  ids : ∀ i, i < s.players.length → (s.getPlayer i).id = i
  nodup : ∀ i, (s.getPlayer i).properties.Nodup
  unique : ∀ i j t, i < s.players.length → j < s.players.length →
    t ∈ (s.getPlayer i).properties → t ∈ (s.getPlayer j).properties → i = j
  ledger : ∀ i t, i < s.players.length →
    (s.propertyOwners t = some i ↔ t ∈ (s.getPlayer i).properties)

/-- The ownership records agree and there are `n` players. -/
def Own (n : Nat) (s : GameState) : Prop := s.OwnershipOk ∧ s.players.length = n

end GameState

/-! ## Concrete games used as examples -/

/-- The board tile with the given id. -/
def tileAt (id : Nat) : Tile := (getTile id).getD default

/-- A fresh game of two human players under the default house rules. -/
def startOfGame : GameState := (GameState.init [{}, {}] {}).getD {}

/-- Both players have bought tile 1, one after the other. -/
def boughtTwice : GameState :=
  (EngineCall.buyProperty 1 (tileAt 1)).run ((EngineCall.buyProperty 0 (tileAt 1)).run startOfGame)

/-- Player 0 has bought tile 1 and is then declared bankrupt with itself as
creditor. -/
def ownCreditor : GameState :=
  (EngineCall.declareBankruptcy 0 (some 0)).run
    ((EngineCall.buyProperty 0 (tileAt 1)).run startOfGame)

/-- Player 0 holds tile 1 and player 1 holds tile 3. -/
def oneTileEach : GameState :=
  (EngineCall.buyProperty 1 (tileAt 3)).run ((EngineCall.buyProperty 0 (tileAt 1)).run startOfGame)

/-- Player 0 offers tile 1 and 10 in money for tile 3 of player 1. -/
def swapTrade : TradeSystem :=
  { activeTrade := some { fromPlayerId := 0, toPlayerId := 1, offeredProperties := [1],
                          offeredMoney := 10, requestedProperties := [3], requestedMoney := 0 } }

/-- A proposal that offers tile 1 and asks for tile 1. -/
def overlapTrade : TradeSystem :=
  { activeTrade := some { fromPlayerId := 0, toPlayerId := 1, offeredProperties := [1],
                          offeredMoney := 0, requestedProperties := [1], requestedMoney := 0 } }

/-- Player 0 has bought both brown tiles, 1 and 3. -/
def brownMonopoly : GameState :=
  (EngineCall.buyProperty 0 (tileAt 3)).run ((EngineCall.buyProperty 0 (tileAt 1)).run startOfGame)

/-- Player 0 holds the two brown tiles 1 and 3. -/
def brownOwner : Player := { id := 0, properties := [1, 3] }

/-- The amounts a card hands out are not negative. -/
def Card.amountsOk (card : Card) : Bool :=
  match card.effect with
  | .collectFromAll amount => decide (0 ≤ amount)
  | .payToAll amount => decide (0 ≤ amount)
  | .stealFromRichest amount => decide (0 ≤ amount)
  | .stealFromAll amount => decide (0 ≤ amount)
  | .gamble winAmount _ => decide (0 ≤ winAmount)
  | _ => true

end Fortunopoly

namespace Fortunopoly

/-! ## Callers of the engine and guarded sequences of calls -/

/-- The expression `Math.floor(Math.random() * 6) + 1` of `rollDice`, for an
outcome `r` of `Math.random()` (a number with 0 ≤ r < 1).  The product is
taken exactly; the double the source computes is at most the largest double
below 6, so the die it gives lies in the same range. -/
def rollDie (r : ℚ) : Int := ⌊r * 6⌋ + 1

/-- The head of `handleRollDice` in `main.js`, the caller of `rollDice`:
before any dice are rolled it sets the turn phase, hands a jailed player to
`handleJailRoll`, and sends the current player to jail when
`consecutiveDoubles >= 3`.  `some` is the state after that jailing, `none`
means that the function goes on to the jail roll or to the dice. -/
def handleRollDiceHead (s : GameState) : Option GameState :=
  let s1 := s.setTurnPhase .moving
  let player := s1.currentPlayerIndex
  if (s1.getPlayer player).inJail then none
  else if s1.consecutiveDoubles ≥ 3 then some (s1.sendToJail player).2
  else none

namespace EngineCall

/-- The call takes no tile away from a player who holds it mortgaged (as a
trade of a mortgaged tile or the bankruptcy of its holder would). -/
def KeepsMortgaged (s : GameState) (c : EngineCall) : Prop :=
  ∀ j, j < s.players.length → ∀ t ∈ (s.getPlayer j).mortgagedProperties,
    t ∈ (s.getPlayer j).properties → t ∈ ((c.run s).getPlayer j).properties

end EngineCall

/-- The states reached from `GameState.init` by engine calls that take no
mortgaged tile away from its holder. -/
inductive ReachableKeeping : GameState → Prop where
  | init (playerData : List GameState.PlayerData) (rules : HouseRules) (s : GameState) :
      GameState.init playerData rules = some s → ReachableKeeping s
  | step (s : GameState) (c : EngineCall) :
      ReachableKeeping s → c.WellFormed s → c.KeepsMortgaged s → ReachableKeeping (c.run s)

namespace GameState

/-- The mortgaged list of every player is the one given by `m`. -/
def Mortgages (m : Nat → List Nat) (s : GameState) : Prop :=
  ∀ j, (s.getPlayer j).mortgagedProperties = m j

end GameState

/-! ## More concrete games -/

/-- A fresh game of three players. -/
def threePlayers : GameState := (GameState.init [{}, {}, {}] {}).getD {}

/-- Player 0 has bought tile 1 and mortgaged it. -/
def mortgagedOne : GameState :=
  (EngineCall.mortgageProperty 0 (tileAt 1)).run
    ((EngineCall.buyProperty 0 (tileAt 1)).run startOfGame)

/-- Player 0 goes bankrupt to the bank while tile 1 is mortgaged. -/
def mortgagedThenBankrupt : GameState :=
  (EngineCall.declareBankruptcy 0 none).run mortgagedOne

/-- Player 0 offers the mortgaged tile 1 for 10 in money. -/
def sellMortgaged : TradeSystem :=
  { activeTrade := some { fromPlayerId := 0, toPlayerId := 1, offeredProperties := [1],
                          offeredMoney := 0, requestedProperties := [], requestedMoney := 10 } }

/-- The mortgaged tile 1 is traded from player 0 to player 1. -/
def mortgagedThenTraded : GameState :=
  (EngineCall.executeTrade sellMortgaged).run mortgagedOne

/-- Player 0 holds both brown tiles and has built one house on tile 3. -/
def siblingImproved : GameState :=
  (EngineCall.buildHouse 0 (tileAt 3)).run brownMonopoly

/-- Player 0 sits in jail after two failed attempts, with 30 in money and
the two brown tiles, of which tile 1 carries one house. -/
def jailedPoor : GameState :=
  ((((threePlayers.setPlayer 0
      { id := 0, money := 30, position := 10, properties := [1, 3], inJail := true,
        jailTurns := 2 }).setOwner 1 0).setOwner 3 0).setHouses 1 1).setHouses 3 0

/-- The current player has rolled two doubles in a row. -/
def twoDoubles : GameState :=
  (EngineCall.rollDice 3 3).run ((EngineCall.rollDice 3 3).run startOfGame)

/-- The current player stands on the go-to-jail tile 30. -/
def atGoToJail : GameState := (EngineCall.moveCurrentPlayer 30).run startOfGame

end Fortunopoly

namespace Fortunopoly

/-! ## Winner, repeated draws and runs of calls for active players -/

namespace GameState

/-- Source `getWinner()`, as the index of the player it returns; `none` is
`undefined`.  `Array.prototype.sort` is stable, as `insertionSort` is. -/
def getWinner (s : GameState) : Option Nat :=
  let activePlayers := s.getActivePlayers
  if activePlayers.length = 1 then activePlayers.head?
  else
    ((List.range s.players.length).insertionSort
      (fun a b => (s.getPlayer a).getNetWorth ≥ (s.getPlayer b).getNetWorth)).head?

end GameState

/-- A number `n` of consecutive calls of `drawFortuneCard()`: what they
return, in order, and the decks afterwards.  The call with `k` more to
come takes its random numbers, which it needs for a reshuffle only, from
`rnd k`. -/
def drawFortuneCards (rnd : Nat → Nat → Nat) : Nat → Decks → List (Option Card) × Decks
  | 0, d => ([], d)
  | n + 1, d =>
    let r := drawFortuneCard (rnd n) d
    let rest := drawFortuneCards rnd n r.2
    (r.1 :: rest.1, rest.2)

/-- A number `n` of consecutive calls of `drawFateCard()`. -/
def drawFateCards (rnd : Nat → Nat → Nat) : Nat → Decks → List (Option Card) × Decks
  | 0, d => ([], d)
  | n + 1, d =>
    let r := drawFateCard (rnd n) d
    let rest := drawFateCards rnd n r.2
    (r.1 :: rest.1, rest.2)

/-! ## Bankrupt players and calls made for active players -/

namespace GameState

/-- The bankrupt players are exactly those marked by `f`, and each of them
has no money and no properties. -/
def Bankrupts (f : Nat → Bool) (s : GameState) : Prop :=
  ∀ j, (s.getPlayer j).isBankrupt = f j ∧
    (f j = true → (s.getPlayer j).money = 0 ∧ (s.getPlayer j).properties = [])

/-- Every bankrupt player has no money and no properties, and the players
marked by `f` are bankrupt. -/
def BankruptsFrom (f : Nat → Bool) (s : GameState) : Prop :=
  ∃ g, s.Bankrupts g ∧ ∀ k, f k = true → g k = true

end GameState

namespace EngineCall

/-- The call is made for players who are not bankrupt: the player it names,
the current player for a move, and with them the owner a rent is paid to and
the creditor a bankrupt estate goes to.  The parties of a trade are checked
by `validateTrade` itself; `rollDice` and `endTurn` name no player. -/
def ForActive (s : GameState) : EngineCall → Prop
  | rollDice _ _ => True
  | moveCurrentPlayer _ => (s.getPlayer s.currentPlayerIndex).isBankrupt = false
  | processLanding player _ _ => (s.getPlayer player).isBankrupt = false
  | buyProperty player _ => (s.getPlayer player).isBankrupt = false
  | buildHouse player _ => (s.getPlayer player).isBankrupt = false
  | sabotageProperty player _ => (s.getPlayer player).isBankrupt = false
  | mortgageProperty player _ => (s.getPlayer player).isBankrupt = false
  | unmortgageProperty player _ => (s.getPlayer player).isBankrupt = false
  | payRent player owner _ =>
    (s.getPlayer player).isBankrupt = false ∧ (s.getPlayer owner).isBankrupt = false
  | processTax player _ => (s.getPlayer player).isBankrupt = false
  | applyCardEffect player _ _ => (s.getPlayer player).isBankrupt = false
  | sendToJail player => (s.getPlayer player).isBankrupt = false
  | processJailTurn player _ => (s.getPlayer player).isBankrupt = false
  | payJailBail player => (s.getPlayer player).isBankrupt = false
  | declareBankruptcy player creditor =>
    (s.getPlayer player).isBankrupt = false ∧
      ∀ c, creditor = some c → (s.getPlayer c).isBankrupt = false
  | endTurn => True
  | executeTrade _ => True

end EngineCall

/-- Every tile with a level above 0 has a player of the game recorded as its
owner. -/
def GameState.ImprovedOwned (s : GameState) : Prop :=
  ∀ t, (s.propertyHouses t).getD 0 > 0 →
    ∃ o, o < s.players.length ∧ s.propertyOwners t = some o

/-- The states reached from `s` by engine calls made for players who are not
bankrupt. -/
inductive ActiveRun (s : GameState) : GameState → Prop where
  | refl : ActiveRun s s
  | step (t : GameState) (c : EngineCall) :
      ActiveRun s t → c.ForActive t → ActiveRun s (c.run t)

/-! ## Concrete games with jailed and bankrupt players -/

/-- Player 0 of a fresh game of three has been sent to jail. -/
def jailedRich : GameState := (EngineCall.sendToJail 0).run threePlayers

/-- In a game of three, player 1 has gone bankrupt to the bank. -/
def secondBankrupt : GameState := (EngineCall.declareBankruptcy 1 none).run threePlayers

/-- After that bankruptcy player 0 pays 10 to each player by card 21, pays a
rent of 20 to player 2 and ends the turn. -/
def playedOn : GameState :=
  (EngineCall.endTurn).run ((EngineCall.payRent 0 2 20).run
    ((EngineCall.applyCardEffect 0 ⟨21, .payToAll 10⟩ false).run secondBankrupt))

/-- In a game of two, player 0 has gone bankrupt to the bank. -/
def lastStanding : GameState := (EngineCall.declareBankruptcy 0 none).run startOfGame

end Fortunopoly

namespace Fortunopoly

/-! ## Results of rejected requests -/

/-- The `reason` property of what `mortgageProperty` and `unmortgageProperty`
return; `none` is `undefined`: the bare `false` and `{ success: true }` have
no such property. -/
def GameState.MortgageResult.reason : GameState.MortgageResult → Option GameState.RejectReason
  | .failure r => some r
  | _ => none

/-- The `reason` property of what `executeTrade` returns. -/
def TradeOutcome.reason : TradeOutcome → Option TradeReason
  | .failure r => some r
  | _ => none

/-! ## Totals -/

/-- The money of all players together. -/
def GameState.totalMoney (s : GameState) : Int := (s.players.map (fun p => p.money)).sum

/-! ## Final standings -/

/-- Source `getStandings()`, as the list of player indices in the order it
returns: players who are not bankrupt first, then by decreasing net worth.
The comparator is the number the source's callback returns, and `a` stays
before `b` when that number is not positive. -/
def GameState.getStandings (s : GameState) : List Nat :=
  (List.range s.players.length).insertionSort (fun a b =>
    (if (s.getPlayer a).isBankrupt && !(s.getPlayer b).isBankrupt then (1 : Int)
     else if !(s.getPlayer a).isBankrupt && (s.getPlayer b).isBankrupt then -1
     else (s.getPlayer b).getNetWorth - (s.getPlayer a).getNetWorth) ≤ 0)

/-! ## botAI.js -/

/-- One entry of `BotAI.DIFFICULTY`. -/
structure BotSettings where
  buyChance : ℚ
  minMoneyBuffer : Int
  tradeAcceptChance : ℚ
  buildChance : ℚ
  prioritizeMonopoly : Bool
  sabotageChance : ℚ

/-- Source `Object.keys(PROPERTY_GROUPS)`, in the order of the source. -/
def Group.keys : List Group :=
  [.brown, .lightblue, .pink, .orange, .red, .yellow, .green, .blue]

namespace BotAI

/-- Source `BotAI.DIFFICULTY`.  Each probability is the double the source
literal denotes, as an exact fraction (0.4, 0.8, 0.3, 0.1 / 0.7, 0.4, 0.6,
0.3 / 0.95, 0.1, 0.9, 0.5), so that a comparison with an outcome of
`Math.random()` is the comparison the source makes. -/
def DIFFICULTY : Difficulty → BotSettings
  | .easy =>
    { buyChance := 3602879701896397 / 9007199254740992, minMoneyBuffer := 100,
      tradeAcceptChance := 3602879701896397 / 4503599627370496,
      buildChance := 5404319552844595 / 18014398509481984, prioritizeMonopoly := false,
      sabotageChance := 3602879701896397 / 36028797018963968 }
  | .medium =>
    { buyChance := 3152519739159347 / 4503599627370496, minMoneyBuffer := 250,
      tradeAcceptChance := 3602879701896397 / 9007199254740992,
      buildChance := 5404319552844595 / 9007199254740992, prioritizeMonopoly := true,
      sabotageChance := 5404319552844595 / 18014398509481984 }
  | .hard =>
    { buyChance := 4278419646001971 / 4503599627370496, minMoneyBuffer := 150,
      tradeAcceptChance := 3602879701896397 / 36028797018963968,
      buildChance := 8106479329266893 / 9007199254740992, prioritizeMonopoly := true,
      sabotageChance := 1 / 2 }

/-- Source `getDifficulty(player)`: `player.botDifficulty || 'medium'` (an
unset difficulty is `medium` in the model of the player already). -/
def getDifficulty (player : Player) : Difficulty := player.botDifficulty

/-- The test `owned === getPropertiesInGroup(group).length - 1`. -/
def oneShort (player : Player) (group : Option Group) : Bool :=
  decide ((player.countPropertiesInGroup group : Int)
    = ((getPropertiesInGroup group).length : Int) - 1)

/-- Source `shouldBuyProperty(player, tile, gameState)`; `rnd` is the outcome
of `Math.random()`.  A comparison with an undefined price (`NaN`) is false. -/
def shouldBuyProperty (player : Player) (tile : Tile) (gameState : GameState) (rnd : ℚ) : Bool :=
  let difficulty := getDifficulty player
  let settings := DIFFICULTY difficulty
  let moneyAbove (extra : Int) : Bool :=
    match tile.price with
    | some price => decide (player.money > price + extra)
    | none => false
  if decide (difficulty = .hard)
      && (decide (tile.type = .railroad) || decide (tile.type = .utility))
      && moneyAbove 50 then true
  else if tile.group.isSome && oneShort player tile.group then true
  else
    let otherPlayersNeedIt : Bool :=
      gameState.getActivePlayers.any (fun j =>
        if (gameState.getPlayer j).id = player.id then false
        else oneShort (gameState.getPlayer j) tile.group)
    if decide (difficulty = .hard) && tile.group.isSome && otherPlayersNeedIt
        && moneyAbove 0 then true
    else
      let belowBuffer : Bool :=
        match tile.price with
        | some price => decide (player.money < price + settings.minMoneyBuffer)
        | none => false
      if belowBuffer then false
      else if settings.prioritizeMonopoly && tile.group.isSome
          && decide (player.countPropertiesInGroup tile.group > 0) then true
      else decide (rnd < settings.buyChance)

/-- Source `shouldPayJailBail(player, settings)`; `settings = none` is an
absent (falsy) argument. -/
def shouldPayJailBail (player : Player) (settings : Option BotSettings) : Bool :=
  if player.hasJailFreeCard then true
  else if player.properties.length < 3 then false
  else if decide (player.money > 800) && decide (player.properties.length > 5) then true
  else
    let hasAnyMonopoly := Group.keys.any (fun group => player.hasMonopoly (some group))
    if hasAnyMonopoly && decide (player.money > 300) then true
    else if settings.isSome && decide (player.botDifficulty = .hard)
        && decide (player.money > 400) then true
    else decide (player.money > 600)

/-- The four properties `evaluateTrade` reads from its `proposal` argument;
`none` is `undefined`. -/
structure Proposal where
  requestMoney : Option Int := none
  offerMoney : Option Int := none
  requestProperties : Option (List Nat) := none
  offerProperties : Option (List Nat) := none
  deriving DecidableEq, Repr, Inhabited

/-- What `evaluateTrade` finds on a proposal object built by `TradeSystem`:
that object has the properties `fromPlayerId`, `toPlayerId`,
`offeredProperties`, `offeredMoney`, `requestedProperties` and
`requestedMoney`, and none of the four that `evaluateTrade` reads. -/
def ofTrade (_t : TradeProposal) : Proposal := {}

/-- The callback `tile => value += tile.price` of `evaluateTrade`; `none` is
`NaN` (the sum with an undefined price). -/
def addPrice (value : Option Int) (tileId : Nat) : Option Int :=
  match getTile tileId with
  | some tile =>
    match value, tile.price with
    | some v, some price => some (v + price)
    | _, _ => none
  | none => value

/-- The test of the monopoly loop of `evaluateTrade` for one tile id. -/
def completes (player : Player) (tileId : Nat) : Bool :=
  match getTile tileId with
  | some tile =>
    tile.group.isSome &&
      decide (player.countPropertiesInGroup tile.group + 1
        = (getPropertiesInGroup tile.group).length)
  | none => false

/-- Source `evaluateTrade(player, proposal, gameState)`; `rnd` is the outcome
of `Math.random()`.  For whole amounts `receiveValue > giveValue * 0.5` is
`2 * receiveValue > giveValue`, and `receiveValue >= giveValue * 1.2` is
`5 * receiveValue >= 6 * giveValue`: the product with the double 1.2 rounds
to the whole number where six fifths of `giveValue` is one, and stays
between the same two whole numbers otherwise.  A comparison with `NaN` is
false. -/
def evaluateTrade (player : Player) (proposal : Proposal) (_gameState : GameState)
    (rnd : ℚ) : Bool :=
  let settings := DIFFICULTY (getDifficulty player)
  let money (m : Option Int) : Int :=
    match m with
    | some v => v
    | none => 0
  let receiveValue : Option Int :=
    match proposal.requestProperties with
    | some tiles => tiles.foldl addPrice (some (money proposal.requestMoney))
    | none => some (money proposal.requestMoney)
  let giveValue : Option Int :=
    match proposal.offerProperties with
    | some tiles => tiles.foldl addPrice (some (money proposal.offerMoney))
    | none => some (money proposal.offerMoney)
  let completesMonopoly : Bool :=
    match proposal.requestProperties with
    | some tiles => tiles.any (completes player)
    | none => false
  let aboveHalf : Bool :=
    match receiveValue, giveValue with
    | some r, some g => decide (2 * r > g)
    | _, _ => false
  let sixFifths : Bool :=
    match receiveValue, giveValue with
    | some r, some g => decide (5 * r ≥ 6 * g)
    | _, _ => false
  if decide (player.botDifficulty = .hard) && completesMonopoly && aboveHalf then true
  else if sixFifths then true
  else decide (rnd < settings.tradeAcceptChance)

/-- The face prices of the given tiles, added to `value`. -/
def faceValue (value : Int) (tiles : List Nat) : Int :=
  value + (tiles.map (fun tileId => ((getTile tileId).bind (fun t => t.price)).getD 0)).sum

/-- The rule of the specification for `evaluateTrade`, on a proposal of
`TradeSystem` addressed to the bot: the bot receives what is offered and
gives what is requested.  It accepts when the tiles it receives complete a
monopoly for it and the value received is above half the value given (hard
tier), or when the value received is at least 1.2 times the value given, and
otherwise exactly when the draw is below the tier's `tradeAcceptChance`. -/
def evaluateTradeRule (player : Player) (t : TradeProposal) (rnd : ℚ) : Bool :=
  let receiveValue := faceValue t.offeredMoney t.offeredProperties
  let giveValue := faceValue t.requestedMoney t.requestedProperties
  if decide (player.botDifficulty = .hard) && t.offeredProperties.any (completes player)
      && decide (2 * receiveValue > giveValue) then true
  else if decide (5 * receiveValue ≥ 6 * giveValue) then true
  else decide (rnd < (DIFFICULTY (getDifficulty player)).tradeAcceptChance)

end BotAI

/-! ## Concrete games for rejections, taxes and ties -/

/-- A fresh game of three under the parking-jackpot rule, in which player 0
has 30 in money left. -/
def jackpotGame : GameState :=
  ((GameState.init [{}, {}, {}] { parkingJackpot := true }).getD {}).setPlayer 0
    { id := 0, money := 30 }

/-- Player 0 of the jackpot game has landed on the tax tile 4 (200), and
player 1 stands on Free Parking (tile 20). -/
def jackpotTaxed : GameState :=
  let s := (jackpotGame.processTax 0 (tileAt 4)).2
  s.setPlayer 1 ((s.getPlayer 1).setPosition 20)

/-- In a game of three, players 1 and 2 have paid all their money to player
0 as rent, and player 0 has then gone bankrupt to the bank. -/
def tiedAtZero : GameState :=
  (EngineCall.declareBankruptcy 0 none).run
    ((EngineCall.payRent 2 0 1500).run ((EngineCall.payRent 1 0 1500).run threePlayers))

/-- A hard bot with 1500 in money and no tiles. -/
def hardBot : Player := { id := 1, isBot := true, botDifficulty := .hard }

/-- Player 0 asks the bot, player 1, for 100 and offers nothing. -/
def askForMoney : TradeProposal :=
  { fromPlayerId := 0, toPlayerId := 1, offeredProperties := [], offeredMoney := 0,
    requestedProperties := [], requestedMoney := 100 }

/-- Player 0 offers the bot, player 1, 100 in money for 100 in money. -/
def moneyForMoney : TradeProposal :=
  { fromPlayerId := 0, toPlayerId := 1, offeredProperties := [], offeredMoney := 100,
    requestedProperties := [], requestedMoney := 100 }

/-- In a game of three, player 1 has 40 and player 2 has 100 in money. -/
def unevenPurses : GameState :=
  (threePlayers.setPlayer 1 { id := 1, money := 40 }).setPlayer 2 { id := 2, money := 100 }

end Fortunopoly

namespace Fortunopoly

/-! ## Basic facts about the accessors -/

namespace Player

@[simp] theorem addMoney_money (p : Player) (a : Int) : (p.addMoney a).money = p.money + a := rfl
@[simp] theorem addMoney_properties (p : Player) (a : Int) :
    (p.addMoney a).properties = p.properties := rfl
@[simp] theorem addMoney_id (p : Player) (a : Int) : (p.addMoney a).id = p.id := rfl
@[simp] theorem addMoney_isBankrupt (p : Player) (a : Int) :
    (p.addMoney a).isBankrupt = p.isBankrupt := rfl
@[simp] theorem addMoney_mortgaged (p : Player) (a : Int) :
    (p.addMoney a).mortgagedProperties = p.mortgagedProperties := rfl

@[simp] theorem setMoney_money (p : Player) (a : Int) : (p.setMoney a).money = a := rfl
@[simp] theorem setMoney_properties (p : Player) (a : Int) :
    (p.setMoney a).properties = p.properties := rfl
@[simp] theorem setMoney_id (p : Player) (a : Int) : (p.setMoney a).id = p.id := rfl
@[simp] theorem setMoney_isBankrupt (p : Player) (a : Int) :
    (p.setMoney a).isBankrupt = p.isBankrupt := rfl

@[simp] theorem setProperties_money (p : Player) (l : List Nat) :
    (p.setProperties l).money = p.money := rfl
@[simp] theorem setProperties_properties (p : Player) (l : List Nat) :
    (p.setProperties l).properties = l := rfl
@[simp] theorem setProperties_id (p : Player) (l : List Nat) : (p.setProperties l).id = p.id := rfl
@[simp] theorem setProperties_isBankrupt (p : Player) (l : List Nat) :
    (p.setProperties l).isBankrupt = p.isBankrupt := rfl

@[simp] theorem setPosition_money (p : Player) (n : Int) : (p.setPosition n).money = p.money := rfl
@[simp] theorem setPosition_properties (p : Player) (n : Int) :
    (p.setPosition n).properties = p.properties := rfl
@[simp] theorem setPosition_id (p : Player) (n : Int) : (p.setPosition n).id = p.id := rfl
@[simp] theorem setPosition_isBankrupt (p : Player) (n : Int) :
    (p.setPosition n).isBankrupt = p.isBankrupt := rfl
@[simp] theorem setPosition_position (p : Player) (n : Int) : (p.setPosition n).position = n := rfl
@[simp] theorem setPosition_inJail (p : Player) (n : Int) : (p.setPosition n).inJail = p.inJail := rfl
@[simp] theorem addMoney_position (p : Player) (a : Int) : (p.addMoney a).position = p.position := rfl

@[simp] theorem goBankrupt_money (p : Player) : p.goBankrupt.money = 0 := rfl
@[simp] theorem goBankrupt_properties (p : Player) : p.goBankrupt.properties = p.properties := rfl
@[simp] theorem goBankrupt_id (p : Player) : p.goBankrupt.id = p.id := rfl
@[simp] theorem goBankrupt_isBankrupt (p : Player) : p.goBankrupt.isBankrupt = true := rfl

@[simp] theorem addProperty_money (p : Player) (t : Nat) : (p.addProperty t).money = p.money := by
  unfold addProperty; split <;> rfl
@[simp] theorem addProperty_id (p : Player) (t : Nat) : (p.addProperty t).id = p.id := by
  unfold addProperty; split <;> rfl
@[simp] theorem addProperty_isBankrupt (p : Player) (t : Nat) :
    (p.addProperty t).isBankrupt = p.isBankrupt := by
  unfold addProperty; split <;> rfl
theorem addProperty_properties (p : Player) (t : Nat) :
    (p.addProperty t).properties = if t ∈ p.properties then p.properties else p.properties ++ [t] := by
  unfold addProperty; split <;> rfl
theorem mem_addProperty (p : Player) (t u : Nat) :
    u ∈ (p.addProperty t).properties ↔ u ∈ p.properties ∨ u = t := by
  rw [addProperty_properties]; split
  · constructor
    · exact Or.inl
    · rintro (h | rfl) <;> assumption
  · simp

@[simp] theorem removeProperty_money (p : Player) (t : Nat) :
    (p.removeProperty t).money = p.money := rfl
@[simp] theorem removeProperty_id (p : Player) (t : Nat) : (p.removeProperty t).id = p.id := rfl
@[simp] theorem removeProperty_isBankrupt (p : Player) (t : Nat) :
    (p.removeProperty t).isBankrupt = p.isBankrupt := rfl
@[simp] theorem removeProperty_properties (p : Player) (t : Nat) :
    (p.removeProperty t).properties = p.properties.erase t := rfl

theorem subtractMoney_fst (p : Player) (a : Int) : (p.subtractMoney a).1 = decide (p.money ≥ a) := by
  unfold subtractMoney; split <;> simp_all
theorem subtractMoney_money (p : Player) (a : Int) :
    (p.subtractMoney a).2.money = if p.money ≥ a then p.money - a else p.money := by
  unfold subtractMoney; split <;> rfl
@[simp] theorem subtractMoney_properties (p : Player) (a : Int) :
    (p.subtractMoney a).2.properties = p.properties := by
  unfold subtractMoney; split <;> rfl
@[simp] theorem subtractMoney_id (p : Player) (a : Int) : (p.subtractMoney a).2.id = p.id := by
  unfold subtractMoney; split <;> rfl
@[simp] theorem subtractMoney_isBankrupt (p : Player) (a : Int) :
    (p.subtractMoney a).2.isBankrupt = p.isBankrupt := by
  unfold subtractMoney; split <;> rfl

end Player

namespace GameState

@[simp] theorem players_setPlayer (s : GameState) (i : Nat) (p : Player) :
    (s.setPlayer i p).players = s.players.set i p := rfl
@[simp] theorem players_addLog (s : GameState) (t : LogType) :
    (s.addLog t).players = s.players := rfl
@[simp] theorem players_setOwner (s : GameState) (t k : Nat) :
    (s.setOwner t k).players = s.players := rfl
@[simp] theorem players_setHouses (s : GameState) (t : Nat) (n : Int) :
    (s.setHouses t n).players = s.players := rfl
@[simp] theorem players_deleteOwner (s : GameState) (t : Nat) :
    (s.deleteOwner t).players = s.players := rfl
@[simp] theorem players_deleteHouses (s : GameState) (t : Nat) :
    (s.deleteHouses t).players = s.players := rfl

@[simp] theorem getPlayer_addLog (s : GameState) (t : LogType) (i : Nat) :
    (s.addLog t).getPlayer i = s.getPlayer i := rfl
@[simp] theorem getPlayer_setOwner (s : GameState) (t k : Nat) (i : Nat) :
    (s.setOwner t k).getPlayer i = s.getPlayer i := rfl
@[simp] theorem getPlayer_setHouses (s : GameState) (t : Nat) (n : Int) (i : Nat) :
    (s.setHouses t n).getPlayer i = s.getPlayer i := rfl
@[simp] theorem getPlayer_deleteOwner (s : GameState) (t : Nat) (i : Nat) :
    (s.deleteOwner t).getPlayer i = s.getPlayer i := rfl
@[simp] theorem getPlayer_deleteHouses (s : GameState) (t : Nat) (i : Nat) :
    (s.deleteHouses t).getPlayer i = s.getPlayer i := rfl

@[simp] theorem propertyOwners_addLog (s : GameState) (t : LogType) :
    (s.addLog t).propertyOwners = s.propertyOwners := rfl
@[simp] theorem propertyOwners_setPlayer (s : GameState) (i : Nat) (p : Player) :
    (s.setPlayer i p).propertyOwners = s.propertyOwners := rfl
@[simp] theorem propertyOwners_setHouses (s : GameState) (t : Nat) (n : Int) :
    (s.setHouses t n).propertyOwners = s.propertyOwners := rfl
@[simp] theorem propertyOwners_deleteHouses (s : GameState) (t : Nat) :
    (s.deleteHouses t).propertyOwners = s.propertyOwners := rfl
@[simp] theorem propertyOwners_setOwner (s : GameState) (t k : Nat) :
    (s.setOwner t k).propertyOwners = setKey s.propertyOwners t k := rfl
@[simp] theorem propertyOwners_deleteOwner (s : GameState) (t : Nat) :
    (s.deleteOwner t).propertyOwners = deleteKey s.propertyOwners t := rfl

@[simp] theorem propertyHouses_addLog (s : GameState) (t : LogType) :
    (s.addLog t).propertyHouses = s.propertyHouses := rfl
@[simp] theorem propertyHouses_setPlayer (s : GameState) (i : Nat) (p : Player) :
    (s.setPlayer i p).propertyHouses = s.propertyHouses := rfl
@[simp] theorem propertyHouses_setOwner (s : GameState) (t k : Nat) :
    (s.setOwner t k).propertyHouses = s.propertyHouses := rfl
@[simp] theorem propertyHouses_deleteOwner (s : GameState) (t : Nat) :
    (s.deleteOwner t).propertyHouses = s.propertyHouses := rfl
@[simp] theorem propertyHouses_setHouses (s : GameState) (t : Nat) (n : Int) :
    (s.setHouses t n).propertyHouses = setKey s.propertyHouses t n := rfl
@[simp] theorem propertyHouses_deleteHouses (s : GameState) (t : Nat) :
    (s.deleteHouses t).propertyHouses = deleteKey s.propertyHouses t := rfl

@[simp] theorem players_setPhase (s : GameState) (v : GamePhase) :
    (s.setPhase v).players = s.players := rfl
@[simp] theorem getPlayer_setPhase (s : GameState) (v : GamePhase) (i : Nat) :
    (s.setPhase v).getPlayer i = s.getPlayer i := rfl
@[simp] theorem propertyOwners_setPhase (s : GameState) (v : GamePhase) :
    (s.setPhase v).propertyOwners = s.propertyOwners := rfl
@[simp] theorem propertyHouses_setPhase (s : GameState) (v : GamePhase) :
    (s.setPhase v).propertyHouses = s.propertyHouses := rfl
@[simp] theorem players_setLastDiceRoll (s : GameState) (v : Int × Int) :
    (s.setLastDiceRoll v).players = s.players := rfl
@[simp] theorem getPlayer_setLastDiceRoll (s : GameState) (v : Int × Int) (i : Nat) :
    (s.setLastDiceRoll v).getPlayer i = s.getPlayer i := rfl
@[simp] theorem propertyOwners_setLastDiceRoll (s : GameState) (v : Int × Int) :
    (s.setLastDiceRoll v).propertyOwners = s.propertyOwners := rfl
@[simp] theorem propertyHouses_setLastDiceRoll (s : GameState) (v : Int × Int) :
    (s.setLastDiceRoll v).propertyHouses = s.propertyHouses := rfl
@[simp] theorem players_setConsecutiveDoubles (s : GameState) (v : Nat) :
    (s.setConsecutiveDoubles v).players = s.players := rfl
@[simp] theorem getPlayer_setConsecutiveDoubles (s : GameState) (v : Nat) (i : Nat) :
    (s.setConsecutiveDoubles v).getPlayer i = s.getPlayer i := rfl
@[simp] theorem propertyOwners_setConsecutiveDoubles (s : GameState) (v : Nat) :
    (s.setConsecutiveDoubles v).propertyOwners = s.propertyOwners := rfl
@[simp] theorem propertyHouses_setConsecutiveDoubles (s : GameState) (v : Nat) :
    (s.setConsecutiveDoubles v).propertyHouses = s.propertyHouses := rfl
@[simp] theorem players_setRound (s : GameState) (v : Nat) :
    (s.setRound v).players = s.players := rfl
@[simp] theorem getPlayer_setRound (s : GameState) (v : Nat) (i : Nat) :
    (s.setRound v).getPlayer i = s.getPlayer i := rfl
@[simp] theorem propertyOwners_setRound (s : GameState) (v : Nat) :
    (s.setRound v).propertyOwners = s.propertyOwners := rfl
@[simp] theorem propertyHouses_setRound (s : GameState) (v : Nat) :
    (s.setRound v).propertyHouses = s.propertyHouses := rfl
@[simp] theorem players_setCurrentPlayerIndex (s : GameState) (v : Nat) :
    (s.setCurrentPlayerIndex v).players = s.players := rfl
@[simp] theorem getPlayer_setCurrentPlayerIndex (s : GameState) (v : Nat) (i : Nat) :
    (s.setCurrentPlayerIndex v).getPlayer i = s.getPlayer i := rfl
@[simp] theorem propertyOwners_setCurrentPlayerIndex (s : GameState) (v : Nat) :
    (s.setCurrentPlayerIndex v).propertyOwners = s.propertyOwners := rfl
@[simp] theorem propertyHouses_setCurrentPlayerIndex (s : GameState) (v : Nat) :
    (s.setCurrentPlayerIndex v).propertyHouses = s.propertyHouses := rfl
@[simp] theorem players_setTurnPhase (s : GameState) (v : TurnPhase) :
    (s.setTurnPhase v).players = s.players := rfl
@[simp] theorem getPlayer_setTurnPhase (s : GameState) (v : TurnPhase) (i : Nat) :
    (s.setTurnPhase v).getPlayer i = s.getPlayer i := rfl
@[simp] theorem propertyOwners_setTurnPhase (s : GameState) (v : TurnPhase) :
    (s.setTurnPhase v).propertyOwners = s.propertyOwners := rfl
@[simp] theorem propertyHouses_setTurnPhase (s : GameState) (v : TurnPhase) :
    (s.setTurnPhase v).propertyHouses = s.propertyHouses := rfl
@[simp] theorem players_setFreeParkingPot (s : GameState) (v : Option Int) :
    (s.setFreeParkingPot v).players = s.players := rfl
@[simp] theorem getPlayer_setFreeParkingPot (s : GameState) (v : Option Int) (i : Nat) :
    (s.setFreeParkingPot v).getPlayer i = s.getPlayer i := rfl
@[simp] theorem propertyOwners_setFreeParkingPot (s : GameState) (v : Option Int) :
    (s.setFreeParkingPot v).propertyOwners = s.propertyOwners := rfl
@[simp] theorem propertyHouses_setFreeParkingPot (s : GameState) (v : Option Int) :
    (s.setFreeParkingPot v).propertyHouses = s.propertyHouses := rfl

theorem getPlayer_setPlayer_self (s : GameState) (i : Nat) (p : Player)
    (h : i < s.players.length) : (s.setPlayer i p).getPlayer i = p := by
  simp [getPlayer, setPlayer, List.getD_eq_getElem?_getD, List.getElem?_set, h]

theorem getPlayer_setPlayer_of_ne (s : GameState) (i j : Nat) (p : Player) (h : i ≠ j) :
    (s.setPlayer i p).getPlayer j = s.getPlayer j := by
  simp [getPlayer, setPlayer, List.getD_eq_getElem?_getD, List.getElem?_set, h]

theorem getPlayer_mem (s : GameState) (i : Nat) (h : i < s.players.length) :
    s.getPlayer i ∈ s.players := by
  simp only [getPlayer, List.getD_eq_getElem?_getD, List.getElem?_eq_getElem h, Option.getD_some]
  exact List.getElem_mem h

theorem exists_index_of_mem (s : GameState) (p : Player) (h : p ∈ s.players) :
    ∃ i, i < s.players.length ∧ s.getPlayer i = p := by
  obtain ⟨i, hi, rfl⟩ := List.getElem_of_mem h
  exact ⟨i, hi, by simp [getPlayer, List.getD_eq_getElem?_getD, List.getElem?_eq_getElem hi]⟩

end GameState

open GameState

/-- Claim C8: `buyProperty(player, tile)` returns true exactly when the
player's money is at least the tile's price (a comparison with an undefined
price is false); on true the money drops by exactly the price, the tile id
is in the player's properties, `propertyOwners[tile.id]` is the player's id
and `propertyHouses[tile.id]` is 0; on false the whole state is unchanged. -/
theorem buyProperty_spec (s : GameState) (i : Nat) (tile : Tile) (hi : i < s.players.length) :
    ((s.buyProperty i tile).1 = true ↔
      ∃ price, tile.price = some price ∧ (s.getPlayer i).money ≥ price) ∧
    (∀ price, tile.price = some price → (s.getPlayer i).money ≥ price →
      ((s.buyProperty i tile).2.getPlayer i).money = (s.getPlayer i).money - price ∧
      tile.id ∈ ((s.buyProperty i tile).2.getPlayer i).properties ∧
      (s.buyProperty i tile).2.propertyOwners tile.id = some (s.getPlayer i).id ∧
      (s.buyProperty i tile).2.propertyHouses tile.id = some 0) ∧
    ((s.buyProperty i tile).1 = false → (s.buyProperty i tile).2 = s) := by
  cases hp : tile.price with
  | none => simp [buyProperty, hp]
  | some price =>
    by_cases hm : (s.getPlayer i).money ≥ price
    · refine ⟨?_, ?_, ?_⟩
      · simp [buyProperty, hp, Player.subtractMoney, hm]
      · intro price1 h1 _
        have hprice : price = price1 := by simpa using h1
        subst hprice
        simp [buyProperty, hp, Player.subtractMoney, hm, getPlayer_setPlayer_self _ _ _ hi,
          setKey, Player.mem_addProperty]
      · simp [buyProperty, hp, Player.subtractMoney, hm]
    · simp [buyProperty, hp, Player.subtractMoney, hm]

end Fortunopoly

namespace Fortunopoly
/-- Claim C9: for a player who is not in jail, at a position from 0 to 39,
and a number of spaces from 1 to 39, `moveSpaces` sets the position to
(position + spaces) mod 40, returns that position with the flag
`passedStart`, and adds exactly 200 to the money when position + spaces is
at least 40 and nothing otherwise. -/
theorem moveSpaces_forward (pl : Player) (spaces : Int) (hjail : pl.inJail = false)
    (hp0 : 0 ≤ pl.position) (hp39 : pl.position ≤ 39) (hs1 : 1 ≤ spaces) (hs39 : spaces ≤ 39) :
    (pl.moveSpaces spaces).2.position = (pl.position + spaces) % 40 ∧
    (pl.moveSpaces spaces).2.money
      = pl.money + (if pl.position + spaces ≥ 40 then 200 else 0) ∧
    (pl.moveSpaces spaces).1 = ((pl.position + spaces) % 40, decide (pl.position + spaces ≥ 40)) := by
  have htm : Int.tmod (pl.position + spaces) 40 = (pl.position + spaces) % 40 :=
    Int.tmod_eq_emod (by omega) (by omega)
  have hnn : ¬ ((pl.position + spaces) % 40 < 0) := by omega
  have hpass : ((pl.position + spaces) % 40 < pl.position) ↔ pl.position + spaces ≥ 40 := by omega
  have hs : spaces > 0 := by omega
  by_cases h40 : pl.position + spaces ≥ 40
  · have hlt := hpass.2 h40
    simp [Player.moveSpaces, htm, hnn, hs, hjail, hlt, h40, START_BONUS]
  · have hlt : ¬ ((pl.position + spaces) % 40 < pl.position) := fun h => h40 (hpass.1 h)
    simp [Player.moveSpaces, htm, hnn, hs, hjail, hlt, h40]

/-- Witness for C9: from position 38 by 5 spaces to position 3, with 200 credited. -/
theorem moveSpaces_forward_witness :
    ((({ id := 0, position := 38 } : Player).moveSpaces 5).2.position = 3 ∧
     (({ id := 0, position := 38 } : Player).moveSpaces 5).2.money = 1500 + 200) := by
  have h := moveSpaces_forward { id := 0, position := 38 } 5 rfl (by decide) (by decide)
    (by decide) (by decide)
  exact ⟨by rw [h.1]; decide, by rw [h.2.1]; decide⟩

/-- Claim C6: whatever the tile, the owner's holdings, the improvement
levels and the last dice roll, `calculateRent(tile, owner)` is 0 when the
tile is in the owner's mortgaged list. -/
theorem calculateRent_mortgaged (s : GameState) (tile : Tile) (owner : Player)
    (h : tile.id ∈ owner.mortgagedProperties) : s.calculateRent tile owner = some 0 := by
  simp [GameState.calculateRent, Player.isMortgaged, h]
end Fortunopoly

namespace Fortunopoly
open GameState

namespace Player

/-- `addProperty` for every tile of a list, in order. -/
theorem foldl_addProperty_fields (props : List Nat) (p : Player) :
    (props.foldl addProperty p).money = p.money ∧ (props.foldl addProperty p).id = p.id ∧
    (props.foldl addProperty p).isBankrupt = p.isBankrupt ∧
    (props.foldl addProperty p).mortgagedProperties = p.mortgagedProperties := by
  induction props generalizing p with
  | nil => simp
  | cons t rest ih =>
    simp only [List.foldl_cons]
    obtain ⟨h1, h2, h3, h4⟩ := ih (p.addProperty t)
    refine ⟨by simp [h1], by simp [h2], by simp [h3], ?_⟩
    rw [h4]; unfold addProperty; split <;> rfl

theorem mem_foldl_addProperty (props : List Nat) (p : Player) (u : Nat) :
    u ∈ (props.foldl addProperty p).properties ↔ u ∈ p.properties ∨ u ∈ props := by
  induction props generalizing p with
  | nil => simp
  | cons t rest ih =>
    simp only [List.foldl_cons, ih, mem_addProperty, List.mem_cons]
    tauto

theorem foldl_addProperty_append (props : List Nat) (p : Player) (hnd : props.Nodup)
    (hdisj : ∀ t ∈ props, t ∉ p.properties) :
    (props.foldl addProperty p).properties = p.properties ++ props := by
  induction props generalizing p with
  | nil => simp
  | cons t rest ih =>
    have ht : t ∉ p.properties := hdisj t (List.mem_cons_self _ _)
    have hnd2 := List.nodup_cons.1 hnd
    simp only [List.foldl_cons]
    rw [ih (p.addProperty t) hnd2.2]
    · rw [addProperty_properties, if_neg ht]; simp
    · intro u hu
      rw [mem_addProperty]
      rintro (h | rfl)
      · exact hdisj u (List.mem_cons_of_mem _ hu) h
      · exact hnd2.1 hu

theorem nodup_foldl_addProperty (props : List Nat) (p : Player) (hnd : p.properties.Nodup) :
    (props.foldl addProperty p).properties.Nodup := by
  induction props generalizing p with
  | nil => simpa
  | cons t rest ih =>
    simp only [List.foldl_cons]
    apply ih
    rw [addProperty_properties]; split
    · exact hnd
    · rw [List.nodup_append]
      refine ⟨hnd, by simp, ?_⟩
      intro a ha hb
      simp at hb; subst hb; contradiction

end Player

namespace GameState

@[simp] theorem length_setPlayer (s : GameState) (i : Nat) (p : Player) :
    (s.setPlayer i p).players.length = s.players.length := by simp

theorem getPlayer_setPlayer (s : GameState) (i j : Nat) (p : Player) :
    (s.setPlayer i p).getPlayer j = if i = j ∧ i < s.players.length then p else s.getPlayer j := by
  by_cases h : i = j
  · subst h
    by_cases hi : i < s.players.length
    · simp [hi, getPlayer_setPlayer_self _ _ _ hi]
    · simp [hi, getPlayer, List.getD_eq_getElem?_getD, List.getElem?_set,
        List.getElem?_eq_none (Nat.le_of_not_lt hi)]
  · simp [h, getPlayer_setPlayer_of_ne _ _ _ _ h]

/-- The creditor loop of `declareBankruptcy`, field by field. -/
theorem foldl_creditorTakes (c : Nat) (props : List Nat) (s : GameState)
    (hc : c < s.players.length) :
    (props.foldl (creditorTakes c) s).players.length = s.players.length ∧
    (∀ j, j ≠ c → (props.foldl (creditorTakes c) s).getPlayer j = s.getPlayer j) ∧
    (props.foldl (creditorTakes c) s).getPlayer c = props.foldl Player.addProperty (s.getPlayer c) ∧
    (props.foldl (creditorTakes c) s).propertyHouses = s.propertyHouses ∧
    (∀ t, (props.foldl (creditorTakes c) s).propertyOwners t
      = if t ∈ props then some (s.getPlayer c).id else s.propertyOwners t) := by
  induction props generalizing s with
  | nil => simp
  | cons t rest ih =>
    simp only [List.foldl_cons]
    have hc1 : c < (creditorTakes c s t).players.length := by simp [creditorTakes, hc]
    obtain ⟨h1, h2, h3, h4, h5⟩ := ih (creditorTakes c s t) hc1
    have hg : (creditorTakes c s t).getPlayer c = (s.getPlayer c).addProperty t := by
      simp [creditorTakes, getPlayer_setPlayer_self _ _ _ hc]
    refine ⟨?_, ?_, ?_, ?_, ?_⟩
    · rw [h1]; simp [creditorTakes]
    · intro j hj
      rw [h2 j hj]
      simp [creditorTakes, getPlayer_setPlayer_of_ne _ _ _ _ (Ne.symm hj)]
    · rw [h3, hg]
    · rw [h4]; simp [creditorTakes]
    · intro u
      rw [h5 u, hg]
      by_cases hu : u ∈ rest
      · simp [hu]
      · by_cases hut : u = t
        · subst hut
          simp [hu, creditorTakes, setKey, getPlayer_setPlayer_self _ _ _ hc]
        · simp [hu, hut, creditorTakes, setKey]

/-- The bank loop of `declareBankruptcy`, field by field. -/
theorem foldl_bankTakes (props : List Nat) (s : GameState) :
    (props.foldl bankTakes s).players = s.players ∧
    (∀ t, (props.foldl bankTakes s).propertyOwners t
      = if t ∈ props then none else s.propertyOwners t) ∧
    (∀ t, (props.foldl bankTakes s).propertyHouses t
      = if t ∈ props then none else s.propertyHouses t) := by
  induction props generalizing s with
  | nil => simp
  | cons t rest ih =>
    simp only [List.foldl_cons]
    obtain ⟨h1, h2, h3⟩ := ih (bankTakes s t)
    refine ⟨by rw [h1]; simp [bankTakes], ?_, ?_⟩
    · intro u
      rw [h2 u]
      by_cases hu : u ∈ rest
      · simp [hu]
      · by_cases hut : u = t
        · subst hut; simp [hu, bankTakes, deleteKey]
        · simp [hu, hut, bankTakes, deleteKey]
    · intro u
      rw [h3 u]
      by_cases hu : u ∈ rest
      · simp [hu]
      · by_cases hut : u = t
        · subst hut; simp [hu, bankTakes, deleteKey]
        · simp [hu, hut, bankTakes, deleteKey]

@[simp] theorem players_endGame (s : GameState) : s.endGame.players = s.players := rfl
@[simp] theorem getPlayer_endGame (s : GameState) (i : Nat) : s.endGame.getPlayer i = s.getPlayer i := rfl
@[simp] theorem propertyOwners_endGame (s : GameState) :
    s.endGame.propertyOwners = s.propertyOwners := rfl
@[simp] theorem propertyHouses_endGame (s : GameState) :
    s.endGame.propertyHouses = s.propertyHouses := rfl

theorem declareBankruptcy_eq (s : GameState) (i : Nat) (creditor : Option Nat) :
    s.declareBankruptcy i creditor =
      if (bankruptcyCore s i creditor).getActivePlayers.length ≤ 1
      then (bankruptcyCore s i creditor).endGame else bankruptcyCore s i creditor := rfl

theorem declareBankruptcy_players (s : GameState) (i : Nat) (creditor : Option Nat) :
    (s.declareBankruptcy i creditor).players = (bankruptcyCore s i creditor).players := by
  rw [declareBankruptcy_eq]; split <;> simp

theorem declareBankruptcy_getPlayer (s : GameState) (i : Nat) (creditor : Option Nat) (j : Nat) :
    (s.declareBankruptcy i creditor).getPlayer j = (bankruptcyCore s i creditor).getPlayer j := by
  rw [declareBankruptcy_eq]; split <;> simp

theorem declareBankruptcy_propertyOwners (s : GameState) (i : Nat) (creditor : Option Nat) :
    (s.declareBankruptcy i creditor).propertyOwners = (bankruptcyCore s i creditor).propertyOwners := by
  rw [declareBankruptcy_eq]; split <;> simp

theorem declareBankruptcy_propertyHouses (s : GameState) (i : Nat) (creditor : Option Nat) :
    (s.declareBankruptcy i creditor).propertyHouses = (bankruptcyCore s i creditor).propertyHouses := by
  rw [declareBankruptcy_eq]; split <;> simp

end GameState
end Fortunopoly

namespace Fortunopoly
open GameState

namespace GameState

/-- What `declareBankruptcy` with a creditor other than the player leaves. -/
theorem bankruptcyCore_creditor (s : GameState) (i c : Nat) (hi : i < s.players.length)
    (hc : c < s.players.length) (hne : i ≠ c) :
    (bankruptcyCore s i (some c)).players.length = s.players.length ∧
    (bankruptcyCore s i (some c)).getPlayer i = ((s.getPlayer i).goBankrupt).setProperties [] ∧
    (bankruptcyCore s i (some c)).getPlayer c
      = (s.getPlayer i).properties.foldl Player.addProperty (s.getPlayer c) ∧
    (∀ j, j ≠ i → j ≠ c → (bankruptcyCore s i (some c)).getPlayer j = s.getPlayer j) ∧
    (bankruptcyCore s i (some c)).propertyHouses = s.propertyHouses ∧
    (∀ t, (bankruptcyCore s i (some c)).propertyOwners t
      = if t ∈ (s.getPlayer i).properties then some (s.getPlayer c).id else s.propertyOwners t) := by
  have hi1 : i < (s.setPlayer i (s.getPlayer i).goBankrupt).players.length := by simpa using hi
  have hc1 : c < ((s.setPlayer i (s.getPlayer i).goBankrupt).addLog .jail).players.length := by
    simpa using hc
  obtain ⟨h1, h2, h3, h4, h5⟩ := foldl_creditorTakes c (s.getPlayer i).properties _ hc1
  have hci : ((s.setPlayer i (s.getPlayer i).goBankrupt).addLog .jail).getPlayer c = s.getPlayer c := by
    simp [getPlayer_setPlayer_of_ne _ _ _ _ hne]
  have hlen : (((s.getPlayer i).properties.foldl (creditorTakes c)
      ((s.setPlayer i (s.getPlayer i).goBankrupt).addLog .jail)).addLog).players.length
      = s.players.length := by
    simp only [players_addLog] at h1 ⊢
    rw [h1]; simp
  simp only [bankruptcyCore, getPlayer_addLog, getPlayer_setPlayer_self _ _ _ hi,
    Player.goBankrupt_properties]
  refine ⟨?_, ?_, ?_, ?_, ?_, ?_⟩
  · rw [length_setPlayer, hlen]
  · rw [getPlayer_setPlayer_self _ _ _ (by rw [hlen]; exact hi)]
    rw [h2 i hne]
    simp [getPlayer_setPlayer_self _ _ _ hi]
  · rw [getPlayer_setPlayer_of_ne _ _ _ _ hne, getPlayer_addLog, h3, hci]
  · intro j hji hjc
    rw [getPlayer_setPlayer_of_ne _ _ _ _ (Ne.symm hji), getPlayer_addLog, h2 j hjc]
    simp [getPlayer_setPlayer_of_ne _ _ _ _ (Ne.symm hji)]
  · simp [h4]
  · intro t
    simp only [propertyOwners_setPlayer, propertyOwners_addLog, h5 t, hci]

/-- What `declareBankruptcy` without a creditor leaves. -/
theorem bankruptcyCore_bank (s : GameState) (i : Nat) (hi : i < s.players.length) :
    (bankruptcyCore s i none).players.length = s.players.length ∧
    (bankruptcyCore s i none).getPlayer i = ((s.getPlayer i).goBankrupt).setProperties [] ∧
    (∀ j, j ≠ i → (bankruptcyCore s i none).getPlayer j = s.getPlayer j) ∧
    (∀ t, (bankruptcyCore s i none).propertyHouses t
      = if t ∈ (s.getPlayer i).properties then none else s.propertyHouses t) ∧
    (∀ t, (bankruptcyCore s i none).propertyOwners t
      = if t ∈ (s.getPlayer i).properties then none else s.propertyOwners t) := by
  obtain ⟨h1, h2, h3⟩ := foldl_bankTakes (s.getPlayer i).properties
    ((s.setPlayer i (s.getPlayer i).goBankrupt).addLog .jail)
  have hg : ∀ j, ((s.getPlayer i).properties.foldl bankTakes
      ((s.setPlayer i (s.getPlayer i).goBankrupt).addLog .jail)).getPlayer j
      = (s.setPlayer i (s.getPlayer i).goBankrupt).getPlayer j := by
    intro j
    have := congrArg (fun l => List.getD l j default) h1
    simpa [getPlayer] using this
  simp only [bankruptcyCore, getPlayer_addLog, getPlayer_setPlayer_self _ _ _ hi,
    Player.goBankrupt_properties]
  refine ⟨?_, ?_, ?_, ?_, ?_⟩
  · rw [length_setPlayer, h1]; simp
  · rw [getPlayer_setPlayer_self _ _ _ (by rw [h1]; simpa using hi), hg,
      getPlayer_setPlayer_self _ _ _ hi]
  · intro j hj
    rw [getPlayer_setPlayer_of_ne _ _ _ _ (Ne.symm hj), hg,
      getPlayer_setPlayer_of_ne _ _ _ _ (Ne.symm hj)]
  · intro t; simp [h3 t]
  · intro t; simp [h2 t]

end GameState

namespace Player

/-- The list grows by the number of new tiles. -/
theorem length_foldl_addProperty (props : List Nat) (p : Player) :
    (props.foldl addProperty p).properties.length
      = p.properties.length + (props.toFinset \ p.properties.toFinset).card := by
  induction props generalizing p with
  | nil => simp
  | cons t rest ih =>
    simp only [List.foldl_cons, List.toFinset_cons]
    rw [ih (p.addProperty t), addProperty_properties]
    by_cases ht : t ∈ p.properties
    · rw [if_pos ht, Finset.insert_sdiff_of_mem _ (List.mem_toFinset.2 ht)]
    · rw [if_neg ht]
      have hnot : t ∉ rest.toFinset \ (p.properties ++ [t]).toFinset := by
        simp
      have hset : insert t rest.toFinset \ p.properties.toFinset
          = insert t (rest.toFinset \ (p.properties ++ [t]).toFinset) := by
        ext x
        simp only [Finset.mem_sdiff, Finset.mem_insert, List.mem_toFinset, List.mem_append,
          List.mem_singleton]
        constructor
        · rintro ⟨h1 | h1, h2⟩
          · exact Or.inl h1
          · by_cases hx : x = t
            · exact Or.inl hx
            · exact Or.inr ⟨h1, fun h => h.elim h2 hx⟩
        · rintro (h1 | ⟨h1, h2⟩)
          · subst h1; exact ⟨Or.inl rfl, ht⟩
          · exact ⟨Or.inr h1, fun h => h2 (Or.inl h)⟩
      rw [hset, Finset.card_insert_of_not_mem hnot]
      simp only [List.length_append, List.length_singleton]
      omega

end Player

/-- Claim C10: when the bankrupt player's and the creditor's properties
lists share no tile, `declareBankruptcy(player, creditor)` leaves the
creditor's list longer by exactly the number of tiles the bankrupt player
held (the size of its list as a set, which is the length of the list when it
holds no tile twice), sets `propertyOwners` of each of those tiles to the
creditor's id, leaves `propertyHouses` unchanged, and leaves the bankrupt
player with money 0, `isBankrupt` true and an empty properties list. -/
theorem declareBankruptcy_creditor (s : GameState) (i c : Nat) (hi : i < s.players.length)
    (hc : c < s.players.length)
    (hdisj : ∀ t ∈ (s.getPlayer i).properties, t ∉ (s.getPlayer c).properties) :
    ((s.declareBankruptcy i (some c)).getPlayer c).properties.length
      = (s.getPlayer c).properties.length + (s.getPlayer i).properties.toFinset.card ∧
    ((s.getPlayer i).properties.Nodup →
      ((s.declareBankruptcy i (some c)).getPlayer c).properties.length
        = (s.getPlayer c).properties.length + (s.getPlayer i).properties.length) ∧
    (∀ t ∈ (s.getPlayer i).properties,
      (s.declareBankruptcy i (some c)).propertyOwners t = some (s.getPlayer c).id) ∧
    (s.declareBankruptcy i (some c)).propertyHouses = s.propertyHouses ∧
    ((s.declareBankruptcy i (some c)).getPlayer i).money = 0 ∧
    ((s.declareBankruptcy i (some c)).getPlayer i).isBankrupt = true ∧
    ((s.declareBankruptcy i (some c)).getPlayer i).properties = [] := by
  have hlen : ((s.declareBankruptcy i (some c)).getPlayer c).properties.length
      = (s.getPlayer c).properties.length + (s.getPlayer i).properties.toFinset.card := by
    rw [declareBankruptcy_getPlayer]
    by_cases hne : i = c
    · subst hne
      have hnil : (s.getPlayer i).properties = [] := by
        cases hp : (s.getPlayer i).properties with
        | nil => rfl
        | cons t rest =>
          exact absurd (hp ▸ List.mem_cons_self t rest) (hdisj t (hp ▸ List.mem_cons_self t rest))
      simp [bankruptcyCore, getPlayer_setPlayer, hi, hnil]
    · obtain ⟨_, _, h3, _, _, _⟩ := bankruptcyCore_creditor s i c hi hc hne
      rw [h3, Player.length_foldl_addProperty]
      congr 2
      rw [Finset.sdiff_eq_self_iff_disjoint, Finset.disjoint_left]
      intro t ht htc
      exact hdisj t (List.mem_toFinset.1 ht) (List.mem_toFinset.1 htc)
  refine ⟨hlen, ?_, ?_⟩
  · intro hnd
    rw [hlen, List.toFinset_card_of_nodup hnd]
  rw [declareBankruptcy_getPlayer, declareBankruptcy_propertyOwners,
    declareBankruptcy_propertyHouses]
  by_cases hne : i = c
  · subst hne
    have hnil : (s.getPlayer i).properties = [] := by
      cases hp : (s.getPlayer i).properties with
      | nil => rfl
      | cons t rest =>
        exact absurd (hp ▸ List.mem_cons_self t rest) (hdisj t (hp ▸ List.mem_cons_self t rest))
    simp [bankruptcyCore, getPlayer_setPlayer, hi, hnil]
  · obtain ⟨_, h2, _, _, h5, h6⟩ := bankruptcyCore_creditor s i c hi hc hne
    refine ⟨?_, h5, ?_, ?_, ?_⟩
    · intro t ht; rw [h6 t, if_pos ht]
    · rw [h2]; rfl
    · rw [h2]; rfl
    · rw [h2]; rfl

end Fortunopoly

namespace Fortunopoly
open GameState

namespace GameState

/-- The failing branch of `payRent` up to its call of `declareBankruptcy`. -/
theorem payRent_of_lt (s : GameState) (i o : Nat) (amount : Int) (hi : i < s.players.length)
    (ho : o < s.players.length) (hne : i ≠ o) (hlt : (s.getPlayer i).money < amount) :
    ∃ s3 : GameState, s.payRent i o amount = (false, s3.declareBankruptcy i (some o)) ∧
      s3.players.length = s.players.length ∧
      s3.getPlayer i = (s.getPlayer i).setMoney 0 ∧
      s3.getPlayer o = (s.getPlayer o).addMoney (s.getPlayer i).money ∧
      (∀ j, j ≠ i → j ≠ o → s3.getPlayer j = s.getPlayer j) ∧
      s3.propertyOwners = s.propertyOwners ∧ s3.propertyHouses = s.propertyHouses := by
  have hm : ¬ (s.getPlayer i).money ≥ amount := by omega
  refine ⟨_, by simp only [payRent, Player.subtractMoney, hm, if_false]; rfl, ?_, ?_, ?_, ?_, ?_, ?_⟩
  · simp
  · simp [getPlayer_setPlayer, hi, ho, hne, Ne.symm hne]
  · simp [getPlayer_setPlayer, hi, ho, hne, Ne.symm hne]
  · intro j hji hjo
    simp [getPlayer_setPlayer, hi, ho, Ne.symm hji, Ne.symm hjo]
  · simp
  · simp

/-- The paying branch of `payRent`. -/
theorem payRent_of_ge (s : GameState) (i o : Nat) (amount : Int) (hi : i < s.players.length)
    (ho : o < s.players.length) (hne : i ≠ o) (hm : (s.getPlayer i).money ≥ amount) :
    (s.payRent i o amount).1 = true ∧
    (s.payRent i o amount).2.players.length = s.players.length ∧
    (s.payRent i o amount).2.getPlayer i = (s.getPlayer i).setMoney ((s.getPlayer i).money - amount) ∧
    (s.payRent i o amount).2.getPlayer o = (s.getPlayer o).addMoney amount ∧
    (∀ j, j ≠ i → j ≠ o → (s.payRent i o amount).2.getPlayer j = s.getPlayer j) ∧
    (s.payRent i o amount).2.propertyOwners = s.propertyOwners ∧
    (s.payRent i o amount).2.propertyHouses = s.propertyHouses := by
  simp only [payRent, Player.subtractMoney, hm, if_true]
  refine ⟨trivial, ?_, ?_, ?_, ?_, ?_, ?_⟩
  · simp
  · simp [getPlayer_setPlayer, hi, ho, hne, Ne.symm hne]
  · simp [getPlayer_setPlayer, hi, ho, hne, Ne.symm hne]
  · intro j hji hjo
    simp [getPlayer_setPlayer, hi, ho, Ne.symm hji, Ne.symm hjo]
  · simp
  · simp

end GameState

/-- Claim C4: for two different players and an amount that is not negative,
`payRent(payer, owner, amount)` returns true when the payer can afford the
amount, the payer losing and the owner gaining exactly the amount; otherwise
it returns false, the owner gains the payer's whole balance, the payer has
money 0, is bankrupt, has no properties left, and each of the payer's tiles
is in the owner's list with `propertyOwners` naming the owner.  In both cases
the sum of the two balances is unchanged. -/
theorem payRent_spec (s : GameState) (i o : Nat) (amount : Int) (hi : i < s.players.length)
    (ho : o < s.players.length) (hne : i ≠ o) (_ha : 0 ≤ amount) :
    ((s.getPlayer i).money ≥ amount →
      (s.payRent i o amount).1 = true ∧
      ((s.payRent i o amount).2.getPlayer i).money = (s.getPlayer i).money - amount ∧
      ((s.payRent i o amount).2.getPlayer o).money = (s.getPlayer o).money + amount) ∧
    ((s.getPlayer i).money < amount →
      (s.payRent i o amount).1 = false ∧
      ((s.payRent i o amount).2.getPlayer o).money = (s.getPlayer o).money + (s.getPlayer i).money ∧
      ((s.payRent i o amount).2.getPlayer i).money = 0 ∧
      ((s.payRent i o amount).2.getPlayer i).isBankrupt = true ∧
      ((s.payRent i o amount).2.getPlayer i).properties = [] ∧
      ∀ t ∈ (s.getPlayer i).properties,
        t ∈ ((s.payRent i o amount).2.getPlayer o).properties ∧
        (s.payRent i o amount).2.propertyOwners t = some (s.getPlayer o).id) ∧
    ((s.payRent i o amount).2.getPlayer i).money + ((s.payRent i o amount).2.getPlayer o).money
      = (s.getPlayer i).money + (s.getPlayer o).money := by
  by_cases hm : (s.getPlayer i).money ≥ amount
  · have hlt : ¬ (s.getPlayer i).money < amount := by omega
    obtain ⟨h1, _, h3, h4, _⟩ := payRent_of_ge s i o amount hi ho hne hm
    refine ⟨fun _ => ⟨h1, by rw [h3]; rfl, by rw [h4]; rfl⟩, fun h => absurd h hlt, ?_⟩
    rw [h3, h4]; simp
  · have hlt : (s.getPlayer i).money < amount := by omega
    obtain ⟨s3, e, hlen, hgi, hgo, _, _, _⟩ := payRent_of_lt s i o amount hi ho hne hlt
    obtain ⟨_, h2, h3, _, _, h6⟩ :=
      bankruptcyCore_creditor s3 i o (hlen ▸ hi) (hlen ▸ ho) hne
    have hf := Player.foldl_addProperty_fields (s3.getPlayer i).properties (s3.getPlayer o)
    have hmoney_o : ((s.payRent i o amount).2.getPlayer o).money
        = (s.getPlayer o).money + (s.getPlayer i).money := by
      rw [e, declareBankruptcy_getPlayer, h3, hf.1, hgo]; rfl
    have hmoney_i : ((s.payRent i o amount).2.getPlayer i).money = 0 := by
      rw [e, declareBankruptcy_getPlayer, h2]; rfl
    refine ⟨fun h => absurd h hm, fun _ => ⟨by rw [e], hmoney_o, hmoney_i, ?_, ?_, ?_⟩, ?_⟩
    · rw [e, declareBankruptcy_getPlayer, h2]; rfl
    · rw [e, declareBankruptcy_getPlayer, h2]; rfl
    · intro t ht
      have ht3 : t ∈ (s3.getPlayer i).properties := by rw [hgi]; exact ht
      refine ⟨?_, ?_⟩
      · rw [e, declareBankruptcy_getPlayer, h3, Player.mem_foldl_addProperty]; exact Or.inr ht3
      · rw [e, declareBankruptcy_propertyOwners, h6 t, if_pos ht3, hgo]; rfl
    · rw [hmoney_o, hmoney_i]; omega

end Fortunopoly

namespace Fortunopoly
open GameState

namespace GameState

/-- `buildHouse` either leaves the state alone or charges the price and
raises the level of the tile by one. -/
theorem buildHouse_cases (s : GameState) (i : Nat) (tile : Tile) :
    ((s.buildHouse i tile).1 = false ∧ (s.buildHouse i tile).2 = s) ∨
    (∃ housePrice, tile.housePrice = some housePrice ∧
      tile.id ∈ (s.getPlayer i).properties ∧ (s.getPlayer i).hasMonopoly tile.group = true ∧
      (s.propertyHouses tile.id).getD 0 < 5 ∧ (s.getPlayer i).money ≥ housePrice ∧
      (s.buildHouse i tile).1 = true ∧
      (s.buildHouse i tile).2 =
        (((s.setPlayer i ((s.getPlayer i).setMoney ((s.getPlayer i).money - housePrice))).setHouses
          tile.id ((s.propertyHouses tile.id).getD 0 + 1)).addLog .purchase)) := by
  unfold buildHouse
  by_cases h1 : tile.id ∈ (s.getPlayer i).properties
  · by_cases h2 : (s.getPlayer i).hasMonopoly tile.group = true
    · by_cases h3 : (s.propertyHouses tile.id).getD 0 ≥ 5
      · left; simp [Player.ownsProperty, h1, h2, h3]
      · cases h4 : tile.housePrice with
        | none => left; simp [Player.ownsProperty, h1, h2, h3]
        | some hp =>
          by_cases h5 : (s.getPlayer i).money ≥ hp
          · right
            refine ⟨hp, rfl, h1, h2, by omega, h5, ?_, ?_⟩ <;>
              simp [Player.ownsProperty, h1, h2, h3, Player.subtractMoney, h5]
          · left; simp [Player.ownsProperty, h1, h2, h3, Player.subtractMoney, h5]
    · left; simp [Player.ownsProperty, h1, h2]
  · left; simp [Player.ownsProperty, h1]

/-- One `buildHouse` call keeps every level at or below 5. -/
theorem buildHouse_level_le (s : GameState) (i : Nat) (tile : Tile)
    (h : ∀ t, (s.propertyHouses t).getD 0 ≤ 5) :
    ∀ t, ((s.buildHouse i tile).2.propertyHouses t).getD 0 ≤ 5 := by
  intro t
  rcases buildHouse_cases s i tile with ⟨_, e⟩ | ⟨hp, _, _, _, hlt, _, _, e⟩
  · rw [e]; exact h t
  · rw [e]
    simp only [propertyHouses_addLog, propertyHouses_setHouses, propertyHouses_setPlayer, setKey]
    split
    · simp; omega
    · exact h t

end GameState

/-- Claim C7: `buildHouse(player, tile)` returns true exactly when the
player owns the tile, has the monopoly on the tile's group, the level
(`propertyHouses[tile.id] || 0`) is below 5 and the money is at least the
house price; on true the level rises by exactly 1 and the money drops by
exactly the house price; on false the whole state is unchanged.  Hence no
sequence of `buildHouse` calls takes a level above 5 when none was above 5
before. -/
theorem buildHouse_spec (s : GameState) (i : Nat) (tile : Tile) (hi : i < s.players.length) :
    ((s.buildHouse i tile).1 = true ↔
      (tile.id ∈ (s.getPlayer i).properties ∧ (s.getPlayer i).hasMonopoly tile.group = true ∧
        (s.propertyHouses tile.id).getD 0 < 5 ∧
        ∃ housePrice, tile.housePrice = some housePrice ∧ (s.getPlayer i).money ≥ housePrice)) ∧
    ((s.buildHouse i tile).1 = true → ∀ housePrice, tile.housePrice = some housePrice →
      ((s.buildHouse i tile).2.propertyHouses tile.id).getD 0
        = (s.propertyHouses tile.id).getD 0 + 1 ∧
      ((s.buildHouse i tile).2.getPlayer i).money = (s.getPlayer i).money - housePrice) ∧
    ((s.buildHouse i tile).1 = false → (s.buildHouse i tile).2 = s) ∧
    (∀ calls : List (Nat × Tile), (∀ t, (s.propertyHouses t).getD 0 ≤ 5) →
      ∀ t, ((calls.foldl (fun st call => (st.buildHouse call.1 call.2).2) s).propertyHouses t).getD 0
        ≤ 5) := by
  refine ⟨?_, ?_, ?_, ?_⟩
  · rcases buildHouse_cases s i tile with ⟨h, _⟩ | ⟨hp, h1, h2, h3, h4, h5, h6, _⟩
    · constructor
      · intro h'; rw [h] at h'; cases h'
      · rintro ⟨h1, h2, h3, hp, h4, h5⟩
        exfalso
        have : (s.buildHouse i tile).1 = true := by
          unfold buildHouse
          have h3' : ¬ (s.propertyHouses tile.id).getD 0 ≥ 5 := by omega
          simp [Player.ownsProperty, h1, h2, h3', h4, Player.subtractMoney, h5]
        rw [h] at this; cases this
    · exact ⟨fun _ => ⟨h2, h3, h4, hp, h1, h5⟩, fun _ => h6⟩
  · intro htrue housePrice hprice
    rcases buildHouse_cases s i tile with ⟨h, _⟩ | ⟨hp, h1, _, _, _, _, _, e⟩
    · rw [h] at htrue; cases htrue
    · have : hp = housePrice := by rw [h1] at hprice; exact Option.some.inj hprice
      subst this
      rw [e]
      simp [setKey, getPlayer_setPlayer, hi]
  · intro hfalse
    rcases buildHouse_cases s i tile with ⟨_, e⟩ | ⟨hp, _, _, _, _, _, h6, _⟩
    · exact e
    · rw [h6] at hfalse; cases hfalse
  · intro calls
    clear hi
    induction calls generalizing s with
    | nil => intro h t; exact h t
    | cons call rest ih =>
      intro h t
      simp only [List.foldl_cons]
      exact ih (s.buildHouse call.1 call.2).2 (buildHouse_level_le s call.1 call.2 h) t

end Fortunopoly

namespace Fortunopoly
open GameState

/-! ## Facts about the board -/

theorem board_getTile : ∀ t ∈ TILES, getTile t.id = some t := by decide

theorem board_property_rent : ∀ t ∈ TILES, t.type = .property → t.rent.length = 6 := by decide

theorem board_railroad_rent : ∀ t ∈ TILES, t.type = .railroad → t.rent.length = 4 := by decide

theorem board_utility_multiplier :
    ∀ t ∈ TILES, t.type = .utility → t.rentMultiplier.length = 2 := by decide

theorem getTile_lt (id : Nat) (t : Tile) (h : getTile id = some t) : id < 40 := by
  unfold getTile at h
  have := (List.getElem?_eq_some_iff.1 h).1
  simpa [TILES] using this

theorem board_railroad_ids : ∀ id < 40,
    (match getTile id with
      | some tile => decide (tile.type = .railroad)
      | none => false) = true → id ∈ [5, 15, 25, 35] := by decide

theorem board_utility_ids : ∀ id < 40,
    (match getTile id with
      | some tile => decide (tile.type = .utility)
      | none => false) = true → id ∈ [12, 28] := by decide

theorem jsIndex_natCast_sub_one (arr : List Int) (k : Nat) (hk : 1 ≤ k) :
    jsIndex arr ((k : Int) - 1) = arr[k - 1]? := by
  unfold jsIndex
  have h1 : ¬ ((k : Int) - 1 < 0) := by omega
  have h2 : ((k : Int) - 1).toNat = k - 1 := by omega
  rw [if_neg h1, h2]

namespace Player

theorem countRailroads_bounds (p : Player) (tile : Tile) (hnd : p.properties.Nodup)
    (hboard : tile ∈ TILES) (htype : tile.type = .railroad) (hown : tile.id ∈ p.properties) :
    1 ≤ p.countRailroads ∧ p.countRailroads ≤ 4 := by
  unfold countRailroads
  constructor
  · apply List.length_pos_of_mem (a := tile.id)
    rw [List.mem_filter]
    exact ⟨hown, by rw [board_getTile tile hboard]; simp [htype]⟩
  · have hsub : (p.properties.filter (fun tileId =>
        match getTile tileId with
        | some tile => decide (tile.type = .railroad)
        | none => false)) ⊆ [5, 15, 25, 35] := by
      intro id hid
      rw [List.mem_filter] at hid
      have hlt : id < 40 := by
        cases hg : getTile id with
        | none => rw [hg] at hid; simp at hid
        | some t => exact getTile_lt id t hg
      exact board_railroad_ids id hlt hid.2
    exact (List.subperm_of_subset (hnd.filter _) hsub).length_le

theorem countUtilities_bounds (p : Player) (tile : Tile) (hnd : p.properties.Nodup)
    (hboard : tile ∈ TILES) (htype : tile.type = .utility) (hown : tile.id ∈ p.properties) :
    1 ≤ p.countUtilities ∧ p.countUtilities ≤ 2 := by
  unfold countUtilities
  constructor
  · apply List.length_pos_of_mem (a := tile.id)
    rw [List.mem_filter]
    exact ⟨hown, by rw [board_getTile tile hboard]; simp [htype]⟩
  · have hsub : (p.properties.filter (fun tileId =>
        match getTile tileId with
        | some tile => decide (tile.type = .utility)
        | none => false)) ⊆ [12, 28] := by
      intro id hid
      rw [List.mem_filter] at hid
      have hlt : id < 40 := by
        cases hg : getTile id with
        | none => rw [hg] at hid; simp at hid
        | some t => exact getTile_lt id t hg
      exact board_utility_ids id hlt hid.2
    exact (List.subperm_of_subset (hnd.filter _) hsub).length_le

end Player

/-- Claim C5: for a buyable tile of the board, held by an owner whose
properties list holds no tile twice, and not mortgaged, `calculateRent` is a
defined number: for a property at level L from 1 to 5 it is `tile.rent[L]`;
for a property at level 0 it is `tile.rent[0]`, doubled when the owner has
the monopoly on the group; for a railroad it is `tile.rent[k - 1]` with k, the
number of railroads held, between 1 and 4; for a utility it is the sum of the
two dice times `tile.rentMultiplier[u - 1]` with u, the number of utilities
held, 1 or 2. -/
theorem calculateRent_spec (s : GameState) (tile : Tile) (owner : Player)
    (hboard : tile ∈ TILES) (_hbuy : isTileBuyable tile = true) (hnd : owner.properties.Nodup)
    (hown : tile.id ∈ owner.properties) (hnm : tile.id ∉ owner.mortgagedProperties) :
    (tile.type = .property →
      (∀ L : Nat, 1 ≤ L → L ≤ 5 → (s.propertyHouses tile.id).getD 0 = (L : Int) →
        ∃ r, tile.rent[L]? = some r ∧ s.calculateRent tile owner = some r) ∧
      ((s.propertyHouses tile.id).getD 0 = 0 →
        ∃ r0, tile.rent[0]? = some r0 ∧
          s.calculateRent tile owner
            = some (if owner.hasMonopoly tile.group = true then 2 * r0 else r0))) ∧
    (tile.type = .railroad →
      1 ≤ owner.countRailroads ∧ owner.countRailroads ≤ 4 ∧
      ∃ r, tile.rent[owner.countRailroads - 1]? = some r ∧ s.calculateRent tile owner = some r) ∧
    (tile.type = .utility →
      1 ≤ owner.countUtilities ∧ owner.countUtilities ≤ 2 ∧
      ∃ m, tile.rentMultiplier[owner.countUtilities - 1]? = some m ∧
        s.calculateRent tile owner = some ((s.lastDiceRoll.1 + s.lastDiceRoll.2) * m)) := by
  have hmort : owner.isMortgaged tile.id = false := by simp [Player.isMortgaged, hnm]
  refine ⟨?_, ?_, ?_⟩
  · intro htype
    have hlen := board_property_rent tile hboard htype
    constructor
    · intro L h1 h5 hL
      have hlt : L < tile.rent.length := by omega
      refine ⟨tile.rent[L], List.getElem?_eq_getElem hlt, ?_⟩
      have hpos : (L : Int) > 0 := by omega
      have hneg : ¬ ((L : Int) < 0) := by omega
      simp [calculateRent, hmort, htype, hL, hpos, jsIndex, hneg, List.getElem?_eq_getElem hlt]
    · intro h0
      have hlt : 0 < tile.rent.length := by omega
      refine ⟨tile.rent[0], List.getElem?_eq_getElem hlt, ?_⟩
      by_cases hmono : owner.hasMonopoly tile.group = true
      · simp [calculateRent, hmort, htype, h0, jsIndex, List.getElem?_eq_getElem hlt, hmono]
        ring
      · simp [calculateRent, hmort, htype, h0, jsIndex, List.getElem?_eq_getElem hlt, hmono]
  · intro htype
    obtain ⟨h1, h4⟩ := owner.countRailroads_bounds tile hnd hboard htype hown
    have hlen := board_railroad_rent tile hboard htype
    have hlt : owner.countRailroads - 1 < tile.rent.length := by omega
    refine ⟨h1, h4, tile.rent[owner.countRailroads - 1], List.getElem?_eq_getElem hlt, ?_⟩
    simp [calculateRent, hmort, htype, jsIndex_natCast_sub_one _ _ h1,
      List.getElem?_eq_getElem hlt]
  · intro htype
    obtain ⟨h1, h2⟩ := owner.countUtilities_bounds tile hnd hboard htype hown
    have hlen := board_utility_multiplier tile hboard htype
    have hlt : owner.countUtilities - 1 < tile.rentMultiplier.length := by omega
    refine ⟨h1, h2, tile.rentMultiplier[owner.countUtilities - 1],
      List.getElem?_eq_getElem hlt, ?_⟩
    simp [calculateRent, hmort, htype, jsIndex_natCast_sub_one _ _ h1,
      List.getElem?_eq_getElem hlt]

end Fortunopoly

namespace Fortunopoly
open GameState

/-! ## Trading -/

theorem findIndex_some (f : Player → Bool) (l : List Player) (i : Nat)
    (h : findIndex f l = some i) : i < l.length ∧ f (l.getD i default) = true := by
  induction l generalizing i with
  | nil => simp [findIndex] at h
  | cons p ps ih =>
    unfold findIndex at h
    by_cases hp : f p = true
    · simp [hp] at h; subst h; simp [hp]
    · simp [hp] at h
      obtain ⟨j, hj, rfl⟩ := h
      obtain ⟨h1, h2⟩ := ih j hj
      exact ⟨by simp; omega, by simpa using h2⟩

namespace Player

theorem foldl_removeProperty_fields (tiles : List Nat) (p : Player) :
    (tiles.foldl removeProperty p).money = p.money ∧ (tiles.foldl removeProperty p).id = p.id ∧
    (tiles.foldl removeProperty p).isBankrupt = p.isBankrupt ∧
    (tiles.foldl removeProperty p).mortgagedProperties = p.mortgagedProperties := by
  induction tiles generalizing p with
  | nil => simp
  | cons t rest ih =>
    simp only [List.foldl_cons]
    obtain ⟨h1, h2, h3, h4⟩ := ih (p.removeProperty t)
    exact ⟨by simp [h1], by simp [h2], by simp [h3], by rw [h4]; rfl⟩

theorem nodup_foldl_removeProperty (tiles : List Nat) (p : Player) (hnd : p.properties.Nodup) :
    (tiles.foldl removeProperty p).properties.Nodup := by
  induction tiles generalizing p with
  | nil => simpa
  | cons t rest ih =>
    simp only [List.foldl_cons]
    exact ih _ (by simpa using hnd.erase t)

theorem mem_foldl_removeProperty (tiles : List Nat) (p : Player) (hnd : p.properties.Nodup)
    (u : Nat) :
    u ∈ (tiles.foldl removeProperty p).properties ↔ u ∈ p.properties ∧ u ∉ tiles := by
  induction tiles generalizing p with
  | nil => simp
  | cons t rest ih =>
    simp only [List.foldl_cons]
    rw [ih _ (by simpa using hnd.erase t)]
    simp only [removeProperty_properties, hnd.mem_erase_iff, List.mem_cons]
    tauto

end Player

namespace GameState

/-- A transfer loop of `executeTrade` between two different players, field
by field. -/
theorem foldl_transferTile (g k : Nat) (tiles : List Nat) (s : GameState)
    (hg : g < s.players.length) (hk : k < s.players.length) (hne : g ≠ k) :
    (TradeSystem.transferTiles s g k tiles).players.length = s.players.length ∧
    (TradeSystem.transferTiles s g k tiles).getPlayer g
      = tiles.foldl Player.removeProperty (s.getPlayer g) ∧
    (TradeSystem.transferTiles s g k tiles).getPlayer k
      = tiles.foldl Player.addProperty (s.getPlayer k) ∧
    (∀ j, j ≠ g → j ≠ k →
      (TradeSystem.transferTiles s g k tiles).getPlayer j = s.getPlayer j) ∧
    (TradeSystem.transferTiles s g k tiles).propertyHouses = s.propertyHouses ∧
    (∀ t, (TradeSystem.transferTiles s g k tiles).propertyOwners t
      = if t ∈ tiles then some (s.getPlayer k).id else s.propertyOwners t) := by
  unfold TradeSystem.transferTiles
  induction tiles generalizing s with
  | nil => simp
  | cons t rest ih =>
    simp only [List.foldl_cons]
    have hlen : (TradeSystem.transferTile g k s t).players.length = s.players.length := by
      simp [TradeSystem.transferTile]
    have hgg : (TradeSystem.transferTile g k s t).getPlayer g = (s.getPlayer g).removeProperty t := by
      simp [TradeSystem.transferTile, getPlayer_setPlayer, hg, hk, hne, Ne.symm hne]
    have hgk : (TradeSystem.transferTile g k s t).getPlayer k = (s.getPlayer k).addProperty t := by
      simp [TradeSystem.transferTile, getPlayer_setPlayer, hg, hk, hne, Ne.symm hne]
    obtain ⟨h1, h2, h3, h4, h5, h6⟩ := ih (TradeSystem.transferTile g k s t)
      (by rw [hlen]; exact hg) (by rw [hlen]; exact hk)
    refine ⟨by rw [h1, hlen], by rw [h2, hgg], by rw [h3, hgk], ?_, ?_, ?_⟩
    · intro j hjg hjk
      rw [h4 j hjg hjk]
      simp [TradeSystem.transferTile, getPlayer_setPlayer, Ne.symm hjg, Ne.symm hjk]
    · rw [h5]; simp [TradeSystem.transferTile]
    · intro u
      rw [h6 u, hgk]
      by_cases hu : u ∈ rest
      · simp [hu]
      · by_cases hut : u = t
        · subst hut
          simp [hu, TradeSystem.transferTile, setKey, getPlayer_setPlayer, hg, hk, hne, Ne.symm hne]
        · simp [hu, hut, TradeSystem.transferTile, setKey]

end GameState

namespace TradeSystem

/-- What a successful validation establishes. -/
theorem validateTrade_valid (ts : TradeSystem) (gs : GameState)
    (h : ts.validateTrade gs = .valid) :
    ∃ t f o, ts.activeTrade = some t ∧
      findIndex (fun p => decide (p.id = t.fromPlayerId)) gs.players = some f ∧
      findIndex (fun p => decide (p.id = t.toPlayerId)) gs.players = some o ∧
      (gs.getPlayer f).isBankrupt = false ∧ (gs.getPlayer o).isBankrupt = false ∧
      checkTiles gs f t.offeredProperties = .valid ∧
      checkTiles gs o t.requestedProperties = .valid ∧
      t.offeredMoney ≤ (gs.getPlayer f).money ∧ t.requestedMoney ≤ (gs.getPlayer o).money ∧
      ¬ (t.offeredProperties.length = 0 ∧ t.offeredMoney = 0 ∧
          t.requestedProperties.length = 0 ∧ t.requestedMoney = 0) := by
  unfold validateTrade at h
  cases ht : ts.activeTrade with
  | none => simp [ht] at h
  | some t =>
    simp only [ht] at h
    cases hf : findIndex (fun p => decide (p.id = t.fromPlayerId)) gs.players with
    | none => simp [hf] at h
    | some f =>
      cases ho : findIndex (fun p => decide (p.id = t.toPlayerId)) gs.players with
      | none => simp [hf, ho] at h
      | some o =>
        simp only [hf, ho] at h
        refine ⟨t, f, o, rfl, hf, ho, ?_⟩
        split at h
        · cases h
        · rename_i hb
          simp only [Bool.or_eq_true, not_or, Bool.not_eq_true] at hb
          cases hc1 : checkTiles gs f t.offeredProperties with
          | valid =>
            cases hc2 : checkTiles gs o t.requestedProperties with
            | valid =>
              simp only [hc1, hc2] at h
              split at h
              · cases h
              · split at h
                · cases h
                · split at h
                  · cases h
                  · rename_i h1 h2 h3
                    exact ⟨hb.1, hb.2, rfl, rfl, by omega, by omega, h3⟩
            | invalid r => simp [hc1, hc2] at h
            | threw => simp [hc1, hc2] at h
          | invalid r => simp [hc1] at h
          | threw => simp [hc1] at h

end TradeSystem
end Fortunopoly

namespace Fortunopoly
open GameState

namespace TradeSystem

@[simp] theorem players_length_transferMoney (g : GameState) (a b : Nat) (m : Int) :
    (transferMoney g a b m).players.length = g.players.length := by
  unfold transferMoney; split <;> simp

@[simp] theorem propertyOwners_transferMoney (g : GameState) (a b : Nat) (m : Int) :
    (transferMoney g a b m).propertyOwners = g.propertyOwners := by
  unfold transferMoney; split <;> simp

@[simp] theorem propertyHouses_transferMoney (g : GameState) (a b : Nat) (m : Int) :
    (transferMoney g a b m).propertyHouses = g.propertyHouses := by
  unfold transferMoney; split <;> simp

/-- A money block of `executeTrade` changes no field but `money`. -/
theorem transferMoney_fields (g : GameState) (a b : Nat) (m : Int) (j : Nat) :
    ((transferMoney g a b m).getPlayer j).properties = (g.getPlayer j).properties ∧
    ((transferMoney g a b m).getPlayer j).id = (g.getPlayer j).id ∧
    ((transferMoney g a b m).getPlayer j).isBankrupt = (g.getPlayer j).isBankrupt := by
  unfold transferMoney
  split
  · simp only [getPlayer_setPlayer, length_setPlayer]
    split <;> split <;> simp_all
  · simp

/-- A money block of `executeTrade` between two different players when the
payer can afford the amount. -/
theorem transferMoney_money (g : GameState) (a b : Nat) (m : Int) (ha : a < g.players.length)
    (hb : b < g.players.length) (hne : a ≠ b) (h0 : 0 ≤ m) (hm : m ≤ (g.getPlayer a).money) :
    ((transferMoney g a b m).getPlayer a).money = (g.getPlayer a).money - m ∧
    ((transferMoney g a b m).getPlayer b).money = (g.getPlayer b).money + m ∧
    (∀ j, j ≠ a → j ≠ b → (transferMoney g a b m).getPlayer j = g.getPlayer j) := by
  unfold transferMoney
  by_cases hpos : m > 0
  · have hge : (g.getPlayer a).money ≥ m := hm
    simp only [hpos, if_true, getPlayer_setPlayer, length_setPlayer, ha, hb, hne, Ne.symm hne,
      and_true, and_self, if_false, false_and, Player.subtractMoney, hge, Player.setMoney_money,
      Player.addMoney_money, true_and]
    intro j hja hjb
    simp [Ne.symm hja, Ne.symm hjb]
  · have h0' : m = 0 := by omega
    subst h0'
    simp

theorem executeTrade_valid (ts : TradeSystem) (gs : GameState) (t : TradeProposal) (f o : Nat)
    (hv : ts.validateTrade gs = .valid) (ht : ts.activeTrade = some t)
    (hf : findIndex (fun p => decide (p.id = t.fromPlayerId)) gs.players = some f)
    (ho : findIndex (fun p => decide (p.id = t.toPlayerId)) gs.players = some o) :
    ts.executeTrade gs = (.success, { ts with activeTrade := none },
      (transferMoney (transferMoney
        (transferTiles (transferTiles gs f o t.offeredProperties) o f t.requestedProperties)
        f o t.offeredMoney) o f t.requestedMoney).addLog .trade) := by
  simp only [executeTrade, hv, ht, hf, ho]

end TradeSystem

open TradeSystem

/-- Claim C3, amended: `executeTrade` changes nothing when validation does
not succeed, and then returns the failure with the reason of `validateTrade`
(or throws where `validateTrade` throws).  When validation succeeds, the
parties are two different players whose properties lists hold no tile twice,
the money amounts are not negative and no tile is both offered and
requested, the proposer's properties are the old ones without the offered
tiles plus the requested tiles, the counterparty's are the old ones without
the requested tiles plus the offered tiles, `propertyOwners` names the
counterparty for every offered tile and the proposer for every requested
tile, the proposer's money changes by requestedMoney - offeredMoney, the
counterparty's by offeredMoney - requestedMoney, `propertyHouses` is
unchanged and the active proposal is cleared. -/
theorem executeTrade_spec (ts : TradeSystem) (gs : GameState) (t : TradeProposal) (f o : Nat) :
    (∀ reason, ts.validateTrade gs = .invalid reason →
      ts.executeTrade gs = (.failure reason, ts, gs)) ∧
    (ts.validateTrade gs = .threw → ts.executeTrade gs = (.threw, ts, gs)) ∧
    (ts.validateTrade gs = .valid → ts.activeTrade = some t →
      findIndex (fun p => decide (p.id = t.fromPlayerId)) gs.players = some f →
      findIndex (fun p => decide (p.id = t.toPlayerId)) gs.players = some o →
      f ≠ o → (gs.getPlayer f).properties.Nodup → (gs.getPlayer o).properties.Nodup →
      0 ≤ t.offeredMoney → 0 ≤ t.requestedMoney →
      (∀ x ∈ t.offeredProperties, x ∉ t.requestedProperties) →
      (ts.executeTrade gs).1 = .success ∧
      (ts.executeTrade gs).2.1.activeTrade = none ∧
      (∀ x, x ∈ ((ts.executeTrade gs).2.2.getPlayer f).properties ↔
        (x ∈ (gs.getPlayer f).properties ∧ x ∉ t.offeredProperties) ∨ x ∈ t.requestedProperties) ∧
      (∀ x, x ∈ ((ts.executeTrade gs).2.2.getPlayer o).properties ↔
        (x ∈ (gs.getPlayer o).properties ∧ x ∉ t.requestedProperties) ∨ x ∈ t.offeredProperties) ∧
      (∀ x ∈ t.offeredProperties,
        (ts.executeTrade gs).2.2.propertyOwners x = some (gs.getPlayer o).id) ∧
      (∀ x ∈ t.requestedProperties,
        (ts.executeTrade gs).2.2.propertyOwners x = some (gs.getPlayer f).id) ∧
      ((ts.executeTrade gs).2.2.getPlayer f).money
        = (gs.getPlayer f).money + (t.requestedMoney - t.offeredMoney) ∧
      ((ts.executeTrade gs).2.2.getPlayer o).money
        = (gs.getPlayer o).money + (t.offeredMoney - t.requestedMoney) ∧
      (ts.executeTrade gs).2.2.propertyHouses = gs.propertyHouses) := by
  refine ⟨?_, ?_, ?_⟩
  · intro reason h; simp only [executeTrade, h]
  · intro h; simp only [executeTrade, h]
  · intro hv ht hf ho hne hndf hndo h0a h0b hdisj
    obtain ⟨t', f', o', ht', hf', ho', _, _, _, _, hmf, hmo, _⟩ := validateTrade_valid ts gs hv
    have e1 : t' = t := by rw [ht] at ht'; exact (Option.some.inj ht').symm
    subst e1
    have e2 : f' = f := by rw [hf] at hf'; exact (Option.some.inj hf').symm
    have e3 : o' = o := by rw [ho] at ho'; exact (Option.some.inj ho').symm
    subst e2; subst e3
    have hfl := (findIndex_some _ _ _ hf).1
    have hol := (findIndex_some _ _ _ ho).1
    rw [executeTrade_valid ts gs t' f' o' hv ht hf ho]
    -- first loop
    obtain ⟨a1, a2, a3, _, a5, a6⟩ :=
      foldl_transferTile f' o' t'.offeredProperties gs hfl hol hne
    -- second loop
    obtain ⟨b1, b2, b3, _, b5, b6⟩ :=
      foldl_transferTile o' f' t'.requestedProperties
        (transferTiles gs f' o' t'.offeredProperties)
        (by rw [a1]; exact hol) (by rw [a1]; exact hfl)
        (Ne.symm hne)
    have hlen2 : (transferTiles (transferTiles gs f' o' t'.offeredProperties) o' f'
        t'.requestedProperties).players.length = gs.players.length := by
      rw [b1]; exact a1
    have ff1 := Player.foldl_removeProperty_fields t'.offeredProperties (gs.getPlayer f')
    have fo1 := Player.foldl_addProperty_fields t'.offeredProperties (gs.getPlayer o')
    have ff2 := Player.foldl_addProperty_fields t'.requestedProperties
      (t'.offeredProperties.foldl Player.removeProperty (gs.getPlayer f'))
    have fo2 := Player.foldl_removeProperty_fields t'.requestedProperties
      (t'.offeredProperties.foldl Player.addProperty (gs.getPlayer o'))
    have b2' : (transferTiles (transferTiles gs f' o' t'.offeredProperties) o' f'
        t'.requestedProperties).getPlayer o'
        = t'.requestedProperties.foldl Player.removeProperty
            (t'.offeredProperties.foldl Player.addProperty (gs.getPlayer o')) := by
      rw [b2, a3]
    have b3' : (transferTiles (transferTiles gs f' o' t'.offeredProperties) o' f'
        t'.requestedProperties).getPlayer f'
        = t'.requestedProperties.foldl Player.addProperty
            (t'.offeredProperties.foldl Player.removeProperty (gs.getPlayer f')) := by
      rw [b3, a2]
    -- money blocks
    have hm2f : ((transferTiles (transferTiles gs f' o' t'.offeredProperties) o' f'
        t'.requestedProperties).getPlayer f').money = (gs.getPlayer f').money := by
      rw [b3', ff2.1, ff1.1]
    have hm2o : ((transferTiles (transferTiles gs f' o' t'.offeredProperties) o' f'
        t'.requestedProperties).getPlayer o').money = (gs.getPlayer o').money := by
      rw [b2', fo2.1, fo1.1]
    obtain ⟨c1, c2, _⟩ := transferMoney_money
      (transferTiles (transferTiles gs f' o' t'.offeredProperties) o' f' t'.requestedProperties)
      f' o' t'.offeredMoney (by rw [hlen2]; exact hfl) (by rw [hlen2]; exact hol) hne h0a
      (by rw [hm2f]; exact hmf)
    obtain ⟨d1, d2, _⟩ := transferMoney_money
      (transferMoney (transferTiles (transferTiles gs f' o' t'.offeredProperties) o' f'
        t'.requestedProperties) f' o' t'.offeredMoney)
      o' f' t'.requestedMoney (by simp [hlen2, hol]) (by simp [hlen2, hfl]) (Ne.symm hne) h0b
      (by rw [c2, hm2o]; omega)
    refine ⟨rfl, rfl, ?_, ?_, ?_, ?_, ?_, ?_, ?_⟩
    · intro x
      simp only [getPlayer_addLog]
      rw [(transferMoney_fields _ _ _ _ _).1, (transferMoney_fields _ _ _ _ _).1, b3',
        Player.mem_foldl_addProperty, Player.mem_foldl_removeProperty _ _ hndf]
    · intro x
      simp only [getPlayer_addLog]
      rw [(transferMoney_fields _ _ _ _ _).1, (transferMoney_fields _ _ _ _ _).1, b2',
        Player.mem_foldl_removeProperty _ _ (Player.nodup_foldl_addProperty _ _ hndo),
        Player.mem_foldl_addProperty]
      constructor
      · rintro ⟨h1 | h1, h2⟩
        · exact Or.inl ⟨h1, h2⟩
        · exact Or.inr h1
      · rintro (⟨h1, h2⟩ | h1)
        · exact ⟨Or.inl h1, h2⟩
        · exact ⟨Or.inr h1, hdisj x h1⟩
    · intro x hx
      simp only [propertyOwners_addLog, propertyOwners_transferMoney]
      rw [b6 x, if_neg (hdisj x hx), a6 x, if_pos hx]
    · intro x hx
      simp only [propertyOwners_addLog, propertyOwners_transferMoney]
      rw [b6 x, if_pos hx, a2, ff1.2.1]
    · simp only [getPlayer_addLog]
      rw [d2, c1, hm2f]; omega
    · simp only [getPlayer_addLog]
      rw [d1, c2, hm2o]; omega
    · simp only [propertyHouses_addLog, propertyHouses_transferMoney]
      rw [b5, a5]

end Fortunopoly

namespace Fortunopoly
open GameState

namespace GameState

theorem foldl_preserves {α : Type} (P : GameState → Prop) (f : GameState → α → GameState)
    (hf : ∀ s x, P s → P (f s x)) (l : List α) (s : GameState) (h : P s) : P (l.foldl f s) := by
  induction l generalizing s with
  | nil => exact h
  | cons x rest ih => exact ih _ (hf s x h)

theorem MoneyOk.money_setPlayer {s : GameState} (h : s.MoneyOk) (i : Nat) (p : Player)
    (hp : 0 ≤ p.money) : (s.setPlayer i p).MoneyOk := by
  intro j
  rw [getPlayer_setPlayer]
  split
  · exact hp
  · exact h j

theorem MoneyOk.money_of_players {s s1 : GameState} (h : s.MoneyOk) (e : s1.players = s.players) :
    s1.MoneyOk := by
  intro j
  have : s1.getPlayer j = s.getPlayer j := by simp [getPlayer, e]
  rw [this]; exact h j

theorem MoneyOk.money_addLog {s : GameState} (h : s.MoneyOk) (t : LogType) : (s.addLog t).MoneyOk :=
  h.money_of_players rfl

theorem MoneyOk.money_subtract {s : GameState} (h : s.MoneyOk) (j : Nat) (a : Int) :
    0 ≤ ((s.getPlayer j).subtractMoney a).2.money := by
  rw [Player.subtractMoney_money]
  split
  · omega
  · exact h j

theorem MoneyOk.money_declareBankruptcy {s : GameState} (h : s.MoneyOk) (i : Nat) (c : Option Nat) :
    (s.declareBankruptcy i c).MoneyOk := by
  have h1 : ((s.setPlayer i (s.getPlayer i).goBankrupt).addLog .jail).MoneyOk :=
    (h.money_setPlayer i _ (by simp)).money_addLog _
  have h2 : (bankruptcyCore s i c).MoneyOk := by
    unfold bankruptcyCore
    cases c with
    | none =>
      simp only
      have h3 : ∀ l : List Nat, (l.foldl bankTakes
          ((s.setPlayer i (s.getPlayer i).goBankrupt).addLog .jail)).MoneyOk := fun l =>
        foldl_preserves MoneyOk bankTakes (fun st x hst => hst.money_of_players rfl) l _ h1
      exact (h3 _).money_setPlayer i _ (by simpa using h3 _ i)
    | some c =>
      simp only
      have h3 : ∀ l : List Nat, (l.foldl (creditorTakes c)
          ((s.setPlayer i (s.getPlayer i).goBankrupt).addLog .jail)).MoneyOk := fun l =>
        foldl_preserves MoneyOk (creditorTakes c)
          (fun st x hst => by
            unfold creditorTakes
            exact (hst.money_setPlayer c _ (by simpa using hst c)).money_of_players rfl) l _ h1
      exact ((h3 _).money_addLog _).money_setPlayer i _ (by simpa using h3 _ i)
  rw [declareBankruptcy_eq]
  split
  · exact h2.money_of_players rfl
  · exact h2

end GameState
end Fortunopoly

namespace Fortunopoly
open GameState

namespace Player

theorem moveSpaces_money (p : Player) (n : Int) (h : 0 ≤ p.money) :
    0 ≤ (p.moveSpaces n).2.money := by
  simp only [moveSpaces]
  split_ifs <;> simp [START_BONUS] <;> omega

theorem moveTo_money (p : Player) (n : Int) (b : Bool) (h : 0 ≤ p.money) :
    0 ≤ (p.moveTo n b).2.money := by
  simp only [moveTo]
  split_ifs <;> simp [START_BONUS] <;> omega

@[simp] theorem goToJail_money (p : Player) : p.goToJail.money = p.money := rfl
@[simp] theorem leaveJail_money (p : Player) : p.leaveJail.money = p.money := rfl
@[simp] theorem incrementJailTurn_money (p : Player) :
    p.incrementJailTurn.2.money = p.money := rfl
@[simp] theorem setJailFreeCard_money (p : Player) (b : Bool) :
    (p.setJailFreeCard b).money = p.money := rfl
@[simp] theorem setMortgaged_money (p : Player) (l : List Nat) :
    (p.setMortgaged l).money = p.money := rfl

end Player

theorem board_price_nonneg : ∀ t ∈ TILES, ∀ price, t.price = some price → 0 ≤ price := by decide

namespace GameState

theorem MoneyOk.money_setHouses {s : GameState} (h : s.MoneyOk) (t : Nat) (n : Int) :
    (s.setHouses t n).MoneyOk := h
theorem MoneyOk.money_setOwner {s : GameState} (h : s.MoneyOk) (t k : Nat) :
    (s.setOwner t k).MoneyOk := h
theorem MoneyOk.money_setConsecutiveDoubles {s : GameState} (h : s.MoneyOk) (n : Nat) :
    (s.setConsecutiveDoubles n).MoneyOk := h
theorem MoneyOk.money_setFreeParkingPot {s : GameState} (h : s.MoneyOk) (v : Option Int) :
    (s.setFreeParkingPot v).MoneyOk := h
theorem MoneyOk.money_setLastDiceRoll {s : GameState} (h : s.MoneyOk) (v : Int × Int) :
    (s.setLastDiceRoll v).MoneyOk := h

theorem MoneyOk.money_rollDice {s : GameState} (h : s.MoneyOk) (d1 d2 : Int) :
    (s.rollDice d1 d2).2.MoneyOk := by
  simp only [GameState.rollDice]
  split_ifs <;> exact h

theorem MoneyOk.money_moveCurrentPlayer {s : GameState} (h : s.MoneyOk) (n : Int) :
    (s.moveCurrentPlayer n).2.MoneyOk := by
  simp only [GameState.moveCurrentPlayer]
  have h1 := h.money_setPlayer s.currentPlayerIndex _ (Player.moveSpaces_money _ n (h s.currentPlayerIndex))
  split_ifs
  · exact h1.money_addLog _
  · exact h1

theorem MoneyOk.money_buyProperty {s : GameState} (h : s.MoneyOk) (i : Nat) (tile : Tile) :
    (s.buyProperty i tile).2.MoneyOk := by
  unfold GameState.buyProperty
  cases tile.price with
  | none => exact h
  | some price =>
    by_cases hm : (s.getPlayer i).money ≥ price
    · simp only [Player.subtractMoney, hm, if_true]
      exact (((h.money_setPlayer i _ (by simp; omega)).money_setOwner _ _).money_setHouses _ _).money_addLog _
    · simp only [Player.subtractMoney, hm, if_false]
      exact h

theorem MoneyOk.money_buildHouse {s : GameState} (h : s.MoneyOk) (i : Nat) (tile : Tile) :
    (s.buildHouse i tile).2.MoneyOk := by
  rcases buildHouse_cases s i tile with ⟨_, e⟩ | ⟨hp, _, _, _, _, hge, _, e⟩
  · rw [e]; exact h
  · rw [e]; exact ((h.money_setPlayer i _ (by simp; omega)).money_setHouses _ _).money_addLog _

theorem MoneyOk.money_sabotageProperty {s : GameState} (h : s.MoneyOk) (i : Nat) (tile : Tile) :
    (s.sabotageProperty i tile).2.MoneyOk := by
  have h1 : ((s.setPlayer i ((s.getPlayer i).subtractMoney 150).2).setHouses
      tile.id ((s.propertyHouses tile.id).getD 0 - 1)).MoneyOk :=
    (h.money_setPlayer i _ (h.money_subtract i 150)).money_setHouses _ _
  simp only [GameState.sabotageProperty]
  split_ifs
  · exact h
  · exact h
  · split
    · exact h1
    · exact h1.money_addLog _
  · exact h

theorem MoneyOk.money_mortgageProperty {s : GameState} (h : s.MoneyOk) (i : Nat) (tile : Tile)
    (hboard : tile ∈ TILES) (r : MortgageResult × GameState)
    (hr : s.mortgageProperty i tile = some r) : r.2.MoneyOk := by
  simp only [GameState.mortgageProperty] at hr
  split_ifs at hr
  · cases hr; exact h
  · cases hr; exact h
  · cases hr; exact h
  · cases hp : tile.price with
    | none => simp [hp] at hr
    | some price =>
      simp only [hp, Option.some.injEq] at hr
      subst hr
      have := board_price_nonneg tile hboard price hp
      exact (h.money_setPlayer i _ (by have := h i; simp; omega)).money_addLog _
  · cases hr; exact h

theorem MoneyOk.money_unmortgageProperty {s : GameState} (h : s.MoneyOk) (i : Nat) (tile : Tile) :
    (s.unmortgageProperty i tile).2.MoneyOk := by
  simp only [GameState.unmortgageProperty]
  split_ifs
  · exact h
  · cases tile.price with
    | none => exact h
    | some price =>
      simp only
      generalize price / 2 + -(-(price / 2) / 10) = cost
      have h1 := h.money_subtract i cost
      split
      · exact (h.money_setPlayer i _ (by simpa using h1)).money_addLog _
      · exact h
  · exact h

theorem MoneyOk.money_payRent {s : GameState} (h : s.MoneyOk) (i o : Nat) (amount : Int)
    (ha : 0 ≤ amount) : (s.payRent i o amount).2.MoneyOk := by
  by_cases hm : (s.getPlayer i).money ≥ amount
  · have e : s.payRent i o amount = (true,
        ((s.setPlayer i ((s.getPlayer i).setMoney ((s.getPlayer i).money - amount))).setPlayer o
          (((s.setPlayer i ((s.getPlayer i).setMoney ((s.getPlayer i).money - amount))).getPlayer
            o).addMoney amount)).addLog .rent) := by
      simp only [GameState.payRent, Player.subtractMoney, hm, if_true]
    rw [e]
    have h1 := h.money_setPlayer i ((s.getPlayer i).setMoney ((s.getPlayer i).money - amount))
      (sub_nonneg.2 hm)
    exact (h1.money_setPlayer o _ (add_nonneg (h1 o) ha)).money_addLog _
  · have e : s.payRent i o amount = (false,
        (((s.setPlayer i ((s.getPlayer i).setMoney 0)).setPlayer o
          (((s.setPlayer i ((s.getPlayer i).setMoney 0)).getPlayer o).addMoney
            (s.getPlayer i).money)).addLog .rent).declareBankruptcy i (some o)) := by
      simp only [GameState.payRent, Player.subtractMoney, hm, if_false, Bool.false_eq_true]
    rw [e]
    dsimp only
    have h1 := h.money_setPlayer i ((s.getPlayer i).setMoney 0) (le_refl _)
    have h2 := h1.money_setPlayer o (((s.setPlayer i ((s.getPlayer i).setMoney 0)).getPlayer o).addMoney
      (s.getPlayer i).money) (add_nonneg (h1 o) (h i))
    exact (h2.money_addLog _).money_declareBankruptcy i _

theorem MoneyOk.money_processTax {s : GameState} (h : s.MoneyOk) (i : Nat) (tile : Tile) :
    (s.processTax i tile).2.MoneyOk := by
  have hfail : ((((s.setPlayer i ((s.getPlayer i).setMoney 0)).addLog .rent).addLog
      .rent).declareBankruptcy i none).MoneyOk :=
    (((h.money_setPlayer i _ (by simp)).money_addLog _).money_addLog _).money_declareBankruptcy i none
  simp only [GameState.processTax]
  cases tile.amount with
  | none =>
    simp only [Bool.false_eq_true, if_false]
    split_ifs
    · exact (hfail.money_setFreeParkingPot _).money_addLog _
    · exact hfail
  | some a =>
    simp only
    have hok : ((s.setPlayer i ((s.getPlayer i).subtractMoney a).2).addLog .rent).MoneyOk :=
      (h.money_setPlayer i _ (h.money_subtract i a)).money_addLog _
    split_ifs
    · exact (hok.money_setFreeParkingPot _).money_addLog _
    · exact hok
    · exact (hfail.money_setFreeParkingPot _).money_addLog _
    · exact hfail

theorem MoneyOk.money_sendToJail {s : GameState} (h : s.MoneyOk) (i : Nat) :
    (s.sendToJail i).2.MoneyOk := by
  unfold GameState.sendToJail
  exact ((h.money_setPlayer i _ (by simpa using h i)).money_setConsecutiveDoubles _).money_addLog _

theorem MoneyOk.money_processPropertyLanding {s : GameState} (h : s.MoneyOk) (i : Nat) (tile : Tile) :
    (s.processPropertyLanding i tile).2.MoneyOk := by
  simp only [GameState.processPropertyLanding]
  split
  · split_ifs
    · exact h
    · exact h.money_addLog _
  · split_ifs
    · exact h.money_addLog _
    · exact h.money_addLog _
    · exact h

theorem MoneyOk.money_processChanceCard {s : GameState} (h : s.MoneyOk) (d : Decks) (rnd : Nat → Nat)
    (tile : Option Tile) : (s.processChanceCard d rnd tile).2.1.MoneyOk := by
  simp only [GameState.processChanceCard]
  split_ifs <;> exact h.money_addLog _

theorem MoneyOk.money_processLanding {s : GameState} (h : s.MoneyOk) (d : Decks) (rnd : Nat → Nat)
    (i : Nat) : (s.processLanding d rnd i).2.1.MoneyOk := by
  simp only [GameState.processLanding]
  split
  · exact h
  · split
    · split_ifs
      · exact ((h.money_addLog _).money_setPlayer i _ (by have := h i; simp [START_BONUS]; omega)).money_addLog _
      · exact h.money_addLog _
    · exact h.money_processPropertyLanding i _
    · exact h.money_processPropertyLanding i _
    · exact h.money_processPropertyLanding i _
    · exact h.money_processChanceCard d rnd _
    · exact h.money_processTax i _
    · exact h.money_addLog _
    · exact h.money_sendToJail i
    · split_ifs with hj
      · cases hp : s.freeParkingPot with
        | none => simp [hp] at hj
        | some pot =>
          simp only [hp, Bool.and_eq_true, decide_eq_true_eq] at hj
          refine ((h.money_setPlayer i ((s.getPlayer i).addMoney (Option.getD (some pot) 0)) ?_).money_addLog
            .card).money_setFreeParkingPot _
          have := h i; simp; omega
      · exact h.money_addLog _

end GameState
end Fortunopoly

namespace Fortunopoly
open GameState

theorem foldl_keeps {σ α : Type} (P : σ → Prop) (f : σ → α → σ)
    (hf : ∀ s x, P s → P (f s x)) (l : List α) (s : σ) (h : P s) : P (l.foldl f s) := by
  induction l generalizing s with
  | nil => exact h
  | cons x rest ih => exact ih _ (hf s x h)

theorem deck_amounts_fortune : ∀ card ∈ FORTUNE_CARDS, card.amountsOk = true := by decide

theorem deck_amounts_fate : ∀ card ∈ FATE_CARDS, card.amountsOk = true := by decide

theorem Player.subtractMoney_nonneg (p : Player) (a : Int) (hp : 0 ≤ p.money) :
    0 ≤ (p.subtractMoney a).2.money := by
  rw [Player.subtractMoney_money]
  split <;> omega

namespace GameState

theorem MoneyOk.money_takeFromOthers {s : GameState} (h : s.MoneyOk) (i : Nat) (amount : Int)
    (ha : 0 ≤ amount) : (s.takeFromOthers i amount).1.MoneyOk ∧ 0 ≤ (s.takeFromOthers i amount).2 := by
  unfold GameState.takeFromOthers
  refine foldl_keeps (fun acc : GameState × Int => acc.1.MoneyOk ∧ 0 ≤ acc.2) _ ?_ _ (s, 0)
    ⟨h, le_refl _⟩
  rintro ⟨st, n⟩ j ⟨h1, h2⟩
  simp only at h1 h2
  simp only [takeFromOne]
  split_ifs
  · refine ⟨h1.money_setPlayer j _ (h1.money_subtract j _), ?_⟩
    have := h1 j
    simp only
    omega
  · exact ⟨h1, h2⟩

theorem MoneyOk.money_payOne {s : GameState} (h : s.MoneyOk) (amount : Int) (ha : 0 ≤ amount)
    (j : Nat) : (GameState.payOne amount s j).MoneyOk :=
  h.money_setPlayer j _ (add_nonneg (h j) ha)

theorem MoneyOk.money_loseOne {s : GameState} (h : s.MoneyOk) (i : Nat) (amount : Int) (j : Nat) :
    (GameState.loseOne i amount s j).MoneyOk := by
  simp only [GameState.loseOne]
  split_ifs
  · exact h.money_setPlayer j _ (h.money_subtract j _)
  · exact (h.money_setPlayer j _ (le_refl _)).money_declareBankruptcy j none
  · exact h.money_setPlayer j _ (le_refl _)

theorem MoneyOk.money_applyCardEffect {s : GameState} (h : s.MoneyOk) (i : Nat) (card : Card)
    (won : Bool) (hc : card.amountsOk = true) : (s.applyCardEffect i card won).2.MoneyOk := by
  unfold Card.amountsOk at hc
  unfold GameState.applyCardEffect
  cases he : card.effect with
  | money amount =>
    simp only
    split_ifs with h1 h2
    · exact (h.money_setPlayer i _ (add_nonneg (h i) (le_of_lt h1))).money_addLog _
    · exact h.money_declareBankruptcy i none
    · exact (h.money_setPlayer i _ (h.money_subtract i _)).money_addLog _
  | move position collectStart =>
    simp only
    have h1 := h.money_setPlayer i _ (Player.moveTo_money (s.getPlayer i) position collectStart (h i))
    split <;> split_ifs <;> exact h1
  | moveRelative spaces =>
    simp only
    have h1 := h.money_setPlayer i _ (Player.moveSpaces_money (s.getPlayer i) spaces (h i))
    split <;> split_ifs <;> exact h1
  | jail => simp only; exact h.money_sendToJail i
  | jailFree => simp only; exact (h.money_setPlayer i _ (by simpa using h i)).money_addLog _
  | collectFromAll amount =>
    simp only [he, decide_eq_true_eq] at hc
    obtain ⟨h1, h2⟩ := h.money_takeFromOthers i amount hc
    rcases hto : s.takeFromOthers i amount with ⟨s1, collected⟩
    rw [hto] at h1 h2
    simp only [hto]
    exact (h1.money_setPlayer i _ (add_nonneg (h1 i) h2)).money_addLog _
  | payToAll amount =>
    simp only [he, decide_eq_true_eq] at hc
    simp only
    split_ifs
    · refine MoneyOk.money_addLog ?_ _
      exact foldl_keeps MoneyOk _ (fun st j hst => hst.money_payOne amount hc j) _ _
        (h.money_setPlayer i _ (h.money_subtract i _))
    · exact h.money_declareBankruptcy i none
  | payPerProperty amount =>
    simp only
    split_ifs
    · exact (h.money_setPlayer i _ (h.money_subtract i _)).money_addLog _
    · exact h.money_declareBankruptcy i none
  | stealFromRichest amount =>
    simp only [he, decide_eq_true_eq] at hc
    simp only
    split
    · rename_i r _
      have h1 := h.money_setPlayer r _ (h.money_subtract r (min amount (s.getPlayer r).money))
      refine (h1.money_setPlayer i _ (add_nonneg (h1 i) ?_)).money_addLog _
      have := h r
      omega
    · exact h
  | stealFromAll amount =>
    simp only [he, decide_eq_true_eq] at hc
    obtain ⟨h1, h2⟩ := h.money_takeFromOthers i amount hc
    rcases hto : s.takeFromOthers i amount with ⟨s1, collected⟩
    rw [hto] at h1 h2
    simp only [hto]
    exact (h1.money_setPlayer i _ (add_nonneg (h1 i) h2)).money_addLog _
  | stealChoice amount => simp only; exact h
  | freeArson => simp only; exact h
  | everyoneLoses amount =>
    simp only
    refine MoneyOk.money_addLog ?_ _
    exact foldl_keeps MoneyOk _ (fun st j hst => hst.money_loseOne i amount j) _ _ h
  | gamble winAmount loseAmount =>
    simp only [he, decide_eq_true_eq] at hc
    simp only
    split_ifs
    · exact (h.money_setPlayer i _ (add_nonneg (h i) hc)).money_addLog _
    · exact (h.money_setPlayer i _ (h.money_subtract i _)).money_addLog _
    · exact (h.money_addLog _).money_declareBankruptcy i none

theorem MoneyOk.money_processJailTurn {s : GameState} (h : s.MoneyOk) (i : Nat) (d : DiceRoll) :
    (s.processJailTurn i d).2.MoneyOk := by
  simp only [GameState.processJailTurn]
  have h1 := h.money_setPlayer i (s.getPlayer i).incrementJailTurn.2 (h i)
  split_ifs
  · exact (h.money_setPlayer i _ (by simpa using h i)).money_addLog _
  · refine (h1.money_setPlayer i _ ?_).money_addLog _
    have := Player.subtractMoney_nonneg (s.getPlayer i).incrementJailTurn.2 JAIL_BAIL
      (by simpa using h i)
    simpa using this
  · exact h1.money_declareBankruptcy i none
  · exact h1.money_addLog _

theorem MoneyOk.money_payJailBail {s : GameState} (h : s.MoneyOk) (i : Nat) :
    (s.payJailBail i).2.MoneyOk := by
  simp only [GameState.payJailBail]
  split_ifs
  · exact (h.money_setPlayer i _ (by simpa using h i)).money_addLog _
  · refine (h.money_setPlayer i _ ?_).money_addLog _
    have := h.money_subtract i JAIL_BAIL
    simpa using this
  · exact h

theorem endTurnLoop_players (fuel : Nat) (s : GameState) (n c : Nat) :
    (endTurnLoop fuel s n c).1.players = s.players ∧
    (endTurnLoop fuel s n c).1.propertyOwners = s.propertyOwners ∧
    (endTurnLoop fuel s n c).1.propertyHouses = s.propertyHouses := by
  induction fuel generalizing s n c with
  | zero => exact ⟨rfl, rfl, rfl⟩
  | succ k ih =>
    simp only [endTurnLoop]
    split_ifs
    · obtain ⟨a, b, c'⟩ := ih ((s.setRound (s.round + 1)).addLog) ((n + 1) % s.players.length) (c + 1)
      exact ⟨a, b, c'⟩
    · exact ⟨rfl, rfl, rfl⟩
    · exact ih _ _ _
    · exact ⟨rfl, rfl, rfl⟩

theorem endTurn_players (s : GameState) (r : Nat × GameState) (h : s.endTurn = some r) :
    r.2.players = s.players ∧ r.2.propertyOwners = s.propertyOwners ∧
    r.2.propertyHouses = s.propertyHouses := by
  simp only [GameState.endTurn] at h
  split_ifs at h
  simp only [Option.some.injEq] at h
  subst h
  obtain ⟨a, b, c⟩ := endTurnLoop_players (s.setConsecutiveDoubles 0).players.length
    (s.setConsecutiveDoubles 0) (s.setConsecutiveDoubles 0).currentPlayerIndex 0
  exact ⟨a, b, c⟩

end GameState
end Fortunopoly

namespace Fortunopoly
open GameState

namespace GameState

theorem MoneyOk.money_transferTile {s : GameState} (h : s.MoneyOk) (g k t : Nat) :
    (TradeSystem.transferTile g k s t).MoneyOk := by
  unfold TradeSystem.transferTile
  have h1 := h.money_setPlayer g ((s.getPlayer g).removeProperty t) (h g)
  exact (h1.money_setPlayer k _ (by simpa using h1 k)).money_setOwner _ _

theorem MoneyOk.money_transferMoney {s : GameState} (h : s.MoneyOk) (a b : Nat) (m : Int) :
    (TradeSystem.transferMoney s a b m).MoneyOk := by
  simp only [TradeSystem.transferMoney]
  split_ifs with hm
  · have h1 := h.money_setPlayer a _ (h.money_subtract a m)
    exact h1.money_setPlayer b _ (add_nonneg (h1 b) (le_of_lt hm))
  · exact h

theorem MoneyOk.money_executeTrade {s : GameState} (h : s.MoneyOk) (ts : TradeSystem) :
    (ts.executeTrade s).2.2.MoneyOk := by
  unfold TradeSystem.executeTrade
  split
  · exact h
  · exact h
  · split
    · exact h
    · split
      · refine MoneyOk.money_addLog ?_ _
        refine MoneyOk.money_transferMoney (MoneyOk.money_transferMoney ?_ _ _ _) _ _ _
        unfold TradeSystem.transferTiles
        exact foldl_keeps MoneyOk _ (fun st t hst => hst.money_transferTile _ _ t) _ _
          (foldl_keeps MoneyOk _ (fun st t hst => hst.money_transferTile _ _ t) _ _ h)
      · exact h

theorem getPlayer_mem_or_default (s : GameState) (j : Nat) :
    s.getPlayer j ∈ s.players ∨ s.getPlayer j = default := by
  by_cases hj : j < s.players.length
  · exact Or.inl (getPlayer_mem s j hj)
  · right
    simp [getPlayer, List.getD_eq_getElem?_getD, List.getElem?_eq_none (Nat.le_of_not_lt hj)]

theorem init_players (pd : List PlayerData) (rules : HouseRules) (s : GameState)
    (h : GameState.init pd rules = some s) :
    s.players = pd.enum.map (fun x =>
      ({ createPlayer x.1 with
          isBot := x.2.isBot, botDifficulty := x.2.botDifficulty.getD .medium } : Player)) ∧
    s.propertyOwners = (fun _ => none) ∧ s.propertyHouses = (fun _ => none) := by
  simp only [GameState.init] at h
  split_ifs at h
  simp only [Option.some.injEq] at h
  subst h
  exact ⟨rfl, rfl, rfl⟩

theorem MoneyOk.money_init (pd : List PlayerData) (rules : HouseRules) (s : GameState)
    (h : GameState.init pd rules = some s) : s.MoneyOk := by
  intro j
  rcases getPlayer_mem_or_default s j with hm | hd
  · rw [(init_players pd rules s h).1, List.mem_map] at hm
    obtain ⟨x, _, hx⟩ := hm
    rw [← hx]
    show (0 : Int) ≤ 1500
    decide
  · rw [hd]; decide

theorem MoneyOk.money_run {s : GameState} (h : s.MoneyOk) (c : EngineCall) (hw : c.WellFormed s) :
    (c.run s).MoneyOk := by
  cases c with
  | rollDice d1 d2 => exact h.money_rollDice d1 d2
  | moveCurrentPlayer n => exact h.money_moveCurrentPlayer n
  | processLanding i d rnd => exact h.money_processLanding d rnd i
  | buyProperty i tile => exact h.money_buyProperty i tile
  | buildHouse i tile => exact h.money_buildHouse i tile
  | sabotageProperty i tile => exact h.money_sabotageProperty i tile
  | mortgageProperty i tile =>
    simp only [EngineCall.run]
    cases hr : s.mortgageProperty i tile with
    | none => exact h
    | some r => exact h.money_mortgageProperty i tile hw.2 r hr
  | unmortgageProperty i tile => exact h.money_unmortgageProperty i tile
  | payRent i o amount => exact h.money_payRent i o amount hw.2.2
  | processTax i tile => exact h.money_processTax i tile
  | applyCardEffect i card won =>
    refine h.money_applyCardEffect i card won ?_
    rcases hw.2 with hc | hc
    · exact deck_amounts_fortune card hc
    · exact deck_amounts_fate card hc
  | sendToJail i => exact h.money_sendToJail i
  | processJailTurn i d => exact h.money_processJailTurn i d
  | payJailBail i => exact h.money_payJailBail i
  | declareBankruptcy i c => exact h.money_declareBankruptcy i c
  | endTurn =>
    simp only [EngineCall.run]
    cases hr : s.endTurn with
    | none => exact h
    | some r => exact h.money_of_players (endTurn_players s r hr).1
  | executeTrade ts => exact h.money_executeTrade ts

end GameState

/-- Claim C1: in every state reached from `GameState.init` by any sequence
of engine calls (moveCurrentPlayer, processLanding, buyProperty, buildHouse,
sabotageProperty, mortgageProperty, unmortgageProperty, payRent with an
amount that is not negative, processTax, applyCardEffect with any card of
the two decks and either outcome of the coin, processJailTurn, payJailBail,
declareBankruptcy, endTurn, also rollDice and sendToJail) and by
`TradeSystem.executeTrade` on any proposal, every player's money is at
least 0. -/
theorem money_nonneg_of_reachable (s : GameState) (h : Reachable s) :
    ∀ p ∈ s.players, 0 ≤ p.money := by
  have hok : s.MoneyOk := by
    induction h with
    | init pd rules s hs => exact MoneyOk.money_init pd rules s hs
    | step s c _ hw ih => exact ih.money_run c hw
  intro p hp
  obtain ⟨i, _, rfl⟩ := exists_index_of_mem s p hp
  exact hok i

end Fortunopoly

namespace Fortunopoly
open GameState

namespace GameState

/-- A state change that touches no id, no properties list and no owner. -/
theorem OwnershipOk.frame {s s1 : GameState} (h : s.OwnershipOk)
    (hlen : s1.players.length = s.players.length)
    (hown : s1.propertyOwners = s.propertyOwners)
    (hid : ∀ j, (s1.getPlayer j).id = (s.getPlayer j).id)
    (hprops : ∀ j, (s1.getPlayer j).properties = (s.getPlayer j).properties) :
    s1.OwnershipOk := by
  refine ⟨?_, ?_, ?_, ?_⟩
  · intro i hi; rw [hid]; exact h.ids i (hlen ▸ hi)
  · intro i; rw [hprops]; exact h.nodup i
  · intro i j t hi hj; rw [hprops, hprops]; exact h.unique i j t (hlen ▸ hi) (hlen ▸ hj)
  · intro i t hi; rw [hprops, hown]; exact h.ledger i t (hlen ▸ hi)

/-- Tile `t` moves to player `k`. -/
theorem OwnershipOk.move {s s1 : GameState} (h : s.OwnershipOk) (t k : Nat)
    (hk : k < s.players.length)
    (hlen : s1.players.length = s.players.length)
    (hown : s1.propertyOwners = setKey s.propertyOwners t k)
    (hid : ∀ j, (s1.getPlayer j).id = (s.getPlayer j).id)
    (hnd : ∀ j, (s1.getPlayer j).properties.Nodup)
    (hpk : ∀ u, u ∈ (s1.getPlayer k).properties ↔ u ∈ (s.getPlayer k).properties ∨ u = t)
    (hpj : ∀ j, j ≠ k → ∀ u,
      u ∈ (s1.getPlayer j).properties ↔ u ∈ (s.getPlayer j).properties ∧ u ≠ t) :
    s1.OwnershipOk := by
  have mem_t : ∀ a, t ∈ (s1.getPlayer a).properties → a = k := by
    intro a ha
    by_contra hak
    exact ((hpj a hak t).1 ha).2 rfl
  have mem_ne : ∀ a u, u ≠ t → (u ∈ (s1.getPlayer a).properties ↔ u ∈ (s.getPlayer a).properties) := by
    intro a u hu
    by_cases hak : a = k
    · subst hak; rw [hpk]; simp [hu]
    · rw [hpj a hak]; simp [hu]
  refine ⟨?_, hnd, ?_, ?_⟩
  · intro i hi; rw [hid]; exact h.ids i (hlen ▸ hi)
  · intro i j u hi hj hui huj
    by_cases hu : u = t
    · subst hu; rw [mem_t i hui, mem_t j huj]
    · exact h.unique i j u (hlen ▸ hi) (hlen ▸ hj) ((mem_ne i u hu).1 hui) ((mem_ne j u hu).1 huj)
  · intro i u hi
    rw [hown]
    by_cases hu : u = t
    · subst hu
      simp only [setKey, if_true, Option.some.injEq]
      constructor
      · intro e; subst e; exact (hpk u).2 (Or.inr rfl)
      · intro hm; exact (mem_t i hm).symm
    · simp only [setKey, hu, if_false]
      rw [mem_ne i u hu]
      exact h.ledger i u (hlen ▸ hi)

/-- The estate of player `i` goes back to the bank. -/
theorem OwnershipOk.toBank {s s1 : GameState} (h : s.OwnershipOk) (i : Nat)
    (hlen : s1.players.length = s.players.length)
    (hown : ∀ t, s1.propertyOwners t
      = if t ∈ (s.getPlayer i).properties then none else s.propertyOwners t)
    (hid : ∀ j, (s1.getPlayer j).id = (s.getPlayer j).id)
    (hpi : (s1.getPlayer i).properties = [])
    (hpj : ∀ j, j ≠ i → (s1.getPlayer j).properties = (s.getPlayer j).properties) :
    s1.OwnershipOk := by
  refine ⟨?_, ?_, ?_, ?_⟩
  · intro a ha; rw [hid]; exact h.ids a (hlen ▸ ha)
  · intro a
    by_cases hai : a = i
    · subst hai; rw [hpi]; exact List.nodup_nil
    · rw [hpj a hai]; exact h.nodup a
  · intro a b t ha hb hta htb
    by_cases hai : a = i
    · subst hai; rw [hpi] at hta; cases hta
    · by_cases hbi : b = i
      · subst hbi; rw [hpi] at htb; cases htb
      · rw [hpj a hai] at hta; rw [hpj b hbi] at htb
        exact h.unique a b t (hlen ▸ ha) (hlen ▸ hb) hta htb
  · intro a t ha
    have ha' : a < s.players.length := hlen ▸ ha
    rw [hown]
    by_cases hai : a = i
    · subst hai
      rw [hpi]
      split
      · simp
      · rename_i hn
        simp only [List.not_mem_nil, iff_false]
        intro e; exact hn ((h.ledger a t ha').1 e)
    · rw [hpj a hai]
      split
      · rename_i hm
        refine ⟨fun e => (by cases e), fun hta => ?_⟩
        exfalso
        by_cases hi : i < s.players.length
        · exact hai (h.unique a i t ha' hi hta hm)
        · have : (s.getPlayer i).properties = [] := by
            simp [getPlayer, List.getD_eq_getElem?_getD,
              List.getElem?_eq_none (Nat.le_of_not_lt hi)]
            rfl
          rw [this] at hm; cases hm
      · exact h.ledger a t ha'

/-- The estate of player `i` goes to another player `c`. -/
theorem OwnershipOk.toCreditor {s s1 : GameState} (h : s.OwnershipOk) (i c : Nat)
    (hi : i < s.players.length) (hc : c < s.players.length) (hne : i ≠ c)
    (hlen : s1.players.length = s.players.length)
    (hown : ∀ t, s1.propertyOwners t
      = if t ∈ (s.getPlayer i).properties then some c else s.propertyOwners t)
    (hid : ∀ j, (s1.getPlayer j).id = (s.getPlayer j).id)
    (hpi : (s1.getPlayer i).properties = [])
    (hndc : (s1.getPlayer c).properties.Nodup)
    (hpc : ∀ u, u ∈ (s1.getPlayer c).properties
      ↔ u ∈ (s.getPlayer c).properties ∨ u ∈ (s.getPlayer i).properties)
    (hpj : ∀ j, j ≠ i → j ≠ c → (s1.getPlayer j).properties = (s.getPlayer j).properties) :
    s1.OwnershipOk := by
  have old_of_new : ∀ a t, a < s.players.length → t ∈ (s1.getPlayer a).properties →
      (a ≠ i ∧ (t ∈ (s.getPlayer a).properties ∨ (a = c ∧ t ∈ (s.getPlayer i).properties))) := by
    intro a t _ hta
    by_cases hai : a = i
    · subst hai; rw [hpi] at hta; cases hta
    · refine ⟨hai, ?_⟩
      by_cases hac : a = c
      · subst hac
        rcases (hpc t).1 hta with h1 | h1
        · exact Or.inl h1
        · exact Or.inr ⟨rfl, h1⟩
      · rw [hpj a hai hac] at hta; exact Or.inl hta
  refine ⟨?_, ?_, ?_, ?_⟩
  · intro a ha; rw [hid]; exact h.ids a (hlen ▸ ha)
  · intro a
    by_cases hai : a = i
    · subst hai; rw [hpi]; exact List.nodup_nil
    · by_cases hac : a = c
      · subst hac; exact hndc
      · rw [hpj a hai hac]; exact h.nodup a
  · intro a b t ha hb hta htb
    have ha' : a < s.players.length := hlen ▸ ha
    have hb' : b < s.players.length := hlen ▸ hb
    obtain ⟨hai, h1⟩ := old_of_new a t ha' hta
    obtain ⟨hbi, h2⟩ := old_of_new b t hb' htb
    rcases h1 with h1 | ⟨rfl, h1⟩
    · rcases h2 with h2 | ⟨rfl, h2⟩
      · exact h.unique a b t ha' hb' h1 h2
      · exact absurd (h.unique a i t ha' hi h1 h2) hai
    · rcases h2 with h2 | ⟨rfl, h2⟩
      · exact absurd (h.unique b i t hb' hi h2 h1) hbi
      · rfl
  · intro a t ha
    have ha' : a < s.players.length := hlen ▸ ha
    rw [hown]
    by_cases hti : t ∈ (s.getPlayer i).properties
    · simp only [hti, if_true, Option.some.injEq]
      constructor
      · intro e; subst e; exact (hpc t).2 (Or.inr hti)
      · intro hta
        obtain ⟨hai, h1⟩ := old_of_new a t ha' hta
        rcases h1 with h1 | ⟨rfl, _⟩
        · exact absurd (h.unique a i t ha' hi h1 hti) hai
        · rfl
    · simp only [hti, if_false]
      rw [h.ledger a t ha']
      by_cases hai : a = i
      · subst hai; rw [hpi]; simp [hti]
      · by_cases hac : a = c
        · subst hac; rw [hpc]; simp [hti]
        · rw [hpj a hai hac]

end GameState
end Fortunopoly

namespace Fortunopoly
open GameState

namespace Player

@[simp] theorem moveSpaces_id (p : Player) (n : Int) : (p.moveSpaces n).2.id = p.id := by
  simp only [moveSpaces]; split_ifs <;> rfl
@[simp] theorem moveSpaces_properties (p : Player) (n : Int) :
    (p.moveSpaces n).2.properties = p.properties := by
  simp only [moveSpaces]; split_ifs <;> rfl
@[simp] theorem moveTo_id (p : Player) (n : Int) (b : Bool) : (p.moveTo n b).2.id = p.id := by
  simp only [moveTo]; split_ifs <;> rfl
@[simp] theorem moveTo_properties (p : Player) (n : Int) (b : Bool) :
    (p.moveTo n b).2.properties = p.properties := by
  simp only [moveTo]; split_ifs <;> rfl
@[simp] theorem goToJail_id (p : Player) : p.goToJail.id = p.id := rfl
@[simp] theorem goToJail_properties (p : Player) : p.goToJail.properties = p.properties := rfl
@[simp] theorem leaveJail_id (p : Player) : p.leaveJail.id = p.id := rfl
@[simp] theorem leaveJail_properties (p : Player) : p.leaveJail.properties = p.properties := rfl
@[simp] theorem incrementJailTurn_id (p : Player) : p.incrementJailTurn.2.id = p.id := rfl
@[simp] theorem incrementJailTurn_properties (p : Player) :
    p.incrementJailTurn.2.properties = p.properties := rfl
@[simp] theorem setJailFreeCard_id (p : Player) (b : Bool) : (p.setJailFreeCard b).id = p.id := rfl
@[simp] theorem setJailFreeCard_properties (p : Player) (b : Bool) :
    (p.setJailFreeCard b).properties = p.properties := rfl
@[simp] theorem setMortgaged_id (p : Player) (l : List Nat) : (p.setMortgaged l).id = p.id := rfl
@[simp] theorem setMortgaged_properties (p : Player) (l : List Nat) :
    (p.setMortgaged l).properties = p.properties := rfl

end Player

namespace GameState

theorem Own.own_same {n : Nat} {s s1 : GameState} (h : Own n s)
    (hlen : s1.players.length = s.players.length)
    (hown : s1.propertyOwners = s.propertyOwners)
    (hid : ∀ j, (s1.getPlayer j).id = (s.getPlayer j).id)
    (hprops : ∀ j, (s1.getPlayer j).properties = (s.getPlayer j).properties) : Own n s1 :=
  ⟨h.1.frame hlen hown hid hprops, hlen.trans h.2⟩

theorem Own.own_addLog {n : Nat} {s : GameState} (h : Own n s) (t : LogType) : Own n (s.addLog t) :=
  h.own_same rfl rfl (fun _ => rfl) (fun _ => rfl)
theorem Own.own_setHouses {n : Nat} {s : GameState} (h : Own n s) (t : Nat) (v : Int) :
    Own n (s.setHouses t v) := h.own_same rfl rfl (fun _ => rfl) (fun _ => rfl)
theorem Own.own_setConsecutiveDoubles {n : Nat} {s : GameState} (h : Own n s) (v : Nat) :
    Own n (s.setConsecutiveDoubles v) := h.own_same rfl rfl (fun _ => rfl) (fun _ => rfl)
theorem Own.own_setFreeParkingPot {n : Nat} {s : GameState} (h : Own n s) (v : Option Int) :
    Own n (s.setFreeParkingPot v) := h.own_same rfl rfl (fun _ => rfl) (fun _ => rfl)
theorem Own.own_setLastDiceRoll {n : Nat} {s : GameState} (h : Own n s) (v : Int × Int) :
    Own n (s.setLastDiceRoll v) := h.own_same rfl rfl (fun _ => rfl) (fun _ => rfl)
theorem Own.own_endGame {n : Nat} {s : GameState} (h : Own n s) : Own n s.endGame :=
  h.own_same rfl rfl (fun _ => rfl) (fun _ => rfl)

theorem Own.own_setPlayer {n : Nat} {s : GameState} (h : Own n s) (i : Nat) (p : Player)
    (hid : p.id = (s.getPlayer i).id) (hp : p.properties = (s.getPlayer i).properties) :
    Own n (s.setPlayer i p) := by
  refine h.own_same (by simp) rfl ?_ ?_
  · intro j; rw [getPlayer_setPlayer]; split
    · rename_i hj; rw [hid, hj.1]
    · rfl
  · intro j; rw [getPlayer_setPlayer]; split
    · rename_i hj; rw [hp, hj.1]
    · rfl

theorem declareBankruptcy_length (s : GameState) (i : Nat) (c : Option Nat) :
    (s.declareBankruptcy i c).players.length = s.players.length := by
  rw [declareBankruptcy_players]
  unfold bankruptcyCore
  cases c with
  | none =>
    simp only [length_setPlayer]
    rw [(foldl_bankTakes _ _).1]; simp
  | some c =>
    simp only [length_setPlayer, players_addLog]
    have : ∀ (l : List Nat) (st : GameState),
        (l.foldl (creditorTakes c) st).players.length = st.players.length := by
      intro l
      induction l with
      | nil => intro st; rfl
      | cons t rest ih => intro st; simp only [List.foldl_cons]; rw [ih]; simp [creditorTakes]
    rw [this]; simp

theorem Own.own_declareBankruptcy {n : Nat} {s : GameState} (h : Own n s) (i : Nat)
    (cr : Option Nat) (hi : i < n) (hcr : ∀ c, cr = some c → c < n ∧ c ≠ i) :
    Own n (s.declareBankruptcy i cr) := by
  obtain ⟨hok, hlen⟩ := h
  have hi' : i < s.players.length := hlen ▸ hi
  refine ⟨?_, (declareBankruptcy_length s i cr).trans hlen⟩
  have hcore : (bankruptcyCore s i cr).OwnershipOk := by
    cases cr with
    | none =>
      obtain ⟨h1, h2, h3, _, h5⟩ := bankruptcyCore_bank s i hi'
      refine hok.toBank i h1 h5 ?_ (by rw [h2]; rfl) (fun j hj => by rw [h3 j hj])
      intro j
      by_cases hj : j = i
      · subst hj; rw [h2]; rfl
      · rw [h3 j hj]
    | some c =>
      obtain ⟨hc, hci⟩ := hcr c rfl
      have hc' : c < s.players.length := hlen ▸ hc
      obtain ⟨h1, h2, h3, h4, _, h6⟩ := bankruptcyCore_creditor s i c hi' hc' (Ne.symm hci)
      have hf := Player.foldl_addProperty_fields (s.getPlayer i).properties (s.getPlayer c)
      refine hok.toCreditor i c hi' hc' (Ne.symm hci) h1 ?_ ?_ (by rw [h2]; rfl) ?_ ?_ ?_
      · intro t; rw [h6 t, hok.ids c hc']
      · intro j
        by_cases hj : j = i
        · subst hj; rw [h2]; rfl
        · by_cases hjc : j = c
          · subst hjc; rw [h3, hf.2.1]
          · rw [h4 j hj hjc]
      · rw [h3]; exact Player.nodup_foldl_addProperty _ _ (hok.nodup c)
      · intro u; rw [h3, Player.mem_foldl_addProperty]
      · intro j hj hjc; rw [h4 j hj hjc]
  rw [declareBankruptcy_eq]
  split
  · exact hcore.frame rfl rfl (fun _ => rfl) (fun _ => rfl)
  · exact hcore

theorem Own.own_buyProperty {n : Nat} {s : GameState} (h : Own n s) (i : Nat) (tile : Tile)
    (hi : i < n) (hfree : ∀ j, tile.id ∉ (s.getPlayer j).properties) :
    Own n (s.buyProperty i tile).2 := by
  obtain ⟨hok, hlen⟩ := h
  have hi' : i < s.players.length := hlen ▸ hi
  unfold GameState.buyProperty
  cases tile.price with
  | none => exact ⟨hok, hlen⟩
  | some price =>
    by_cases hm : (s.getPlayer i).money ≥ price
    · simp only [Player.subtractMoney, hm, if_true]
      refine ⟨?_, by simpa using hlen⟩
      refine hok.move tile.id i hi' (by simp) ?_ ?_ ?_ ?_ ?_
      · simp [getPlayer_setPlayer, hi', hok.ids i hi']
      · intro j; simp only [getPlayer_addLog, getPlayer_setHouses, getPlayer_setOwner,
          getPlayer_setPlayer]
        split
        · rename_i hj; simp [hj.1]
        · rfl
      · intro j; simp only [getPlayer_addLog, getPlayer_setHouses, getPlayer_setOwner,
          getPlayer_setPlayer]
        split
        · have := Player.nodup_foldl_addProperty [tile.id]
            ((s.getPlayer i).setMoney ((s.getPlayer i).money - price)) (hok.nodup i)
          simpa using this
        · exact hok.nodup j
      · intro u
        simp [getPlayer_setPlayer, hi', Player.mem_addProperty]
      · intro j hj u
        simp only [getPlayer_addLog, getPlayer_setHouses, getPlayer_setOwner,
          getPlayer_setPlayer_of_ne _ _ _ _ (Ne.symm hj)]
        constructor
        · intro hu; exact ⟨hu, fun e => hfree j (e ▸ hu)⟩
        · exact fun hu => hu.1
    · simp only [Player.subtractMoney, hm, if_false]
      exact ⟨hok, hlen⟩

end GameState
end Fortunopoly

namespace Fortunopoly
open GameState

namespace GameState

theorem getPlayer_properties_of_not_lt (s : GameState) (j : Nat) (hj : ¬ j < s.players.length) :
    (s.getPlayer j).properties = [] := by
  simp [getPlayer, List.getD_eq_getElem?_getD, List.getElem?_eq_none (Nat.le_of_not_lt hj)]
  rfl

/-- One tile changes hands in a trade: the records stay consistent and the
two parties together hold the same tiles as before. -/
theorem Own.own_transferTile {n : Nat} {s : GameState} (h : Own n s) (g k t : Nat) (hg : g < n)
    (hk : k < n) (ht : t ∈ (s.getPlayer g).properties ∨ t ∈ (s.getPlayer k).properties) :
    Own n (TradeSystem.transferTile g k s t) ∧
    ∀ u, (u ∈ ((TradeSystem.transferTile g k s t).getPlayer g).properties ∨
          u ∈ ((TradeSystem.transferTile g k s t).getPlayer k).properties) ↔
         (u ∈ (s.getPlayer g).properties ∨ u ∈ (s.getPlayer k).properties) := by
  obtain ⟨hok, hlen⟩ := h
  have hg' : g < s.players.length := hlen ▸ hg
  have hk' : k < s.players.length := hlen ▸ hk
  have hgetk : (TradeSystem.transferTile g k s t).getPlayer k
      = ((s.setPlayer g ((s.getPlayer g).removeProperty t)).getPlayer k).addProperty t := by
    simp [TradeSystem.transferTile, getPlayer_setPlayer, hk']
  have hgetj : ∀ j, j ≠ k → (TradeSystem.transferTile g k s t).getPlayer j
      = (s.setPlayer g ((s.getPlayer g).removeProperty t)).getPlayer j := by
    intro j hj
    simp [TradeSystem.transferTile, getPlayer_setPlayer_of_ne _ _ _ _ (Ne.symm hj)]
  have hmemk : ∀ u, u ∈ ((TradeSystem.transferTile g k s t).getPlayer k).properties
      ↔ u ∈ (s.getPlayer k).properties ∨ u = t := by
    intro u
    rw [hgetk, Player.mem_addProperty, getPlayer_setPlayer]
    split
    · rename_i hgk
      rw [← hgk.1]
      simp only [Player.removeProperty_properties, (hok.nodup g).mem_erase_iff]
      by_cases hu : u = t <;> simp [hu]
    · rfl
  have hmemj : ∀ j, j ≠ k → ∀ u, u ∈ ((TradeSystem.transferTile g k s t).getPlayer j).properties
      ↔ u ∈ (s.getPlayer j).properties ∧ u ≠ t := by
    intro j hj u
    rw [hgetj j hj, getPlayer_setPlayer]
    split
    · rename_i hgj
      rw [← hgj.1]
      simp only [Player.removeProperty_properties, (hok.nodup g).mem_erase_iff]
      tauto
    · rename_i hgj
      constructor
      · intro hu
        refine ⟨hu, ?_⟩
        rintro rfl
        by_cases hjl : j < s.players.length
        · rcases ht with ht | ht
          · exact hgj ⟨hok.unique g j u hg' hjl ht hu, hg'⟩
          · exact hj (hok.unique j k u hjl hk' hu ht)
        · rw [getPlayer_properties_of_not_lt s j hjl] at hu; cases hu
      · exact fun hu => hu.1
  refine ⟨⟨?_, by simp [TradeSystem.transferTile, hlen]⟩, ?_⟩
  · refine hok.move t k hk' (by simp [TradeSystem.transferTile]) ?_ ?_ ?_ hmemk hmemj
    · have : (TradeSystem.transferTile g k s t).propertyOwners
          = setKey s.propertyOwners t ((TradeSystem.transferTile g k s t).getPlayer k).id := by
        simp [TradeSystem.transferTile]
      rw [this, hgetk, Player.addProperty_id, getPlayer_setPlayer]
      split
      · rename_i hgk; rw [Player.removeProperty_id, hgk.1, hok.ids k hk']
      · rw [hok.ids k hk']
    · intro j
      by_cases hj : j = k
      · subst hj
        rw [hgetk, Player.addProperty_id, getPlayer_setPlayer]
        split
        · rename_i hgk; rw [Player.removeProperty_id, hgk.1]
        · rfl
      · rw [hgetj j hj, getPlayer_setPlayer]
        split
        · rename_i hgj; rw [Player.removeProperty_id, hgj.1]
        · rfl
    · intro j
      have hnd1 : ∀ j, ((s.setPlayer g ((s.getPlayer g).removeProperty t)).getPlayer
          j).properties.Nodup := by
        intro j
        rw [getPlayer_setPlayer]
        split
        · exact (hok.nodup g).erase t
        · exact hok.nodup j
      by_cases hj : j = k
      · subst hj
        rw [hgetk]
        exact Player.nodup_foldl_addProperty [t] _ (hnd1 j)
      · rw [hgetj j hj]; exact hnd1 j
  · intro u
    by_cases hgk : g = k
    · subst hgk
      rw [hmemk]
      constructor
      · rintro ((h1 | rfl) | (h1 | rfl))
        · exact Or.inl h1
        · exact ht
        · exact Or.inl h1
        · exact ht
      · rintro (h1 | h1) <;> exact Or.inl (Or.inl h1)
    · rw [hmemk, hmemj g hgk]
      constructor
      · rintro (⟨h1, _⟩ | h1 | rfl)
        · exact Or.inl h1
        · exact Or.inr h1
        · exact ht
      · rintro (h1 | h1)
        · by_cases hu : u = t
          · exact Or.inr (Or.inr hu)
          · exact Or.inl ⟨h1, hu⟩
        · exact Or.inr (Or.inl h1)

/-- A transfer loop of a trade over tiles the two parties hold. -/
theorem Own.own_transferTiles {n : Nat} (g k : Nat) (hg : g < n) (hk : k < n) (tiles : List Nat)
    (s : GameState) (h : Own n s)
    (ht : ∀ t ∈ tiles, t ∈ (s.getPlayer g).properties ∨ t ∈ (s.getPlayer k).properties) :
    Own n (TradeSystem.transferTiles s g k tiles) ∧
    ∀ u, (u ∈ ((TradeSystem.transferTiles s g k tiles).getPlayer g).properties ∨
          u ∈ ((TradeSystem.transferTiles s g k tiles).getPlayer k).properties) ↔
         (u ∈ (s.getPlayer g).properties ∨ u ∈ (s.getPlayer k).properties) := by
  unfold TradeSystem.transferTiles
  induction tiles generalizing s with
  | nil => exact ⟨h, fun u => Iff.rfl⟩
  | cons t rest ih =>
    simp only [List.foldl_cons]
    obtain ⟨h1, h2⟩ := h.own_transferTile g k t hg hk (ht t (List.mem_cons_self _ _))
    obtain ⟨h3, h4⟩ := ih (TradeSystem.transferTile g k s t) h1
      (fun x hx => (h2 x).2 (ht x (List.mem_cons_of_mem _ hx)))
    exact ⟨h3, fun u => (h4 u).trans (h2 u)⟩

theorem Own.own_transferMoney {n : Nat} {s : GameState} (h : Own n s) (a b : Nat) (m : Int) :
    Own n (TradeSystem.transferMoney s a b m) := by
  simp only [TradeSystem.transferMoney]
  split_ifs
  · exact (h.own_setPlayer a _ (by simp) (by simp)).own_setPlayer b _ (by simp) (by simp)
  · exact h

theorem checkTiles_valid (gs : GameState) (who : Nat) (tiles : List Nat)
    (h : TradeSystem.checkTiles gs who tiles = .valid) :
    ∀ t ∈ tiles, t ∈ (gs.getPlayer who).properties := by
  induction tiles with
  | nil => intro t ht; cases ht
  | cons x rest ih =>
    simp only [TradeSystem.checkTiles] at h
    split_ifs at h with h1 h2
    · split at h <;> cases h
    · split at h <;> cases h
    · intro t ht
      rcases List.mem_cons.1 ht with rfl | ht
      · simpa [Player.ownsProperty] using h1
      · exact ih h t ht

theorem Own.own_executeTrade {n : Nat} {s : GameState} (h : Own n s) (ts : TradeSystem) :
    Own n (ts.executeTrade s).2.2 := by
  cases hv : ts.validateTrade s with
  | invalid r => simp only [TradeSystem.executeTrade, hv]; exact h
  | threw => simp only [TradeSystem.executeTrade, hv]; exact h
  | valid =>
    obtain ⟨t, f, o, ht, hf, ho, _, _, hc1, hc2, _⟩ := TradeSystem.validateTrade_valid ts s hv
    rw [TradeSystem.executeTrade_valid ts s t f o hv ht hf ho]
    have hfl : f < n := h.2 ▸ (findIndex_some _ _ _ hf).1
    have hol : o < n := h.2 ▸ (findIndex_some _ _ _ ho).1
    obtain ⟨h1, h2⟩ := Own.own_transferTiles f o hfl hol t.offeredProperties s h
      (fun x hx => Or.inl (checkTiles_valid s f _ hc1 x hx))
    obtain ⟨h3, _⟩ := Own.own_transferTiles o f hol hfl t.requestedProperties _ h1
      (fun x hx => Or.comm.1 ((h2 x).2 (Or.inr (checkTiles_valid s o _ hc2 x hx))))
    exact ((h3.own_transferMoney _ _ _).own_transferMoney _ _ _).own_addLog _

end GameState
end Fortunopoly

namespace Fortunopoly
open GameState

theorem foldl_keeps_mem {σ α : Type} (P : σ → Prop) (f : σ → α → σ) (l : List α)
    (hf : ∀ s x, x ∈ l → P s → P (f s x)) (s : σ) (h : P s) : P (l.foldl f s) := by
  induction l generalizing s with
  | nil => exact h
  | cons x rest ih =>
    exact ih (fun s y hy hs => hf s y (List.mem_cons_of_mem _ hy) hs) _
      (hf s x (List.mem_cons_self _ _) h)

namespace GameState

theorem mem_getActivePlayers (s : GameState) (j : Nat) (h : j ∈ s.getActivePlayers) :
    j < s.players.length := by
  unfold getActivePlayers at h
  exact List.mem_range.1 (List.mem_filter.1 h).1

theorem Own.own_rollDice {n : Nat} {s : GameState} (h : Own n s) (d1 d2 : Int) :
    Own n (s.rollDice d1 d2).2 := by
  simp only [GameState.rollDice]
  split_ifs <;> exact (h.own_setLastDiceRoll _).own_setConsecutiveDoubles _

theorem Own.own_moveCurrentPlayer {n : Nat} {s : GameState} (h : Own n s) (m : Int) :
    Own n (s.moveCurrentPlayer m).2 := by
  simp only [GameState.moveCurrentPlayer]
  have h1 := h.own_setPlayer s.currentPlayerIndex ((s.getPlayer s.currentPlayerIndex).moveSpaces m).2
    (by simp) (by simp)
  split_ifs
  · exact h1.own_addLog _
  · exact h1

theorem Own.own_buildHouse {n : Nat} {s : GameState} (h : Own n s) (i : Nat) (tile : Tile) :
    Own n (s.buildHouse i tile).2 := by
  rcases buildHouse_cases s i tile with ⟨_, e⟩ | ⟨hp, _, _, _, _, hge, _, e⟩
  · rw [e]; exact h
  · rw [e]; exact ((h.own_setPlayer i _ (by simp) (by simp)).own_setHouses _ _).own_addLog _

theorem Own.own_sabotageProperty {n : Nat} {s : GameState} (h : Own n s) (i : Nat) (tile : Tile) :
    Own n (s.sabotageProperty i tile).2 := by
  have h1 : Own n ((s.setPlayer i ((s.getPlayer i).subtractMoney 150).2).setHouses
      tile.id ((s.propertyHouses tile.id).getD 0 - 1)) :=
    (h.own_setPlayer i _ (by simp) (by simp)).own_setHouses _ _
  simp only [GameState.sabotageProperty]
  split_ifs
  · exact h
  · exact h
  · split
    · exact h1
    · exact h1.own_addLog _
  · exact h

theorem Own.own_mortgageProperty {n : Nat} {s : GameState} (h : Own n s) (i : Nat) (tile : Tile)
    (r : MortgageResult × GameState) (hr : s.mortgageProperty i tile = some r) : Own n r.2 := by
  simp only [GameState.mortgageProperty] at hr
  split_ifs at hr
  · cases hr; exact h
  · cases hr; exact h
  · cases hr; exact h
  · cases hp : tile.price with
    | none => simp [hp] at hr
    | some price =>
      simp only [hp, Option.some.injEq] at hr
      subst hr
      exact (h.own_setPlayer i _ (by simp) (by simp)).own_addLog _
  · cases hr; exact h

theorem Own.own_unmortgageProperty {n : Nat} {s : GameState} (h : Own n s) (i : Nat) (tile : Tile) :
    Own n (s.unmortgageProperty i tile).2 := by
  simp only [GameState.unmortgageProperty]
  split_ifs
  · exact h
  · cases tile.price with
    | none => exact h
    | some price =>
      simp only
      generalize price / 2 + -(-(price / 2) / 10) = cost
      split
      · exact (h.own_setPlayer i _ (by simp) (by simp)).own_addLog _
      · exact h
  · exact h

theorem Own.own_payRent {n : Nat} {s : GameState} (h : Own n s) (i o : Nat) (amount : Int)
    (hi : i < n) (ho : o < n) (hne : i ≠ o) : Own n (s.payRent i o amount).2 := by
  by_cases hm : (s.getPlayer i).money ≥ amount
  · have e : s.payRent i o amount = (true,
        ((s.setPlayer i ((s.getPlayer i).setMoney ((s.getPlayer i).money - amount))).setPlayer o
          (((s.setPlayer i ((s.getPlayer i).setMoney ((s.getPlayer i).money - amount))).getPlayer
            o).addMoney amount)).addLog .rent) := by
      simp only [GameState.payRent, Player.subtractMoney, hm, if_true]
    rw [e]
    exact ((h.own_setPlayer i _ (by simp) (by simp)).own_setPlayer o _ (by simp) (by simp)).own_addLog _
  · have e : s.payRent i o amount = (false,
        (((s.setPlayer i ((s.getPlayer i).setMoney 0)).setPlayer o
          (((s.setPlayer i ((s.getPlayer i).setMoney 0)).getPlayer o).addMoney
            (s.getPlayer i).money)).addLog .rent).declareBankruptcy i (some o)) := by
      simp only [GameState.payRent, Player.subtractMoney, hm, if_false, Bool.false_eq_true]
    rw [e]
    dsimp only
    refine Own.own_declareBankruptcy ?_ i (some o) hi ?_
    · exact ((h.own_setPlayer i _ (by simp) (by simp)).own_setPlayer o _ (by simp) (by simp)).own_addLog _
    · intro c hc
      cases hc
      exact ⟨ho, Ne.symm hne⟩

theorem Own.own_processTax {n : Nat} {s : GameState} (h : Own n s) (i : Nat) (tile : Tile)
    (hi : i < n) : Own n (s.processTax i tile).2 := by
  have hfail : Own n ((((s.setPlayer i ((s.getPlayer i).setMoney 0)).addLog .rent).addLog
      .rent).declareBankruptcy i none) :=
    Own.own_declareBankruptcy (((h.own_setPlayer i _ (by simp) (by simp)).own_addLog _).own_addLog _) i none hi
      (fun c hc => by cases hc)
  simp only [GameState.processTax]
  cases tile.amount with
  | none =>
    simp only [Bool.false_eq_true, if_false]
    split_ifs
    · exact (hfail.own_setFreeParkingPot _).own_addLog _
    · exact hfail
  | some a =>
    simp only
    have hok : Own n ((s.setPlayer i ((s.getPlayer i).subtractMoney a).2).addLog .rent) :=
      (h.own_setPlayer i _ (by simp) (by simp)).own_addLog _
    split_ifs
    · exact (hok.own_setFreeParkingPot _).own_addLog _
    · exact hok
    · exact (hfail.own_setFreeParkingPot _).own_addLog _
    · exact hfail

theorem Own.own_sendToJail {n : Nat} {s : GameState} (h : Own n s) (i : Nat) :
    Own n (s.sendToJail i).2 := by
  unfold GameState.sendToJail
  exact ((h.own_setPlayer i _ (by simp) (by simp)).own_setConsecutiveDoubles _).own_addLog _

theorem Own.own_processPropertyLanding {n : Nat} {s : GameState} (h : Own n s) (i : Nat)
    (tile : Tile) : Own n (s.processPropertyLanding i tile).2 := by
  simp only [GameState.processPropertyLanding]
  split
  · split_ifs
    · exact h
    · exact h.own_addLog _
  · split_ifs
    · exact h.own_addLog _
    · exact h.own_addLog _
    · exact h

theorem Own.own_processChanceCard {n : Nat} {s : GameState} (h : Own n s) (d : Decks)
    (rnd : Nat → Nat) (tile : Option Tile) : Own n (s.processChanceCard d rnd tile).2.1 := by
  simp only [GameState.processChanceCard]
  split_ifs <;> exact h.own_addLog _

theorem Own.own_processLanding {n : Nat} {s : GameState} (h : Own n s) (d : Decks)
    (rnd : Nat → Nat) (i : Nat) (hi : i < n) : Own n (s.processLanding d rnd i).2.1 := by
  simp only [GameState.processLanding]
  split
  · exact h
  · split
    · split_ifs
      · exact ((h.own_addLog _).own_setPlayer i _ (by simp) (by simp)).own_addLog _
      · exact h.own_addLog _
    · exact h.own_processPropertyLanding i _
    · exact h.own_processPropertyLanding i _
    · exact h.own_processPropertyLanding i _
    · exact h.own_processChanceCard d rnd _
    · exact h.own_processTax i _ hi
    · exact h.own_addLog _
    · exact h.own_sendToJail i
    · split_ifs
      · exact ((h.own_setPlayer i _ (by simp) (by simp)).own_addLog _).own_setFreeParkingPot _
      · exact h.own_addLog _

theorem Own.own_takeFromOthers {n : Nat} {s : GameState} (h : Own n s) (i : Nat) (amount : Int) :
    Own n (s.takeFromOthers i amount).1 := by
  unfold GameState.takeFromOthers
  refine foldl_keeps (fun acc : GameState × Int => Own n acc.1) _ ?_ _ (s, 0) h
  rintro ⟨st, m⟩ j h1
  simp only at h1
  simp only [takeFromOne]
  split_ifs
  · exact h1.own_setPlayer j _ (by simp) (by simp)
  · exact h1

theorem Own.own_payOne {n : Nat} {s : GameState} (h : Own n s) (amount : Int) (j : Nat) :
    Own n (GameState.payOne amount s j) :=
  h.own_setPlayer j _ (by simp) (by simp)

theorem Own.own_loseOne {n : Nat} {s : GameState} (h : Own n s) (i : Nat) (amount : Int) (j : Nat)
    (hj : j < n) : Own n (GameState.loseOne i amount s j) := by
  simp only [GameState.loseOne]
  split_ifs
  · exact h.own_setPlayer j _ (by simp) (by simp)
  · exact Own.own_declareBankruptcy (h.own_setPlayer j _ (by simp) (by simp)) j none hj
      (fun c hc => by cases hc)
  · exact h.own_setPlayer j _ (by simp) (by simp)

theorem Own.own_applyCardEffect {n : Nat} {s : GameState} (h : Own n s) (i : Nat) (card : Card)
    (won : Bool) (hi : i < n) : Own n (s.applyCardEffect i card won).2 := by
  have hb : Own n (s.declareBankruptcy i none) :=
    Own.own_declareBankruptcy h i none hi (fun c hc => by cases hc)
  unfold GameState.applyCardEffect
  cases he : card.effect with
  | money amount =>
    simp only
    split_ifs
    · exact (h.own_setPlayer i _ (by simp) (by simp)).own_addLog _
    · exact hb
    · exact (h.own_setPlayer i _ (by simp) (by simp)).own_addLog _
  | move position collectStart =>
    simp only
    have h1 := h.own_setPlayer i ((s.getPlayer i).moveTo position collectStart).2 (by simp) (by simp)
    split <;> split_ifs <;> first | exact h1 | exact h1.own_addLog _ | exact (h1.own_addLog _).own_addLog _
  | moveRelative spaces =>
    simp only
    have h1 := h.own_setPlayer i ((s.getPlayer i).moveSpaces spaces).2 (by simp) (by simp)
    split <;> split_ifs <;> first | exact h1 | exact h1.own_addLog _ | exact (h1.own_addLog _).own_addLog _
  | jail => simp only; exact h.own_sendToJail i
  | jailFree => simp only; exact (h.own_setPlayer i _ (by simp) (by simp)).own_addLog _
  | collectFromAll amount =>
    have h1 := h.own_takeFromOthers i amount
    rcases hto : s.takeFromOthers i amount with ⟨s1, collected⟩
    rw [hto] at h1
    simp only [hto]
    exact (h1.own_setPlayer i _ (by simp) (by simp)).own_addLog _
  | payToAll amount =>
    simp only
    split_ifs
    · refine Own.own_addLog ?_ _
      exact foldl_keeps (Own n) _ (fun st j hst => hst.own_payOne amount j) _ _
        (h.own_setPlayer i _ (by simp) (by simp))
    · exact hb
  | payPerProperty amount =>
    simp only
    split_ifs
    · exact (h.own_setPlayer i _ (by simp) (by simp)).own_addLog _
    · exact hb
  | stealFromRichest amount =>
    simp only
    split
    · rename_i r _
      exact ((h.own_setPlayer r _ (by simp) (by simp)).own_setPlayer i _ (by simp) (by simp)).own_addLog _
    · exact h
  | stealFromAll amount =>
    have h1 := h.own_takeFromOthers i amount
    rcases hto : s.takeFromOthers i amount with ⟨s1, collected⟩
    rw [hto] at h1
    simp only [hto]
    exact (h1.own_setPlayer i _ (by simp) (by simp)).own_addLog _
  | stealChoice amount => simp only; exact h
  | freeArson => simp only; exact h
  | everyoneLoses amount =>
    simp only
    refine Own.own_addLog ?_ _
    refine foldl_keeps_mem (Own n) _ _ (fun st j hj hst => hst.own_loseOne i amount j ?_) _ h
    exact h.2 ▸ mem_getActivePlayers s j hj
  | gamble winAmount loseAmount =>
    simp only
    split_ifs
    · exact (h.own_setPlayer i _ (by simp) (by simp)).own_addLog _
    · exact (h.own_setPlayer i _ (by simp) (by simp)).own_addLog _
    · exact Own.own_declareBankruptcy (h.own_addLog _) i none hi (fun c hc => by cases hc)

theorem Own.own_processJailTurn {n : Nat} {s : GameState} (h : Own n s) (i : Nat) (d : DiceRoll)
    (hi : i < n) : Own n (s.processJailTurn i d).2 := by
  simp only [GameState.processJailTurn]
  have h1 := h.own_setPlayer i (s.getPlayer i).incrementJailTurn.2 (by simp) (by simp)
  have hi1 : i < s.players.length := h.2 ▸ hi
  split_ifs
  · exact (h.own_setPlayer i _ (by simp) (by simp)).own_addLog _
  · exact (h1.own_setPlayer i _ (by simp [getPlayer_setPlayer, hi1])
      (by simp [getPlayer_setPlayer, hi1])).own_addLog _
  · exact Own.own_declareBankruptcy h1 i none hi (fun c hc => by cases hc)
  · exact h1.own_addLog _

theorem Own.own_payJailBail {n : Nat} {s : GameState} (h : Own n s) (i : Nat) :
    Own n (s.payJailBail i).2 := by
  simp only [GameState.payJailBail]
  split_ifs
  · exact (h.own_setPlayer i _ (by simp) (by simp)).own_addLog _
  · exact (h.own_setPlayer i _ (by simp) (by simp)).own_addLog _
  · exact h

end GameState
end Fortunopoly

namespace Fortunopoly
open GameState

namespace GameState

theorem init_getPlayer (pd : List PlayerData) (rules : HouseRules) (s : GameState)
    (h : GameState.init pd rules = some s) :
    s.players.length = pd.length ∧
    (∀ i, i < s.players.length → (s.getPlayer i).id = i) ∧
    (∀ i, (s.getPlayer i).properties = []) := by
  obtain ⟨hp, _, _⟩ := init_players pd rules s h
  have hlen : s.players.length = pd.length := by rw [hp]; simp [List.enum_length]
  refine ⟨hlen, ?_, ?_⟩
  · intro i hi
    have hi' : i < pd.length := hlen ▸ hi
    simp only [getPlayer, List.getD_eq_getElem?_getD, hp, List.getElem?_map, List.getElem?_enum,
      List.getElem?_eq_getElem hi', Option.map_some', Option.getD_some]
    rfl
  · intro i
    rcases getPlayer_mem_or_default s i with hm | hd
    · rw [hp, List.mem_map] at hm
      obtain ⟨x, _, hx⟩ := hm
      rw [← hx]; rfl
    · rw [hd]; rfl

theorem Own.own_init (pd : List PlayerData) (rules : HouseRules) (s : GameState)
    (h : GameState.init pd rules = some s) : Own s.players.length s := by
  obtain ⟨_, hid, hprops⟩ := init_getPlayer pd rules s h
  obtain ⟨_, hown, _⟩ := init_players pd rules s h
  refine ⟨⟨hid, ?_, ?_, ?_⟩, rfl⟩
  · intro i; rw [hprops]; exact List.nodup_nil
  · intro i j t _ _ hi; rw [hprops] at hi; cases hi
  · intro i t _; rw [hprops, hown]; simp

theorem Own.own_run {n : Nat} {s : GameState} (h : Own n s) (c : EngineCall) (hw : c.WellFormed s)
    (hg : c.Guarded s) : Own n (c.run s) := by
  have hlen := h.2
  cases c with
  | rollDice d1 d2 => exact h.own_rollDice d1 d2
  | moveCurrentPlayer m => exact h.own_moveCurrentPlayer m
  | processLanding i d rnd => exact h.own_processLanding d rnd i (hlen ▸ hw)
  | buyProperty i tile =>
    refine h.own_buyProperty i tile (hlen ▸ hw.1) ?_
    intro j
    by_cases hj : j < s.players.length
    · exact hg j hj
    · rw [getPlayer_properties_of_not_lt s j hj]; simp
  | buildHouse i tile => exact h.own_buildHouse i tile
  | sabotageProperty i tile => exact h.own_sabotageProperty i tile
  | mortgageProperty i tile =>
    simp only [EngineCall.run]
    cases hr : s.mortgageProperty i tile with
    | none => exact h
    | some r => exact h.own_mortgageProperty i tile r hr
  | unmortgageProperty i tile => exact h.own_unmortgageProperty i tile
  | payRent i o amount => exact h.own_payRent i o amount (hlen ▸ hw.1) (hlen ▸ hw.2.1) hg
  | processTax i tile => exact h.own_processTax i tile (hlen ▸ hw.1)
  | applyCardEffect i card won => exact h.own_applyCardEffect i card won (hlen ▸ hw.1)
  | sendToJail i => exact h.own_sendToJail i
  | processJailTurn i d => exact h.own_processJailTurn i d (hlen ▸ hw)
  | payJailBail i => exact h.own_payJailBail i
  | declareBankruptcy i cr =>
    refine Own.own_declareBankruptcy h i cr (hlen ▸ hw.1) ?_
    intro c hc
    refine ⟨hlen ▸ hw.2 c hc, ?_⟩
    rintro rfl
    exact hg hc
  | endTurn =>
    simp only [EngineCall.run]
    cases hr : s.endTurn with
    | none => exact h
    | some r =>
      obtain ⟨hp, ho, _⟩ := endTurn_players s r hr
      exact h.own_same (by rw [hp]) ho (fun j => by simp [getPlayer, hp])
        (fun j => by simp [getPlayer, hp])
  | executeTrade ts => exact h.own_executeTrade ts

end GameState

/-- Claim C2, amended: in every state reached from `GameState.init` by
engine calls and `TradeSystem.executeTrade`, where buyProperty is called only
on a tile that no player holds, and payRent and declareBankruptcy name a
payee or creditor other than the player who pays, every tile id is in at
most one player's properties list (and at most once in it), and
`propertyOwners[t]` equals a player's id exactly when that player's list
contains `t`. -/
theorem ownership_of_reachableGuarded (s : GameState) (h : ReachableGuarded s) :
    (∀ i j t, i < s.players.length → j < s.players.length →
      t ∈ (s.getPlayer i).properties → t ∈ (s.getPlayer j).properties → i = j) ∧
    (∀ i t, i < s.players.length →
      (s.propertyOwners t = some (s.getPlayer i).id ↔ t ∈ (s.getPlayer i).properties)) ∧
    (∀ i, (s.getPlayer i).properties.Nodup) := by
  have hok : s.OwnershipOk := by
    have : ∃ n, Own n s := by
      induction h with
      | init pd rules s hs => exact ⟨_, Own.own_init pd rules s hs⟩
      | step s c _ hw hg ih =>
        obtain ⟨n, hn⟩ := ih
        exact ⟨n, hn.own_run c hw hg⟩
    exact this.choose_spec.1
  refine ⟨hok.unique, ?_, hok.nodup⟩
  intro i t hi
  rw [hok.ids i hi]
  exact hok.ledger i t hi

end Fortunopoly

namespace Fortunopoly
open GameState

/-- The fresh two-player game is reachable. -/
theorem reachable_startOfGame : Reachable startOfGame :=
  Reachable.init [{}, {}] {} startOfGame rfl

/-- Two purchases of tile 1 in a row are a sequence of engine calls. -/
theorem reachable_boughtTwice : Reachable boughtTwice :=
  Reachable.step _ _
    (Reachable.step _ _ reachable_startOfGame ⟨by decide, by decide⟩) ⟨by decide, by decide⟩

/-- A bankruptcy with the player as its own creditor is an engine call. -/
theorem reachable_ownCreditor : Reachable ownCreditor :=
  Reachable.step _ _
    (Reachable.step _ _ reachable_startOfGame ⟨by decide, by decide⟩)
    ⟨by decide, fun c hc => by cases hc; decide⟩

/-- Witness for C1: after both players bought tile 1 nobody has negative money. -/
theorem money_nonneg_of_reachable_witness :
    Reachable boughtTwice ∧
    0 ≤ (boughtTwice.getPlayer 0).money ∧ 0 ≤ (boughtTwice.getPlayer 1).money :=
  ⟨reachable_boughtTwice,
   money_nonneg_of_reachable boughtTwice reachable_boughtTwice _
     (getPlayer_mem boughtTwice 0 (by decide)),
   money_nonneg_of_reachable boughtTwice reachable_boughtTwice _
     (getPlayer_mem boughtTwice 1 (by decide))⟩

/-- Counterexample to C2 as stated: after `buyProperty` for player 0 and then
for player 1 on tile 1, the tile is in both properties lists while
`propertyOwners[1]` names player 1 only; and after player 0 bought tile 1 and
`declareBankruptcy(player0, player0)`, `propertyOwners[1]` still names
player 0, whose list is empty. -/
theorem ownership_counterexample :
    (Reachable boughtTwice ∧
      1 ∈ (boughtTwice.getPlayer 0).properties ∧ 1 ∈ (boughtTwice.getPlayer 1).properties ∧
      boughtTwice.propertyOwners 1 = some 1 ∧ (boughtTwice.getPlayer 0).id = 0) ∧
    (Reachable ownCreditor ∧
      ownCreditor.propertyOwners 1 = some (ownCreditor.getPlayer 0).id ∧
      1 ∉ (ownCreditor.getPlayer 0).properties) :=
  ⟨⟨reachable_boughtTwice, by decide, by decide, by decide, by decide⟩,
   ⟨reachable_ownCreditor, by decide, by decide⟩⟩

/-- Two purchases of free tiles are guarded engine calls. -/
theorem reachableGuarded_oneTileEach : ReachableGuarded oneTileEach :=
  ReachableGuarded.step _ _
    (ReachableGuarded.step _ _ (ReachableGuarded.init [{}, {}] {} startOfGame rfl)
      ⟨by decide, by decide⟩ (by unfold EngineCall.Guarded; decide))
    ⟨by decide, by decide⟩ (by unfold EngineCall.Guarded; decide)

/-- Witness for C2, amended: the game in which each player bought one tile. -/
theorem ownership_of_reachableGuarded_witness :
    ReachableGuarded oneTileEach ∧
    oneTileEach.propertyOwners 1 = some (oneTileEach.getPlayer 0).id ∧
    1 ∉ (oneTileEach.getPlayer 1).properties ∧
    (oneTileEach.getPlayer 0).properties.Nodup := by
  have h := ownership_of_reachableGuarded oneTileEach reachableGuarded_oneTileEach
  have h0 : (1 : Nat) ∈ (oneTileEach.getPlayer 0).properties := by decide
  refine ⟨reachableGuarded_oneTileEach, (h.2.1 0 1 (by decide)).2 h0, ?_, h.2.2 0⟩
  intro h1
  exact absurd (h.1 0 1 1 (by decide) (by decide) h0 h1) (by decide)

/-- Counterexample to C3 as stated: both players hold tile 1 and the
proposal of player 0 to player 1 offers tile 1 and requests tile 1.
Validation succeeds and the trade is executed, yet afterwards the
counterparty (player 1) does not hold the offered tile and
`propertyOwners[1]` names the proposer, not the counterparty. -/
theorem executeTrade_counterexample :
    overlapTrade.validateTrade boughtTwice = .valid ∧
    (overlapTrade.executeTrade boughtTwice).1 = .success ∧
    1 ∉ ((overlapTrade.executeTrade boughtTwice).2.2.getPlayer 1).properties ∧
    (overlapTrade.executeTrade boughtTwice).2.2.propertyOwners 1 = some 0 ∧
    (boughtTwice.getPlayer 1).id = 1 := by
  refine ⟨by decide, by decide, by decide, by decide, by decide⟩

/-- Witness for C3, amended: tile 1 and 10 in money against tile 3. -/
theorem executeTrade_spec_witness :
    swapTrade.validateTrade oneTileEach = .valid ∧
    ((swapTrade.executeTrade oneTileEach).2.2.getPlayer 0).money = 1440 + (0 - 10) ∧
    ((swapTrade.executeTrade oneTileEach).2.2.getPlayer 1).money = 1440 + (10 - 0) ∧
    (swapTrade.executeTrade oneTileEach).2.2.propertyOwners 1 = some 1 ∧
    (swapTrade.executeTrade oneTileEach).2.2.propertyOwners 3 = some 0 ∧
    (3 ∈ ((swapTrade.executeTrade oneTileEach).2.2.getPlayer 0).properties) := by
  have h := (executeTrade_spec swapTrade oneTileEach
    { fromPlayerId := 0, toPlayerId := 1, offeredProperties := [1], offeredMoney := 10,
      requestedProperties := [3], requestedMoney := 0 } 0 1).2.2
    (by decide) rfl (by decide) (by decide) (by decide) (by decide) (by decide) (by decide)
    (by decide) (by decide)
  obtain ⟨_, _, h3, _, h5, h6, h7, h8, _⟩ := h
  exact ⟨by decide, h7, h8, h5 1 (by decide), h6 3 (by decide), (h3 3).2 (Or.inr (by decide))⟩

end Fortunopoly

namespace Fortunopoly
open GameState

/-- Witness for C4: a rent of 100 that is paid and a rent of 2000 that is not. -/
theorem payRent_spec_witness :
    (0 < startOfGame.players.length ∧ 1 < startOfGame.players.length ∧ (0 : Nat) ≠ 1) ∧
    ((startOfGame.payRent 0 1 100).1 = true ∧
      ((startOfGame.payRent 0 1 100).2.getPlayer 0).money = 1500 - 100 ∧
      ((startOfGame.payRent 0 1 100).2.getPlayer 1).money = 1500 + 100) ∧
    ((startOfGame.payRent 0 1 2000).1 = false ∧
      ((startOfGame.payRent 0 1 2000).2.getPlayer 1).money = 1500 + 1500 ∧
      ((startOfGame.payRent 0 1 2000).2.getPlayer 0).money = 0 ∧
      ((startOfGame.payRent 0 1 2000).2.getPlayer 0).isBankrupt = true) := by
  have h1 := (payRent_spec startOfGame 0 1 100 (by decide) (by decide) (by decide) (by decide)).1
    (by decide)
  have h2 := (payRent_spec startOfGame 0 1 2000 (by decide) (by decide) (by decide)
    (by decide)).2.1 (by decide)
  exact ⟨⟨by decide, by decide, by decide⟩, h1, h2.1, h2.2.1, h2.2.2.1, h2.2.2.2.1⟩

/-- Witness for C5: the owner holds tiles 1 and 3 at level 0; the rent on tile 1 is 4. -/
theorem calculateRent_spec_witness :
    (tileAt 1 ∈ TILES ∧ brownOwner.properties.Nodup ∧ (tileAt 1).id ∈ brownOwner.properties) ∧
    startOfGame.calculateRent (tileAt 1) brownOwner = some 4 := by
  have h := (calculateRent_spec startOfGame (tileAt 1) brownOwner (by decide) (by decide)
    (by decide) (by decide) (by decide)).1 (by decide)
  obtain ⟨r0, hr0, hrent⟩ := h.2 (by decide)
  have e : r0 = 2 := by
    have : (tileAt 1).rent[0]? = some 2 := by decide
    rw [this] at hr0
    exact (Option.some.inj hr0).symm
  subst e
  exact ⟨⟨by decide, by decide, by decide⟩, hrent.trans (by decide)⟩

/-- Witness for C6: tile 1 mortgaged by its owner. -/
theorem calculateRent_mortgaged_witness :
    (tileAt 1).id ∈ ({ id := 0, properties := [1], mortgagedProperties := [1] } : Player).mortgagedProperties ∧
    startOfGame.calculateRent (tileAt 1)
      { id := 0, properties := [1], mortgagedProperties := [1] } = some 0 :=
  ⟨by decide, calculateRent_mortgaged startOfGame (tileAt 1)
    { id := 0, properties := [1], mortgagedProperties := [1] } (by decide)⟩

/-- Witness for C7: the holder of both brown tiles builds on tile 1. -/
theorem buildHouse_spec_witness :
    0 < brownMonopoly.players.length ∧
    (brownMonopoly.buildHouse 0 (tileAt 1)).1 = true ∧
    ((brownMonopoly.buildHouse 0 (tileAt 1)).2.propertyHouses 1).getD 0 = 0 + 1 ∧
    ((brownMonopoly.buildHouse 0 (tileAt 1)).2.getPlayer 0).money = 1380 - 50 := by
  have h := buildHouse_spec brownMonopoly 0 (tileAt 1) (by decide)
  have ht : (brownMonopoly.buildHouse 0 (tileAt 1)).1 = true :=
    h.1.2 ⟨by decide, by decide, by decide, 50, by decide, by decide⟩
  have h2 := h.2.1 ht 50 (by decide)
  exact ⟨by decide, ht, h2.1, h2.2⟩

/-- Witness for C8: with 1500 in money, tile 1 at 60 leaves 1440, owner and level 0. -/
theorem buyProperty_spec_witness :
    0 < startOfGame.players.length ∧ (startOfGame.getPlayer 0).money = 1500 ∧
    (tileAt 1).price = some 60 ∧
    (startOfGame.buyProperty 0 (tileAt 1)).1 = true ∧
    ((startOfGame.buyProperty 0 (tileAt 1)).2.getPlayer 0).money = 1500 - 60 ∧
    (startOfGame.buyProperty 0 (tileAt 1)).2.propertyOwners 1 = some 0 ∧
    (startOfGame.buyProperty 0 (tileAt 1)).2.propertyHouses 1 = some 0 := by
  have h := buyProperty_spec startOfGame 0 (tileAt 1) (by decide)
  have h2 := h.2.1 60 (by decide) (by decide)
  exact ⟨by decide, by decide, by decide, h.1.2 ⟨60, by decide, by decide⟩, h2.1, h2.2.2.1,
    h2.2.2.2⟩

/-- Witness for C10: player 0 with tile 1 goes bankrupt to player 1 with tile 3. -/
theorem declareBankruptcy_creditor_witness :
    (0 < oneTileEach.players.length ∧ 1 < oneTileEach.players.length) ∧
    ((oneTileEach.declareBankruptcy 0 (some 1)).getPlayer 1).properties.length = 1 + 1 ∧
    (oneTileEach.declareBankruptcy 0 (some 1)).propertyOwners 1 = some 1 ∧
    ((oneTileEach.declareBankruptcy 0 (some 1)).getPlayer 0).money = 0 ∧
    ((oneTileEach.declareBankruptcy 0 (some 1)).getPlayer 0).properties = [] := by
  have h := declareBankruptcy_creditor oneTileEach 0 1 (by decide) (by decide) (by decide)
  exact ⟨⟨by decide, by decide⟩, h.2.1 (by decide), h.2.2.1 1 (by decide), h.2.2.2.2.1,
    h.2.2.2.2.2.2⟩

end Fortunopoly

namespace Fortunopoly
open GameState

/-- Claim C17: for every player and amount, `subtractMoney(amount)` returns
true and lowers the money by exactly the amount (no other field changes) when
the money is at least the amount, and otherwise returns false and leaves the
player as it was; `canAfford(amount)` is the flag `subtractMoney(amount)`
returns. -/
theorem subtractMoney_spec (p : Player) (amount : Int) :
    (p.money ≥ amount →
      (p.subtractMoney amount).1 = true ∧
      (p.subtractMoney amount).2.money = p.money - amount ∧
      (p.subtractMoney amount).2 = { p with money := p.money - amount }) ∧
    (p.money < amount →
      (p.subtractMoney amount).1 = false ∧ (p.subtractMoney amount).2 = p) ∧
    p.canAfford amount = (p.subtractMoney amount).1 ∧
    (p.canAfford amount = true ↔ p.money ≥ amount) := by
  by_cases h : p.money ≥ amount
  · have hlt : ¬ p.money < amount := by omega
    simp [Player.subtractMoney, Player.canAfford, Player.setMoney, h, hlt]
  · have hlt : p.money < amount := by omega
    simp [Player.subtractMoney, Player.canAfford, h, hlt]

/-- Witness for C17: 1500 covers 60 and does not cover 2000. -/
theorem subtractMoney_spec_witness :
    (({ id := 0 } : Player).subtractMoney 60).1 = true ∧
    (({ id := 0 } : Player).subtractMoney 60).2.money = 1500 - 60 ∧
    (({ id := 0 } : Player).subtractMoney 2000).1 = false ∧
    (({ id := 0 } : Player).subtractMoney 2000).2 = { id := 0 } := by
  have h := subtractMoney_spec { id := 0 } 60
  have k := subtractMoney_spec { id := 0 } 2000
  exact ⟨(h.1 (by decide)).1, (h.1 (by decide)).2.1, (k.2.1 (by decide)).1, (k.2.1 (by decide)).2⟩

/-- Claim C20: `sendToJail(player)`, from any position, sets the player's
position to 10, `inJail` to true, `jailTurns` to 0 and `consecutiveDoubles`
to 0, changes no other field of that player and no other player at all (so
no money and no properties change, and nothing is credited for passing
START), and leaves `propertyOwners` and `propertyHouses` as they were.  A
landing on the go-to-jail tile 30 through `processLanding` is exactly this
call. -/
theorem sendToJail_spec (s : GameState) (i : Nat) (hi : i < s.players.length) :
    ((s.sendToJail i).2.getPlayer i).position = 10 ∧
    ((s.sendToJail i).2.getPlayer i).inJail = true ∧
    ((s.sendToJail i).2.getPlayer i).jailTurns = 0 ∧
    (s.sendToJail i).2.consecutiveDoubles = 0 ∧
    (s.sendToJail i).2.getPlayer i
      = { s.getPlayer i with position := 10, inJail := true, jailTurns := 0 } ∧
    (∀ j, j ≠ i → (s.sendToJail i).2.getPlayer j = s.getPlayer j) ∧
    (∀ j, ((s.sendToJail i).2.getPlayer j).money = (s.getPlayer j).money ∧
      ((s.sendToJail i).2.getPlayer j).properties = (s.getPlayer j).properties) ∧
    (s.sendToJail i).2.propertyOwners = s.propertyOwners ∧
    (s.sendToJail i).2.propertyHouses = s.propertyHouses ∧
    (∀ (d : Decks) (rnd : Nat → Nat), (s.getPlayer i).position = 30 →
      s.processLanding d rnd i = (.jailed, (s.sendToJail i).2, d)) := by
  refine ⟨?_, ?_, ?_, ?_, ?_, ?_, ?_, ?_, ?_, ?_⟩
  · simp [sendToJail, getPlayer_setPlayer, hi, Player.goToJail]
  · simp [sendToJail, getPlayer_setPlayer, hi, Player.goToJail]
  · simp [sendToJail, getPlayer_setPlayer, hi, Player.goToJail]
  · simp [sendToJail, setConsecutiveDoubles, addLog]
  · simp [sendToJail, getPlayer_setPlayer, hi, Player.goToJail]
  · intro j hj
    have hji : ¬ i = j := fun e => hj e.symm
    simp [sendToJail, getPlayer_setPlayer, hji]
  · intro j
    by_cases hj : j = i
    · subst hj
      simp [sendToJail, getPlayer_setPlayer, hi, Player.goToJail]
    · have hji : ¬ i = j := fun e => hj e.symm
      simp [sendToJail, getPlayer_setPlayer, hji]
  · simp [sendToJail]
  · simp [sendToJail]
  · intro d rnd hpos
    have ht : getTile 30 = some (tileAt 30) := by decide
    simp [processLanding, hpos, ht]
    rfl

namespace GameState

@[simp] theorem phase_setPlayer (s : GameState) (i : Nat) (p : Player) :
    (s.setPlayer i p).phase = s.phase := rfl
@[simp] theorem phase_addLog (s : GameState) (t : LogType) : (s.addLog t).phase = s.phase := rfl
@[simp] theorem phase_setOwner (s : GameState) (t k : Nat) : (s.setOwner t k).phase = s.phase := rfl
@[simp] theorem phase_deleteOwner (s : GameState) (t : Nat) : (s.deleteOwner t).phase = s.phase := rfl
@[simp] theorem phase_deleteHouses (s : GameState) (t : Nat) :
    (s.deleteHouses t).phase = s.phase := rfl
@[simp] theorem phase_endGame (s : GameState) : s.endGame.phase = .gameOver := rfl

/-- The loops of `declareBankruptcy` do not touch the phase. -/
theorem bankruptcyCore_phase (s : GameState) (i : Nat) (creditor : Option Nat) :
    (bankruptcyCore s i creditor).phase = s.phase := by
  cases creditor with
  | none =>
    simp only [bankruptcyCore, phase_setPlayer]
    exact foldl_preserves (fun st => st.phase = s.phase) bankTakes
      (fun st x h => by simpa [bankTakes] using h) _ _ (by simp)
  | some c =>
    simp only [bankruptcyCore, phase_setPlayer, phase_addLog]
    exact foldl_preserves (fun st => st.phase = s.phase) (creditorTakes c)
      (fun st x h => by simpa [creditorTakes] using h) _ _ (by simp)

/-- The players `getActivePlayers` counts depend on the player list only. -/
theorem getActivePlayers_congr (s s1 : GameState) (h : s1.players = s.players) :
    s1.getActivePlayers = s.getActivePlayers := by
  simp [getActivePlayers, getPlayer, h]

/-- Who is bankrupt after `declareBankruptcy`: the player, and whoever was. -/
theorem bankruptcyCore_isBankrupt (s : GameState) (i : Nat) (creditor : Option Nat)
    (hi : i < s.players.length) :
    (bankruptcyCore s i creditor).players.length = s.players.length ∧
    ∀ j, ((bankruptcyCore s i creditor).getPlayer j).isBankrupt
      = if j = i then true else (s.getPlayer j).isBankrupt := by
  have key : ∀ s2 : GameState,
      (s2.players.length = s.players.length ∧
        ∀ j, (s2.getPlayer j).isBankrupt = if j = i then true else (s.getPlayer j).isBankrupt) →
      ((s2.setPlayer i ((s2.getPlayer i).setProperties [])).players.length = s.players.length ∧
        ∀ j, ((s2.setPlayer i ((s2.getPlayer i).setProperties [])).getPlayer j).isBankrupt
          = if j = i then true else (s.getPlayer j).isBankrupt) := by
    intro s2 ⟨hl, hb⟩
    refine ⟨by simpa using hl, fun j => ?_⟩
    rw [getPlayer_setPlayer]
    split
    · rename_i h; rw [← h.1]; simpa using hb i
    · exact hb j
  have h1 : ((s.setPlayer i (s.getPlayer i).goBankrupt).addLog .jail).players.length
        = s.players.length ∧
      ∀ j, (((s.setPlayer i (s.getPlayer i).goBankrupt).addLog .jail).getPlayer j).isBankrupt
        = if j = i then true else (s.getPlayer j).isBankrupt := by
    refine ⟨by simp, fun j => ?_⟩
    rw [getPlayer_addLog, getPlayer_setPlayer]
    by_cases hj : j = i
    · subst hj; simp [hi]
    · have : ¬ i = j := fun e => hj e.symm
      simp [hj, this]
  cases creditor with
  | none =>
    apply key
    exact foldl_preserves (fun st => st.players.length = s.players.length ∧
        ∀ j, (st.getPlayer j).isBankrupt = if j = i then true else (s.getPlayer j).isBankrupt)
      bankTakes (fun st x h => by simpa [bankTakes] using h) _ _ h1
  | some c =>
    apply key
    have := foldl_preserves (fun st => st.players.length = s.players.length ∧
        ∀ j, (st.getPlayer j).isBankrupt = if j = i then true else (s.getPlayer j).isBankrupt)
      (creditorTakes c) (fun st x h => by
        refine ⟨by simpa [creditorTakes] using h.1, fun j => ?_⟩
        simp only [creditorTakes, getPlayer_setOwner, getPlayer_setPlayer]
        split
        · rename_i hc; rw [← hc.1, Player.addProperty_isBankrupt]; exact h.2 c
        · exact h.2 j) (((s.setPlayer i (s.getPlayer i).goBankrupt).addLog .jail).getPlayer i).properties
      _ h1
    simpa using this

/-- The players still active after `declareBankruptcy` are those who were,
without the bankrupt player. -/
theorem declareBankruptcy_active (s : GameState) (i : Nat) (creditor : Option Nat)
    (hi : i < s.players.length) :
    (s.declareBankruptcy i creditor).getActivePlayers
      = s.getActivePlayers.filter (fun j => decide (j ≠ i)) := by
  obtain ⟨hl, hb⟩ := bankruptcyCore_isBankrupt s i creditor hi
  rw [getActivePlayers_congr _ _ (declareBankruptcy_players s i creditor)]
  unfold getActivePlayers
  rw [hl, List.filter_filter]
  apply List.filter_congr
  intro j _
  rw [hb j]
  by_cases hj : j = i <;> simp [hj]

end GameState

/-- Claim C12: after `declareBankruptcy` the phase is GAME_OVER when at most
one player who is not bankrupt remains, and the phase is the one from before
the call when two or more remain; the players who remain are those who were
not bankrupt before, without the player declared bankrupt. -/
theorem declareBankruptcy_phase (s : GameState) (i : Nat) (creditor : Option Nat) :
    ((s.declareBankruptcy i creditor).getActivePlayers.length ≤ 1 →
      (s.declareBankruptcy i creditor).phase = .gameOver) ∧
    (2 ≤ (s.declareBankruptcy i creditor).getActivePlayers.length →
      (s.declareBankruptcy i creditor).phase = s.phase) ∧
    (i < s.players.length → (s.declareBankruptcy i creditor).getActivePlayers
      = s.getActivePlayers.filter (fun j => decide (j ≠ i))) := by
  have hact : (s.declareBankruptcy i creditor).getActivePlayers
      = (bankruptcyCore s i creditor).getActivePlayers :=
    getActivePlayers_congr _ _ (declareBankruptcy_players s i creditor)
  have hphase : ((s.declareBankruptcy i creditor).getActivePlayers.length ≤ 1 →
        (s.declareBankruptcy i creditor).phase = .gameOver) ∧
      (2 ≤ (s.declareBankruptcy i creditor).getActivePlayers.length →
        (s.declareBankruptcy i creditor).phase = s.phase) := by
    rw [hact, declareBankruptcy_eq]
    by_cases h : (bankruptcyCore s i creditor).getActivePlayers.length ≤ 1
    · rw [if_pos h]
      exact ⟨fun _ => rfl, fun h2 => by omega⟩
    · rw [if_neg h]
      exact ⟨fun h1 => absurd h1 h, fun _ => bankruptcyCore_phase s i creditor⟩
  exact ⟨hphase.1, hphase.2, declareBankruptcy_active s i creditor⟩

/-- Claim C11: `declareBankruptcy(player, null)` deletes every tile the
player owned from `propertyOwners` and from `propertyHouses` (the entries of
all other tiles stay), leaves the player with money 0, bankrupt and with an
empty properties list, and changes no other player: afterwards a tile is in
a properties list only where it was before, in the list of another player. -/
theorem declareBankruptcy_bank (s : GameState) (i : Nat) (hi : i < s.players.length) :
    (∀ t ∈ (s.getPlayer i).properties,
      (s.declareBankruptcy i none).propertyOwners t = none ∧
      (s.declareBankruptcy i none).propertyHouses t = none) ∧
    (∀ t, t ∉ (s.getPlayer i).properties →
      (s.declareBankruptcy i none).propertyOwners t = s.propertyOwners t ∧
      (s.declareBankruptcy i none).propertyHouses t = s.propertyHouses t) ∧
    ((s.declareBankruptcy i none).getPlayer i).money = 0 ∧
    ((s.declareBankruptcy i none).getPlayer i).properties = [] ∧
    ((s.declareBankruptcy i none).getPlayer i).isBankrupt = true ∧
    (∀ j, j ≠ i → (s.declareBankruptcy i none).getPlayer j = s.getPlayer j) ∧
    (∀ j t, t ∈ ((s.declareBankruptcy i none).getPlayer j).properties →
      j ≠ i ∧ t ∈ (s.getPlayer j).properties) := by
  obtain ⟨_, h2, h3, h4, h5⟩ := bankruptcyCore_bank s i hi
  rw [declareBankruptcy_propertyOwners, declareBankruptcy_propertyHouses]
  simp only [declareBankruptcy_getPlayer]
  refine ⟨?_, ?_, ?_, ?_, ?_, h3, ?_⟩
  · intro t ht
    rw [h4 t, h5 t, if_pos ht, if_pos ht]
    exact ⟨rfl, rfl⟩
  · intro t ht
    rw [h4 t, h5 t, if_neg ht, if_neg ht]
    exact ⟨rfl, rfl⟩
  · rw [h2]; rfl
  · rw [h2]; rfl
  · rw [h2]; rfl
  · intro j t ht
    by_cases hj : j = i
    · subst hj
      rw [h2] at ht
      cases ht
    · rw [h3 j hj] at ht
      exact ⟨hj, ht⟩

end Fortunopoly

namespace Fortunopoly
open GameState

namespace GameState

/-- The branches of `mortgageProperty` for a tile with a price. -/
theorem mortgageProperty_cases (s : GameState) (i : Nat) (tile : Tile) (price : Int)
    (hprice : tile.price = some price) :
    (tile.id ∉ (s.getPlayer i).properties ∧ s.mortgageProperty i tile = some (.bareFalse, s)) ∨
    (tile.id ∈ (s.getPlayer i).properties ∧ (s.propertyHouses tile.id).getD 0 > 0 ∧
      s.mortgageProperty i tile = some (.failure .mustSellHousesFirst, s)) ∨
    (tile.id ∈ (s.getPlayer i).properties ∧ ¬ (s.propertyHouses tile.id).getD 0 > 0 ∧
      (∃ t ∈ getPropertiesInGroup tile.group, (s.propertyHouses t.id).getD 0 > 0) ∧
      s.mortgageProperty i tile = some (.failure .sellBuildingsInGroupFirst, s)) ∨
    (tile.id ∈ (s.getPlayer i).properties ∧ ¬ (s.propertyHouses tile.id).getD 0 > 0 ∧
      (∀ t ∈ getPropertiesInGroup tile.group, ¬ (s.propertyHouses t.id).getD 0 > 0) ∧
      tile.id ∈ (s.getPlayer i).mortgagedProperties ∧
      s.mortgageProperty i tile = some (.failure .alreadyMortgaged, s)) ∨
    (tile.id ∈ (s.getPlayer i).properties ∧ ¬ (s.propertyHouses tile.id).getD 0 > 0 ∧
      (∀ t ∈ getPropertiesInGroup tile.group, ¬ (s.propertyHouses t.id).getD 0 > 0) ∧
      tile.id ∉ (s.getPlayer i).mortgagedProperties ∧
      s.mortgageProperty i tile = some (.success,
        (s.setPlayer i (((s.getPlayer i).addMoney (price / 2)).setMortgaged
          ((s.getPlayer i).mortgagedProperties ++ [tile.id]))).addLog .money)) := by
  by_cases hown : tile.id ∈ (s.getPlayer i).properties
  swap
  · left
    exact ⟨hown, by simp [mortgageProperty, Player.ownsProperty, hown]⟩
  have hlen : ¬ s.players.length = 0 := by
    intro h0
    have : ¬ i < s.players.length := by omega
    rw [getPlayer_properties_of_not_lt s i this] at hown
    cases hown
  right
  by_cases hh : (s.propertyHouses tile.id).getD 0 > 0
  · left
    exact ⟨hown, hh, by simp [mortgageProperty, Player.ownsProperty, hown, hlen, hh]⟩
  right
  by_cases hg : ∃ t ∈ getPropertiesInGroup tile.group, (s.propertyHouses t.id).getD 0 > 0
  · left
    refine ⟨hown, hh, hg, ?_⟩
    have hany : (getPropertiesInGroup tile.group).any
        (fun t => decide ((s.propertyHouses t.id).getD 0 > 0)) = true := by
      simpa [List.any_eq_true] using hg
    simp only [mortgageProperty, Player.ownsProperty, hown, hlen, hh, hany]
    simp
  right
  have hg1 : ∀ t ∈ getPropertiesInGroup tile.group, ¬ (s.propertyHouses t.id).getD 0 > 0 :=
    fun t ht h => hg ⟨t, ht, h⟩
  have hany : (getPropertiesInGroup tile.group).any
      (fun t => decide ((s.propertyHouses t.id).getD 0 > 0)) = false := by
    rw [Bool.eq_false_iff]
    intro h
    rw [List.any_eq_true] at h
    obtain ⟨t, ht, h⟩ := h
    exact hg1 t ht (by simpa using h)
  by_cases hm : tile.id ∈ (s.getPlayer i).mortgagedProperties
  · left
    refine ⟨hown, hh, hg1, hm, ?_⟩
    simp only [mortgageProperty, Player.ownsProperty, hown, hlen, hh, hany, Player.isMortgaged, hm]
    simp
  · right
    refine ⟨hown, hh, hg1, hm, ?_⟩
    simp only [mortgageProperty, Player.ownsProperty, hown, hlen, hh, hany, Player.isMortgaged, hm,
      hprice]
    simp [Player.addMoney, Player.setMortgaged, Player.setMoney]

end GameState

/-- Claim C13: for a tile with a price, `mortgageProperty(player, tile)`
returns, and it succeeds exactly when the player owns the tile, neither the
tile nor any tile of its group has an improvement level above 0, and the
tile is not yet in the player's mortgaged list.  On success the money rises
by exactly floor(price / 2) and the tile id is appended to
`mortgagedProperties`; on every rejection the whole state is unchanged.  When
only a sibling tile of the group is improved, the rejection carries the
reason that the buildings of the group must be sold first. -/
theorem mortgageProperty_spec (s : GameState) (i : Nat) (tile : Tile) (price : Int)
    (hprice : tile.price = some price) :
    (∃ r st, s.mortgageProperty i tile = some (r, st)) ∧
    ((∃ st, s.mortgageProperty i tile = some (.success, st)) ↔
      (tile.id ∈ (s.getPlayer i).properties ∧ ¬ (s.propertyHouses tile.id).getD 0 > 0 ∧
        (∀ t ∈ getPropertiesInGroup tile.group, ¬ (s.propertyHouses t.id).getD 0 > 0) ∧
        tile.id ∉ (s.getPlayer i).mortgagedProperties)) ∧
    (∀ st, s.mortgageProperty i tile = some (.success, st) →
      (st.getPlayer i).money = (s.getPlayer i).money + ⌊(price : ℚ) / 2⌋ ∧
      (st.getPlayer i).mortgagedProperties = (s.getPlayer i).mortgagedProperties ++ [tile.id] ∧
      (st.getPlayer i).properties = (s.getPlayer i).properties ∧
      (∀ j, j ≠ i → st.getPlayer j = s.getPlayer j) ∧
      st.propertyOwners = s.propertyOwners ∧ st.propertyHouses = s.propertyHouses) ∧
    (∀ r st, s.mortgageProperty i tile = some (r, st) → r ≠ .success → st = s) ∧
    (tile.id ∈ (s.getPlayer i).properties → ¬ (s.propertyHouses tile.id).getD 0 > 0 →
      (∃ t ∈ getPropertiesInGroup tile.group, (s.propertyHouses t.id).getD 0 > 0) →
      s.mortgageProperty i tile = some (.failure .sellBuildingsInGroupFirst, s)) := by
  have hfloor : ⌊(price : ℚ) / 2⌋ = price / 2 := by
    have := Rat.floor_intCast_div_natCast price 2
    simpa using this
  rcases mortgageProperty_cases s i tile price hprice with
    ⟨h1, e⟩ | ⟨h1, h2, e⟩ | ⟨h1, h2, h3, e⟩ | ⟨h1, h2, h3, h4, e⟩ | ⟨h1, h2, h3, h4, e⟩
  · refine ⟨⟨_, _, e⟩, ⟨?_, ?_⟩, ?_, ?_, ?_⟩
    · rintro ⟨st, h⟩; rw [e] at h; cases h
    · rintro ⟨h, _⟩; exact absurd h h1
    · intro st h; rw [e] at h; cases h
    · intro r st h _; rw [e] at h; cases h; rfl
    · intro h; exact absurd h h1
  · refine ⟨⟨_, _, e⟩, ⟨?_, ?_⟩, ?_, ?_, ?_⟩
    · rintro ⟨st, h⟩; rw [e] at h; cases h
    · rintro ⟨_, h, _⟩; exact absurd h2 h
    · intro st h; rw [e] at h; cases h
    · intro r st h _; rw [e] at h; cases h; rfl
    · intro _ h; exact absurd h2 h
  · refine ⟨⟨_, _, e⟩, ⟨?_, ?_⟩, ?_, ?_, ?_⟩
    · rintro ⟨st, h⟩; rw [e] at h; cases h
    · rintro ⟨_, _, h, _⟩
      obtain ⟨t, ht, hlev⟩ := h3
      exact absurd hlev (h t ht)
    · intro st h; rw [e] at h; cases h
    · intro r st h _; rw [e] at h; cases h; rfl
    · intro _ _ _; exact e
  · refine ⟨⟨_, _, e⟩, ⟨?_, ?_⟩, ?_, ?_, ?_⟩
    · rintro ⟨st, h⟩; rw [e] at h; cases h
    · rintro ⟨_, _, _, h⟩; exact absurd h4 h
    · intro st h; rw [e] at h; cases h
    · intro r st h _; rw [e] at h; cases h; rfl
    · rintro _ _ ⟨t, ht, hlev⟩; exact absurd hlev (h3 t ht)
  · have hi : i < s.players.length := by
      by_contra hn
      rw [getPlayer_properties_of_not_lt s i hn] at h1
      cases h1
    refine ⟨⟨_, _, e⟩, ⟨fun _ => ⟨h1, h2, h3, h4⟩, fun _ => ⟨_, e⟩⟩, ?_, ?_, ?_⟩
    · intro st h
      rw [e] at h
      have hst := (Prod.mk.inj (Option.some.inj h)).2
      subst hst
      rw [hfloor]
      refine ⟨?_, ?_, ?_, ?_, ?_, ?_⟩
      · simp [getPlayer_setPlayer_self _ _ _ hi, Player.setMortgaged, Player.addMoney,
          Player.setMoney]
      · simp [getPlayer_setPlayer_self _ _ _ hi, Player.setMortgaged, Player.addMoney,
          Player.setMoney]
      · simp [getPlayer_setPlayer_self _ _ _ hi, Player.setMortgaged, Player.addMoney,
          Player.setMoney]
      · intro j hj
        simp [getPlayer_setPlayer_of_ne _ _ _ _ (Ne.symm hj)]
      · simp
      · simp
    · intro r st h hr
      rw [e] at h
      have := (Prod.mk.inj (Option.some.inj h)).1
      exact absurd this.symm hr
    · rintro _ _ ⟨t, ht, hlev⟩; exact absurd hlev (h3 t ht)

namespace GameState

/-- The branches of `unmortgageProperty` for a tile with a price. -/
theorem unmortgageProperty_cases (s : GameState) (i : Nat) (tile : Tile) (price : Int)
    (hprice : tile.price = some price) :
    (tile.id ∉ (s.getPlayer i).properties ∧ s.unmortgageProperty i tile = (.bareFalse, s)) ∨
    (tile.id ∈ (s.getPlayer i).properties ∧ tile.id ∉ (s.getPlayer i).mortgagedProperties ∧
      s.unmortgageProperty i tile = (.failure .notMortgaged, s)) ∨
    (tile.id ∈ (s.getPlayer i).properties ∧ tile.id ∈ (s.getPlayer i).mortgagedProperties ∧
      (s.getPlayer i).money < price / 2 + -(-(price / 2) / 10) ∧
      s.unmortgageProperty i tile = (.failure .notEnoughMoney, s)) ∨
    (tile.id ∈ (s.getPlayer i).properties ∧ tile.id ∈ (s.getPlayer i).mortgagedProperties ∧
      (s.getPlayer i).money ≥ price / 2 + -(-(price / 2) / 10) ∧
      s.unmortgageProperty i tile = (.success,
        (s.setPlayer i (((s.getPlayer i).setMoney
            ((s.getPlayer i).money - (price / 2 + -(-(price / 2) / 10)))).setMortgaged
          ((s.getPlayer i).mortgagedProperties.erase tile.id))).addLog .purchase)) := by
  by_cases hown : tile.id ∈ (s.getPlayer i).properties
  swap
  · left
    exact ⟨hown, by simp [unmortgageProperty, Player.ownsProperty, hown]⟩
  right
  by_cases hm : tile.id ∈ (s.getPlayer i).mortgagedProperties
  swap
  · left
    exact ⟨hown, hm, by simp [unmortgageProperty, Player.ownsProperty, hown, Player.isMortgaged, hm]⟩
  right
  by_cases hmoney : (s.getPlayer i).money ≥ price / 2 + -(-(price / 2) / 10)
  · right
    refine ⟨hown, hm, hmoney, ?_⟩
    simp [unmortgageProperty, Player.ownsProperty, hown, Player.isMortgaged, hm, hprice,
      Player.subtractMoney, hmoney, Player.setMortgaged, Player.setMoney]
  · left
    refine ⟨hown, hm, by omega, ?_⟩
    simp [unmortgageProperty, Player.ownsProperty, hown, Player.isMortgaged, hm, hprice,
      Player.subtractMoney, hmoney]

end GameState

theorem board_buyable_price :
    ∀ t ∈ TILES, isTileBuyable t = true → ∃ price, t.price = some price ∧ 0 ≤ price := by decide

/-- The interest of `unmortgageProperty` is the ceiling of a tenth. -/
theorem ceil_tenth (m : Int) : ⌈(m : ℚ) / 10⌉ = -(-m / 10) := by
  have h := Rat.floor_intCast_div_natCast (-m) 10
  have e : ((-m : Int) : ℚ) / ((10 : Nat) : ℚ) = -((m : ℚ) / 10) := by
    push_cast; ring
  rw [e, Int.floor_neg] at h
  omega

/-- Claim C14: for every buyable tile of the board, with its price,
`unmortgageProperty` charges exactly
floor(price / 2) + ceil(floor(price / 2) / 10) (193 for the price 350, 83 for
150, 33 for 60).  It succeeds exactly when the player owns the tile, the tile
is in the player's mortgaged list and the money is at least that cost; on
success the cost is deducted and the first entry for the tile is removed
from `mortgagedProperties` (none is left when the list held it once); in
every other case the whole state is unchanged. -/
theorem unmortgageProperty_spec (s : GameState) (i : Nat) (tile : Tile) (hb : tile ∈ TILES)
    (hbuy : isTileBuyable tile = true) :
    ∃ price cost : Int, tile.price = some price ∧
      cost = ⌊(price : ℚ) / 2⌋ + ⌈((⌊(price : ℚ) / 2⌋ : Int) : ℚ) / 10⌉ ∧
      (price = 350 → cost = 193) ∧ (price = 150 → cost = 83) ∧ (price = 60 → cost = 33) ∧
      ((s.unmortgageProperty i tile).1 = .success ↔
        (tile.id ∈ (s.getPlayer i).properties ∧ tile.id ∈ (s.getPlayer i).mortgagedProperties ∧
          (s.getPlayer i).money ≥ cost)) ∧
      ((s.unmortgageProperty i tile).1 = .success →
        ((s.unmortgageProperty i tile).2.getPlayer i).money = (s.getPlayer i).money - cost ∧
        ((s.unmortgageProperty i tile).2.getPlayer i).mortgagedProperties
          = (s.getPlayer i).mortgagedProperties.erase tile.id ∧
        ((s.getPlayer i).mortgagedProperties.Nodup →
          tile.id ∉ ((s.unmortgageProperty i tile).2.getPlayer i).mortgagedProperties) ∧
        ((s.unmortgageProperty i tile).2.getPlayer i).properties = (s.getPlayer i).properties ∧
        (∀ j, j ≠ i → (s.unmortgageProperty i tile).2.getPlayer j = s.getPlayer j) ∧
        (s.unmortgageProperty i tile).2.propertyOwners = s.propertyOwners ∧
        (s.unmortgageProperty i tile).2.propertyHouses = s.propertyHouses) ∧
      ((s.unmortgageProperty i tile).1 ≠ .success → (s.unmortgageProperty i tile).2 = s) := by
  obtain ⟨price, hprice, _⟩ := board_buyable_price tile hb hbuy
  have hfloor : ⌊(price : ℚ) / 2⌋ = price / 2 := by
    have := Rat.floor_intCast_div_natCast price 2
    simpa using this
  refine ⟨price, price / 2 + -(-(price / 2) / 10), hprice, ?_, ?_, ?_, ?_, ?_⟩
  · rw [hfloor, ceil_tenth]
  · intro h; subst h; decide
  · intro h; subst h; decide
  · intro h; subst h; decide
  rcases unmortgageProperty_cases s i tile price hprice with
    ⟨h1, e⟩ | ⟨h1, h2, e⟩ | ⟨h1, h2, h3, e⟩ | ⟨h1, h2, h3, e⟩
  · rw [e]
    refine ⟨⟨fun h => (by cases h), fun h => absurd h.1 h1⟩, fun h => (by cases h), fun _ => rfl⟩
  · rw [e]
    refine ⟨⟨fun h => (by cases h), fun h => absurd h.2.1 h2⟩, fun h => (by cases h), fun _ => rfl⟩
  · rw [e]
    refine ⟨⟨fun h => (by cases h), fun h => ?_⟩, fun h => (by cases h), fun _ => rfl⟩
    have := h.2.2
    omega
  · have hi : i < s.players.length := by
      by_contra hn
      rw [getPlayer_properties_of_not_lt s i hn] at h1
      cases h1
    rw [e]
    refine ⟨⟨fun _ => ⟨h1, h2, h3⟩, fun _ => rfl⟩, fun _ => ?_, fun h => absurd rfl h⟩
    refine ⟨?_, ?_, ?_, ?_, ?_, ?_, ?_⟩
    · simp [getPlayer_setPlayer_self _ _ _ hi, Player.setMortgaged, Player.setMoney]
    · simp [getPlayer_setPlayer_self _ _ _ hi, Player.setMortgaged, Player.setMoney]
    · intro hnd
      simp only [getPlayer_addLog, getPlayer_setPlayer_self _ _ _ hi, Player.setMortgaged]
      exact fun hmem => (List.Nodup.mem_erase_iff hnd).1 hmem |>.1 rfl
    · simp [getPlayer_setPlayer_self _ _ _ hi, Player.setMortgaged, Player.setMoney]
    · intro j hj
      simp [getPlayer_setPlayer_of_ne _ _ _ _ (Ne.symm hj)]
    · simp
    · simp

end Fortunopoly

namespace Fortunopoly
open GameState

namespace TradeSystem

/-- The tile loop of `validateTrade` passes exactly when the party owns
every listed tile and none of them is improved. -/
theorem checkTiles_valid_iff (gs : GameState) (who : Nat) (tiles : List Nat) :
    checkTiles gs who tiles = .valid ↔
      ∀ x ∈ tiles, x ∈ (gs.getPlayer who).properties ∧ ¬ (gs.propertyHouses x).getD 0 > 0 := by
  induction tiles with
  | nil => simp [checkTiles]
  | cons x rest ih =>
    simp only [checkTiles, List.mem_cons, forall_eq_or_imp]
    by_cases h1 : x ∈ (gs.getPlayer who).properties
    · cases hp : gs.propertyHouses x with
      | none => simp [Player.ownsProperty, h1, ih]
      | some h =>
        by_cases h2 : h > 0
        · have h3 : 0 < h := h2
          cases hx : getTile x <;> simp [Player.ownsProperty, h1, h3]
        · have h3 : ¬ 0 < h := h2
          simp [Player.ownsProperty, h1, h3, ih]
    · cases hx : getTile x <;> simp [Player.ownsProperty, h1]

/-- The tile loop of `validateTrade` throws only at a tile id off the board. -/
theorem checkTiles_threw (gs : GameState) (who : Nat) (tiles : List Nat)
    (h : checkTiles gs who tiles = .threw) : ∃ x ∈ tiles, getTile x = none := by
  induction tiles with
  | nil => simp [checkTiles] at h
  | cons x rest ih =>
    simp only [checkTiles] at h
    split_ifs at h with h1 h2
    · cases hx : getTile x with
      | none => exact ⟨x, List.mem_cons_self _ _, hx⟩
      | some tl => simp [hx] at h
    · cases hx : getTile x with
      | none => exact ⟨x, List.mem_cons_self _ _, hx⟩
      | some tl => simp [hx] at h
    · obtain ⟨y, hy, hy2⟩ := ih h
      exact ⟨y, List.mem_cons_of_mem _ hy, hy2⟩

/-- When both parties are found and none is bankrupt, `validateTrade` is
its two tile loops followed by the money and emptiness checks. -/
theorem validateTrade_found (ts : TradeSystem) (gs : GameState) (t : TradeProposal) (f o : Nat)
    (ht : ts.activeTrade = some t)
    (hf : findIndex (fun p => decide (p.id = t.fromPlayerId)) gs.players = some f)
    (ho : findIndex (fun p => decide (p.id = t.toPlayerId)) gs.players = some o)
    (hbf : (gs.getPlayer f).isBankrupt = false) (hbo : (gs.getPlayer o).isBankrupt = false) :
    ts.validateTrade gs =
      match checkTiles gs f t.offeredProperties with
      | .valid =>
        match checkTiles gs o t.requestedProperties with
        | .valid =>
          if t.offeredMoney > (gs.getPlayer f).money then .invalid (.lacksMoney f t.offeredMoney)
          else if t.requestedMoney > (gs.getPlayer o).money then
            .invalid (.lacksMoney o t.requestedMoney)
          else if t.offeredProperties.length = 0 ∧ t.offeredMoney = 0 ∧
              t.requestedProperties.length = 0 ∧ t.requestedMoney = 0 then
            .invalid .tradeIsEmpty
          else .valid
        | r => r
      | r => r := by
  simp only [validateTrade, ht, hf, ho, hbf, hbo, Bool.or_self, Bool.false_eq_true, if_false]

end TradeSystem

open TradeSystem

/-- Claim C16: with an active proposal, `validateTrade` returns valid
exactly when both party ids name players of the game (the first player with
that id each), neither is bankrupt, the proposer owns every offered tile and
the counterparty every requested tile, no offered or requested tile has an
improvement level above 0, neither money amount exceeds the balance of the
party who gives it, and the proposal is not empty on all four counts.  In
every other case it returns invalid with a reason, unless a tile id that
fails the tile check is not a tile of the board, where building the reason
throws.  The function only reads the game state: its embedding has no state
to return. -/
theorem validateTrade_spec (ts : TradeSystem) (gs : GameState) (t : TradeProposal)
    (ht : ts.activeTrade = some t) :
    (ts.validateTrade gs = .valid ↔
      ∃ f o, findIndex (fun p => decide (p.id = t.fromPlayerId)) gs.players = some f ∧
        findIndex (fun p => decide (p.id = t.toPlayerId)) gs.players = some o ∧
        (gs.getPlayer f).isBankrupt = false ∧ (gs.getPlayer o).isBankrupt = false ∧
        (∀ x ∈ t.offeredProperties, x ∈ (gs.getPlayer f).properties) ∧
        (∀ x ∈ t.requestedProperties, x ∈ (gs.getPlayer o).properties) ∧
        (∀ x ∈ t.offeredProperties ++ t.requestedProperties,
          ¬ (gs.propertyHouses x).getD 0 > 0) ∧
        t.offeredMoney ≤ (gs.getPlayer f).money ∧ t.requestedMoney ≤ (gs.getPlayer o).money ∧
        ¬ (t.offeredProperties = [] ∧ t.offeredMoney = 0 ∧
            t.requestedProperties = [] ∧ t.requestedMoney = 0)) ∧
    (ts.validateTrade gs = .valid ∨ (∃ reason, ts.validateTrade gs = .invalid reason) ∨
      (ts.validateTrade gs = .threw ∧
        ∃ x ∈ t.offeredProperties ++ t.requestedProperties, getTile x = none)) ∧
    ((∀ x ∈ t.offeredProperties ++ t.requestedProperties, x < 40) →
      ts.validateTrade gs ≠ .valid → ∃ reason, ts.validateTrade gs = .invalid reason) := by
  have hiff : ts.validateTrade gs = .valid ↔
      ∃ f o, findIndex (fun p => decide (p.id = t.fromPlayerId)) gs.players = some f ∧
        findIndex (fun p => decide (p.id = t.toPlayerId)) gs.players = some o ∧
        (gs.getPlayer f).isBankrupt = false ∧ (gs.getPlayer o).isBankrupt = false ∧
        (∀ x ∈ t.offeredProperties, x ∈ (gs.getPlayer f).properties) ∧
        (∀ x ∈ t.requestedProperties, x ∈ (gs.getPlayer o).properties) ∧
        (∀ x ∈ t.offeredProperties ++ t.requestedProperties,
          ¬ (gs.propertyHouses x).getD 0 > 0) ∧
        t.offeredMoney ≤ (gs.getPlayer f).money ∧ t.requestedMoney ≤ (gs.getPlayer o).money ∧
        ¬ (t.offeredProperties = [] ∧ t.offeredMoney = 0 ∧
            t.requestedProperties = [] ∧ t.requestedMoney = 0) := by
    constructor
    · intro hv
      obtain ⟨t1, f, o, ht1, hf, ho, hbf, hbo, hc1, hc2, hm1, hm2, hne⟩ :=
        validateTrade_valid ts gs hv
      have e : t1 = t := by rw [ht] at ht1; exact (Option.some.inj ht1).symm
      subst e
      rw [checkTiles_valid_iff] at hc1 hc2
      refine ⟨f, o, hf, ho, hbf, hbo, fun x hx => (hc1 x hx).1, fun x hx => (hc2 x hx).1, ?_,
        hm1, hm2, ?_⟩
      · intro x hx
        rcases List.mem_append.1 hx with hx | hx
        · exact (hc1 x hx).2
        · exact (hc2 x hx).2
      · simpa [List.length_eq_zero] using hne
    · rintro ⟨f, o, hf, ho, hbf, hbo, h1, h2, h3, hm1, hm2, hne⟩
      have hc1 : checkTiles gs f t.offeredProperties = .valid :=
        (checkTiles_valid_iff gs f _).2
          (fun x hx => ⟨h1 x hx, h3 x (List.mem_append_left _ hx)⟩)
      have hc2 : checkTiles gs o t.requestedProperties = .valid :=
        (checkTiles_valid_iff gs o _).2
          (fun x hx => ⟨h2 x hx, h3 x (List.mem_append_right _ hx)⟩)
      rw [validateTrade_found ts gs t f o ht hf ho hbf hbo, hc1, hc2]
      have hm1n : ¬ t.offeredMoney > (gs.getPlayer f).money := by omega
      have hm2n : ¬ t.requestedMoney > (gs.getPlayer o).money := by omega
      have hne1 : ¬ (t.offeredProperties.length = 0 ∧ t.offeredMoney = 0 ∧
          t.requestedProperties.length = 0 ∧ t.requestedMoney = 0) := by
        simpa [List.length_eq_zero] using hne
      simp only [hm1n, hm2n, hne1, if_false]
  have hres : ts.validateTrade gs = .valid ∨ (∃ reason, ts.validateTrade gs = .invalid reason) ∨
      (ts.validateTrade gs = .threw ∧
        ∃ x ∈ t.offeredProperties ++ t.requestedProperties, getTile x = none) := by
    cases hf : findIndex (fun p => decide (p.id = t.fromPlayerId)) gs.players with
    | none => right; left; exact ⟨.invalidPlayers, by simp [validateTrade, ht, hf]⟩
    | some f =>
      cases ho : findIndex (fun p => decide (p.id = t.toPlayerId)) gs.players with
      | none => right; left; exact ⟨.invalidPlayers, by simp [validateTrade, ht, hf, ho]⟩
      | some o =>
        by_cases hb : (gs.getPlayer f).isBankrupt = false ∧ (gs.getPlayer o).isBankrupt = false
        · rw [validateTrade_found ts gs t f o ht hf ho hb.1 hb.2]
          cases hc1 : checkTiles gs f t.offeredProperties with
          | invalid r => right; left; exact ⟨r, rfl⟩
          | threw =>
            right; right
            obtain ⟨x, hx, hx2⟩ := checkTiles_threw gs f _ hc1
            exact ⟨rfl, x, List.mem_append_left _ hx, hx2⟩
          | valid =>
            cases hc2 : checkTiles gs o t.requestedProperties with
            | invalid r => right; left; exact ⟨r, rfl⟩
            | threw =>
              right; right
              obtain ⟨x, hx, hx2⟩ := checkTiles_threw gs o _ hc2
              exact ⟨rfl, x, List.mem_append_right _ hx, hx2⟩
            | valid =>
              simp only
              split_ifs
              · right; left; exact ⟨_, rfl⟩
              · right; left; exact ⟨_, rfl⟩
              · right; left; exact ⟨_, rfl⟩
              · left; rfl
        · right; left
          refine ⟨.bankruptPlayer, ?_⟩
          have : ((gs.getPlayer f).isBankrupt || (gs.getPlayer o).isBankrupt) = true := by
            cases h1 : (gs.getPlayer f).isBankrupt <;> cases h2 : (gs.getPlayer o).isBankrupt <;>
              simp_all
          simp [validateTrade, ht, hf, ho, this]
  refine ⟨hiff, hres, ?_⟩
  intro hboard hnv
  rcases hres with h | h | ⟨_, x, hx, hx2⟩
  · exact absurd h hnv
  · exact h
  · exfalso
    have hlt := hboard x hx
    have : ∀ id < 40, getTile id ≠ none := by decide
    exact this x hlt hx2

end Fortunopoly

namespace Fortunopoly
open GameState

/-- Claim C18: `processJailTurn(player, diceRoll)`.  On doubles the player
is released (`inJail` false, `jailTurns` 0) with the answer
`{ escaped: true, canMove: true }` and the money unchanged.  On a non-double
`jailTurns` rises by 1; when it then is 3 or more, a player with money of at
least 50 pays exactly 50 and is released with `canMove` true, while a player
with less than 50 is declared bankrupt without a creditor (money 0, no
properties, every tile the player owned deleted from `propertyOwners` and
`propertyHouses`) and the answer is `{ escaped: false, canMove: false }`;
when it is below 3 the player only has the counter raised (so stays in jail
with the same money) and the answer is `{ escaped: false, canMove: false }`. -/
theorem processJailTurn_spec (s : GameState) (i : Nat) (diceRoll : DiceRoll)
    (hi : i < s.players.length) :
    (diceRoll.isDoubles = true →
      (s.processJailTurn i diceRoll).1 = { escaped := true, canMove := true } ∧
      (s.processJailTurn i diceRoll).2.getPlayer i
        = { s.getPlayer i with inJail := false, jailTurns := 0 }) ∧
    (diceRoll.isDoubles = false → (s.getPlayer i).jailTurns + 1 ≥ 3 →
      (s.getPlayer i).money ≥ 50 →
      (s.processJailTurn i diceRoll).1 = { escaped := true, canMove := true } ∧
      (s.processJailTurn i diceRoll).2.getPlayer i
        = { s.getPlayer i with money := (s.getPlayer i).money - 50, inJail := false,
                               jailTurns := 0 }) ∧
    (diceRoll.isDoubles = false → (s.getPlayer i).jailTurns + 1 ≥ 3 →
      (s.getPlayer i).money < 50 →
      (s.processJailTurn i diceRoll).1 = { escaped := false, canMove := false } ∧
      (s.processJailTurn i diceRoll).2
        = (s.setPlayer i { s.getPlayer i with jailTurns := (s.getPlayer i).jailTurns + 1 }
            ).declareBankruptcy i none ∧
      ((s.processJailTurn i diceRoll).2.getPlayer i).isBankrupt = true ∧
      ((s.processJailTurn i diceRoll).2.getPlayer i).money = 0 ∧
      ((s.processJailTurn i diceRoll).2.getPlayer i).properties = [] ∧
      ((s.processJailTurn i diceRoll).2.getPlayer i).jailTurns = (s.getPlayer i).jailTurns + 1 ∧
      (∀ t ∈ (s.getPlayer i).properties,
        (s.processJailTurn i diceRoll).2.propertyOwners t = none ∧
        (s.processJailTurn i diceRoll).2.propertyHouses t = none)) ∧
    (diceRoll.isDoubles = false → (s.getPlayer i).jailTurns + 1 < 3 →
      (s.processJailTurn i diceRoll).1 = { escaped := false, canMove := false } ∧
      (s.processJailTurn i diceRoll).2.getPlayer i
        = { s.getPlayer i with jailTurns := (s.getPlayer i).jailTurns + 1 }) ∧
    (diceRoll.isDoubles = true ∨ (s.getPlayer i).jailTurns + 1 < 3 ∨ (s.getPlayer i).money ≥ 50 →
      (∀ j, j ≠ i → (s.processJailTurn i diceRoll).2.getPlayer j = s.getPlayer j) ∧
      (s.processJailTurn i diceRoll).2.propertyOwners = s.propertyOwners ∧
      (s.processJailTurn i diceRoll).2.propertyHouses = s.propertyHouses) := by
  have hji : ∀ j, j ≠ i → ¬ i = j := fun j hj e => hj e.symm
  refine ⟨?_, ?_, ?_, ?_, ?_⟩
  · intro hd
    simp [processJailTurn, hd, getPlayer_setPlayer, hi, Player.leaveJail]
  · intro hd h3 hm
    have h3a : 3 ≤ (s.getPlayer i).jailTurns + 1 := h3
    have hm1 : (50 : Int) ≤ (s.getPlayer i).money := hm
    simp [processJailTurn, hd, Player.incrementJailTurn, h3a, Player.canAfford, hm1,
      Player.subtractMoney, getPlayer_setPlayer, hi, Player.leaveJail, Player.setMoney,
      JAIL_BAIL, MAX_JAIL_TURNS]
  · intro hd h3 hm
    have h3a : 3 ≤ (s.getPlayer i).jailTurns + 1 := h3
    have hm1 : ¬ (50 : Int) ≤ (s.getPlayer i).money := by omega
    have e : s.processJailTurn i diceRoll
        = ({ escaped := false, canMove := false },
            (s.setPlayer i { s.getPlayer i with jailTurns := (s.getPlayer i).jailTurns + 1 }
              ).declareBankruptcy i none) := by
      simp [processJailTurn, hd, Player.incrementJailTurn, h3a, Player.canAfford, hm1, JAIL_BAIL,
        MAX_JAIL_TURNS]
    rw [e]
    have hi1 : i < (s.setPlayer i
        { s.getPlayer i with jailTurns := (s.getPlayer i).jailTurns + 1 }).players.length := by
      simpa using hi
    obtain ⟨_, h2, _, h4, h5⟩ := bankruptcyCore_bank _ i hi1
    rw [getPlayer_setPlayer_self _ _ _ hi] at h2 h4 h5
    dsimp only
    rw [declareBankruptcy_getPlayer, declareBankruptcy_propertyOwners,
      declareBankruptcy_propertyHouses, h2]
    refine ⟨rfl, rfl, rfl, rfl, rfl, rfl, ?_⟩
    intro t ht
    rw [h4 t, h5 t]
    simp [ht]
  · intro hd h3
    have h3a : ¬ 3 ≤ (s.getPlayer i).jailTurns + 1 := by omega
    simp [processJailTurn, hd, Player.incrementJailTurn, h3a, getPlayer_setPlayer, hi,
      MAX_JAIL_TURNS]
  · intro h
    by_cases hd : diceRoll.isDoubles = true
    · refine ⟨fun j hj => ?_, ?_, ?_⟩
      · simp [processJailTurn, hd, getPlayer_setPlayer, hji j hj]
      · simp [processJailTurn, hd]
      · simp [processJailTurn, hd]
    · have hd1 : diceRoll.isDoubles = false := by simpa using hd
      by_cases h3 : 3 ≤ (s.getPlayer i).jailTurns + 1
      · have hm : (50 : Int) ≤ (s.getPlayer i).money := by
          rcases h with h | h | h
          · exact absurd h hd
          · omega
          · exact h
        refine ⟨fun j hj => ?_, ?_, ?_⟩
        · simp [processJailTurn, hd1, Player.incrementJailTurn, h3, Player.canAfford, hm,
            getPlayer_setPlayer, hji j hj, JAIL_BAIL, MAX_JAIL_TURNS]
        · simp [processJailTurn, hd1, Player.incrementJailTurn, h3, Player.canAfford, hm,
            JAIL_BAIL, MAX_JAIL_TURNS]
        · simp [processJailTurn, hd1, Player.incrementJailTurn, h3, Player.canAfford, hm,
            JAIL_BAIL, MAX_JAIL_TURNS]
      · refine ⟨fun j hj => ?_, ?_, ?_⟩
        · simp [processJailTurn, hd1, Player.incrementJailTurn, h3, getPlayer_setPlayer, hji j hj, MAX_JAIL_TURNS]
        · simp [processJailTurn, hd1, Player.incrementJailTurn, h3, MAX_JAIL_TURNS]
        · simp [processJailTurn, hd1, Player.incrementJailTurn, h3, MAX_JAIL_TURNS]

end Fortunopoly

namespace Fortunopoly
open GameState

/-- A die is a number from 1 to 6. -/
theorem rollDie_range (r : ℚ) (h0 : 0 ≤ r) (h1 : r < 1) : 1 ≤ rollDie r ∧ rollDie r ≤ 6 := by
  unfold rollDie
  have hlo : 0 ≤ ⌊r * 6⌋ := Int.floor_nonneg.2 (by positivity)
  have hhi : ⌊r * 6⌋ < 6 := by
    rw [Int.floor_lt]
    push_cast
    linarith
  omega

/-- Claim C19, amended: `rollDice` returns two dice from 1 to 6 with their
sum as the total and the flag for doubles, records them in `lastDiceRoll`,
raises `consecutiveDoubles` by 1 on doubles and sets it to 0 otherwise, and
changes nothing else: no player is moved or jailed, also on the third
double in a row, after which `consecutiveDoubles` is 3.  The jailing is done
by the caller: `handleRollDice`, entered with `consecutiveDoubles >= 3` and a
current player who is not in jail, calls `sendToJail` before any dice are
rolled, which puts that player on position 10 with `inJail` true. -/
theorem rollDice_spec (s : GameState) (r1 r2 : ℚ) (h1 : 0 ≤ r1 ∧ r1 < 1)
    (h2 : 0 ≤ r2 ∧ r2 < 1) :
    (1 ≤ (s.rollDice (rollDie r1) (rollDie r2)).1.die1 ∧
      (s.rollDice (rollDie r1) (rollDie r2)).1.die1 ≤ 6 ∧
      1 ≤ (s.rollDice (rollDie r1) (rollDie r2)).1.die2 ∧
      (s.rollDice (rollDie r1) (rollDie r2)).1.die2 ≤ 6) ∧
    (∀ die1 die2 : Int,
      (s.rollDice die1 die2).1 =
        { die1 := die1, die2 := die2, total := die1 + die2, isDoubles := decide (die1 = die2) } ∧
      (s.rollDice die1 die2).2.lastDiceRoll = (die1, die2) ∧
      (s.rollDice die1 die2).2.consecutiveDoubles
        = (if die1 = die2 then s.consecutiveDoubles + 1 else 0) ∧
      (s.rollDice die1 die2).2.players = s.players ∧
      (s.rollDice die1 die2).2.propertyOwners = s.propertyOwners ∧
      (s.rollDice die1 die2).2.propertyHouses = s.propertyHouses ∧
      (s.rollDice die1 die2).2.currentPlayerIndex = s.currentPlayerIndex ∧
      (s.consecutiveDoubles = 2 → die1 = die2 →
        (s.rollDice die1 die2).2.consecutiveDoubles = 3 ∧
        ∀ j, (s.rollDice die1 die2).2.getPlayer j = s.getPlayer j)) ∧
    (s.consecutiveDoubles ≥ 3 → s.currentPlayerIndex < s.players.length →
      (s.getPlayer s.currentPlayerIndex).inJail = false →
      ∃ st, handleRollDiceHead s = some st ∧
        (st.getPlayer s.currentPlayerIndex).position = 10 ∧
        (st.getPlayer s.currentPlayerIndex).inJail = true ∧
        st.consecutiveDoubles = 0) := by
  refine ⟨?_, ?_, ?_⟩
  · have a := rollDie_range r1 h1.1 h1.2
    have b := rollDie_range r2 h2.1 h2.2
    exact ⟨a.1, a.2, b.1, b.2⟩
  · intro die1 die2
    by_cases hd : die1 = die2
    · subst hd
      simp [rollDice, setLastDiceRoll, setConsecutiveDoubles, getPlayer]
    · simp [rollDice, setLastDiceRoll, setConsecutiveDoubles, getPlayer, hd]
  · intro h3 hi hj
    have hi1 : s.currentPlayerIndex < (s.setTurnPhase .moving).players.length := hi
    refine ⟨((s.setTurnPhase .moving).sendToJail s.currentPlayerIndex).2, ?_, ?_, ?_, ?_⟩
    · have hj1 : ((s.setTurnPhase .moving).getPlayer
          (s.setTurnPhase .moving).currentPlayerIndex).inJail = false := hj
      have h31 : (s.setTurnPhase .moving).consecutiveDoubles ≥ 3 := h3
      simp only [handleRollDiceHead, hj1, h31, if_true, Bool.false_eq_true, if_false]
      rfl
    · simp [sendToJail, getPlayer_setPlayer_self _ _ _ hi1, Player.goToJail]
    · simp [sendToJail, getPlayer_setPlayer_self _ _ _ hi1, Player.goToJail]
    · simp [sendToJail, setConsecutiveDoubles, addLog]

end Fortunopoly

namespace Fortunopoly
open GameState

namespace Player

@[simp] theorem setMoney_mortgaged (p : Player) (m : Int) :
    (p.setMoney m).mortgagedProperties = p.mortgagedProperties := rfl
@[simp] theorem setPosition_mortgaged (p : Player) (n : Int) :
    (p.setPosition n).mortgagedProperties = p.mortgagedProperties := rfl
@[simp] theorem setProperties_mortgaged (p : Player) (l : List Nat) :
    (p.setProperties l).mortgagedProperties = p.mortgagedProperties := rfl
@[simp] theorem setJailFreeCard_mortgaged (p : Player) (b : Bool) :
    (p.setJailFreeCard b).mortgagedProperties = p.mortgagedProperties := rfl
@[simp] theorem setMortgaged_mortgaged (p : Player) (l : List Nat) :
    (p.setMortgaged l).mortgagedProperties = l := rfl
@[simp] theorem goToJail_mortgaged (p : Player) :
    p.goToJail.mortgagedProperties = p.mortgagedProperties := rfl
@[simp] theorem leaveJail_mortgaged (p : Player) :
    p.leaveJail.mortgagedProperties = p.mortgagedProperties := rfl
@[simp] theorem goBankrupt_mortgaged (p : Player) :
    p.goBankrupt.mortgagedProperties = p.mortgagedProperties := rfl
@[simp] theorem incrementJailTurn_mortgaged (p : Player) :
    p.incrementJailTurn.2.mortgagedProperties = p.mortgagedProperties := rfl
@[simp] theorem subtractMoney_mortgaged (p : Player) (a : Int) :
    (p.subtractMoney a).2.mortgagedProperties = p.mortgagedProperties := by
  unfold subtractMoney; split <;> rfl
@[simp] theorem addProperty_mortgaged (p : Player) (t : Nat) :
    (p.addProperty t).mortgagedProperties = p.mortgagedProperties := by
  unfold addProperty; split <;> rfl
@[simp] theorem removeProperty_mortgaged (p : Player) (t : Nat) :
    (p.removeProperty t).mortgagedProperties = p.mortgagedProperties := rfl
@[simp] theorem moveTo_mortgaged (p : Player) (n : Int) (b : Bool) :
    (p.moveTo n b).2.mortgagedProperties = p.mortgagedProperties := by
  simp only [moveTo]; split_ifs <;> rfl
@[simp] theorem moveSpaces_mortgaged (p : Player) (n : Int) :
    (p.moveSpaces n).2.mortgagedProperties = p.mortgagedProperties := by
  simp only [moveSpaces]; split_ifs <;> rfl

end Player
namespace GameState

theorem Mortgages.mort_setPlayer {m : Nat → List Nat} {s : GameState} (h : Mortgages m s)
    (i : Nat) (p : Player) (hp : p.mortgagedProperties = m i) : Mortgages m (s.setPlayer i p) := by
  intro j
  rw [getPlayer_setPlayer]
  split
  · rename_i hij; rw [← hij.1]; exact hp
  · exact h j

theorem Mortgages.mort_of_players {m : Nat → List Nat} {s s1 : GameState} (h : Mortgages m s)
    (e : s1.players = s.players) : Mortgages m s1 := by
  intro j
  have : s1.getPlayer j = s.getPlayer j := by simp [getPlayer, e]
  rw [this]; exact h j

theorem Mortgages.mort_addLog {m : Nat → List Nat} {s : GameState} (h : Mortgages m s)
    (t : LogType) : Mortgages m (s.addLog t) :=
  h.mort_of_players rfl

theorem Mortgages.mort_setHouses {m : Nat → List Nat} {s : GameState} (h : Mortgages m s)
    (t : Nat) (n : Int) : Mortgages m (s.setHouses t n) := h
theorem Mortgages.mort_setOwner {m : Nat → List Nat} {s : GameState} (h : Mortgages m s)
    (t k : Nat) : Mortgages m (s.setOwner t k) := h
theorem Mortgages.mort_setConsecutiveDoubles {m : Nat → List Nat} {s : GameState}
    (h : Mortgages m s) (n : Nat) : Mortgages m (s.setConsecutiveDoubles n) := h
theorem Mortgages.mort_setFreeParkingPot {m : Nat → List Nat} {s : GameState}
    (h : Mortgages m s) (v : Option Int) : Mortgages m (s.setFreeParkingPot v) := h
theorem Mortgages.mort_setLastDiceRoll {m : Nat → List Nat} {s : GameState}
    (h : Mortgages m s) (v : Int × Int) : Mortgages m (s.setLastDiceRoll v) := h

theorem Mortgages.mort_declareBankruptcy {m : Nat → List Nat} {s : GameState}
    (h : Mortgages m s) (i : Nat) (c : Option Nat) : Mortgages m (s.declareBankruptcy i c) := by
  have h1 : Mortgages m ((s.setPlayer i (s.getPlayer i).goBankrupt).addLog .jail) :=
    (h.mort_setPlayer i _ (by simpa using h i)).mort_addLog _
  have h2 : Mortgages m (bankruptcyCore s i c) := by
    unfold bankruptcyCore
    cases c with
    | none =>
      simp only
      have h3 : ∀ l : List Nat, Mortgages m (l.foldl bankTakes
          ((s.setPlayer i (s.getPlayer i).goBankrupt).addLog .jail)) := fun l =>
        foldl_preserves (Mortgages m) bankTakes (fun st x hst => hst.mort_of_players rfl) l _ h1
      exact (h3 _).mort_setPlayer i _ (by simpa using h3 _ i)
    | some c =>
      simp only
      have h3 : ∀ l : List Nat, Mortgages m (l.foldl (creditorTakes c)
          ((s.setPlayer i (s.getPlayer i).goBankrupt).addLog .jail)) := fun l =>
        foldl_preserves (Mortgages m) (creditorTakes c)
          (fun st x hst => by
            unfold creditorTakes
            exact (hst.mort_setPlayer c _ (by simpa using hst c)).mort_of_players rfl) l _ h1
      exact ((h3 _).mort_addLog _).mort_setPlayer i _ (by simpa using h3 _ i)
  rw [declareBankruptcy_eq]
  split
  · exact h2.mort_of_players rfl
  · exact h2

theorem Mortgages.mort_rollDice {m : Nat → List Nat} {s : GameState} (h : Mortgages m s)
    (d1 d2 : Int) : Mortgages m (s.rollDice d1 d2).2 := by
  simp only [GameState.rollDice]
  split_ifs <;> exact h

theorem Mortgages.mort_moveCurrentPlayer {m : Nat → List Nat} {s : GameState}
    (h : Mortgages m s) (n : Int) : Mortgages m (s.moveCurrentPlayer n).2 := by
  simp only [GameState.moveCurrentPlayer]
  have h1 := h.mort_setPlayer s.currentPlayerIndex
    ((s.getPlayer s.currentPlayerIndex).moveSpaces n).2 (by simpa using h s.currentPlayerIndex)
  split_ifs
  · exact h1.mort_addLog _
  · exact h1

theorem Mortgages.mort_buyProperty {m : Nat → List Nat} {s : GameState} (h : Mortgages m s)
    (i : Nat) (tile : Tile) : Mortgages m (s.buyProperty i tile).2 := by
  unfold GameState.buyProperty
  cases tile.price with
  | none => exact h
  | some price =>
    by_cases hm : (s.getPlayer i).money ≥ price
    · simp only [Player.subtractMoney, hm, if_true]
      exact (((h.mort_setPlayer i _ (by simpa using h i)).mort_setOwner _ _).mort_setHouses
        _ _).mort_addLog _
    · simp only [Player.subtractMoney, hm, if_false]
      exact h

theorem Mortgages.mort_buildHouse {m : Nat → List Nat} {s : GameState} (h : Mortgages m s)
    (i : Nat) (tile : Tile) : Mortgages m (s.buildHouse i tile).2 := by
  rcases buildHouse_cases s i tile with ⟨_, e⟩ | ⟨hp, _, _, _, _, hge, _, e⟩
  · rw [e]; exact h
  · rw [e]; exact ((h.mort_setPlayer i _ (by simpa using h i)).mort_setHouses _ _).mort_addLog _

theorem Mortgages.mort_sabotageProperty {m : Nat → List Nat} {s : GameState}
    (h : Mortgages m s) (i : Nat) (tile : Tile) : Mortgages m (s.sabotageProperty i tile).2 := by
  have h1 : Mortgages m ((s.setPlayer i ((s.getPlayer i).subtractMoney 150).2).setHouses
      tile.id ((s.propertyHouses tile.id).getD 0 - 1)) :=
    (h.mort_setPlayer i _ (by simpa using h i)).mort_setHouses _ _
  simp only [GameState.sabotageProperty]
  split_ifs
  · exact h
  · exact h
  · split
    · exact h1
    · exact h1.mort_addLog _
  · exact h

end GameState

end Fortunopoly

namespace Fortunopoly
open GameState

namespace GameState

theorem Mortgages.mort_payRent {m : Nat → List Nat} {s : GameState} (h : Mortgages m s)
    (i o : Nat) (amount : Int) : Mortgages m (s.payRent i o amount).2 := by
  by_cases hm : (s.getPlayer i).money ≥ amount
  · have e : s.payRent i o amount = (true,
        ((s.setPlayer i ((s.getPlayer i).setMoney ((s.getPlayer i).money - amount))).setPlayer o
          (((s.setPlayer i ((s.getPlayer i).setMoney ((s.getPlayer i).money - amount))).getPlayer
            o).addMoney amount)).addLog .rent) := by
      simp only [GameState.payRent, Player.subtractMoney, hm, if_true]
    rw [e]
    have h1 := h.mort_setPlayer i ((s.getPlayer i).setMoney ((s.getPlayer i).money - amount))
      (by simpa using h i)
    exact (h1.mort_setPlayer o _ (by simpa using h1 o)).mort_addLog _
  · have e : s.payRent i o amount = (false,
        (((s.setPlayer i ((s.getPlayer i).setMoney 0)).setPlayer o
          (((s.setPlayer i ((s.getPlayer i).setMoney 0)).getPlayer o).addMoney
            (s.getPlayer i).money)).addLog .rent).declareBankruptcy i (some o)) := by
      simp only [GameState.payRent, Player.subtractMoney, hm, if_false, Bool.false_eq_true]
    rw [e]
    dsimp only
    have h1 := h.mort_setPlayer i ((s.getPlayer i).setMoney 0) (by simpa using h i)
    have h2 := h1.mort_setPlayer o (((s.setPlayer i ((s.getPlayer i).setMoney 0)).getPlayer o).addMoney
      (s.getPlayer i).money) (by simpa using h1 o)
    exact (h2.mort_addLog _).mort_declareBankruptcy i _

theorem Mortgages.mort_processTax {m : Nat → List Nat} {s : GameState} (h : Mortgages m s)
    (i : Nat) (tile : Tile) : Mortgages m (s.processTax i tile).2 := by
  have hfail : Mortgages m ((((s.setPlayer i ((s.getPlayer i).setMoney 0)).addLog .rent).addLog
      .rent).declareBankruptcy i none) :=
    (((h.mort_setPlayer i _ (by simpa using h i)).mort_addLog _).mort_addLog
      _).mort_declareBankruptcy i none
  simp only [GameState.processTax]
  cases tile.amount with
  | none =>
    simp only [Bool.false_eq_true, if_false]
    split_ifs
    · exact (hfail.mort_setFreeParkingPot _).mort_addLog _
    · exact hfail
  | some a =>
    simp only
    have hok : Mortgages m ((s.setPlayer i ((s.getPlayer i).subtractMoney a).2).addLog .rent) :=
      (h.mort_setPlayer i _ (by simpa using h i)).mort_addLog _
    split_ifs
    · exact (hok.mort_setFreeParkingPot _).mort_addLog _
    · exact hok
    · exact (hfail.mort_setFreeParkingPot _).mort_addLog _
    · exact hfail

theorem Mortgages.mort_sendToJail {m : Nat → List Nat} {s : GameState} (h : Mortgages m s)
    (i : Nat) : Mortgages m (s.sendToJail i).2 := by
  unfold GameState.sendToJail
  exact ((h.mort_setPlayer i _ (by simpa using h i)).mort_setConsecutiveDoubles _).mort_addLog _

theorem Mortgages.mort_processPropertyLanding {m : Nat → List Nat} {s : GameState}
    (h : Mortgages m s) (i : Nat) (tile : Tile) :
    Mortgages m (s.processPropertyLanding i tile).2 := by
  simp only [GameState.processPropertyLanding]
  split
  · split_ifs
    · exact h
    · exact h.mort_addLog _
  · split_ifs
    · exact h.mort_addLog _
    · exact h.mort_addLog _
    · exact h

theorem Mortgages.mort_processChanceCard {m : Nat → List Nat} {s : GameState}
    (h : Mortgages m s) (d : Decks) (rnd : Nat → Nat) (tile : Option Tile) :
    Mortgages m (s.processChanceCard d rnd tile).2.1 := by
  simp only [GameState.processChanceCard]
  split_ifs <;> exact h.mort_addLog _

theorem Mortgages.mort_processLanding {m : Nat → List Nat} {s : GameState} (h : Mortgages m s)
    (d : Decks) (rnd : Nat → Nat) (i : Nat) : Mortgages m (s.processLanding d rnd i).2.1 := by
  simp only [GameState.processLanding]
  split
  · exact h
  · split
    · split_ifs
      · exact ((h.mort_addLog _).mort_setPlayer i _ (by simpa using h i)).mort_addLog _
      · exact h.mort_addLog _
    · exact h.mort_processPropertyLanding i _
    · exact h.mort_processPropertyLanding i _
    · exact h.mort_processPropertyLanding i _
    · exact h.mort_processChanceCard d rnd _
    · exact h.mort_processTax i _
    · exact h.mort_addLog _
    · exact h.mort_sendToJail i
    · split_ifs with hj
      · exact ((h.mort_setPlayer i ((s.getPlayer i).addMoney (s.freeParkingPot.getD 0))
          (by simpa using h i)).mort_addLog .card).mort_setFreeParkingPot _
      · exact h.mort_addLog _

theorem Mortgages.mort_takeFromOthers {m : Nat → List Nat} {s : GameState} (h : Mortgages m s)
    (i : Nat) (amount : Int) : Mortgages m (s.takeFromOthers i amount).1 := by
  unfold GameState.takeFromOthers
  refine foldl_keeps (fun acc : GameState × Int => Mortgages m acc.1) _ ?_ _ (s, 0) h
  rintro ⟨st, n⟩ j h1
  simp only at h1
  simp only [takeFromOne]
  split_ifs
  · exact h1.mort_setPlayer j _ (by simpa using h1 j)
  · exact h1

theorem Mortgages.mort_payOne {m : Nat → List Nat} {s : GameState} (h : Mortgages m s)
    (amount : Int) (j : Nat) : Mortgages m (GameState.payOne amount s j) :=
  h.mort_setPlayer j _ (by simpa using h j)

theorem Mortgages.mort_loseOne {m : Nat → List Nat} {s : GameState} (h : Mortgages m s)
    (i : Nat) (amount : Int) (j : Nat) : Mortgages m (GameState.loseOne i amount s j) := by
  simp only [GameState.loseOne]
  split_ifs
  · exact h.mort_setPlayer j _ (by simpa using h j)
  · exact (h.mort_setPlayer j _ (by simpa using h j)).mort_declareBankruptcy j none
  · exact h.mort_setPlayer j _ (by simpa using h j)

theorem Mortgages.mort_applyCardEffect {m : Nat → List Nat} {s : GameState} (h : Mortgages m s)
    (i : Nat) (card : Card) (won : Bool) : Mortgages m (s.applyCardEffect i card won).2 := by
  unfold GameState.applyCardEffect
  cases he : card.effect with
  | money amount =>
    simp only
    split_ifs with h1 h2
    · exact (h.mort_setPlayer i _ (by simpa using h i)).mort_addLog _
    · exact h.mort_declareBankruptcy i none
    · exact (h.mort_setPlayer i _ (by simpa using h i)).mort_addLog _
  | move position collectStart =>
    simp only
    have h1 := h.mort_setPlayer i ((s.getPlayer i).moveTo position collectStart).2
      (by simpa using h i)
    split <;> split_ifs <;> exact h1
  | moveRelative spaces =>
    simp only
    have h1 := h.mort_setPlayer i ((s.getPlayer i).moveSpaces spaces).2 (by simpa using h i)
    split <;> split_ifs <;> exact h1
  | jail => simp only; exact h.mort_sendToJail i
  | jailFree => simp only; exact (h.mort_setPlayer i _ (by simpa using h i)).mort_addLog _
  | collectFromAll amount =>
    have h1 := h.mort_takeFromOthers i amount
    rcases hto : s.takeFromOthers i amount with ⟨s1, collected⟩
    rw [hto] at h1
    simp only [hto]
    exact (h1.mort_setPlayer i _ (by simpa using h1 i)).mort_addLog _
  | payToAll amount =>
    simp only
    split_ifs
    · refine Mortgages.mort_addLog ?_ _
      exact foldl_keeps (Mortgages m) _ (fun st j hst => hst.mort_payOne amount j) _ _
        (h.mort_setPlayer i _ (by simpa using h i))
    · exact h.mort_declareBankruptcy i none
  | payPerProperty amount =>
    simp only
    split_ifs
    · exact (h.mort_setPlayer i _ (by simpa using h i)).mort_addLog _
    · exact h.mort_declareBankruptcy i none
  | stealFromRichest amount =>
    simp only
    split
    · rename_i r _
      have h1 := h.mort_setPlayer r
        ((s.getPlayer r).subtractMoney (min amount (s.getPlayer r).money)).2 (by simpa using h r)
      exact (h1.mort_setPlayer i _ (by simpa using h1 i)).mort_addLog _
    · exact h
  | stealFromAll amount =>
    have h1 := h.mort_takeFromOthers i amount
    rcases hto : s.takeFromOthers i amount with ⟨s1, collected⟩
    rw [hto] at h1
    simp only [hto]
    exact (h1.mort_setPlayer i _ (by simpa using h1 i)).mort_addLog _
  | stealChoice amount => simp only; exact h
  | freeArson => simp only; exact h
  | everyoneLoses amount =>
    simp only
    refine Mortgages.mort_addLog ?_ _
    exact foldl_keeps (Mortgages m) _ (fun st j hst => hst.mort_loseOne i amount j) _ _ h
  | gamble winAmount loseAmount =>
    simp only
    split_ifs
    · exact (h.mort_setPlayer i _ (by simpa using h i)).mort_addLog _
    · exact (h.mort_setPlayer i _ (by simpa using h i)).mort_addLog _
    · exact (h.mort_addLog _).mort_declareBankruptcy i none

theorem Mortgages.mort_processJailTurn {m : Nat → List Nat} {s : GameState} (h : Mortgages m s)
    (i : Nat) (d : DiceRoll) : Mortgages m (s.processJailTurn i d).2 := by
  simp only [GameState.processJailTurn]
  have h1 := h.mort_setPlayer i (s.getPlayer i).incrementJailTurn.2 (by simpa using h i)
  split_ifs
  · exact (h.mort_setPlayer i _ (by simpa using h i)).mort_addLog _
  · exact (h1.mort_setPlayer i _ (by simpa using h i)).mort_addLog _
  · exact h1.mort_declareBankruptcy i none
  · exact h1.mort_addLog _

theorem Mortgages.mort_payJailBail {m : Nat → List Nat} {s : GameState} (h : Mortgages m s)
    (i : Nat) : Mortgages m (s.payJailBail i).2 := by
  simp only [GameState.payJailBail]
  split_ifs
  · exact (h.mort_setPlayer i _ (by simpa using h i)).mort_addLog _
  · exact (h.mort_setPlayer i _ (by simpa using h i)).mort_addLog _
  · exact h

theorem Mortgages.mort_transferTile {m : Nat → List Nat} {s : GameState} (h : Mortgages m s)
    (g k t : Nat) : Mortgages m (TradeSystem.transferTile g k s t) := by
  unfold TradeSystem.transferTile
  have h1 := h.mort_setPlayer g ((s.getPlayer g).removeProperty t) (by simpa using h g)
  exact (h1.mort_setPlayer k _ (by simpa using h1 k)).mort_setOwner _ _

theorem Mortgages.mort_transferMoney {m : Nat → List Nat} {s : GameState} (h : Mortgages m s)
    (a b : Nat) (v : Int) : Mortgages m (TradeSystem.transferMoney s a b v) := by
  simp only [TradeSystem.transferMoney]
  split_ifs with hm
  · have h1 := h.mort_setPlayer a ((s.getPlayer a).subtractMoney v).2 (by simpa using h a)
    exact h1.mort_setPlayer b _ (by simpa using h1 b)
  · exact h

theorem Mortgages.mort_executeTrade {m : Nat → List Nat} {s : GameState} (h : Mortgages m s)
    (ts : TradeSystem) : Mortgages m (ts.executeTrade s).2.2 := by
  unfold TradeSystem.executeTrade
  split
  · exact h
  · exact h
  · split
    · exact h
    · split
      · refine Mortgages.mort_addLog ?_ _
        refine Mortgages.mort_transferMoney (Mortgages.mort_transferMoney ?_ _ _ _) _ _ _
        unfold TradeSystem.transferTiles
        exact foldl_keeps (Mortgages m) _ (fun st t hst => hst.mort_transferTile _ _ t) _ _
          (foldl_keeps (Mortgages m) _ (fun st t hst => hst.mort_transferTile _ _ t) _ _ h)
      · exact h

end GameState
end Fortunopoly

namespace Fortunopoly
open GameState

namespace GameState

theorem getPlayer_mortgaged_of_not_lt (s : GameState) (j : Nat) (hj : ¬ j < s.players.length) :
    (s.getPlayer j).mortgagedProperties = [] := by
  simp [getPlayer, List.getD_eq_getElem?_getD, List.getElem?_eq_none (Nat.le_of_not_lt hj)]
  rfl

theorem init_mortgaged (pd : List PlayerData) (rules : HouseRules) (s : GameState)
    (h : GameState.init pd rules = some s) (j : Nat) :
    (s.getPlayer j).mortgagedProperties = [] := by
  rcases getPlayer_mem_or_default s j with hm | hd
  · rw [(init_players pd rules s h).1, List.mem_map] at hm
    obtain ⟨x, _, hx⟩ := hm
    rw [← hx]
    rfl
  · rw [hd]; rfl

/-- A successful `mortgageProperty` is the only call that adds to a
mortgaged list, and it adds a tile the player owns. -/
theorem mortgaged_mortgageProperty (s : GameState) (i : Nat) (tile : Tile)
    (r : MortgageResult × GameState) (hr : s.mortgageProperty i tile = some r) (j t : Nat)
    (ht : t ∈ (r.2.getPlayer j).mortgagedProperties) :
    t ∈ (s.getPlayer j).mortgagedProperties ∨ t ∈ (r.2.getPlayer j).properties := by
  simp only [GameState.mortgageProperty] at hr
  split_ifs at hr with h1 h2 h3 h4 h5
  · cases hr; exact Or.inl ht
  · cases hr; exact Or.inl ht
  · cases hr; exact Or.inl ht
  · cases hp : tile.price with
    | none => simp [hp] at hr
    | some price =>
      simp only [hp, Option.some.injEq] at hr
      subst hr
      have hown : tile.id ∈ (s.getPlayer i).properties := by
        simpa [Player.ownsProperty] using h1
      simp only [getPlayer_addLog, getPlayer_setPlayer] at ht ⊢
      split at ht
      · rename_i hij
        rw [if_pos hij]
        simp only [Player.setMortgaged_mortgaged, Player.addMoney_mortgaged, List.mem_append,
          List.mem_singleton] at ht
        rcases ht with ht | ht
        · left; rw [← hij.1]; exact ht
        · right
          subst ht
          simpa [Player.setMortgaged, Player.addMoney, Player.setMoney] using hown
      · rename_i hij
        rw [if_neg hij]
        exact Or.inl ht
  · cases hr; exact Or.inl ht

theorem mortgaged_unmortgageProperty (s : GameState) (i : Nat) (tile : Tile) (j t : Nat)
    (ht : t ∈ ((s.unmortgageProperty i tile).2.getPlayer j).mortgagedProperties) :
    t ∈ (s.getPlayer j).mortgagedProperties := by
  simp only [GameState.unmortgageProperty] at ht
  split_ifs at ht
  · exact ht
  · cases hp : tile.price with
    | none => simpa [hp] using ht
    | some price =>
      simp only [hp] at ht
      generalize price / 2 + -(-(price / 2) / 10) = cost at ht
      by_cases hm : (s.getPlayer i).money ≥ cost
      · simp only [Player.subtractMoney, hm, if_true, getPlayer_addLog, getPlayer_setPlayer] at ht
        split at ht
        · rename_i hij
          rw [← hij.1]
          simp only [Player.setMortgaged_mortgaged, Player.setMoney_mortgaged] at ht
          exact List.mem_of_mem_erase ht
        · exact ht
      · simpa [Player.subtractMoney, hm] using ht
  · exact ht

/-- What a call can add to a mortgaged list is a tile the player owns. -/
theorem mortgaged_run (s : GameState) (c : EngineCall) (j t : Nat)
    (ht : t ∈ ((c.run s).getPlayer j).mortgagedProperties) :
    t ∈ (s.getPlayer j).mortgagedProperties ∨ t ∈ ((c.run s).getPlayer j).properties := by
  have h : Mortgages (fun j => (s.getPlayer j).mortgagedProperties) s := fun _ => rfl
  cases c with
  | rollDice d1 d2 => exact Or.inl (h.mort_rollDice d1 d2 j ▸ ht)
  | moveCurrentPlayer n => exact Or.inl (h.mort_moveCurrentPlayer n j ▸ ht)
  | processLanding i d rnd => exact Or.inl (h.mort_processLanding d rnd i j ▸ ht)
  | buyProperty i tile => exact Or.inl (h.mort_buyProperty i tile j ▸ ht)
  | buildHouse i tile => exact Or.inl (h.mort_buildHouse i tile j ▸ ht)
  | sabotageProperty i tile => exact Or.inl (h.mort_sabotageProperty i tile j ▸ ht)
  | mortgageProperty i tile =>
    simp only [EngineCall.run] at ht ⊢
    cases hr : s.mortgageProperty i tile with
    | none => rw [hr] at ht; exact Or.inl ht
    | some r =>
      rw [hr] at ht
      exact mortgaged_mortgageProperty s i tile r hr j t ht
  | unmortgageProperty i tile => exact Or.inl (mortgaged_unmortgageProperty s i tile j t ht)
  | payRent i o amount => exact Or.inl (h.mort_payRent i o amount j ▸ ht)
  | processTax i tile => exact Or.inl (h.mort_processTax i tile j ▸ ht)
  | applyCardEffect i card won => exact Or.inl (h.mort_applyCardEffect i card won j ▸ ht)
  | sendToJail i => exact Or.inl (h.mort_sendToJail i j ▸ ht)
  | processJailTurn i d => exact Or.inl (h.mort_processJailTurn i d j ▸ ht)
  | payJailBail i => exact Or.inl (h.mort_payJailBail i j ▸ ht)
  | declareBankruptcy i c => exact Or.inl (h.mort_declareBankruptcy i c j ▸ ht)
  | endTurn =>
    simp only [EngineCall.run] at ht
    cases hr : s.endTurn with
    | none => rw [hr] at ht; exact Or.inl ht
    | some r =>
      rw [hr] at ht
      exact Or.inl ((h.mort_of_players (endTurn_players s r hr).1) j ▸ ht)
  | executeTrade ts => exact Or.inl (h.mort_executeTrade ts j ▸ ht)

end GameState

/-- Claim C15, amended: in every state reached from `GameState.init` by
engine calls and `TradeSystem.executeTrade` that take no mortgaged tile away
from the player who holds it (no trade hands over a tile its giver has
mortgaged, and no player goes bankrupt while holding a mortgaged tile), each
player's `mortgagedProperties` is a subset of that player's `properties`. -/
theorem mortgaged_owned_of_reachableKeeping (s : GameState) (h : ReachableKeeping s) :
    ∀ j, ∀ t ∈ (s.getPlayer j).mortgagedProperties, t ∈ (s.getPlayer j).properties := by
  induction h with
  | init pd rules s hs =>
    intro j t ht
    rw [init_mortgaged pd rules s hs j] at ht
    cases ht
  | step s c _ _ hk ih =>
    intro j t ht
    rcases mortgaged_run s c j t ht with hold | hnew
    · by_cases hj : j < s.players.length
      · exact hk j hj t hold (ih j t hold)
      · rw [getPlayer_mortgaged_of_not_lt s j hj] at hold
        cases hold
    · exact hnew

end Fortunopoly

namespace Fortunopoly
open GameState

/-- Witness for C11: player 0 holds both brown tiles, tile 3 with a house,
and goes bankrupt to the bank. -/
theorem declareBankruptcy_bank_witness :
    0 < siblingImproved.players.length ∧
    siblingImproved.propertyOwners 3 = some 0 ∧ siblingImproved.propertyHouses 3 = some 1 ∧
    (siblingImproved.declareBankruptcy 0 none).propertyOwners 3 = none ∧
    (siblingImproved.declareBankruptcy 0 none).propertyHouses 3 = none ∧
    ((siblingImproved.declareBankruptcy 0 none).getPlayer 0).money = 0 ∧
    ((siblingImproved.declareBankruptcy 0 none).getPlayer 0).properties = [] ∧
    (siblingImproved.declareBankruptcy 0 none).getPlayer 1 = siblingImproved.getPlayer 1 := by
  have h := declareBankruptcy_bank siblingImproved 0 (by decide)
  exact ⟨by decide, by decide, by decide, (h.1 3 (by decide)).1, (h.1 3 (by decide)).2,
    h.2.2.1, h.2.2.2.1, h.2.2.2.2.2.1 1 (by decide)⟩

/-- Witness for C12: with two players the bankruptcy of one ends the game,
with three players it does not. -/
theorem declareBankruptcy_phase_witness :
    (startOfGame.declareBankruptcy 0 none).getActivePlayers.length = 1 ∧
    (startOfGame.declareBankruptcy 0 none).phase = .gameOver ∧
    (threePlayers.declareBankruptcy 0 none).getActivePlayers.length = 2 ∧
    (threePlayers.declareBankruptcy 0 none).phase = .playing := by
  have h := declareBankruptcy_phase startOfGame 0 none
  have k := declareBankruptcy_phase threePlayers 0 none
  have h1 : (startOfGame.declareBankruptcy 0 none).getActivePlayers.length = 1 := by decide
  have k1 : (threePlayers.declareBankruptcy 0 none).getActivePlayers.length = 2 := by decide
  exact ⟨h1, h.1 (by rw [h1]), k1, (k.2.1 (by rw [k1])).trans (by decide)⟩

/-- Witness for C13: tile 1 cannot be mortgaged while its sibling tile 3
carries a house; without the house it is mortgaged for 30. -/
theorem mortgageProperty_spec_witness :
    (tileAt 1).price = some 60 ∧
    siblingImproved.mortgageProperty 0 (tileAt 1)
      = some (.failure .sellBuildingsInGroupFirst, siblingImproved) ∧
    (∃ st, brownMonopoly.mortgageProperty 0 (tileAt 1) = some (.success, st) ∧
      (st.getPlayer 0).money = (brownMonopoly.getPlayer 0).money + 30 ∧
      (st.getPlayer 0).mortgagedProperties = [1]) := by
  have h := mortgageProperty_spec siblingImproved 0 (tileAt 1) 60 (by decide)
  have k := mortgageProperty_spec brownMonopoly 0 (tileAt 1) 60 (by decide)
  refine ⟨by decide, h.2.2.2.2 (by decide) (by decide) ⟨tileAt 3, by decide, by decide⟩, ?_⟩
  obtain ⟨st, hst⟩ := k.2.1.2 ⟨by decide, by decide, by decide, by decide⟩
  obtain ⟨h1, h2, _⟩ := k.2.2.1 st hst
  refine ⟨st, hst, ?_, ?_⟩
  · rw [h1]
    have : ⌊((60 : Int) : ℚ) / 2⌋ = 30 := by
      rw [Int.floor_eq_iff]; norm_num
    rw [this]
  · rw [h2]; decide

/-- Witness for C14: tile 1 (price 60), mortgaged by player 0, is released
for 33. -/
theorem unmortgageProperty_spec_witness :
    tileAt 1 ∈ TILES ∧ isTileBuyable (tileAt 1) = true ∧
    (mortgagedOne.unmortgageProperty 0 (tileAt 1)).1 = .success ∧
    ((mortgagedOne.unmortgageProperty 0 (tileAt 1)).2.getPlayer 0).money
      = (mortgagedOne.getPlayer 0).money - 33 ∧
    ((mortgagedOne.unmortgageProperty 0 (tileAt 1)).2.getPlayer 0).mortgagedProperties = [] := by
  obtain ⟨price, cost, hp, _, _, _, h60, hiff, hsucc, _⟩ :=
    unmortgageProperty_spec mortgagedOne 0 (tileAt 1) (by decide) (by decide)
  have hprice : price = 60 := by
    have e : (tileAt 1).price = some 60 := by decide
    rw [e] at hp
    exact (Option.some.inj hp).symm
  have hcost : cost = 33 := h60 hprice
  subst hcost
  have hs : (mortgagedOne.unmortgageProperty 0 (tileAt 1)).1 = .success :=
    hiff.2 ⟨by decide, by decide, by decide⟩
  obtain ⟨h1, h2, _⟩ := hsucc hs
  exact ⟨by decide, by decide, hs, h1, by rw [h2]; decide⟩

/-- Buying tile 1 and mortgaging it are engine calls. -/
theorem reachable_mortgagedOne : Reachable mortgagedOne :=
  Reachable.step _ _
    (Reachable.step _ _ reachable_startOfGame ⟨by decide, by decide⟩) ⟨by decide, by decide⟩

/-- Counterexample to C15 as stated: player 0 buys tile 1 and mortgages it.
After `declareBankruptcy(player0, null)` the player's mortgaged list still
holds tile 1 while the properties list is empty; and after player 0 trades
tile 1 to player 1, tile 1 is in the properties list of player 1 and still in
the mortgaged list of player 0. -/
theorem mortgaged_counterexample :
    (Reachable mortgagedThenBankrupt ∧
      1 ∈ (mortgagedThenBankrupt.getPlayer 0).mortgagedProperties ∧
      1 ∉ (mortgagedThenBankrupt.getPlayer 0).properties) ∧
    (Reachable mortgagedThenTraded ∧
      1 ∈ (mortgagedThenTraded.getPlayer 0).mortgagedProperties ∧
      1 ∉ (mortgagedThenTraded.getPlayer 0).properties ∧
      1 ∈ (mortgagedThenTraded.getPlayer 1).properties) :=
  ⟨⟨Reachable.step _ _ reachable_mortgagedOne ⟨by decide, fun c hc => by cases hc⟩,
      by decide, by decide⟩,
   ⟨Reachable.step _ _ reachable_mortgagedOne trivial, by decide, by decide, by decide⟩⟩

/-- Buying tile 1 and mortgaging it take no mortgaged tile from anybody. -/
theorem reachableKeeping_mortgagedOne : ReachableKeeping mortgagedOne :=
  ReachableKeeping.step _ _
    (ReachableKeeping.step _ _ (ReachableKeeping.init [{}, {}] {} startOfGame rfl)
      ⟨by decide, by decide⟩ (by unfold EngineCall.KeepsMortgaged; decide))
    ⟨by decide, by decide⟩ (by unfold EngineCall.KeepsMortgaged; decide)

/-- Witness for C15, amended: the mortgaged tile 1 is a tile of player 0. -/
theorem mortgaged_owned_of_reachableKeeping_witness :
    ReachableKeeping mortgagedOne ∧
    (mortgagedOne.getPlayer 0).mortgagedProperties = [1] ∧
    1 ∈ (mortgagedOne.getPlayer 0).properties :=
  ⟨reachableKeeping_mortgagedOne, by decide,
    mortgaged_owned_of_reachableKeeping mortgagedOne reachableKeeping_mortgagedOne 0 1
      (by decide)⟩

/-- Witness for C16: the swap of tile 1 and 10 in money against tile 3 is
valid; the same proposal is invalid once tile 1 carries a house. -/
theorem validateTrade_spec_witness :
    swapTrade.validateTrade oneTileEach = .valid ∧
    (∃ reason, swapTrade.validateTrade (oneTileEach.setHouses 1 1) = .invalid reason) := by
  have h := validateTrade_spec swapTrade oneTileEach
    { fromPlayerId := 0, toPlayerId := 1, offeredProperties := [1], offeredMoney := 10,
      requestedProperties := [3], requestedMoney := 0 } rfl
  have k := validateTrade_spec swapTrade (oneTileEach.setHouses 1 1)
    { fromPlayerId := 0, toPlayerId := 1, offeredProperties := [1], offeredMoney := 10,
      requestedProperties := [3], requestedMoney := 0 } rfl
  refine ⟨h.1.2 ⟨0, 1, by decide, by decide, by decide, by decide, by decide, by decide,
    by decide, by decide, by decide, by decide⟩, k.2.2 (by decide) ?_⟩
  intro hv
  obtain ⟨f, o, hf, _, _, _, _, _, hlev, _⟩ := k.1.1 hv
  exact hlev 1 (by decide) (by decide)

/-- Witness for C18: the third failed attempt of a player with 30 in money. -/
theorem processJailTurn_spec_witness :
    0 < jailedPoor.players.length ∧ (jailedPoor.getPlayer 0).jailTurns = 2 ∧
    (jailedPoor.getPlayer 0).money = 30 ∧ jailedPoor.propertyHouses 1 = some 1 ∧
    (jailedPoor.processJailTurn 0 { die1 := 2, die2 := 5, total := 7, isDoubles := false }).1
      = { escaped := false, canMove := false } ∧
    ((jailedPoor.processJailTurn 0
      { die1 := 2, die2 := 5, total := 7, isDoubles := false }).2.getPlayer 0).isBankrupt = true ∧
    (jailedPoor.processJailTurn 0
      { die1 := 2, die2 := 5, total := 7, isDoubles := false }).2.propertyOwners 1 = none ∧
    (jailedPoor.processJailTurn 0
      { die1 := 2, die2 := 5, total := 7, isDoubles := false }).2.propertyHouses 1 = none := by
  have h := (processJailTurn_spec jailedPoor 0
    { die1 := 2, die2 := 5, total := 7, isDoubles := false } (by decide)).2.2.1 rfl (by decide)
    (by decide)
  exact ⟨by decide, by decide, by decide, by decide, h.1, h.2.2.1,
    (h.2.2.2.2.2.2 1 (by decide)).1, (h.2.2.2.2.2.2 1 (by decide)).2⟩

/-- Counterexample to C19 as stated: after two doubles in a row the roll
4 and 4 is the third; `rollDice` counts it and leaves the current player on
the old position, out of jail. -/
theorem rollDice_counterexample :
    Reachable twoDoubles ∧ twoDoubles.consecutiveDoubles = 2 ∧
    (twoDoubles.rollDice 4 4).1.isDoubles = true ∧
    (twoDoubles.rollDice 4 4).2.consecutiveDoubles = 3 ∧
    ((twoDoubles.rollDice 4 4).2.getPlayer twoDoubles.currentPlayerIndex).position ≠ 10 ∧
    ((twoDoubles.rollDice 4 4).2.getPlayer twoDoubles.currentPlayerIndex).inJail = false :=
  ⟨Reachable.step _ _
      (Reachable.step _ _ reachable_startOfGame ⟨by decide, by decide, by decide, by decide⟩)
      ⟨by decide, by decide, by decide, by decide⟩,
    by decide, by decide, by decide, by decide, by decide⟩

/-- Witness for C19, amended: the outcomes 1/2 and 1/2 of `Math.random()`
give the dice 4 and 4, a third double. -/
theorem rollDice_spec_witness :
    rollDie (1 / 2) = 4 ∧
    (twoDoubles.rollDice (rollDie (1 / 2)) (rollDie (1 / 2))).2.consecutiveDoubles = 3 ∧
    (∀ j, (twoDoubles.rollDice (rollDie (1 / 2)) (rollDie (1 / 2))).2.getPlayer j
      = twoDoubles.getPlayer j) ∧
    (∃ st, handleRollDiceHead (twoDoubles.rollDice 4 4).2 = some st ∧
      (st.getPlayer 0).position = 10 ∧ (st.getPlayer 0).inJail = true) := by
  have hdie : rollDie (1 / 2) = 4 := by
    unfold rollDie
    have : ⌊(1 / 2 : ℚ) * 6⌋ = 3 := by
      rw [Int.floor_eq_iff]; norm_num
    rw [this]; rfl
  have h := rollDice_spec twoDoubles (1 / 2) (1 / 2) (by norm_num) (by norm_num)
  have k := rollDice_spec (twoDoubles.rollDice 4 4).2 (1 / 2) (1 / 2) (by norm_num) (by norm_num)
  obtain ⟨_, _, _, _, _, _, _, h8⟩ := h.2.1 (rollDie (1 / 2)) (rollDie (1 / 2))
  obtain ⟨st, hst, hpos, hjail, _⟩ := k.2.2 (by decide) (by decide) (by decide)
  exact ⟨hdie, (h8 (by decide) rfl).1, (h8 (by decide) rfl).2, st, hst, hpos, hjail⟩

/-- Witness for C20: the player on tile 30 is sent to jail by the landing. -/
theorem sendToJail_spec_witness :
    0 < atGoToJail.players.length ∧ (atGoToJail.getPlayer 0).position = 30 ∧
    ((atGoToJail.sendToJail 0).2.getPlayer 0).position = 10 ∧
    ((atGoToJail.sendToJail 0).2.getPlayer 0).inJail = true ∧
    ((atGoToJail.sendToJail 0).2.getPlayer 0).money = 1500 ∧
    (atGoToJail.processLanding {} (fun _ => 0) 0).1 = .jailed := by
  have h := sendToJail_spec atGoToJail 0 (by decide)
  have hl := h.2.2.2.2.2.2.2.2.2 {} (fun _ => 0) (by decide)
  exact ⟨by decide, by decide, h.1, h.2.1, (h.2.2.2.2.2.2.1 0).1.trans (by decide),
    by rw [hl]⟩

end Fortunopoly

namespace Fortunopoly
open GameState

/-- Claim C21: `payJailBail(player)`.  A player who holds the jail-free card
loses the card, is released (`inJail` false, `jailTurns` 0) and keeps the
money, and the result is true.  Without the card a player with money of at
least 50 pays exactly 50, is released, and the result is true.  Without the
card and with less than 50 the result is false and the whole state, so the
player too, is unchanged.  No other player and no ledger is written. -/
theorem payJailBail_spec (s : GameState) (i : Nat) (hi : i < s.players.length) :
    ((s.getPlayer i).hasJailFreeCard = true →
      (s.payJailBail i).1 = true ∧
      (s.payJailBail i).2.getPlayer i
        = { s.getPlayer i with hasJailFreeCard := false, inJail := false, jailTurns := 0 } ∧
      ((s.payJailBail i).2.getPlayer i).money = (s.getPlayer i).money) ∧
    ((s.getPlayer i).hasJailFreeCard = false → (s.getPlayer i).money ≥ 50 →
      (s.payJailBail i).1 = true ∧
      (s.payJailBail i).2.getPlayer i
        = { s.getPlayer i with money := (s.getPlayer i).money - 50, inJail := false,
                               jailTurns := 0 }) ∧
    ((s.getPlayer i).hasJailFreeCard = false → (s.getPlayer i).money < 50 →
      (s.payJailBail i).1 = false ∧ (s.payJailBail i).2 = s) ∧
    (∀ j, j ≠ i → (s.payJailBail i).2.getPlayer j = s.getPlayer j) ∧
    (s.payJailBail i).2.propertyOwners = s.propertyOwners ∧
    (s.payJailBail i).2.propertyHouses = s.propertyHouses := by
  have hji : ∀ j, j ≠ i → ¬ i = j := fun j hj e => hj e.symm
  refine ⟨?_, ?_, ?_, ?_, ?_, ?_⟩
  · intro hc
    simp [payJailBail, hc, getPlayer_setPlayer, hi, Player.leaveJail, Player.setJailFreeCard]
  · intro hc hm
    have hm1 : (50 : Int) ≤ (s.getPlayer i).money := hm
    simp [payJailBail, hc, Player.subtractMoney, JAIL_BAIL, hm1, getPlayer_setPlayer, hi,
      Player.leaveJail, Player.setMoney]
  · intro hc hm
    have hm1 : ¬ (50 : Int) ≤ (s.getPlayer i).money := by omega
    simp [payJailBail, hc, Player.subtractMoney, JAIL_BAIL, hm1]
  · intro j hj
    simp only [payJailBail]
    split_ifs <;> simp [getPlayer_setPlayer, hji j hj]
  · simp only [payJailBail]
    split_ifs <;> simp
  · simp only [payJailBail]
    split_ifs <;> simp

end Fortunopoly

namespace Fortunopoly
open GameState

/-- The index `players.find` stops at, from the first match. -/
theorem findIndex_of_first (f : Player → Bool) (l : List Player) (o : Nat) (ho : o < l.length)
    (hf : f (l.getD o default) = true) (hfirst : ∀ j, j < o → f (l.getD j default) = false) :
    findIndex f l = some o := by
  induction l generalizing o with
  | nil => simp at ho
  | cons p ps ih =>
    cases o with
    | zero =>
      have : f p = true := by simpa using hf
      simp [findIndex, this]
    | succ k =>
      have h0 : f p = false := by simpa using hfirst 0 (Nat.succ_pos k)
      have hk : findIndex f ps = some k := by
        apply ih k (by simpa using ho) (by simpa using hf)
        intro j hj
        simpa using hfirst (j + 1) (Nat.succ_lt_succ hj)
      simp [findIndex, h0, hk]

/-- No match: `players.find` returns `undefined`. -/
theorem findIndex_of_none (f : Player → Bool) (l : List Player)
    (h : ∀ j, j < l.length → f (l.getD j default) = false) : findIndex f l = none := by
  induction l with
  | nil => rfl
  | cons p ps ih =>
    have h0 : f p = false := by simpa using h 0 (Nat.succ_pos _)
    have hk : findIndex f ps = none := by
      apply ih
      intro j hj
      simpa using h (j + 1) (Nat.succ_lt_succ hj)
    simp [findIndex, h0, hk]

/-- Claim C23: `processPropertyLanding(player, tile)` changes no player and
no ledger entry (it only writes the log).  When no player holds the tile it
answers `canBuy` if the money is at least the price and `cantAfford` if it is
less.  When a player holds it (the first one in the player list,
`players.find`) and that owner has the id of the landing player it answers
`ownProperty`; for another owner who is in jail `ownerInJail`; and otherwise
`payRent` with that owner and `calculateRent(tile, owner)`.  Where the ids
are the list positions, as `init` assigns them, the owner has the landing
player's id exactly when it is the landing player. -/
theorem processPropertyLanding_spec (s : GameState) (i : Nat) (tile : Tile) :
    ((s.processPropertyLanding i tile).2.players = s.players ∧
      (s.processPropertyLanding i tile).2.propertyOwners = s.propertyOwners ∧
      (s.processPropertyLanding i tile).2.propertyHouses = s.propertyHouses) ∧
    ((∀ j, j < s.players.length → tile.id ∉ (s.getPlayer j).properties) →
      (∀ price, tile.price = some price → (s.getPlayer i).money ≥ price →
        (s.processPropertyLanding i tile).1 = .canBuy tile) ∧
      (∀ price, tile.price = some price → (s.getPlayer i).money < price →
        (s.processPropertyLanding i tile).1 = .cantAfford tile)) ∧
    (∀ o, o < s.players.length → tile.id ∈ (s.getPlayer o).properties →
      (∀ j, j < o → tile.id ∉ (s.getPlayer j).properties) →
      ((s.getPlayer o).id = (s.getPlayer i).id →
        (s.processPropertyLanding i tile).1 = .ownProperty) ∧
      ((s.getPlayer o).id ≠ (s.getPlayer i).id → (s.getPlayer o).inJail = true →
        (s.processPropertyLanding i tile).1 = .ownerInJail) ∧
      ((s.getPlayer o).id ≠ (s.getPlayer i).id → (s.getPlayer o).inJail = false →
        (s.processPropertyLanding i tile).1
          = .payRent tile o (s.calculateRent tile (s.getPlayer o))) ∧
      ((∀ j, j < s.players.length → (s.getPlayer j).id = j) → i < s.players.length →
        ((s.getPlayer o).id = (s.getPlayer i).id ↔ o = i))) := by
  refine ⟨?_, ?_, ?_⟩
  · simp only [processPropertyLanding]
    split
    · split_ifs <;> exact ⟨rfl, rfl, rfl⟩
    · split_ifs <;> exact ⟨rfl, rfl, rfl⟩
  · intro hnone
    have hf : findIndex (fun p => p.ownsProperty tile.id) s.players = none := by
      apply findIndex_of_none
      intro j hj
      have := hnone j hj
      simpa [Player.ownsProperty, getPlayer] using this
    constructor
    · intro price hp hm
      simp [processPropertyLanding, hf, hp, Player.canAfford, hm]
    · intro price hp hm
      have hm1 : ¬ price ≤ (s.getPlayer i).money := by omega
      simp [processPropertyLanding, hf, hp, Player.canAfford, hm1]
  · intro o ho hown hfirst
    have hf : findIndex (fun p => p.ownsProperty tile.id) s.players = some o := by
      apply findIndex_of_first _ _ o ho
      · simpa [Player.ownsProperty, getPlayer] using hown
      · intro j hj
        have := hfirst j hj
        simpa [Player.ownsProperty, getPlayer] using this
    refine ⟨?_, ?_, ?_, ?_⟩
    · intro hid
      simp [processPropertyLanding, hf, hid]
    · intro hid hjail
      simp [processPropertyLanding, hf, hid, hjail]
    · intro hid hjail
      simp [processPropertyLanding, hf, hid, hjail]
    · intro hids hi
      rw [hids o ho, hids i hi]

end Fortunopoly

namespace Fortunopoly
open GameState

/-- A match exists: `players.find` returns a player. -/
theorem findIndex_isSome_iff (f : Player → Bool) (l : List Player) :
    (∃ o, findIndex f l = some o) ↔ ∃ j, j < l.length ∧ f (l.getD j default) = true := by
  constructor
  · rintro ⟨o, ho⟩
    exact ⟨o, findIndex_some f l o ho⟩
  · rintro ⟨j, hj, hf⟩
    cases h : findIndex f l with
    | some o => exact ⟨o, rfl⟩
    | none =>
      exfalso
      induction l generalizing j with
      | nil => simp at hj
      | cons p ps ih =>
        unfold findIndex at h
        by_cases hp : f p = true
        · simp [hp] at h
        · simp [hp] at h
          cases j with
          | zero => exact hp (by simpa using hf)
          | succ k => exact ih k (by simpa using hj) (by simpa using hf) h

namespace GameState

/-- The branches of `sabotageProperty`. -/
theorem sabotageProperty_cases (s : GameState) (i : Nat) (tile : Tile) :
    ((¬ ((s.propertyHouses tile.id).getD 0 > 0 ∧
          s.propertyOwners tile.id ≠ some (s.getPlayer i).id ∧ (s.getPlayer i).money ≥ 150)) ∧
      s.sabotageProperty i tile = (some false, s)) ∨
    (((s.propertyHouses tile.id).getD 0 > 0 ∧
        s.propertyOwners tile.id ≠ some (s.getPlayer i).id ∧ (s.getPlayer i).money ≥ 150) ∧
      ((∃ o, o < s.players.length ∧ s.propertyOwners tile.id = some (s.getPlayer o).id) ∧
        s.sabotageProperty i tile = (some true,
          ((s.setPlayer i ((s.getPlayer i).setMoney ((s.getPlayer i).money - 150))).setHouses
            tile.id ((s.propertyHouses tile.id).getD 0 - 1)).addLog .jail) ∨
       (¬ (∃ o, o < s.players.length ∧ s.propertyOwners tile.id = some (s.getPlayer o).id) ∧
        s.sabotageProperty i tile = (none,
          (s.setPlayer i ((s.getPlayer i).setMoney ((s.getPlayer i).money - 150))).setHouses
            tile.id ((s.propertyHouses tile.id).getD 0 - 1))))) := by
  by_cases h1 : (s.propertyHouses tile.id).getD 0 > 0
  swap
  · left
    refine ⟨fun h => h1 h.1, ?_⟩
    have : (s.propertyHouses tile.id).getD 0 ≤ 0 := by omega
    simp [sabotageProperty, this]
  have h1n : ¬ (s.propertyHouses tile.id).getD 0 ≤ 0 := by omega
  by_cases h2 : s.propertyOwners tile.id = some (s.getPlayer i).id
  · left
    refine ⟨fun h => h.2.1 h2, ?_⟩
    simp [sabotageProperty, h1n, h2]
  by_cases h3 : (s.getPlayer i).money ≥ 150
  swap
  · left
    refine ⟨fun h => h3 h.2.2, ?_⟩
    simp [sabotageProperty, h1n, h2, Player.subtractMoney, h3]
  right
  refine ⟨⟨h1, h2, h3⟩, ?_⟩
  have hfind : (∃ o, findIndex (fun p => decide (some p.id = s.propertyOwners tile.id))
        ((s.setPlayer i ((s.getPlayer i).setMoney ((s.getPlayer i).money - 150))).setHouses
          tile.id ((s.propertyHouses tile.id).getD 0 - 1)).players = some o) ↔
      ∃ o, o < s.players.length ∧ s.propertyOwners tile.id = some (s.getPlayer o).id := by
    rw [findIndex_isSome_iff]
    constructor
    · rintro ⟨j, hj, hf⟩
      have hj1 : j < s.players.length := by simpa using hj
      refine ⟨j, hj1, ?_⟩
      have hf1 : some ((s.setPlayer i ((s.getPlayer i).setMoney
          ((s.getPlayer i).money - 150))).getPlayer j).id = s.propertyOwners tile.id := by
        simpa [getPlayer] using hf
      rw [← hf1, getPlayer_setPlayer]
      split
      · rename_i hij; rw [← hij.1]; rfl
      · rfl
    · rintro ⟨o, ho, hid⟩
      refine ⟨o, by simpa using ho, ?_⟩
      have : some ((s.setPlayer i ((s.getPlayer i).setMoney
          ((s.getPlayer i).money - 150))).getPlayer o).id = s.propertyOwners tile.id := by
        rw [hid, getPlayer_setPlayer]
        split
        · rename_i hij; rw [← hij.1]; rfl
        · rfl
      simpa [getPlayer] using this
  by_cases hex : ∃ o, o < s.players.length ∧ s.propertyOwners tile.id = some (s.getPlayer o).id
  · left
    refine ⟨hex, ?_⟩
    obtain ⟨o, ho⟩ := hfind.2 hex
    simp only [sabotageProperty, h1n, h2, Player.subtractMoney, h3, if_true, if_false]
    simp only [propertyOwners_setHouses, propertyOwners_setPlayer] at ho ⊢
    rw [ho]
  · right
    refine ⟨hex, ?_⟩
    have hnone : findIndex (fun p => decide (some p.id = s.propertyOwners tile.id))
        ((s.setPlayer i ((s.getPlayer i).setMoney ((s.getPlayer i).money - 150))).setHouses
          tile.id ((s.propertyHouses tile.id).getD 0 - 1)).players = none := by
      cases h : findIndex (fun p => decide (some p.id = s.propertyOwners tile.id))
        ((s.setPlayer i ((s.getPlayer i).setMoney ((s.getPlayer i).money - 150))).setHouses
          tile.id ((s.propertyHouses tile.id).getD 0 - 1)).players with
      | none => rfl
      | some o => exact absurd (hfind.1 ⟨o, h⟩) hex
    simp only [sabotageProperty, h1n, h2, Player.subtractMoney, h3, if_true, if_false]
    simp only [propertyOwners_setHouses, propertyOwners_setPlayer] at hnone ⊢
    rw [hnone]

end GameState
end Fortunopoly

namespace Fortunopoly
open GameState

/-- Claim C26: the board.  `TILES` has 40 entries and `TILES[i].id = i`;
there is exactly one `start` tile (id 0), one `jail` tile (id 10, the
position `goToJail` sets), one `gotojail` tile and one `parking` tile; for
every key of `PROPERTY_GROUPS` the number of property tiles of that group is
`PROPERTY_GROUPS[g].properties`, which is 2 or 3; every property has 6 rent
entries, every railroad 4 and there are 4 railroads, every utility has 2
multipliers and there are 2 utilities. -/
theorem board_layout :
    (TILES.length = 40 ∧ ∀ i, i < 40 → (getTile i).map (fun t => t.id) = some i) ∧
    ((TILES.filter (fun t => decide (t.type = .start))).map (fun t => t.id) = [0] ∧
      (TILES.filter (fun t => decide (t.type = .jail))).map (fun t => t.id) = [10] ∧
      (∀ p : Player, p.goToJail.position = 10) ∧
      (TILES.filter (fun t => decide (t.type = .gotojail))).length = 1 ∧
      (TILES.filter (fun t => decide (t.type = .parking))).length = 1) ∧
    (∀ g : Group,
      (TILES.filter (fun t => decide (t.type = .property) && decide (t.group = some g))).length
        = PROPERTY_GROUPS g ∧
      (getPropertiesInGroup (some g)).length = PROPERTY_GROUPS g ∧
      (PROPERTY_GROUPS g = 2 ∨ PROPERTY_GROUPS g = 3)) ∧
    ((∀ t ∈ TILES, t.type = .property → t.rent.length = 6) ∧
      (∀ t ∈ TILES, t.type = .railroad → t.rent.length = 4) ∧
      (TILES.filter (fun t => decide (t.type = .railroad))).length = 4 ∧
      (∀ t ∈ TILES, t.type = .utility → t.rentMultiplier.length = 2) ∧
      (TILES.filter (fun t => decide (t.type = .utility))).length = 2) := by
  refine ⟨⟨by decide, by decide⟩, ⟨by decide, by decide, fun _ => rfl, by decide, by decide⟩,
    ?_, ⟨by decide, by decide, by decide, by decide, by decide⟩⟩
  intro g
  cases g <;> decide

/-- Witness for C26: tile 10 is the jail and the brown group has two tiles. -/
theorem board_layout_witness :
    (getTile 10).map (fun t => t.id) = some 10 ∧
    (getPropertiesInGroup (some .brown)).length = 2 ∧
    (tileAt 1).rent.length = 6 :=
  ⟨board_layout.1.2 10 (by decide), (board_layout.2.2.1 .brown).2.1,
    board_layout.2.2.2.1 (tileAt 1) (by decide) (by decide)⟩

end Fortunopoly

namespace Fortunopoly
open GameState

theorem tmod_forty_bounds (a : Int) : -40 < Int.tmod a 40 ∧ Int.tmod a 40 < 40 := by
  refine ⟨?_, Int.tmod_lt_of_pos a (by decide)⟩
  cases a with
  | ofNat n =>
    have := Int.tmod_nonneg (40 : Int) (Int.ofNat_nonneg n)
    simp only [Int.ofNat_eq_coe] at this ⊢
    omega
  | negSucc n =>
    have h : Int.tmod (Int.negSucc n) 40 = -((n + 1 : Nat) % 40 : Nat) := rfl
    rw [h]
    omega

theorem getTile_isSome (id : Nat) (h : id < 40) : ∃ t, getTile id = some t := by
  have : ∀ id < 40, (getTile id).isSome = true := by decide
  exact Option.isSome_iff_exists.1 (this id h)


/-- Claim C28: for a `stealChoice` or `freeArson` card `applyCardEffect`
returns `needsPlayerChoice: true` and `needsLandingProcess: false`, with the
matching `choiceType` (and the card's amount for `stealChoice`), and leaves
the whole game state unchanged; for a `move` effect (to a position of the
board) and for a `moveRelative` effect it returns
`{ needsLandingProcess: true }`; for every other effect type it returns
`{ needsLandingProcess: false }`, without `needsPlayerChoice`. -/
theorem applyCardEffect_flags (s : GameState) (i : Nat) (card : Card) (won : Bool) :
    (∀ amount, card.effect = .stealChoice amount →
      s.applyCardEffect i card won =
        (some { needsLandingProcess := false, needsPlayerChoice := some true,
                choiceType := some .stealChoice, amount := some amount }, s)) ∧
    (card.effect = .freeArson →
      s.applyCardEffect i card won =
        (some { needsLandingProcess := false, needsPlayerChoice := some true,
                choiceType := some .freeArson, amount := none }, s)) ∧
    (∀ position collectStart, card.effect = .move position collectStart → position < 40 →
      (s.applyCardEffect i card won).1 = some { needsLandingProcess := true }) ∧
    (∀ spaces, card.effect = .moveRelative spaces →
      (s.applyCardEffect i card won).1 = some { needsLandingProcess := true }) ∧
    ((∀ amount, card.effect ≠ .stealChoice amount) → card.effect ≠ .freeArson →
      (∀ position collectStart, card.effect ≠ .move position collectStart) →
      (∀ spaces, card.effect ≠ .moveRelative spaces) →
      (s.applyCardEffect i card won).1 = some { needsLandingProcess := false }) := by
  refine ⟨?_, ?_, ?_, ?_, ?_⟩
  · intro amount he
    simp [applyCardEffect, he]
  · intro he
    simp [applyCardEffect, he]
  · intro position collectStart he hpos
    obtain ⟨t, ht⟩ := getTile_isSome position hpos
    simp [applyCardEffect, he, ht]
  · intro spaces he
    obtain ⟨hlo, hhi⟩ := tmod_forty_bounds ((s.getPlayer i).position + spaces)
    by_cases hneg : Int.tmod ((s.getPlayer i).position + spaces) 40 < 0
    · have h0 : ¬ Int.tmod ((s.getPlayer i).position + spaces) 40 + 40 < 0 := by omega
      obtain ⟨t, ht⟩ := getTile_isSome (Int.tmod ((s.getPlayer i).position + spaces) 40 + 40).toNat
        (by omega)
      simp [applyCardEffect, he, Player.moveSpaces, hneg, h0, ht]
    · obtain ⟨t, ht⟩ := getTile_isSome (Int.tmod ((s.getPlayer i).position + spaces) 40).toNat
        (by omega)
      simp [applyCardEffect, he, Player.moveSpaces, hneg, ht]
  · intro h1 h2 h3 h4
    unfold applyCardEffect
    cases he : card.effect with
    | money amount => simp only; split_ifs <;> rfl
    | move position collectStart => exact absurd he (h3 _ _)
    | moveRelative spaces => exact absurd he (h4 _)
    | jail => rfl
    | jailFree => rfl
    | collectFromAll amount => rfl
    | payToAll amount => simp only; split_ifs <;> rfl
    | payPerProperty amount => simp only; split_ifs <;> rfl
    | stealFromRichest amount => simp only; split <;> rfl
    | stealFromAll amount => rfl
    | stealChoice amount => exact absurd he (h1 _)
    | freeArson => exact absurd he h2
    | everyoneLoses amount => rfl
    | gamble winAmount loseAmount => simp only; split_ifs <;> rfl

end Fortunopoly

namespace Fortunopoly
open GameState

/-- Counting the members of a duplicate-free list that lie in a second
duplicate-free list gives the length of the second one exactly when the
first contains it. -/
theorem filter_mem_length_eq_iff (props G : List Nat) (hp : props.Nodup) (hG : G.Nodup) :
    (props.filter (fun x => decide (x ∈ G))).length = G.length ↔ ∀ x ∈ G, x ∈ props := by
  have h1 : (props.filter (fun x => decide (x ∈ G))).length
      = (props.toFinset ∩ G.toFinset).card := by
    rw [← List.toFinset_card_of_nodup (hp.filter _)]
    congr 1
    ext x
    simp [List.mem_filter]
  have h2 : G.length = G.toFinset.card := (List.toFinset_card_of_nodup hG).symm
  rw [h1, h2]
  constructor
  · intro h x hx
    have hsub : props.toFinset ∩ G.toFinset = G.toFinset :=
      Finset.eq_of_subset_of_card_le Finset.inter_subset_right (le_of_eq h.symm)
    have : x ∈ props.toFinset ∩ G.toFinset := by rw [hsub]; exact List.mem_toFinset.2 hx
    exact List.mem_toFinset.1 (Finset.mem_inter.1 this).1
  · intro h
    have hsub : props.toFinset ∩ G.toFinset = G.toFinset := by
      apply Finset.inter_eq_right.2
      intro x hx
      exact List.mem_toFinset.2 (h x (List.mem_toFinset.1 hx))
    rw [hsub]

/-- On the board, a tile id has group `g` exactly when it is the id of a
tile `getPropertiesInGroup(g)` returns. -/
theorem board_group_ids (g : Group) (id : Nat) :
    (match getTile id with
      | some tile => decide (tile.group = some g)
      | none => false)
      = decide (id ∈ (getPropertiesInGroup (some g)).map (fun t => t.id)) := by
  by_cases hid : id < 40
  · have h : ∀ g : Group, ∀ id < 40,
        (match getTile id with
          | some tile => decide (tile.group = some g)
          | none => false)
          = decide (id ∈ (getPropertiesInGroup (some g)).map (fun t => t.id)) := by
      intro g
      cases g <;> decide
    exact h g id hid
  · have hnone : getTile id = none := by
      cases h : getTile id with
      | none => rfl
      | some t => exact absurd (getTile_lt id t h) hid
    have hnot : id ∉ (getPropertiesInGroup (some g)).map (fun t => t.id) := by
      have h : ∀ g : Group, ∀ x ∈ (getPropertiesInGroup (some g)).map (fun t => t.id), x < 40 := by
        intro g
        cases g <;> decide
      exact fun hm => hid (h g id hm)
    simp [hnone, hnot]

theorem board_group_nodup (g : Group) :
    ((getPropertiesInGroup (some g)).map (fun t => t.id)).Nodup ∧
    ((getPropertiesInGroup (some g)).map (fun t => t.id)).length = PROPERTY_GROUPS g := by
  cases g <;> decide

/-- Claim C25: for a player whose properties list holds no tile twice and
for every key `g` of `PROPERTY_GROUPS`, `hasMonopoly(g)` is true exactly when
the player owns every tile that `getPropertiesInGroup(g)` returns; for the
undefined group (railroads, utilities and every value that is not a key) it
is false. -/
theorem hasMonopoly_spec (p : Player) (hnd : p.properties.Nodup) :
    (∀ g : Group, p.hasMonopoly (some g) = true ↔
      ∀ t ∈ getPropertiesInGroup (some g), t.id ∈ p.properties) ∧
    p.hasMonopoly none = false := by
  refine ⟨fun g => ?_, rfl⟩
  obtain ⟨hGnd, hGlen⟩ := board_group_nodup g
  have hcount : p.countPropertiesInGroup (some g)
      = (p.properties.filter (fun x =>
          decide (x ∈ (getPropertiesInGroup (some g)).map (fun t => t.id)))).length := by
    unfold Player.countPropertiesInGroup
    congr 1
    apply List.filter_congr
    intro x _
    exact board_group_ids g x
  simp only [Player.hasMonopoly, decide_eq_true_eq]
  rw [hcount, ← hGlen, filter_mem_length_eq_iff _ _ hnd hGnd]
  simp [List.mem_map]

end Fortunopoly

namespace Fortunopoly
open GameState

/-- The face price `getNetWorth` adds for a tile id (0 when there is none). -/
theorem getNetWorth_eq_sum (p : Player) :
    p.getNetWorth = p.money +
      (p.properties.map (fun tileId => ((getTile tileId).bind (fun t => t.price)).getD 0)).sum := by
  unfold Player.getNetWorth
  generalize p.money = m
  induction p.properties generalizing m with
  | nil => simp
  | cons x rest ih =>
    simp only [List.foldl_cons, List.map_cons, List.sum_cons]
    rw [ih]
    cases hx : getTile x with
    | none => simp
    | some tile =>
      cases hp : tile.price with
      | none => simp [hp]
      | some price =>
        by_cases h0 : price = 0
        · simp [hp, h0]
        · simp [hp, h0]; ring

/-- The first element of a list sorted by decreasing net worth is a maximum. -/
theorem head_insertionSort_max (s : GameState) (n : Nat) (w : Nat)
    (h : ((List.range n).insertionSort
      (fun a b => (s.getPlayer a).getNetWorth ≥ (s.getPlayer b).getNetWorth)).head? = some w) :
    w < n ∧ ∀ j, j < n → (s.getPlayer j).getNetWorth ≤ (s.getPlayer w).getNetWorth := by
  haveI : IsTotal Nat (fun a b => (s.getPlayer a).getNetWorth ≥ (s.getPlayer b).getNetWorth) :=
    ⟨fun a b => le_total _ _⟩
  haveI : IsTrans Nat (fun a b => (s.getPlayer a).getNetWorth ≥ (s.getPlayer b).getNetWorth) :=
    ⟨fun a b c hab hbc => le_trans hbc hab⟩
  have hsorted := List.sorted_insertionSort
    (fun a b => (s.getPlayer a).getNetWorth ≥ (s.getPlayer b).getNetWorth) (List.range n)
  have hperm := List.perm_insertionSort
    (fun a b => (s.getPlayer a).getNetWorth ≥ (s.getPlayer b).getNetWorth) (List.range n)
  cases hl : (List.range n).insertionSort
      (fun a b => (s.getPlayer a).getNetWorth ≥ (s.getPlayer b).getNetWorth) with
  | nil => rw [hl] at h; cases h
  | cons x rest =>
    rw [hl] at h hsorted hperm
    have hx : x = w := by simpa using h
    subst hx
    have hmem : ∀ j, j < n → j ∈ x :: rest := fun j hj =>
      hperm.symm.subset (List.mem_range.2 hj)
    refine ⟨List.mem_range.1 (hperm.subset (List.mem_cons_self _ _)), fun j hj => ?_⟩
    rcases List.mem_cons.1 (hmem j hj) with rfl | hr
    · exact le_refl _
    · exact List.rel_of_sorted_cons hsorted j hr

/-- Claim C29: `getWinner()` returns the one player who is not bankrupt when
there is exactly one; when more than one player is not bankrupt it returns a
player whose net worth is at least the net worth of every player.  The net
worth is the money plus the face prices of the owned tiles; improvements and
mortgages do not enter. -/
theorem getWinner_spec (s : GameState) :
    (∀ w, s.getActivePlayers = [w] →
      s.getWinner = some w ∧ w < s.players.length ∧ (s.getPlayer w).isBankrupt = false ∧
      ∀ j, j < s.players.length → j ≠ w → (s.getPlayer j).isBankrupt = true) ∧
    (1 < s.getActivePlayers.length →
      ∃ w, s.getWinner = some w ∧ w < s.players.length ∧
        ∀ j, j < s.players.length → (s.getPlayer j).getNetWorth ≤ (s.getPlayer w).getNetWorth) ∧
    (∀ p : Player, p.getNetWorth = p.money +
      (p.properties.map (fun tileId => ((getTile tileId).bind (fun t => t.price)).getD 0)).sum) := by
  refine ⟨?_, ?_, getNetWorth_eq_sum⟩
  · intro w hw
    have hmem : ∀ j, j ∈ s.getActivePlayers ↔
        j < s.players.length ∧ (s.getPlayer j).isBankrupt = false := by
      intro j
      simp [getActivePlayers, List.mem_filter]
    have hwm : w ∈ s.getActivePlayers := by rw [hw]; exact List.mem_singleton_self w
    refine ⟨by simp [getWinner, hw], ((hmem w).1 hwm).1, ((hmem w).1 hwm).2, ?_⟩
    intro j hj hne
    cases hb : (s.getPlayer j).isBankrupt with
    | true => rfl
    | false =>
      have : j ∈ s.getActivePlayers := (hmem j).2 ⟨hj, hb⟩
      rw [hw] at this
      exact absurd (List.mem_singleton.1 this) hne
  · intro h1
    have hne : ¬ s.getActivePlayers.length = 1 := by omega
    have hpos : 0 < s.players.length := by
      by_contra h0
      have : s.players.length = 0 := by omega
      simp [getActivePlayers, this] at h1
    cases hh : ((List.range s.players.length).insertionSort
        (fun a b => (s.getPlayer a).getNetWorth ≥ (s.getPlayer b).getNetWorth)).head? with
    | none =>
      exfalso
      have hperm := List.perm_insertionSort
        (fun a b => (s.getPlayer a).getNetWorth ≥ (s.getPlayer b).getNetWorth)
        (List.range s.players.length)
      rw [List.head?_eq_none_iff] at hh
      rw [hh] at hperm
      have := hperm.length_eq
      simp at this
      omega
    | some w =>
      obtain ⟨hw, hmax⟩ := head_insertionSort_max s _ w hh
      exact ⟨w, by simp [getWinner, hne, hh], hw, hmax⟩

end Fortunopoly

namespace Fortunopoly

/-- The destructuring swap rearranges the array. -/
theorem swapAt_perm (arr : List Card) (i j : Nat) : (swapAt arr i j).Perm arr := by
  unfold swapAt
  cases hi : arr[i]? with
  | none => simp
  | some a =>
    cases hj : arr[j]? with
    | none => simp
    | some b =>
      simp only
      obtain ⟨hil, hia⟩ := List.getElem?_eq_some_iff.1 hi
      obtain ⟨hjl, hjb⟩ := List.getElem?_eq_some_iff.1 hj
      rw [List.perm_iff_count]
      intro c
      have hjl1 : j < (arr.set i b).length := by simpa using hjl
      have hget : (arr.set i b)[j] = b := by
        rw [List.getElem_set]
        split
        · rfl
        · exact hjb
      rw [List.count_set _ _ _ _ hjl1, List.count_set _ _ _ _ hil, hget, hia]
      have hle : (if (a == c) = true then 1 else 0) ≤ List.count c arr := by
        have := List.boole_getElem_le_count c arr i hil
        rw [hia] at this
        exact this
      omega


theorem shuffleLoop_perm (rnd : Nat → Nat) (i : Nat) (arr : List Card) :
    (shuffleLoop rnd i arr).Perm arr := by
  induction i generalizing arr with
  | zero => exact List.Perm.refl _
  | succ k ih => exact (ih _).trans (swapAt_perm _ _ _)

theorem shuffleArray_perm (rnd : Nat → Nat) (arr : List Card) :
    (shuffleArray rnd arr).Perm arr :=
  shuffleLoop_perm rnd _ arr

/-- Drawing as many cards as a non-empty Fortune deck holds pops the deck
from its end and leaves the Fate deck alone. -/
theorem drawFortuneCards_all (rnd : Nat → Nat → Nat) (n : Nat) (deck fate : List Card)
    (hlen : deck.length = n) :
    drawFortuneCards rnd n { fortuneDeck := deck, fateDeck := fate }
      = (deck.reverse.map some, { fortuneDeck := [], fateDeck := fate }) := by
  induction n generalizing deck with
  | zero =>
    have : deck = [] := List.length_eq_zero.1 hlen
    subst this
    rfl
  | succ k ih =>
    have hne : deck ≠ [] := by
      intro h; rw [h] at hlen; simp at hlen
    have hsplit : deck = deck.dropLast ++ [deck.getLast hne] :=
      (List.dropLast_append_getLast hne).symm
    have hl : deck.getLast? = some (deck.getLast hne) := List.getLast?_eq_getLast _ hne
    have hk : deck.dropLast.length = k := by simp [hlen]
    have hlen0 : ¬ deck.length = 0 := by omega
    simp only [drawFortuneCards, drawFortuneCard, hlen0, if_false, hl]
    rw [ih deck.dropLast hk]
    conv_rhs => rw [hsplit]
    simp

/-- Drawing as many cards as a non-empty Fate deck holds pops the deck from
its end and leaves the Fortune deck alone. -/
theorem drawFateCards_all (rnd : Nat → Nat → Nat) (n : Nat) (fortune deck : List Card)
    (hlen : deck.length = n) :
    drawFateCards rnd n { fortuneDeck := fortune, fateDeck := deck }
      = (deck.reverse.map some, { fortuneDeck := fortune, fateDeck := [] }) := by
  induction n generalizing deck with
  | zero =>
    have : deck = [] := List.length_eq_zero.1 hlen
    subst this
    rfl
  | succ k ih =>
    have hne : deck ≠ [] := by
      intro h; rw [h] at hlen; simp at hlen
    have hsplit : deck = deck.dropLast ++ [deck.getLast hne] :=
      (List.dropLast_append_getLast hne).symm
    have hl : deck.getLast? = some (deck.getLast hne) := List.getLast?_eq_getLast _ hne
    have hk : deck.dropLast.length = k := by simp [hlen]
    have hlen0 : ¬ deck.length = 0 := by omega
    simp only [drawFateCards, drawFateCard, hlen0, if_false, hl]
    rw [ih deck.dropLast hk]
    conv_rhs => rw [hsplit]
    simp

theorem drawFortuneCards_succ (rnd : Nat → Nat → Nat) (n : Nat) (d : Decks) :
    drawFortuneCards rnd (n + 1) d
      = ((drawFortuneCard (rnd n) d).1 :: (drawFortuneCards rnd n (drawFortuneCard (rnd n) d).2).1,
          (drawFortuneCards rnd n (drawFortuneCard (rnd n) d).2).2) := rfl

theorem drawFateCards_succ (rnd : Nat → Nat → Nat) (n : Nat) (d : Decks) :
    drawFateCards rnd (n + 1) d
      = ((drawFateCard (rnd n) d).1 :: (drawFateCards rnd n (drawFateCard (rnd n) d).2).1,
          (drawFateCards rnd n (drawFateCard (rnd n) d).2).2) := rfl

theorem fortune_length : FORTUNE_CARDS.length = 16 := by decide

theorem fate_length : FATE_CARDS.length = 12 := by decide

theorem drawFortuneCard_of_ne (r : Nat → Nat) (deck fate : List Card) (h0 : deck.length ≠ 0) :
    drawFortuneCard r { fortuneDeck := deck, fateDeck := fate }
      = (deck.getLast?, { fortuneDeck := deck.dropLast, fateDeck := fate }) := by
  simp only [drawFortuneCard, h0, if_false]

theorem drawFortuneCard_nil (r : Nat → Nat) (fate : List Card) :
    drawFortuneCard r { fortuneDeck := [], fateDeck := fate }
      = ((shuffleArray r FORTUNE_CARDS).getLast?,
          { fortuneDeck := (shuffleArray r FORTUNE_CARDS).dropLast, fateDeck := fate }) := by
  simp only [drawFortuneCard, List.length_nil, if_true]

theorem drawFateCard_of_ne (r : Nat → Nat) (fortune deck : List Card) (h0 : deck.length ≠ 0) :
    drawFateCard r { fortuneDeck := fortune, fateDeck := deck }
      = (deck.getLast?, { fortuneDeck := fortune, fateDeck := deck.dropLast }) := by
  simp only [drawFateCard, h0, if_false]

theorem drawFateCard_nil (r : Nat → Nat) (fortune : List Card) :
    drawFateCard r { fortuneDeck := fortune, fateDeck := [] }
      = ((shuffleArray r FATE_CARDS).getLast?,
          { fortuneDeck := fortune, fateDeck := (shuffleArray r FATE_CARDS).dropLast }) := by
  simp only [drawFateCard, List.length_nil, if_true]

/-- A draw from the empty Fortune deck is a draw from a fresh shuffle. -/
theorem drawFortuneCard_empty (r : Nat → Nat) (fate : List Card) :
    drawFortuneCard r { fortuneDeck := [], fateDeck := fate }
      = drawFortuneCard r { fortuneDeck := shuffleArray r FORTUNE_CARDS, fateDeck := fate } := by
  have h0 : (shuffleArray r FORTUNE_CARDS).length ≠ 0 := by
    rw [(shuffleArray_perm r FORTUNE_CARDS).length_eq, fortune_length]
    exact Nat.succ_ne_zero 15
  rw [drawFortuneCard_nil, drawFortuneCard_of_ne _ _ _ h0]

/-- A draw from the empty Fate deck is a draw from a fresh shuffle. -/
theorem drawFateCard_empty (r : Nat → Nat) (fortune : List Card) :
    drawFateCard r { fortuneDeck := fortune, fateDeck := [] }
      = drawFateCard r { fortuneDeck := fortune, fateDeck := shuffleArray r FATE_CARDS } := by
  have h0 : (shuffleArray r FATE_CARDS).length ≠ 0 := by
    rw [(shuffleArray_perm r FATE_CARDS).length_eq, fate_length]
    exact Nat.succ_ne_zero 11
  rw [drawFateCard_nil, drawFateCard_of_ne _ _ _ h0]

theorem drawFortuneCards_empty (rnd : Nat → Nat → Nat) (k : Nat) (fate : List Card) :
    drawFortuneCards rnd (k + 1) { fortuneDeck := [], fateDeck := fate }
      = drawFortuneCards rnd (k + 1)
          { fortuneDeck := shuffleArray (rnd k) FORTUNE_CARDS, fateDeck := fate } := by
  rw [drawFortuneCards_succ, drawFortuneCards_succ, drawFortuneCard_empty]

theorem drawFateCards_empty (rnd : Nat → Nat → Nat) (k : Nat) (fortune : List Card) :
    drawFateCards rnd (k + 1) { fortuneDeck := fortune, fateDeck := [] }
      = drawFateCards rnd (k + 1)
          { fortuneDeck := fortune, fateDeck := shuffleArray (rnd k) FATE_CARDS } := by
  rw [drawFateCards_succ, drawFateCards_succ, drawFateCard_empty]

/-- Claim C27: `shuffleArray` returns a permutation of its input (which it
copies first).  For every outcome of the shuffles, 16 consecutive calls of
`drawFortuneCard()`, on a freshly shuffled or on an empty Fortune deck, never
return `undefined` and return every Fortune card exactly once, and they leave
the Fate deck as it was; the same holds for 12 calls of `drawFateCard()` and
the 12 Fate cards, which leave the Fortune deck as it was. -/
theorem decks_spec (rnd : Nat → Nat → Nat) (rndShuffle : Nat → Nat) (other : List Card) :
    (∀ (r : Nat → Nat) (arr : List Card), (shuffleArray r arr).Perm arr) ∧
    (FORTUNE_CARDS.length = 16 ∧ FATE_CARDS.length = 12) ∧
    (∀ deck, deck = shuffleArray rndShuffle FORTUNE_CARDS ∨ deck = [] →
      (∃ cards : List Card, (drawFortuneCards rnd 16 { fortuneDeck := deck, fateDeck := other }).1
          = cards.map some ∧ cards.Perm FORTUNE_CARDS ∧
          ∀ c ∈ FORTUNE_CARDS, cards.count c = 1) ∧
      (drawFortuneCards rnd 16 { fortuneDeck := deck, fateDeck := other }).2.fateDeck = other) ∧
    (∀ deck, deck = shuffleArray rndShuffle FATE_CARDS ∨ deck = [] →
      (∃ cards : List Card, (drawFateCards rnd 12 { fortuneDeck := other, fateDeck := deck }).1
          = cards.map some ∧ cards.Perm FATE_CARDS ∧
          ∀ c ∈ FATE_CARDS, cards.count c = 1) ∧
      (drawFateCards rnd 12 { fortuneDeck := other, fateDeck := deck }).2.fortuneDeck = other) := by
  have hfortune : ∀ deck : List Card, deck.Perm FORTUNE_CARDS →
      (∃ cards : List Card, (drawFortuneCards rnd 16
          { fortuneDeck := deck, fateDeck := other }).1
          = cards.map some ∧ cards.Perm FORTUNE_CARDS ∧
          ∀ c ∈ FORTUNE_CARDS, cards.count c = 1) ∧
      (drawFortuneCards rnd 16 { fortuneDeck := deck, fateDeck := other }).2.fateDeck = other := by
    intro deck hp
    have hlen : deck.length = 16 := by rw [hp.length_eq]; exact fortune_length
    have e := drawFortuneCards_all rnd 16 deck other hlen
    rw [e]
    have hperm : deck.reverse.Perm FORTUNE_CARDS := (List.reverse_perm _).trans hp
    refine ⟨⟨_, rfl, hperm, fun c hc => ?_⟩, rfl⟩
    rw [hperm.count_eq]
    exact List.count_eq_one_of_mem (by decide) hc
  have hfate : ∀ deck : List Card, deck.Perm FATE_CARDS →
      (∃ cards : List Card, (drawFateCards rnd 12
          { fortuneDeck := other, fateDeck := deck }).1
          = cards.map some ∧ cards.Perm FATE_CARDS ∧
          ∀ c ∈ FATE_CARDS, cards.count c = 1) ∧
      (drawFateCards rnd 12 { fortuneDeck := other, fateDeck := deck }).2.fortuneDeck = other := by
    intro deck hp
    have hlen : deck.length = 12 := by rw [hp.length_eq]; exact fate_length
    have e := drawFateCards_all rnd 12 other deck hlen
    rw [e]
    have hperm : deck.reverse.Perm FATE_CARDS := (List.reverse_perm _).trans hp
    refine ⟨⟨_, rfl, hperm, fun c hc => ?_⟩, rfl⟩
    rw [hperm.count_eq]
    exact List.count_eq_one_of_mem (by decide) hc
  refine ⟨shuffleArray_perm, ⟨fortune_length, fate_length⟩, ?_, ?_⟩
  · intro deck hdeck
    rcases hdeck with h | h
    · rw [h]
      exact hfortune _ (shuffleArray_perm rndShuffle FORTUNE_CARDS)
    · rw [h, drawFortuneCards_empty rnd 15 other]
      exact hfortune _ (shuffleArray_perm (rnd 15) FORTUNE_CARDS)
  · intro deck hdeck
    rcases hdeck with h | h
    · rw [h]
      exact hfate _ (shuffleArray_perm rndShuffle FATE_CARDS)
    · rw [h, drawFateCards_empty rnd 11 other]
      exact hfate _ (shuffleArray_perm (rnd 11) FATE_CARDS)

end Fortunopoly

namespace Fortunopoly
open GameState

theorem mod_eq_zero_iff_eq (x n : Nat) (h0 : 0 < x) (h2 : x < 2 * n) : x % n = 0 ↔ x = n := by
  constructor
  · intro h
    by_cases hlt : x < n
    · rw [Nat.mod_eq_of_lt hlt] at h; omega
    · have hge : n ≤ x := Nat.le_of_not_lt hlt
      have : x % n = x - n := by
        rw [Nat.mod_eq_sub_mod hge, Nat.mod_eq_of_lt (by omega)]
      omega
  · intro h
    rw [h, Nat.mod_self]

namespace GameState

@[simp] theorem round_addLog (s : GameState) (t : LogType) : (s.addLog t).round = s.round := rfl
@[simp] theorem round_setRound (s : GameState) (v : Nat) : (s.setRound v).round = v := rfl

/-- One iteration of the `do ... while` of `endTurn`. -/
theorem endTurnLoop_succ (fuel : Nat) (s : GameState) (nextIndex checked : Nat) :
    endTurnLoop (fuel + 1) s nextIndex checked =
      if ((if (nextIndex + 1) % s.players.length = 0 then (s.setRound (s.round + 1)).addLog
            else s).getPlayer ((nextIndex + 1) % s.players.length)).isBankrupt
          && decide (checked + 1 < (if (nextIndex + 1) % s.players.length = 0
              then (s.setRound (s.round + 1)).addLog else s).players.length) then
        endTurnLoop fuel
          (if (nextIndex + 1) % s.players.length = 0 then (s.setRound (s.round + 1)).addLog else s)
          ((nextIndex + 1) % s.players.length) (checked + 1)
      else
        (if (nextIndex + 1) % s.players.length = 0 then (s.setRound (s.round + 1)).addLog else s,
          (nextIndex + 1) % s.players.length) := rfl

/-- The state one iteration of the loop works on: only the round and the
log differ. -/
theorem endTurn_tick (s : GameState) (b : Prop) [Decidable b] :
    (if b then (s.setRound (s.round + 1)).addLog else s).players = s.players ∧
    (if b then (s.setRound (s.round + 1)).addLog else s).round = s.round + (if b then 1 else 0) ∧
    (if b then (s.setRound (s.round + 1)).addLog else s).consecutiveDoubles
      = s.consecutiveDoubles := by
  split_ifs <;> exact ⟨rfl, rfl, rfl⟩


/-- The scan of `endTurn` from `checked = m`: it stops at the first offset
`k > m` whose player is not bankrupt, or at `k = n` after a full cycle; the
round goes up by one exactly when the offsets `m + 1 .. k` pass index 0. -/
theorem endTurnLoop_scan (s0 : GameState) (c : Nat) (hc : c < s0.players.length) :
    ∀ (fuel m idx : Nat) (st : GameState), m < s0.players.length →
      s0.players.length ≤ fuel + m → st.players = s0.players →
      idx % s0.players.length = (c + m) % s0.players.length →
      ∃ k, m < k ∧ k ≤ s0.players.length ∧
        (endTurnLoop fuel st idx m).2 = (c + k) % s0.players.length ∧
        (∀ k2, m < k2 → k2 < k →
          (s0.getPlayer ((c + k2) % s0.players.length)).isBankrupt = true) ∧
        ((s0.getPlayer ((c + k) % s0.players.length)).isBankrupt = false ∨
          k = s0.players.length) ∧
        (endTurnLoop fuel st idx m).1.round
          = st.round + (if c + m < s0.players.length ∧ s0.players.length ≤ c + k then 1 else 0) ∧
        (endTurnLoop fuel st idx m).1.consecutiveDoubles = st.consecutiveDoubles := by
  intro fuel
  induction fuel with
  | zero => intro m idx st hm hf _ _; omega
  | succ fuel ih =>
    intro m idx st hm hf hst hidx0
    have hlen : st.players.length = s0.players.length := by rw [hst]
    have hidx : (idx + 1) % s0.players.length = (c + (m + 1)) % s0.players.length := by
      rw [← Nat.mod_add_mod idx, hidx0, Nat.mod_add_mod, Nat.add_assoc]
    have hzero : (c + (m + 1)) % s0.players.length = 0 ↔ c + (m + 1) = s0.players.length :=
      mod_eq_zero_iff_eq _ _ (by omega) (by omega)
    obtain ⟨tp, tr, tc⟩ := endTurn_tick st ((c + (m + 1)) % s0.players.length = 0)
    have tg : ∀ j, (if (c + (m + 1)) % s0.players.length = 0
        then (st.setRound (st.round + 1)).addLog else st).getPlayer j = s0.getPlayer j := by
      intro j
      simp only [GameState.getPlayer, tp, hst]
    rw [endTurnLoop_succ, hlen, hidx, tg, tp, hlen]
    by_cases hb : ((s0.getPlayer ((c + (m + 1)) % s0.players.length)).isBankrupt
        && decide (m + 1 < s0.players.length)) = true
    · rw [if_pos hb]
      simp only [Bool.and_eq_true, decide_eq_true_eq] at hb
      obtain ⟨k, hk1, hk2, hk3, hk4, hk5, hk6, hk7⟩ :=
        ih (m + 1) _ _ hb.2 (by omega) (tp.trans hst) (Nat.mod_mod _ _)
      refine ⟨k, by omega, hk2, hk3, ?_, hk5, ?_, ?_⟩
      · intro k2 h1 h2
        by_cases hk : k2 = m + 1
        · rw [hk]; exact hb.1
        · exact hk4 k2 (by omega) h2
      · rw [hk6, tr]
        by_cases hz : c + (m + 1) = s0.players.length
        · rw [if_pos (hzero.2 hz), if_neg (by omega), if_pos (by omega)]
        · rw [if_neg (fun h => hz (hzero.1 h))]
          by_cases hw : c + (m + 1) < s0.players.length ∧ s0.players.length ≤ c + k
          · rw [if_pos hw, if_pos (by omega)]
          · rw [if_neg hw, if_neg (by omega)]
      · rw [hk7, tc]
    · rw [if_neg hb]
      simp only [Bool.and_eq_true, decide_eq_true_eq, not_and_or, Bool.not_eq_true,
        Nat.not_lt] at hb
      refine ⟨m + 1, by omega, by omega, rfl, ?_, ?_, ?_, tc⟩
      · intro k2 h1 h2; omega
      · rcases hb with h | h
        · exact Or.inl h
        · exact Or.inr (by omega)
      · show (if (c + (m + 1)) % s0.players.length = 0
            then (st.setRound (st.round + 1)).addLog else st).round = _
        rw [tr]
        by_cases hz : c + (m + 1) = s0.players.length
        · rw [if_pos (hzero.2 hz), if_pos (by omega)]
        · rw [if_neg (fun h => hz (hzero.1 h)), if_neg (by omega)]

/-- More fuel than the number of players left to check changes nothing: the
loop leaves through its own condition. -/
theorem endTurnLoop_fuel : ∀ (fuel fuel2 : Nat) (st : GameState) (idx m : Nat),
    st.players.length ≤ fuel + m → st.players.length ≤ fuel2 + m → m < st.players.length →
    endTurnLoop fuel st idx m = endTurnLoop fuel2 st idx m := by
  intro fuel
  induction fuel with
  | zero => intro fuel2 st idx m h1 _ h3; omega
  | succ fuel ih =>
    intro fuel2 st idx m h1 h2 h3
    cases fuel2 with
    | zero => omega
    | succ fuel2 =>
      obtain ⟨tp, -, -⟩ := endTurn_tick st ((idx + 1) % st.players.length = 0)
      rw [endTurnLoop_succ, endTurnLoop_succ]
      by_cases hb : (((if (idx + 1) % st.players.length = 0
          then (st.setRound (st.round + 1)).addLog else st).getPlayer
            ((idx + 1) % st.players.length)).isBankrupt
          && decide (m + 1 < (if (idx + 1) % st.players.length = 0
            then (st.setRound (st.round + 1)).addLog else st).players.length)) = true
      · rw [if_pos hb, if_pos hb]
        simp only [Bool.and_eq_true, decide_eq_true_eq] at hb
        have hl := hb.2
        rw [tp] at hl
        exact ih fuel2 _ _ _ (by rw [tp]; omega) (by rw [tp]; omega) (by rw [tp]; exact hl)
      · rw [if_neg hb, if_neg hb]


/-- Every index is reached from `c` by an offset between 1 and `n`. -/
theorem cyclic_offset (n c j : Nat) (hc : c < n) (hj : j < n) :
    ∃ k, 1 ≤ k ∧ k ≤ n ∧ (c + k) % n = j := by
  by_cases h : c < j
  · refine ⟨j - c, by omega, by omega, ?_⟩
    rw [show c + (j - c) = j by omega, Nat.mod_eq_of_lt hj]
  · refine ⟨j + n - c, by omega, by omega, ?_⟩
    rw [show c + (j + n - c) = j + n by omega, Nat.add_mod_right, Nat.mod_eq_of_lt hj]

/-- Claim C22: with at least one non-bankrupt player (so the list is not empty),
`endTurn` returns; the loop leaves through its own condition (more fuel gives
the same result).  The new current player is at offset `k` after the old one
in cyclic order, `1 ≤ k ≤ n`, is not bankrupt, and every player at an offset
strictly between is bankrupt (`k = n` gives the old index back after a full
cycle).  Afterwards `consecutiveDoubles` is 0, the phase is `waiting`, and the
round is one more exactly when one of the offsets `1 .. k` lands on index 0
(the scan wraps, `n ≤ c % n + k`), unchanged otherwise; players and ledgers are untouched. -/
theorem endTurn_spec (s : GameState)
    (hact : ∃ j, j < s.players.length ∧ (s.getPlayer j).isBankrupt = false) :
    ∃ r k, s.endTurn = some r ∧
      (∀ fuel, s.players.length ≤ fuel →
        endTurnLoop fuel (s.setConsecutiveDoubles 0) s.currentPlayerIndex 0
          = endTurnLoop s.players.length (s.setConsecutiveDoubles 0) s.currentPlayerIndex 0) ∧
      1 ≤ k ∧ k ≤ s.players.length ∧
      r.1 = (s.currentPlayerIndex + k) % s.players.length ∧
      r.2.currentPlayerIndex = r.1 ∧
      r.1 < s.players.length ∧
      (r.2.getPlayer r.1).isBankrupt = false ∧
      (∀ k2, 1 ≤ k2 → k2 < k →
        (s.getPlayer ((s.currentPlayerIndex + k2) % s.players.length)).isBankrupt = true) ∧
      r.2.consecutiveDoubles = 0 ∧
      r.2.turnPhase = .waiting ∧
      r.2.round = s.round +
        (if s.players.length ≤ s.currentPlayerIndex % s.players.length + k then 1 else 0) ∧
      (s.players.length ≤ s.currentPlayerIndex % s.players.length + k ↔
        ∃ k2, 1 ≤ k2 ∧ k2 ≤ k ∧ (s.currentPlayerIndex + k2) % s.players.length = 0) ∧
      r.2.players = s.players ∧ r.2.propertyOwners = s.propertyOwners ∧
      r.2.propertyHouses = s.propertyHouses := by
  obtain ⟨j, hj, hjb⟩ := hact
  have hn : 0 < s.players.length := by omega
  have hcn : s.currentPlayerIndex % s.players.length < s.players.length := Nat.mod_lt _ hn
  obtain ⟨k, hk1, hk2, hk3, hk4, hk5, hk6, hk7⟩ :=
    endTurnLoop_scan s (s.currentPlayerIndex % s.players.length) hcn s.players.length 0
      s.currentPlayerIndex (s.setConsecutiveDoubles 0) hn (by omega) rfl
      (by rw [Nat.add_zero, Nat.mod_mod])
  obtain ⟨hp1, hp2, hp3⟩ := endTurnLoop_players s.players.length (s.setConsecutiveDoubles 0)
    s.currentPlayerIndex 0
  have hmod : ∀ x, (s.currentPlayerIndex % s.players.length + x) % s.players.length
      = (s.currentPlayerIndex + x) % s.players.length := fun x => Nat.mod_add_mod _ _ _
  simp only [hmod] at hk3 hk4 hk5
  have hnb : (s.getPlayer ((s.currentPlayerIndex + k) % s.players.length)).isBankrupt = false := by
    rcases hk5 with h | h
    · exact h
    · obtain ⟨k2, h1, h2, h3⟩ := cyclic_offset s.players.length
        (s.currentPlayerIndex % s.players.length) j hcn hj
      rw [hmod] at h3
      by_cases hk : k2 < k
      · have := hk4 k2 (by omega) hk
        rw [h3, hjb] at this
        cases this
      · have : k2 = k := by omega
        rw [← this, h3]
        exact hjb
  have he : s.endTurn = some
      ((endTurnLoop s.players.length (s.setConsecutiveDoubles 0) s.currentPlayerIndex 0).2,
        ((((endTurnLoop s.players.length (s.setConsecutiveDoubles 0)
          s.currentPlayerIndex 0).1.setCurrentPlayerIndex
          (endTurnLoop s.players.length (s.setConsecutiveDoubles 0)
            s.currentPlayerIndex 0).2).setTurnPhase .waiting).addLog)) := by
    simp only [GameState.endTurn, if_neg (Nat.pos_iff_ne_zero.1 hn)]
    rfl
  refine ⟨_, k, he, ?_, hk1, hk2, hk3, ?_, ?_, ?_, ?_, ?_, rfl, ?_, ?_, hp1, hp2, hp3⟩
  · intro fuel hf
    exact endTurnLoop_fuel fuel s.players.length (s.setConsecutiveDoubles 0) _ 0
      (by simpa using hf) (by simp) (by simpa using hn)
  · rfl
  · show (endTurnLoop _ _ _ _).2 < _
    rw [hk3]
    exact Nat.mod_lt _ hn
  · show (GameState.getPlayer _ (endTurnLoop _ _ _ _).2).isBankrupt = false
    have : ∀ i, GameState.getPlayer ((((endTurnLoop s.players.length (s.setConsecutiveDoubles 0)
          s.currentPlayerIndex 0).1.setCurrentPlayerIndex
          (endTurnLoop s.players.length (s.setConsecutiveDoubles 0)
            s.currentPlayerIndex 0).2).setTurnPhase .waiting).addLog) i = s.getPlayer i := by
      intro i
      show (GameState.getPlayer (endTurnLoop _ _ _ _).1 i) = _
      simp only [GameState.getPlayer, hp1]
      rfl
    rw [this, hk3]
    exact hnb
  · intro k2 h1 h2
    exact hk4 k2 (by omega) h2
  · show (endTurnLoop _ _ _ _).1.consecutiveDoubles = 0
    rw [hk7]
    rfl
  · show (endTurnLoop _ _ _ _).1.round = _
    rw [hk6]
    show s.round + _ = _
    congr 1
    by_cases hw : s.players.length ≤ s.currentPlayerIndex % s.players.length + k
    · rw [if_pos hw, if_pos ⟨by omega, hw⟩]
    · rw [if_neg hw, if_neg (fun h => hw h.2)]
  · constructor
    · intro h
      refine ⟨s.players.length - s.currentPlayerIndex % s.players.length, by omega, by omega, ?_⟩
      rw [← hmod, show s.currentPlayerIndex % s.players.length
        + (s.players.length - s.currentPlayerIndex % s.players.length) = s.players.length
        by omega, Nat.mod_self]
    · rintro ⟨k2, h1, h2, h3⟩
      rw [← hmod] at h3
      have := (mod_eq_zero_iff_eq _ _ (by omega) (by omega)).1 h3
      omega

end GameState
end Fortunopoly

namespace Fortunopoly
open GameState

namespace Player

@[simp] theorem setJailFreeCard_isBankrupt (p : Player) (b : Bool) :
    (p.setJailFreeCard b).isBankrupt = p.isBankrupt := rfl
@[simp] theorem setMortgaged_isBankrupt (p : Player) (l : List Nat) :
    (p.setMortgaged l).isBankrupt = p.isBankrupt := rfl
@[simp] theorem goToJail_isBankrupt (p : Player) : p.goToJail.isBankrupt = p.isBankrupt := rfl
@[simp] theorem leaveJail_isBankrupt (p : Player) : p.leaveJail.isBankrupt = p.isBankrupt := rfl
@[simp] theorem incrementJailTurn_isBankrupt (p : Player) :
    p.incrementJailTurn.2.isBankrupt = p.isBankrupt := rfl
@[simp] theorem moveTo_isBankrupt (p : Player) (n : Int) (b : Bool) :
    (p.moveTo n b).2.isBankrupt = p.isBankrupt := by
  simp only [moveTo]; split_ifs <;> rfl
@[simp] theorem moveSpaces_isBankrupt (p : Player) (n : Int) :
    (p.moveSpaces n).2.isBankrupt = p.isBankrupt := by
  simp only [moveSpaces]; split_ifs <;> rfl

end Player

namespace GameState

theorem Bankrupts.bk_setPlayer {f : Nat → Bool} {s : GameState} (h : Bankrupts f s)
    (i : Nat) (p : Player) (hf : f i = false) (hp : p.isBankrupt = f i) :
    Bankrupts f (s.setPlayer i p) := by
  intro j
  rw [getPlayer_setPlayer]
  split
  · rename_i hij
    rw [← hij.1]
    exact ⟨hp, fun ht => by rw [hf] at ht; cases ht⟩
  · exact h j

theorem Bankrupts.bk_of_players {f : Nat → Bool} {s s1 : GameState} (h : Bankrupts f s)
    (e : s1.players = s.players) : Bankrupts f s1 := by
  intro j
  have : s1.getPlayer j = s.getPlayer j := by simp [getPlayer, e]
  rw [this]; exact h j

theorem Bankrupts.bk_addLog {f : Nat → Bool} {s : GameState} (h : Bankrupts f s)
    (t : LogType) : Bankrupts f (s.addLog t) :=
  h.bk_of_players rfl

theorem Bankrupts.bk_setHouses {f : Nat → Bool} {s : GameState} (h : Bankrupts f s)
    (t : Nat) (n : Int) : Bankrupts f (s.setHouses t n) := h
theorem Bankrupts.bk_setOwner {f : Nat → Bool} {s : GameState} (h : Bankrupts f s)
    (t k : Nat) : Bankrupts f (s.setOwner t k) := h
theorem Bankrupts.bk_setConsecutiveDoubles {f : Nat → Bool} {s : GameState}
    (h : Bankrupts f s) (n : Nat) : Bankrupts f (s.setConsecutiveDoubles n) := h
theorem Bankrupts.bk_setFreeParkingPot {f : Nat → Bool} {s : GameState}
    (h : Bankrupts f s) (v : Option Int) : Bankrupts f (s.setFreeParkingPot v) := h
theorem Bankrupts.bk_setLastDiceRoll {f : Nat → Bool} {s : GameState}
    (h : Bankrupts f s) (v : Int × Int) : Bankrupts f (s.setLastDiceRoll v) := h

theorem Bankrupts.bk_grown {f : Nat → Bool} {s : GameState} (h : Bankrupts f s) :
    BankruptsFrom f s := ⟨f, h, fun _ hk => hk⟩

theorem BankruptsFrom.from_of_players {f : Nat → Bool} {s s1 : GameState}
    (h : BankruptsFrom f s) (e : s1.players = s.players) : BankruptsFrom f s1 := by
  obtain ⟨g, hg, hm⟩ := h
  exact ⟨g, hg.bk_of_players e, hm⟩

theorem BankruptsFrom.from_addLog {f : Nat → Bool} {s : GameState} (h : BankruptsFrom f s)
    (t : LogType) : BankruptsFrom f (s.addLog t) :=
  h.from_of_players rfl

theorem BankruptsFrom.from_setFreeParkingPot {f : Nat → Bool} {s : GameState}
    (h : BankruptsFrom f s) (v : Option Int) : BankruptsFrom f (s.setFreeParkingPot v) :=
  h.from_of_players rfl

/-- A player out of the list is the default player, who is not bankrupt. -/
theorem Bankrupts.bk_of_not_lt {f : Nat → Bool} {s : GameState} (h : Bankrupts f s)
    (j : Nat) (hj : ¬ j < s.players.length) : f j = false := by
  rw [← (h j).1]
  simp [getPlayer, List.getD_eq_getElem?_getD, List.getElem?_eq_none (Nat.le_of_not_lt hj)]
  rfl

/-- The player `declareBankruptcy` is called for ends up bankrupt with no
money and no properties, whoever the creditor is; the flag of no other player
changes, and when the creditor is not bankrupt the bankrupt players keep
having nothing. -/
theorem Bankrupts.bk_declareBankruptcy {f : Nat → Bool} {s : GameState} (h : Bankrupts f s)
    (i : Nat) (c : Option Nat) (hc : ∀ k, c = some k → f k = false) :
    ∃ g, Bankrupts g (s.declareBankruptcy i c) ∧ (∀ k, k ≠ i → g k = f k) ∧
      (∀ k, f k = true → g k = true) ∧ (i < s.players.length → g i = true) := by
  by_cases hi : i < s.players.length
  swap
  · refine ⟨f, ?_, fun _ _ => rfl, fun _ hk => hk, fun h1 => absurd h1 hi⟩
    have hp : (s.getPlayer i).properties = [] := getPlayer_properties_of_not_lt s i hi
    have e : (s.declareBankruptcy i c).players = s.players := by
      rw [declareBankruptcy_players]
      unfold bankruptcyCore
      have hs : ∀ p, s.setPlayer i p = s := by
        intro p
        simp [setPlayer, List.set_eq_of_length_le (Nat.le_of_not_lt hi)]
      cases c with
      | none =>
        simp only [hs, getPlayer_addLog, hp, List.foldl_nil]
        simp [setPlayer, List.set_eq_of_length_le (Nat.le_of_not_lt hi)]
      | some c =>
        simp only [hs, getPlayer_addLog, hp, List.foldl_nil]
        simp [setPlayer, List.set_eq_of_length_le (Nat.le_of_not_lt hi)]
    exact h.bk_of_players e
  · -- the invariant of the transfer loop: everything but the properties of `i`
    let Q : GameState → Prop := fun st =>
      st.players.length = s.players.length ∧
      ∀ j, (st.getPlayer j).isBankrupt = Function.update f i true j ∧
        (Function.update f i true j = true →
          (st.getPlayer j).money = 0 ∧ (j ≠ i → (st.getPlayer j).properties = []))
    have hQset : ∀ st k p, Q st → (f k = false ∨ k = i) →
        p.isBankrupt = (st.getPlayer k).isBankrupt → p.money = (st.getPlayer k).money →
        Q (st.setPlayer k p) := by
      intro st k p hst hk hb hm
      refine ⟨by simp [hst.1], ?_⟩
      intro j
      rw [getPlayer_setPlayer]
      split
      · rename_i hkj
        obtain ⟨rfl, _⟩ := hkj
        refine ⟨hb.trans (hst.2 k).1, fun ht => ⟨hm.trans ((hst.2 k).2 ht).1, fun hne => ?_⟩⟩
        rcases hk with hk | hk
        · rw [Function.update_noteq hne, hk] at ht
          cases ht
        · exact absurd hk hne
      · exact hst.2 j
    have hQsame : ∀ st st1 : GameState, Q st → st1.players = st.players → Q st1 := by
      intro st st1 hst e
      refine ⟨by rw [e]; exact hst.1, fun j => ?_⟩
      have : st1.getPlayer j = st.getPlayer j := by simp [getPlayer, e]
      rw [this]; exact hst.2 j
    have h1 : Q ((s.setPlayer i (s.getPlayer i).goBankrupt).addLog .jail) := by
      refine ⟨by simp, fun j => ?_⟩
      rw [getPlayer_addLog, getPlayer_setPlayer]
      by_cases hij : i = j
      · subst hij
        simp only [hi, and_self, if_true, Function.update_same]
        exact ⟨rfl, fun _ => ⟨rfl, fun hne => absurd rfl hne⟩⟩
      · simp only [hij, false_and, if_false, Function.update_noteq (Ne.symm hij)]
        exact ⟨(h j).1, fun ht => ⟨((h j).2 ht).1, fun _ => ((h j).2 ht).2⟩⟩
    have hfinal : ∀ st, Q st →
        Bankrupts (Function.update f i true)
          (st.setPlayer i ((st.getPlayer i).setProperties [])) := by
      intro st hst j
      rw [getPlayer_setPlayer]
      split
      · rename_i hij
        obtain ⟨rfl, _⟩ := hij
        exact ⟨(hst.2 i).1, fun ht => ⟨((hst.2 i).2 ht).1, rfl⟩⟩
      · rename_i hij
        have hne : j ≠ i := by
          intro e
          apply hij
          subst e
          exact ⟨rfl, by rw [hst.1]; exact hi⟩
        exact ⟨(hst.2 j).1, fun ht => ⟨((hst.2 j).2 ht).1, ((hst.2 j).2 ht).2 hne⟩⟩
    have h3 : Bankrupts (Function.update f i true) (bankruptcyCore s i c) := by
      unfold bankruptcyCore
      cases c with
      | none =>
        exact hfinal _
          (foldl_preserves Q bankTakes (fun st x hst => hQsame st _ hst rfl) _ _ h1)
      | some c =>
        refine hfinal _ (hQsame _ _ ?_ rfl)
        refine foldl_preserves Q (creditorTakes c) (fun st x hst => ?_) _ _ h1
        unfold creditorTakes
        refine hQsame _ _ (hQset st c _ hst (Or.inl (hc c rfl)) ?_ ?_) rfl
        · simp
        · unfold Player.addProperty
          split <;> rfl
    refine ⟨Function.update f i true, ?_, fun k hk => Function.update_noteq hk _ _, ?_,
      fun _ => Function.update_same _ _ _⟩
    · rw [declareBankruptcy_eq]
      split
      · exact h3.bk_of_players rfl
      · exact h3
    · intro k hk
      by_cases hki : k = i
      · rw [hki]; exact Function.update_same _ _ _
      · rw [Function.update_noteq hki]; exact hk

theorem Bankrupts.bk_declared {f : Nat → Bool} {s : GameState} (h : Bankrupts f s)
    (i : Nat) (c : Option Nat) (hc : ∀ k, c = some k → f k = false) :
    BankruptsFrom f (s.declareBankruptcy i c) := by
  obtain ⟨g, hg, _, hm, _⟩ := h.bk_declareBankruptcy i c hc
  exact ⟨g, hg, hm⟩

end GameState
end Fortunopoly

namespace Fortunopoly
open GameState

namespace GameState

theorem Bankrupts.bk_rollDice {f : Nat → Bool} {s : GameState} (h : Bankrupts f s)
    (d1 d2 : Int) : Bankrupts f (s.rollDice d1 d2).2 := by
  simp only [GameState.rollDice]
  split_ifs <;> exact h

theorem Bankrupts.bk_moveCurrentPlayer {f : Nat → Bool} {s : GameState}
    (h : Bankrupts f s) (n : Int) (hf : f s.currentPlayerIndex = false) :
    Bankrupts f (s.moveCurrentPlayer n).2 := by
  simp only [GameState.moveCurrentPlayer]
  have h1 := h.bk_setPlayer s.currentPlayerIndex
    ((s.getPlayer s.currentPlayerIndex).moveSpaces n).2 hf
    (by simpa using (h s.currentPlayerIndex).1)
  split_ifs
  · exact h1.bk_addLog _
  · exact h1

theorem Bankrupts.bk_buyProperty {f : Nat → Bool} {s : GameState} (h : Bankrupts f s)
    (i : Nat) (tile : Tile) (hf : f i = false) : Bankrupts f (s.buyProperty i tile).2 := by
  unfold GameState.buyProperty
  cases tile.price with
  | none => exact h
  | some price =>
    by_cases hm : (s.getPlayer i).money ≥ price
    · simp only [Player.subtractMoney, hm, if_true]
      exact (((h.bk_setPlayer i _ hf (by simpa using (h i).1)).bk_setOwner _ _).bk_setHouses
        _ _).bk_addLog _
    · simp only [Player.subtractMoney, hm, if_false]
      exact h

theorem Bankrupts.bk_buildHouse {f : Nat → Bool} {s : GameState} (h : Bankrupts f s)
    (i : Nat) (tile : Tile) (hf : f i = false) : Bankrupts f (s.buildHouse i tile).2 := by
  rcases buildHouse_cases s i tile with ⟨_, e⟩ | ⟨hp, _, _, _, _, hge, _, e⟩
  · rw [e]; exact h
  · rw [e]
    exact ((h.bk_setPlayer i _ hf (by simpa using (h i).1)).bk_setHouses _ _).bk_addLog _

theorem Bankrupts.bk_sabotageProperty {f : Nat → Bool} {s : GameState}
    (h : Bankrupts f s) (i : Nat) (tile : Tile) (hf : f i = false) :
    Bankrupts f (s.sabotageProperty i tile).2 := by
  have h1 : Bankrupts f ((s.setPlayer i ((s.getPlayer i).subtractMoney 150).2).setHouses
      tile.id ((s.propertyHouses tile.id).getD 0 - 1)) :=
    (h.bk_setPlayer i _ hf (by simpa using (h i).1)).bk_setHouses _ _
  simp only [GameState.sabotageProperty]
  split_ifs
  · exact h
  · exact h
  · split
    · exact h1
    · exact h1.bk_addLog _
  · exact h

theorem Bankrupts.bk_mortgageProperty {f : Nat → Bool} {s : GameState} (h : Bankrupts f s)
    (i : Nat) (tile : Tile) (hf : f i = false) (r : MortgageResult × GameState)
    (hr : s.mortgageProperty i tile = some r) : Bankrupts f r.2 := by
  simp only [GameState.mortgageProperty] at hr
  split_ifs at hr
  · cases hr; exact h
  · cases hr; exact h
  · cases hr; exact h
  · cases hp : tile.price with
    | none => simp [hp] at hr
    | some price =>
      simp only [hp, Option.some.injEq] at hr
      subst hr
      exact (h.bk_setPlayer i _ hf (by simpa using (h i).1)).bk_addLog _
  · cases hr; exact h

theorem Bankrupts.bk_unmortgageProperty {f : Nat → Bool} {s : GameState}
    (h : Bankrupts f s) (i : Nat) (tile : Tile) (hf : f i = false) :
    Bankrupts f (s.unmortgageProperty i tile).2 := by
  simp only [GameState.unmortgageProperty]
  split_ifs
  · exact h
  · cases tile.price with
    | none => exact h
    | some price =>
      simp only
      generalize price / 2 + -(-(price / 2) / 10) = cost
      split
      · exact (h.bk_setPlayer i _ hf (by simpa using (h i).1)).bk_addLog _
      · exact h
  · exact h

theorem Bankrupts.bk_payRent {f : Nat → Bool} {s : GameState} (h : Bankrupts f s)
    (i o : Nat) (amount : Int) (hf : f i = false) (hfo : f o = false) :
    BankruptsFrom f (s.payRent i o amount).2 := by
  by_cases hm : (s.getPlayer i).money ≥ amount
  · have e : s.payRent i o amount = (true,
        ((s.setPlayer i ((s.getPlayer i).setMoney ((s.getPlayer i).money - amount))).setPlayer o
          (((s.setPlayer i ((s.getPlayer i).setMoney ((s.getPlayer i).money - amount))).getPlayer
            o).addMoney amount)).addLog .rent) := by
      simp only [GameState.payRent, Player.subtractMoney, hm, if_true]
    rw [e]
    have h1 := h.bk_setPlayer i ((s.getPlayer i).setMoney ((s.getPlayer i).money - amount)) hf
      (by simpa using (h i).1)
    exact ((h1.bk_setPlayer o _ hfo (by simpa using (h1 o).1)).bk_addLog _).bk_grown
  · have e : s.payRent i o amount = (false,
        (((s.setPlayer i ((s.getPlayer i).setMoney 0)).setPlayer o
          (((s.setPlayer i ((s.getPlayer i).setMoney 0)).getPlayer o).addMoney
            (s.getPlayer i).money)).addLog .rent).declareBankruptcy i (some o)) := by
      simp only [GameState.payRent, Player.subtractMoney, hm, if_false, Bool.false_eq_true]
    rw [e]
    dsimp only
    have h1 := h.bk_setPlayer i ((s.getPlayer i).setMoney 0) hf (by simpa using (h i).1)
    have h2 := h1.bk_setPlayer o (((s.setPlayer i ((s.getPlayer i).setMoney 0)).getPlayer o).addMoney
      (s.getPlayer i).money) hfo (by simpa using (h1 o).1)
    exact (h2.bk_addLog _).bk_declared i _ (fun k hk => by cases hk; exact hfo)

theorem Bankrupts.bk_processTax {f : Nat → Bool} {s : GameState} (h : Bankrupts f s)
    (i : Nat) (tile : Tile) (hf : f i = false) : BankruptsFrom f (s.processTax i tile).2 := by
  have hfail : BankruptsFrom f ((((s.setPlayer i ((s.getPlayer i).setMoney 0)).addLog
      .rent).addLog .rent).declareBankruptcy i none) :=
    (((h.bk_setPlayer i _ hf (by simpa using (h i).1)).bk_addLog _).bk_addLog
      _).bk_declared i none (fun k hk => by cases hk)
  simp only [GameState.processTax]
  cases tile.amount with
  | none =>
    simp only [Bool.false_eq_true, if_false]
    split_ifs
    · exact (hfail.from_setFreeParkingPot _).from_addLog _
    · exact hfail
  | some a =>
    simp only
    have hok : BankruptsFrom f ((s.setPlayer i ((s.getPlayer i).subtractMoney a).2).addLog
        .rent) :=
      ((h.bk_setPlayer i _ hf (by simpa using (h i).1)).bk_addLog _).bk_grown
    split_ifs
    · exact (hok.from_setFreeParkingPot _).from_addLog _
    · exact hok
    · exact (hfail.from_setFreeParkingPot _).from_addLog _
    · exact hfail

theorem Bankrupts.bk_sendToJail {f : Nat → Bool} {s : GameState} (h : Bankrupts f s)
    (i : Nat) (hf : f i = false) : Bankrupts f (s.sendToJail i).2 := by
  unfold GameState.sendToJail
  exact ((h.bk_setPlayer i _ hf (by simpa using (h i).1)).bk_setConsecutiveDoubles _).bk_addLog _

theorem Bankrupts.bk_processPropertyLanding {f : Nat → Bool} {s : GameState}
    (h : Bankrupts f s) (i : Nat) (tile : Tile) :
    Bankrupts f (s.processPropertyLanding i tile).2 := by
  simp only [GameState.processPropertyLanding]
  split
  · split_ifs
    · exact h
    · exact h.bk_addLog _
  · split_ifs
    · exact h.bk_addLog _
    · exact h.bk_addLog _
    · exact h

theorem Bankrupts.bk_processChanceCard {f : Nat → Bool} {s : GameState}
    (h : Bankrupts f s) (d : Decks) (rnd : Nat → Nat) (tile : Option Tile) :
    Bankrupts f (s.processChanceCard d rnd tile).2.1 := by
  simp only [GameState.processChanceCard]
  split_ifs <;> exact h.bk_addLog _

theorem Bankrupts.bk_processLanding {f : Nat → Bool} {s : GameState} (h : Bankrupts f s)
    (d : Decks) (rnd : Nat → Nat) (i : Nat) (hf : f i = false) :
    BankruptsFrom f (s.processLanding d rnd i).2.1 := by
  simp only [GameState.processLanding]
  split
  · exact h.bk_grown
  · split
    · split_ifs
      · exact (((h.bk_addLog _).bk_setPlayer i _ hf (by simpa using (h i).1)).bk_addLog
          _).bk_grown
      · exact (h.bk_addLog _).bk_grown
    · exact (h.bk_processPropertyLanding i _).bk_grown
    · exact (h.bk_processPropertyLanding i _).bk_grown
    · exact (h.bk_processPropertyLanding i _).bk_grown
    · exact (h.bk_processChanceCard d rnd _).bk_grown
    · exact h.bk_processTax i _ hf
    · exact (h.bk_addLog _).bk_grown
    · exact (h.bk_sendToJail i hf).bk_grown
    · split_ifs with hj
      · exact (((h.bk_setPlayer i ((s.getPlayer i).addMoney (s.freeParkingPot.getD 0)) hf
          (by simpa using (h i).1)).bk_addLog .card).bk_setFreeParkingPot _).bk_grown
      · exact (h.bk_addLog _).bk_grown

/-- A player in the list of `getActivePlayers` is not marked bankrupt. -/
theorem Bankrupts.bk_active {f : Nat → Bool} {s : GameState} (h : Bankrupts f s)
    (j : Nat) (hj : j ∈ s.getActivePlayers) : f j = false := by
  unfold getActivePlayers at hj
  have := (List.mem_filter.1 hj).2
  rw [← (h j).1]
  simpa using this

theorem Bankrupts.bk_takeFromOthers {f : Nat → Bool} {s : GameState} (h : Bankrupts f s)
    (i : Nat) (amount : Int) : Bankrupts f (s.takeFromOthers i amount).1 := by
  unfold GameState.takeFromOthers
  refine foldl_keeps_mem (fun acc : GameState × Int => Bankrupts f acc.1) _ _ ?_ (s, 0) h
  rintro ⟨st, n⟩ j hj h1
  simp only at h1
  simp only [takeFromOne]
  split_ifs
  · exact h1.bk_setPlayer j _ (h.bk_active j hj) (by simpa using (h1 j).1)
  · exact h1

theorem Bankrupts.bk_payOne {f : Nat → Bool} {s : GameState} (h : Bankrupts f s)
    (amount : Int) (j : Nat) (hf : f j = false) : Bankrupts f (GameState.payOne amount s j) :=
  h.bk_setPlayer j _ hf (by simpa using (h j).1)

/-- One step of the loop of `everyoneLoses`: only the flag of the player it
visits can change. -/
theorem Bankrupts.bk_loseOne {f : Nat → Bool} {s : GameState} (h : Bankrupts f s)
    (i : Nat) (amount : Int) (j : Nat) (hf : f j = false) :
    ∃ g, Bankrupts g (GameState.loseOne i amount s j) ∧ (∀ k, k ≠ j → g k = f k) ∧
      (∀ k, f k = true → g k = true) := by
  simp only [GameState.loseOne]
  split_ifs
  · exact ⟨f, h.bk_setPlayer j _ hf (by simpa using (h j).1), fun _ _ => rfl, fun _ hk => hk⟩
  · obtain ⟨g, hg, h1, h2, _⟩ :=
      (h.bk_setPlayer j ((s.getPlayer j).setMoney 0) hf
        (by simpa using (h j).1)).bk_declareBankruptcy j none (fun k hk => by cases hk)
    exact ⟨g, hg, h1, h2⟩
  · exact ⟨f, h.bk_setPlayer j _ hf (by simpa using (h j).1), fun _ _ => rfl, fun _ hk => hk⟩

/-- The loop of `everyoneLoses` over players who are not bankrupt. -/
theorem bk_loseAll (i : Nat) (amount : Int) : ∀ (l : List Nat) (f : Nat → Bool)
    (st : GameState), l.Nodup → (∀ j ∈ l, f j = false) → Bankrupts f st →
    BankruptsFrom f (l.foldl (GameState.loseOne i amount) st) := by
  intro l
  induction l with
  | nil => intro f st _ _ h; exact h.bk_grown
  | cons j rest ih =>
    intro f st hnd hl h
    obtain ⟨g, hg, h1, h2⟩ := h.bk_loseOne i amount j (hl j (List.mem_cons_self _ _))
    have hnd2 := List.nodup_cons.1 hnd
    obtain ⟨g2, hg2, h3⟩ := ih g _ hnd2.2
      (fun k hk => by
        rw [h1 k (fun e => hnd2.1 (e ▸ hk))]
        exact hl k (List.mem_cons_of_mem _ hk)) hg
    exact ⟨g2, hg2, fun k hk => h3 k (h2 k hk)⟩

theorem getActivePlayers_nodup (s : GameState) : s.getActivePlayers.Nodup :=
  List.Nodup.filter _ (List.nodup_range _)

end GameState
end Fortunopoly

namespace Fortunopoly
open GameState

namespace GameState

theorem Bankrupts.bk_applyCardEffect {f : Nat → Bool} {s : GameState} (h : Bankrupts f s)
    (i : Nat) (card : Card) (won : Bool) (hf : f i = false) :
    BankruptsFrom f (s.applyCardEffect i card won).2 := by
  unfold GameState.applyCardEffect
  cases he : card.effect with
  | money amount =>
    simp only
    split_ifs with h1 h2
    · exact ((h.bk_setPlayer i _ hf (by simpa using (h i).1)).bk_addLog _).bk_grown
    · exact h.bk_declared i none (fun k hk => by cases hk)
    · exact ((h.bk_setPlayer i _ hf (by simpa using (h i).1)).bk_addLog _).bk_grown
  | move position collectStart =>
    simp only
    have h1 := h.bk_setPlayer i ((s.getPlayer i).moveTo position collectStart).2 hf
      (by simpa using (h i).1)
    split <;> split_ifs <;> exact Bankrupts.bk_grown h1
  | moveRelative spaces =>
    simp only
    have h1 := h.bk_setPlayer i ((s.getPlayer i).moveSpaces spaces).2 hf
      (by simpa using (h i).1)
    split <;> split_ifs <;> exact Bankrupts.bk_grown h1
  | jail => simp only; exact (h.bk_sendToJail i hf).bk_grown
  | jailFree =>
    simp only
    exact ((h.bk_setPlayer i _ hf (by simpa using (h i).1)).bk_addLog _).bk_grown
  | collectFromAll amount =>
    have h1 := h.bk_takeFromOthers i amount
    rcases hto : s.takeFromOthers i amount with ⟨s1, collected⟩
    rw [hto] at h1
    simp only [hto]
    exact ((h1.bk_setPlayer i _ hf (by simpa using (h1 i).1)).bk_addLog _).bk_grown
  | payToAll amount =>
    simp only
    split_ifs
    · refine (Bankrupts.bk_addLog ?_ _).bk_grown
      refine foldl_keeps_mem (Bankrupts f) _ _ (fun st j hj hst => ?_) _
        (h.bk_setPlayer i _ hf (by simpa using (h i).1))
      exact hst.bk_payOne amount j (h.bk_active j (List.mem_filter.1 hj).1)
    · exact h.bk_declared i none (fun k hk => by cases hk)
  | payPerProperty amount =>
    simp only
    split_ifs
    · exact ((h.bk_setPlayer i _ hf (by simpa using (h i).1)).bk_addLog _).bk_grown
    · exact h.bk_declared i none (fun k hk => by cases hk)
  | stealFromRichest amount =>
    simp only
    split
    · rename_i r hr
      have hmem : r ∈ (s.getActivePlayers.filter
          (fun j => decide ((s.getPlayer j).id ≠ (s.getPlayer i).id))).insertionSort
          (fun a b => (s.getPlayer a).money ≥ (s.getPlayer b).money) :=
        List.mem_of_mem_head? hr
      have hact : r ∈ s.getActivePlayers :=
        (List.mem_filter.1 ((List.perm_insertionSort _ _).mem_iff.1 hmem)).1
      have h1 := h.bk_setPlayer r
        ((s.getPlayer r).subtractMoney (min amount (s.getPlayer r).money)).2
        (h.bk_active r hact) (by simpa using (h r).1)
      exact ((h1.bk_setPlayer i _ hf (by simpa using (h1 i).1)).bk_addLog _).bk_grown
    · exact h.bk_grown
  | stealFromAll amount =>
    have h1 := h.bk_takeFromOthers i amount
    rcases hto : s.takeFromOthers i amount with ⟨s1, collected⟩
    rw [hto] at h1
    simp only [hto]
    exact ((h1.bk_setPlayer i _ hf (by simpa using (h1 i).1)).bk_addLog _).bk_grown
  | stealChoice amount => simp only; exact h.bk_grown
  | freeArson => simp only; exact h.bk_grown
  | everyoneLoses amount =>
    simp only
    refine BankruptsFrom.from_addLog ?_ _
    exact bk_loseAll i amount _ f s s.getActivePlayers_nodup (fun j hj => h.bk_active j hj) h
  | gamble winAmount loseAmount =>
    simp only
    split_ifs
    · exact ((h.bk_setPlayer i _ hf (by simpa using (h i).1)).bk_addLog _).bk_grown
    · exact ((h.bk_setPlayer i _ hf (by simpa using (h i).1)).bk_addLog _).bk_grown
    · exact (h.bk_addLog _).bk_declared i none (fun k hk => by cases hk)

theorem Bankrupts.bk_processJailTurn {f : Nat → Bool} {s : GameState} (h : Bankrupts f s)
    (i : Nat) (d : DiceRoll) (hf : f i = false) : BankruptsFrom f (s.processJailTurn i d).2 := by
  simp only [GameState.processJailTurn]
  have h1 := h.bk_setPlayer i (s.getPlayer i).incrementJailTurn.2 hf (by simpa using (h i).1)
  split_ifs
  · exact ((h.bk_setPlayer i _ hf (by simpa using (h i).1)).bk_addLog _).bk_grown
  · exact ((h1.bk_setPlayer i _ hf (by simpa using (h i).1)).bk_addLog _).bk_grown
  · exact h1.bk_declared i none (fun k hk => by cases hk)
  · exact (h1.bk_addLog _).bk_grown

theorem Bankrupts.bk_payJailBail {f : Nat → Bool} {s : GameState} (h : Bankrupts f s)
    (i : Nat) (hf : f i = false) : Bankrupts f (s.payJailBail i).2 := by
  simp only [GameState.payJailBail]
  split_ifs
  · exact (h.bk_setPlayer i _ hf (by simpa using (h i).1)).bk_addLog _
  · exact (h.bk_setPlayer i _ hf (by simpa using (h i).1)).bk_addLog _
  · exact h

theorem Bankrupts.bk_transferTile {f : Nat → Bool} {s : GameState} (h : Bankrupts f s)
    (g k t : Nat) (hg : f g = false) (hk : f k = false) :
    Bankrupts f (TradeSystem.transferTile g k s t) := by
  unfold TradeSystem.transferTile
  have h1 := h.bk_setPlayer g ((s.getPlayer g).removeProperty t) hg (by simpa using (h g).1)
  exact (h1.bk_setPlayer k _ hk (by simpa using (h1 k).1)).bk_setOwner _ _

theorem Bankrupts.bk_transferMoney {f : Nat → Bool} {s : GameState} (h : Bankrupts f s)
    (a b : Nat) (v : Int) (ha : f a = false) (hb : f b = false) :
    Bankrupts f (TradeSystem.transferMoney s a b v) := by
  simp only [TradeSystem.transferMoney]
  split_ifs with hm
  · have h1 := h.bk_setPlayer a ((s.getPlayer a).subtractMoney v).2 ha (by simpa using (h a).1)
    exact h1.bk_setPlayer b _ hb (by simpa using (h1 b).1)
  · exact h

/-- A trade is executed only between players `validateTrade` has found not
bankrupt, so it needs no condition on the call. -/
theorem Bankrupts.bk_executeTrade {f : Nat → Bool} {s : GameState} (h : Bankrupts f s)
    (ts : TradeSystem) : Bankrupts f (ts.executeTrade s).2.2 := by
  cases hv : ts.validateTrade s with
  | threw => simp only [TradeSystem.executeTrade, hv]; exact h
  | invalid reason => simp only [TradeSystem.executeTrade, hv]; exact h
  | valid =>
    obtain ⟨t, a, b, ht, hfa, hfb, hba, hbb, -⟩ := TradeSystem.validateTrade_valid ts s hv
    rw [TradeSystem.executeTrade_valid ts s t a b hv ht hfa hfb]
    have ha : f a = false := by rw [← (h a).1]; exact hba
    have hb : f b = false := by rw [← (h b).1]; exact hbb
    refine Bankrupts.bk_addLog ?_ _
    refine Bankrupts.bk_transferMoney (Bankrupts.bk_transferMoney ?_ _ _ _ ha hb) _ _ _ hb ha
    unfold TradeSystem.transferTiles
    exact foldl_keeps (Bankrupts f) _ (fun st t hst => hst.bk_transferTile _ _ t hb ha) _ _
      (foldl_keeps (Bankrupts f) _ (fun st t hst => hst.bk_transferTile _ _ t ha hb) _ _ h)

/-- A call made for players who are not bankrupt leaves the bankrupt players
bankrupt, with no money and no properties; a player it makes bankrupt ends up
so as well. -/
theorem Bankrupts.bk_run {f : Nat → Bool} {s : GameState} (h : Bankrupts f s)
    (c : EngineCall) (hc : c.ForActive s) : BankruptsFrom f (c.run s) := by
  have flag : ∀ i, (s.getPlayer i).isBankrupt = false → f i = false := by
    intro i hi
    rw [← (h i).1]; exact hi
  cases c with
  | rollDice d1 d2 => exact (h.bk_rollDice d1 d2).bk_grown
  | moveCurrentPlayer n => exact (h.bk_moveCurrentPlayer n (flag _ hc)).bk_grown
  | processLanding i d rnd => exact h.bk_processLanding d rnd i (flag _ hc)
  | buyProperty i tile => exact (h.bk_buyProperty i tile (flag _ hc)).bk_grown
  | buildHouse i tile => exact (h.bk_buildHouse i tile (flag _ hc)).bk_grown
  | sabotageProperty i tile => exact (h.bk_sabotageProperty i tile (flag _ hc)).bk_grown
  | mortgageProperty i tile =>
    simp only [EngineCall.run]
    cases hr : s.mortgageProperty i tile with
    | none => exact h.bk_grown
    | some r => exact (h.bk_mortgageProperty i tile (flag _ hc) r hr).bk_grown
  | unmortgageProperty i tile => exact (h.bk_unmortgageProperty i tile (flag _ hc)).bk_grown
  | payRent i o amount => exact h.bk_payRent i o amount (flag _ hc.1) (flag _ hc.2)
  | processTax i tile => exact h.bk_processTax i tile (flag _ hc)
  | applyCardEffect i card won => exact h.bk_applyCardEffect i card won (flag _ hc)
  | sendToJail i => exact (h.bk_sendToJail i (flag _ hc)).bk_grown
  | processJailTurn i d => exact h.bk_processJailTurn i d (flag _ hc)
  | payJailBail i => exact (h.bk_payJailBail i (flag _ hc)).bk_grown
  | declareBankruptcy i c => exact h.bk_declared i c (fun k hk => flag _ (hc.2 k hk))
  | endTurn =>
    simp only [EngineCall.run]
    cases hr : s.endTurn with
    | none => exact h.bk_grown
    | some r => exact (h.bk_of_players (endTurn_players s r hr).1).bk_grown
  | executeTrade ts => exact (h.bk_executeTrade ts).bk_grown

theorem Bankrupts.bk_init (pd : List PlayerData) (rules : HouseRules) (s : GameState)
    (h : GameState.init pd rules = some s) : Bankrupts (fun _ => false) s := by
  intro j
  refine ⟨?_, fun ht => by cases ht⟩
  rcases getPlayer_mem_or_default s j with hm | hd
  · rw [(init_players pd rules s h).1, List.mem_map] at hm
    obtain ⟨x, _, hx⟩ := hm
    rw [← hx]
    rfl
  · rw [hd]; rfl

end GameState

/-- Over a run of calls made for players who are not bankrupt, the bankrupt
players stay bankrupt and all bankrupt players have nothing. -/
theorem bankruptsFrom_activeRun {f : Nat → Bool} {s t : GameState} (h : Bankrupts f s)
    (hr : ActiveRun s t) : BankruptsFrom f t := by
  induction hr with
  | refl => exact h.bk_grown
  | step t c _ hc ih =>
    obtain ⟨g, hg, hm⟩ := ih
    obtain ⟨g2, hg2, hm2⟩ := hg.bk_run c hc
    exact ⟨g2, hg2, fun k hk => hm2 k (hm k hk)⟩

end Fortunopoly

namespace Fortunopoly
open GameState

namespace GameState

/-- While a player who is not bankrupt exists, the player `endTurn` hands
the turn to is not bankrupt. -/
theorem endTurn_active (s : GameState) (r : Nat × GameState) (hr : s.endTurn = some r)
    (hact : ∃ j, j < s.players.length ∧ (s.getPlayer j).isBankrupt = false) :
    r.2.currentPlayerIndex = r.1 ∧ (s.getPlayer r.1).isBankrupt = false := by
  obtain ⟨j, hj, hjb⟩ := hact
  have hn : 0 < s.players.length := by omega
  have hcn : s.currentPlayerIndex % s.players.length < s.players.length := Nat.mod_lt _ hn
  obtain ⟨k, hk1, hk2, hk3, hk4, hk5, -, -⟩ :=
    endTurnLoop_scan s (s.currentPlayerIndex % s.players.length) hcn s.players.length 0
      s.currentPlayerIndex (s.setConsecutiveDoubles 0) hn (by omega) rfl
      (by rw [Nat.add_zero, Nat.mod_mod])
  have he : s.endTurn = some
      ((endTurnLoop s.players.length (s.setConsecutiveDoubles 0) s.currentPlayerIndex 0).2,
        ((((endTurnLoop s.players.length (s.setConsecutiveDoubles 0)
          s.currentPlayerIndex 0).1.setCurrentPlayerIndex
          (endTurnLoop s.players.length (s.setConsecutiveDoubles 0)
            s.currentPlayerIndex 0).2).setTurnPhase .waiting).addLog)) := by
    simp only [GameState.endTurn, if_neg (Nat.pos_iff_ne_zero.1 hn)]
    rfl
  rw [he, Option.some.injEq] at hr
  subst hr
  refine ⟨rfl, ?_⟩
  show (s.getPlayer (endTurnLoop _ _ _ _).2).isBankrupt = false
  rw [hk3]
  rcases hk5 with h | h
  · exact h
  · obtain ⟨k2, h1, h2, h3⟩ := cyclic_offset s.players.length
      (s.currentPlayerIndex % s.players.length) j hcn hj
    by_cases hk : k2 < k
    · have := hk4 k2 (by omega) hk
      rw [h3, hjb] at this
      cases this
    · have : k2 = k := by omega
      rw [← this, h3]
      exact hjb

/-- The owner `processPropertyLanding` names for a rent holds the tile. -/
theorem processPropertyLanding_payee (s : GameState) (i : Nat) (tile : Tile) (o : Nat)
    (rent : Option Int) (h : (s.processPropertyLanding i tile).1 = .payRent tile o rent) :
    tile.id ∈ (s.getPlayer o).properties := by
  simp only [GameState.processPropertyLanding] at h
  split at h
  · split_ifs at h
  · rename_i o2 ho
    split_ifs at h
    simp only [LandingResult.payRent.injEq] at h
    obtain ⟨-, rfl, -⟩ := h
    have := (findIndex_some _ _ _ ho).2
    simpa [Player.ownsProperty, GameState.getPlayer] using this

end GameState

/-- Claim C30: in a game started by `init` and played by calls made for
players who are not bankrupt (`ForActive`: the player a call names, the
current player for a move, the owner a rent goes to and the creditor of an
estate; card effects on all players, trades and `endTurn` need no condition),
a player whose `isBankrupt` flag is set has no money and no properties, and
in every later state of such a run still has the flag set, no money and no
properties.  The owner `processPropertyLanding` names for a rent is never that
player, and while a player who is not bankrupt exists `endTurn` does not make
that player the current player. -/
theorem bankruptcy_terminal (pd : List PlayerData) (rules : HouseRules) (s0 s t : GameState)
    (j : Nat) (h0 : GameState.init pd rules = some s0) (h1 : ActiveRun s0 s)
    (h2 : ActiveRun s t) (hj : (s.getPlayer j).isBankrupt = true) :
    ((s.getPlayer j).money = 0 ∧ (s.getPlayer j).properties = []) ∧
    ((t.getPlayer j).isBankrupt = true ∧ (t.getPlayer j).money = 0 ∧
      (t.getPlayer j).properties = []) ∧
    (∀ i tile o rent, (t.processPropertyLanding i tile).1 = .payRent tile o rent → o ≠ j) ∧
    (∀ r, t.endTurn = some r →
      (∃ i, i < t.players.length ∧ (t.getPlayer i).isBankrupt = false) →
      r.2.currentPlayerIndex = r.1 ∧ r.1 ≠ j ∧ (r.2.getPlayer r.1).isBankrupt = false) := by
  obtain ⟨g, hg, -⟩ := bankruptsFrom_activeRun (Bankrupts.bk_init pd rules s0 h0) h1
  have gj : g j = true := by rw [← (hg j).1]; exact hj
  obtain ⟨g2, hg2, hm⟩ := bankruptsFrom_activeRun hg h2
  have g2j : g2 j = true := hm j gj
  have htj : (t.getPlayer j).isBankrupt = true := (hg2 j).1.trans g2j
  refine ⟨(hg j).2 gj, ⟨htj, (hg2 j).2 g2j⟩, ?_, ?_⟩
  · intro i tile o rent h e
    have hmem := processPropertyLanding_payee t i tile o rent h
    rw [e, ((hg2 j).2 g2j).2] at hmem
    cases hmem
  · intro r hr hact
    obtain ⟨e1, e2⟩ := endTurn_active t r hr hact
    refine ⟨e1, ?_, ?_⟩
    · intro e
      rw [e, htj] at e2
      cases e2
    · have : r.2.getPlayer r.1 = t.getPlayer r.1 := by
        simp only [GameState.getPlayer, (endTurn_players t r hr).1]
      rw [this]; exact e2

end Fortunopoly

namespace Fortunopoly
open GameState

/-- Witness for C21: a jailed player with 1500 pays the bail of 50 and is
released; a jailed player with 30 and no card is refused and nothing changes. -/
theorem payJailBail_spec_witness :
    0 < jailedRich.players.length ∧ (jailedRich.getPlayer 0).inJail = true ∧
    (jailedRich.getPlayer 0).money = 1500 ∧
    (jailedRich.payJailBail 0).1 = true ∧
    ((jailedRich.payJailBail 0).2.getPlayer 0).money = 1450 ∧
    ((jailedRich.payJailBail 0).2.getPlayer 0).inJail = false ∧
    (jailedPoor.payJailBail 0).1 = false ∧ (jailedPoor.payJailBail 0).2 = jailedPoor := by
  have h := (payJailBail_spec jailedRich 0 (by decide)).2.1 (by decide) (by decide)
  have k := (payJailBail_spec jailedPoor 0 (by decide)).2.2.1 (by decide) (by decide)
  exact ⟨by decide, by decide, by decide, h.1, by rw [h.2]; decide, by rw [h.2], k.1, k.2⟩

/-- Witness for C22: in a game of three with player 1 bankrupt, the turn
passes from player 0 to player 2 within the round; from player 2 it passes to
player 0 and the round goes up. -/
theorem endTurn_spec_witness :
    secondBankrupt.currentPlayerIndex = 0 ∧ (secondBankrupt.getPlayer 1).isBankrupt = true ∧
    secondBankrupt.endTurn.map Prod.fst = some 2 ∧
    secondBankrupt.endTurn.map (fun r => r.2.round) = some secondBankrupt.round ∧
    (((EngineCall.endTurn).run secondBankrupt).endTurn).map
      (fun r => (r.1, r.2.round)) = some (0, secondBankrupt.round + 1) ∧
    (∃ r, secondBankrupt.endTurn = some r ∧ r.2.currentPlayerIndex = r.1 ∧
      (r.2.getPlayer r.1).isBankrupt = false ∧ r.2.consecutiveDoubles = 0 ∧
      r.2.turnPhase = .waiting ∧ r.2.players = secondBankrupt.players) := by
  obtain ⟨r, k, he, -, -, -, -, h1, -, h2, -, h3, h4, -, -, h5, -⟩ :=
    endTurn_spec secondBankrupt ⟨0, by decide, by decide⟩
  exact ⟨by decide, by decide, by decide, by decide, by decide, r, he, h1, h2, h3, h4, h5⟩

/-- Witness for C23: nobody holds tile 1 at the start, so player 0 can buy
it; once player 0 holds it, player 1 landing there owes the rent. -/
theorem processPropertyLanding_spec_witness :
    (startOfGame.processPropertyLanding 0 (tileAt 1)).1 = .canBuy (tileAt 1) ∧
    (oneTileEach.processPropertyLanding 1 (tileAt 1)).1
      = .payRent (tileAt 1) 0 (oneTileEach.calculateRent (tileAt 1) (oneTileEach.getPlayer 0)) ∧
    (oneTileEach.processPropertyLanding 0 (tileAt 1)).1 = .ownProperty := by
  have h := (processPropertyLanding_spec startOfGame 0 (tileAt 1)).2.1 (by decide)
  have k := (processPropertyLanding_spec oneTileEach 1 (tileAt 1)).2.2 0 (by decide)
    (by decide) (fun j hj => absurd hj (Nat.not_lt_zero j))
  have l := (processPropertyLanding_spec oneTileEach 0 (tileAt 1)).2.2 0 (by decide)
    (by decide) (fun j hj => absurd hj (Nat.not_lt_zero j))
  exact ⟨h.1 60 (by decide) (by decide), k.2.2.1 (by decide) (by decide), l.1 rfl⟩

/-- Witness for C25: the holder of tiles 1 and 3 has the brown monopoly. -/
theorem hasMonopoly_spec_witness :
    brownOwner.properties.Nodup ∧ brownOwner.hasMonopoly (some .brown) = true ∧
    brownOwner.hasMonopoly none = false := by
  have h := hasMonopoly_spec brownOwner (by decide)
  exact ⟨by decide, (h.1 .brown).2 (by decide), h.2⟩

/-- Witness for C27: 16 draws from an empty Fortune deck, with every random
index 0, give the 16 Fortune cards. -/
theorem decks_spec_witness :
    (∃ cards : List Card,
      (drawFortuneCards (fun _ _ => 0) 16 { fortuneDeck := [], fateDeck := [] }).1
        = cards.map some ∧ cards.Perm FORTUNE_CARDS ∧
      ∀ c ∈ FORTUNE_CARDS, cards.count c = 1) ∧
    (drawFortuneCards (fun _ _ => 0) 16 { fortuneDeck := [], fateDeck := [] }).2.fateDeck = [] :=
  (decks_spec (fun _ _ => 0) (fun _ => 0) []).2.2.1 [] (Or.inr rfl)

/-- Witness for C28: the cards 26 (`stealChoice`), 13 (`move`) and 18
(`jail`) on a fresh game. -/
theorem applyCardEffect_flags_witness :
    startOfGame.applyCardEffect 0 ⟨26, .stealChoice 150⟩ false =
      (some { needsLandingProcess := false, needsPlayerChoice := some true,
              choiceType := some .stealChoice, amount := some 150 }, startOfGame) ∧
    (startOfGame.applyCardEffect 0 ⟨13, .move 5 true⟩ false).1
      = some { needsLandingProcess := true } ∧
    (startOfGame.applyCardEffect 0 ⟨18, .jail⟩ false).1
      = some { needsLandingProcess := false } :=
  ⟨(applyCardEffect_flags startOfGame 0 ⟨26, .stealChoice 150⟩ false).1 150 rfl,
    (applyCardEffect_flags startOfGame 0 ⟨13, .move 5 true⟩ false).2.2.1 5 true rfl (by decide),
    (applyCardEffect_flags startOfGame 0 ⟨18, .jail⟩ false).2.2.2.2
      (fun _ h => by cases h) (fun h => by cases h) (fun _ _ h => by cases h)
      (fun _ h => by cases h)⟩

/-- Witness for C29: with player 0 of two bankrupt the winner is player 1;
in the game of three with one bankrupt player a winner of greatest net worth
is returned. -/
theorem getWinner_spec_witness :
    lastStanding.getActivePlayers = [1] ∧ lastStanding.getWinner = some 1 ∧
    (∃ w, secondBankrupt.getWinner = some w ∧ w < secondBankrupt.players.length ∧
      ∀ j, j < secondBankrupt.players.length →
        (secondBankrupt.getPlayer j).getNetWorth ≤ (secondBankrupt.getPlayer w).getNetWorth) :=
  ⟨by decide, ((getWinner_spec lastStanding).1 1 (by decide)).1,
    (getWinner_spec secondBankrupt).2.1 (by decide)⟩

/-- The bankruptcy of player 1 is a call made for a player who is not
bankrupt. -/
theorem activeRun_secondBankrupt : ActiveRun threePlayers secondBankrupt :=
  ActiveRun.step _ _ ActiveRun.refl ⟨by decide, fun c hc => by cases hc⟩

/-- The card, the rent and the end of the turn are made for players 0 and 2,
who are not bankrupt. -/
theorem activeRun_playedOn : ActiveRun secondBankrupt playedOn :=
  ActiveRun.step _ _
    (ActiveRun.step _ _
      (ActiveRun.step _ _ ActiveRun.refl (by unfold EngineCall.ForActive; decide))
      ⟨by decide, by decide⟩)
    trivial

/-- Witness for C30: player 1 of three goes bankrupt; after a card that pays
every player, a rent and the end of the turn, player 1 is still bankrupt with
no money and no properties, and the turn has passed to player 2. -/
theorem bankruptcy_terminal_witness :
    GameState.init [{}, {}, {}] {} = some threePlayers ∧
    ActiveRun threePlayers secondBankrupt ∧ ActiveRun secondBankrupt playedOn ∧
    (secondBankrupt.getPlayer 1).isBankrupt = true ∧
    ((playedOn.getPlayer 1).isBankrupt = true ∧ (playedOn.getPlayer 1).money = 0 ∧
      (playedOn.getPlayer 1).properties = []) ∧
    (playedOn.getPlayer 2).money = 1530 ∧ playedOn.currentPlayerIndex = 2 :=
  ⟨rfl, activeRun_secondBankrupt, activeRun_playedOn, by decide,
    (bankruptcy_terminal [{}, {}, {}] {} threePlayers secondBankrupt playedOn 1 rfl
      activeRun_secondBankrupt activeRun_playedOn (by decide)).2.1,
    by decide, by decide⟩

end Fortunopoly

namespace Fortunopoly
open GameState

namespace GameState

/-- Replacing a player by one of the same id changes no id. -/
theorem getPlayer_setPlayer_id (s : GameState) (i : Nat) (p : Player) (j : Nat)
    (hp : p.id = (s.getPlayer i).id) : ((s.setPlayer i p).getPlayer j).id = (s.getPlayer j).id := by
  rw [getPlayer_setPlayer]
  split
  · rename_i hij
    rw [← hij.1]; exact hp
  · rfl

theorem ImprovedOwned.io_same {s s1 : GameState} (h : ImprovedOwned s)
    (el : s1.players.length = s.players.length) (eo : s1.propertyOwners = s.propertyOwners)
    (eh : s1.propertyHouses = s.propertyHouses) : ImprovedOwned s1 := by
  intro t ht
  rw [eh] at ht
  rw [el, eo]
  exact h t ht

theorem ImprovedOwned.io_setPlayer {s : GameState} (h : ImprovedOwned s) (i : Nat) (p : Player) :
    ImprovedOwned (s.setPlayer i p) :=
  h.io_same (by simp) rfl rfl

theorem ImprovedOwned.io_addLog {s : GameState} (h : ImprovedOwned s) (t : LogType) :
    ImprovedOwned (s.addLog t) :=
  h.io_same rfl rfl rfl

theorem ImprovedOwned.io_setConsecutiveDoubles {s : GameState} (h : ImprovedOwned s) (n : Nat) :
    ImprovedOwned (s.setConsecutiveDoubles n) := h
theorem ImprovedOwned.io_setFreeParkingPot {s : GameState} (h : ImprovedOwned s)
    (v : Option Int) : ImprovedOwned (s.setFreeParkingPot v) := h
theorem ImprovedOwned.io_setLastDiceRoll {s : GameState} (h : ImprovedOwned s)
    (v : Int × Int) : ImprovedOwned (s.setLastDiceRoll v) := h

/-- Recording a player of the game as the owner of a tile. -/
theorem ImprovedOwned.io_setOwner {s : GameState} (h : ImprovedOwned s) (t k : Nat)
    (hk : k < s.players.length) : ImprovedOwned (s.setOwner t k) := by
  intro u hu
  by_cases hut : u = t
  · subst hut
    exact ⟨k, hk, by simp [setOwner, setKey]⟩
  · obtain ⟨o, ho, e⟩ := h u hu
    exact ⟨o, ho, by simpa [setOwner, setKey, hut] using e⟩

/-- Writing the level of a tile that has an owner, or a level that is not
above 0. -/
theorem ImprovedOwned.io_setHouses {s : GameState} (h : ImprovedOwned s) (t : Nat) (n : Int)
    (hn : n > 0 → ∃ o, o < s.players.length ∧ s.propertyOwners t = some o) :
    ImprovedOwned (s.setHouses t n) := by
  intro u hu
  by_cases hut : u = t
  · subst hut
    have : n > 0 := by simpa [setHouses, setKey] using hu
    exact hn this
  · have : (s.propertyHouses u).getD 0 > 0 := by simpa [setHouses, setKey, hut] using hu
    exact h u this

theorem ImprovedOwned.io_bankTakes {s : GameState} (h : ImprovedOwned s) (t : Nat) :
    ImprovedOwned (bankTakes s t) := by
  intro u hu
  by_cases hut : u = t
  · subst hut
    simp [bankTakes, deleteKey, deleteHouses, deleteOwner] at hu
  · have : (s.propertyHouses u).getD 0 > 0 := by
      simpa [bankTakes, deleteKey, deleteHouses, deleteOwner, hut] using hu
    obtain ⟨o, ho, e⟩ := h u this
    exact ⟨o, ho, by simpa [bankTakes, deleteKey, deleteHouses, deleteOwner, hut] using e⟩

/-- The estate of a bankrupt player goes to the bank or to a creditor whose
id is the index of a player. -/
theorem ImprovedOwned.io_declareBankruptcy {s : GameState} (h : ImprovedOwned s) (i : Nat)
    (c : Option Nat) (hc : ∀ k, c = some k → (s.getPlayer k).id < s.players.length) :
    ImprovedOwned (s.declareBankruptcy i c) := by
  have h1 : ImprovedOwned ((s.setPlayer i (s.getPlayer i).goBankrupt).addLog .jail) :=
    (h.io_setPlayer i _).io_addLog _
  have h2 : ImprovedOwned (bankruptcyCore s i c) := by
    unfold bankruptcyCore
    cases c with
    | none =>
      exact (foldl_preserves ImprovedOwned bankTakes (fun st x hst => hst.io_bankTakes x) _ _
        h1).io_setPlayer i _
    | some c =>
      refine ImprovedOwned.io_setPlayer (ImprovedOwned.io_addLog ?_ _) i _
      have hid : (((s.setPlayer i (s.getPlayer i).goBankrupt).addLog .jail).getPlayer c).id
          < ((s.setPlayer i (s.getPlayer i).goBankrupt).addLog .jail).players.length := by
        rw [getPlayer_addLog, getPlayer_setPlayer_id s i (s.getPlayer i).goBankrupt c rfl]
        simpa using hc c rfl
      refine foldl_preserves
        (fun st => ImprovedOwned st ∧ (st.getPlayer c).id < st.players.length)
        (creditorTakes c) (fun st x hst => ?_) _ _ ⟨h1, hid⟩ |>.1
      have hid2 : ((st.setPlayer c ((st.getPlayer c).addProperty x)).getPlayer c).id
          < st.players.length := by
        rw [getPlayer_setPlayer_id st c ((st.getPlayer c).addProperty x) c (by simp)]
        exact hst.2
      unfold creditorTakes
      refine ⟨(hst.1.io_setPlayer c _).io_setOwner _ _ (by simpa using hid2), ?_⟩
      simpa using hid2
  rw [declareBankruptcy_eq]
  split
  · exact h2.io_same rfl rfl rfl
  · exact h2

theorem ImprovedOwned.io_rollDice {s : GameState} (h : ImprovedOwned s)
    (d1 d2 : Int) : ImprovedOwned (s.rollDice d1 d2).2 := by
  simp only [GameState.rollDice]
  split_ifs <;> exact h

theorem ImprovedOwned.io_moveCurrentPlayer {s : GameState} (h : ImprovedOwned s) (n : Int) :
    ImprovedOwned (s.moveCurrentPlayer n).2 := by
  simp only [GameState.moveCurrentPlayer]
  have h1 := h.io_setPlayer s.currentPlayerIndex
    ((s.getPlayer s.currentPlayerIndex).moveSpaces n).2
  split_ifs
  · exact h1.io_addLog _
  · exact h1

/-- A purchase sets the level of the tile to 0. -/
theorem ImprovedOwned.io_buyProperty {s : GameState} (h : ImprovedOwned s)
    (i : Nat) (tile : Tile) : ImprovedOwned (s.buyProperty i tile).2 := by
  unfold GameState.buyProperty
  cases tile.price with
  | none => exact h
  | some price =>
    by_cases hm : (s.getPlayer i).money ≥ price
    · simp only [Player.subtractMoney, hm, if_true]
      refine ImprovedOwned.io_addLog ?_ _
      intro u hu
      by_cases hut : u = tile.id
      · subst hut
        simp [setHouses, setKey] at hu
      · have : (s.propertyHouses u).getD 0 > 0 := by
          simpa [setHouses, setOwner, setKey, hut] using hu
        obtain ⟨o, ho, e⟩ := h u this
        exact ⟨o, by simpa using ho, by simpa [setHouses, setOwner, setKey, hut] using e⟩
    · simp only [Player.subtractMoney, hm, if_false]
      exact h

/-- A house is built by a holder of the tile, whom the ledger names where
the ownership records agree. -/
theorem ImprovedOwned.io_buildHouse {s : GameState} (h : ImprovedOwned s)
    (i : Nat) (tile : Tile) (hown : s.OwnershipOk) : ImprovedOwned (s.buildHouse i tile).2 := by
  rcases buildHouse_cases s i tile with ⟨_, e⟩ | ⟨hp, _, hmem, _, _, hge, _, e⟩
  · rw [e]; exact h
  · rw [e]
    have hi : i < s.players.length := by
      by_contra hn
      rw [getPlayer_properties_of_not_lt s i hn] at hmem
      cases hmem
    exact ((h.io_setPlayer i _).io_setHouses _ _
      (fun _ => ⟨i, by simpa using hi, by simpa using (hown.ledger i tile.id hi).2 hmem⟩)).io_addLog _

theorem ImprovedOwned.io_sabotageProperty {s : GameState} (h : ImprovedOwned s)
    (i : Nat) (tile : Tile) : ImprovedOwned (s.sabotageProperty i tile).2 := by
  have h1 : ImprovedOwned ((s.setPlayer i ((s.getPlayer i).subtractMoney 150).2).setHouses
      tile.id ((s.propertyHouses tile.id).getD 0 - 1)) := by
    refine (h.io_setPlayer i _).io_setHouses _ _ (fun hpos => ?_)
    obtain ⟨o, ho, e⟩ := h tile.id (by omega)
    exact ⟨o, by simpa using ho, by simpa using e⟩
  simp only [GameState.sabotageProperty]
  split_ifs
  · exact h
  · exact h
  · split
    · exact h1
    · exact h1.io_addLog _
  · exact h

theorem ImprovedOwned.io_mortgageProperty {s : GameState} (h : ImprovedOwned s)
    (i : Nat) (tile : Tile) (r : MortgageResult × GameState)
    (hr : s.mortgageProperty i tile = some r) : ImprovedOwned r.2 := by
  simp only [GameState.mortgageProperty] at hr
  split_ifs at hr
  · cases hr; exact h
  · cases hr; exact h
  · cases hr; exact h
  · cases hp : tile.price with
    | none => simp [hp] at hr
    | some price =>
      simp only [hp, Option.some.injEq] at hr
      subst hr
      exact (h.io_setPlayer i _).io_addLog _
  · cases hr; exact h

theorem ImprovedOwned.io_unmortgageProperty {s : GameState} (h : ImprovedOwned s)
    (i : Nat) (tile : Tile) : ImprovedOwned (s.unmortgageProperty i tile).2 := by
  simp only [GameState.unmortgageProperty]
  split_ifs
  · exact h
  · cases tile.price with
    | none => exact h
    | some price =>
      simp only
      generalize price / 2 + -(-(price / 2) / 10) = cost
      split
      · exact (h.io_setPlayer i _).io_addLog _
      · exact h
  · exact h

theorem ImprovedOwned.io_payRent {s : GameState} (h : ImprovedOwned s)
    (i o : Nat) (amount : Int) (ho : (s.getPlayer o).id < s.players.length) :
    ImprovedOwned (s.payRent i o amount).2 := by
  by_cases hm : (s.getPlayer i).money ≥ amount
  · have e : s.payRent i o amount = (true,
        ((s.setPlayer i ((s.getPlayer i).setMoney ((s.getPlayer i).money - amount))).setPlayer o
          (((s.setPlayer i ((s.getPlayer i).setMoney ((s.getPlayer i).money - amount))).getPlayer
            o).addMoney amount)).addLog .rent) := by
      simp only [GameState.payRent, Player.subtractMoney, hm, if_true]
    rw [e]
    exact ((h.io_setPlayer i _).io_setPlayer o _).io_addLog _
  · have e : s.payRent i o amount = (false,
        (((s.setPlayer i ((s.getPlayer i).setMoney 0)).setPlayer o
          (((s.setPlayer i ((s.getPlayer i).setMoney 0)).getPlayer o).addMoney
            (s.getPlayer i).money)).addLog .rent).declareBankruptcy i (some o)) := by
      simp only [GameState.payRent, Player.subtractMoney, hm, if_false, Bool.false_eq_true]
    rw [e]
    dsimp only
    refine (((h.io_setPlayer i _).io_setPlayer o _).io_addLog _).io_declareBankruptcy i _ ?_
    intro k hk
    cases hk
    rw [getPlayer_addLog, getPlayer_setPlayer_id _ o (Player.addMoney _ _) o (by simp),
      getPlayer_setPlayer_id s i ((s.getPlayer i).setMoney 0) o (by simp)]
    simpa using ho

end GameState
end Fortunopoly

namespace Fortunopoly
open GameState

namespace GameState

theorem ImprovedOwned.io_bankrupt {s : GameState} (h : ImprovedOwned s) (i : Nat) :
    ImprovedOwned (s.declareBankruptcy i none) :=
  h.io_declareBankruptcy i none (fun k hk => by cases hk)

theorem ImprovedOwned.io_processTax {s : GameState} (h : ImprovedOwned s)
    (i : Nat) (tile : Tile) : ImprovedOwned (s.processTax i tile).2 := by
  have hfail : ImprovedOwned ((((s.setPlayer i ((s.getPlayer i).setMoney 0)).addLog
      .rent).addLog .rent).declareBankruptcy i none) :=
    (((h.io_setPlayer i _).io_addLog _).io_addLog _).io_bankrupt i
  simp only [GameState.processTax]
  cases tile.amount with
  | none =>
    simp only [Bool.false_eq_true, if_false]
    split_ifs
    · exact (hfail.io_setFreeParkingPot _).io_addLog _
    · exact hfail
  | some a =>
    simp only
    have hok : ImprovedOwned ((s.setPlayer i ((s.getPlayer i).subtractMoney a).2).addLog
        .rent) :=
      (h.io_setPlayer i _).io_addLog _
    split_ifs
    · exact (hok.io_setFreeParkingPot _).io_addLog _
    · exact hok
    · exact (hfail.io_setFreeParkingPot _).io_addLog _
    · exact hfail

theorem ImprovedOwned.io_sendToJail {s : GameState} (h : ImprovedOwned s)
    (i : Nat) : ImprovedOwned (s.sendToJail i).2 := by
  unfold GameState.sendToJail
  exact ((h.io_setPlayer i _).io_setConsecutiveDoubles _).io_addLog _

theorem ImprovedOwned.io_processPropertyLanding {s : GameState}
    (h : ImprovedOwned s) (i : Nat) (tile : Tile) :
    ImprovedOwned (s.processPropertyLanding i tile).2 := by
  simp only [GameState.processPropertyLanding]
  split
  · split_ifs
    · exact h
    · exact h.io_addLog _
  · split_ifs
    · exact h.io_addLog _
    · exact h.io_addLog _
    · exact h

theorem ImprovedOwned.io_processChanceCard {s : GameState}
    (h : ImprovedOwned s) (d : Decks) (rnd : Nat → Nat) (tile : Option Tile) :
    ImprovedOwned (s.processChanceCard d rnd tile).2.1 := by
  simp only [GameState.processChanceCard]
  split_ifs <;> exact h.io_addLog _

theorem ImprovedOwned.io_processLanding {s : GameState} (h : ImprovedOwned s)
    (d : Decks) (rnd : Nat → Nat) (i : Nat) :
    ImprovedOwned (s.processLanding d rnd i).2.1 := by
  simp only [GameState.processLanding]
  split
  · exact h
  · split
    · split_ifs
      · exact ((h.io_addLog _).io_setPlayer i _).io_addLog _
      · exact h.io_addLog _
    · exact h.io_processPropertyLanding i _
    · exact h.io_processPropertyLanding i _
    · exact h.io_processPropertyLanding i _
    · exact h.io_processChanceCard d rnd _
    · exact h.io_processTax i _
    · exact h.io_addLog _
    · exact h.io_sendToJail i
    · split_ifs with hj
      · exact ((h.io_setPlayer i ((s.getPlayer i).addMoney (s.freeParkingPot.getD 0))).io_addLog
          .card).io_setFreeParkingPot _
      · exact h.io_addLog _

theorem ImprovedOwned.io_takeFromOthers {s : GameState} (h : ImprovedOwned s)
    (i : Nat) (amount : Int) : ImprovedOwned (s.takeFromOthers i amount).1 := by
  unfold GameState.takeFromOthers
  refine foldl_keeps (fun acc : GameState × Int => ImprovedOwned acc.1) _ ?_ _ (s, 0) h
  rintro ⟨st, n⟩ j h1
  simp only at h1
  simp only [takeFromOne]
  split_ifs
  · exact h1.io_setPlayer j _
  · exact h1

theorem ImprovedOwned.io_loseOne {s : GameState} (h : ImprovedOwned s)
    (i : Nat) (amount : Int) (j : Nat) : ImprovedOwned (GameState.loseOne i amount s j) := by
  simp only [GameState.loseOne]
  split_ifs
  · exact h.io_setPlayer j _
  · exact (h.io_setPlayer j _).io_bankrupt j
  · exact h.io_setPlayer j _

theorem ImprovedOwned.io_applyCardEffect {s : GameState} (h : ImprovedOwned s)
    (i : Nat) (card : Card) (won : Bool) :
    ImprovedOwned (s.applyCardEffect i card won).2 := by
  unfold GameState.applyCardEffect
  cases he : card.effect with
  | money amount =>
    simp only
    split_ifs with h1 h2
    · exact (h.io_setPlayer i _).io_addLog _
    · exact h.io_bankrupt i
    · exact (h.io_setPlayer i _).io_addLog _
  | move position collectStart =>
    simp only
    have h1 := h.io_setPlayer i ((s.getPlayer i).moveTo position collectStart).2
    split <;> split_ifs <;> exact h1
  | moveRelative spaces =>
    simp only
    have h1 := h.io_setPlayer i ((s.getPlayer i).moveSpaces spaces).2
    split <;> split_ifs <;> exact h1
  | jail => simp only; exact h.io_sendToJail i
  | jailFree => simp only; exact (h.io_setPlayer i _).io_addLog _
  | collectFromAll amount =>
    have h1 := h.io_takeFromOthers i amount
    rcases hto : s.takeFromOthers i amount with ⟨s1, collected⟩
    rw [hto] at h1
    simp only [hto]
    exact (h1.io_setPlayer i _).io_addLog _
  | payToAll amount =>
    simp only
    split_ifs
    · refine ImprovedOwned.io_addLog ?_ _
      exact foldl_keeps ImprovedOwned _ (fun st j hst => hst.io_setPlayer j _) _ _
        (h.io_setPlayer i _)
    · exact h.io_bankrupt i
  | payPerProperty amount =>
    simp only
    split_ifs
    · exact (h.io_setPlayer i _).io_addLog _
    · exact h.io_bankrupt i
  | stealFromRichest amount =>
    simp only
    split
    · exact ((h.io_setPlayer _ _).io_setPlayer i _).io_addLog _
    · exact h
  | stealFromAll amount =>
    have h1 := h.io_takeFromOthers i amount
    rcases hto : s.takeFromOthers i amount with ⟨s1, collected⟩
    rw [hto] at h1
    simp only [hto]
    exact (h1.io_setPlayer i _).io_addLog _
  | stealChoice amount => simp only; exact h
  | freeArson => simp only; exact h
  | everyoneLoses amount =>
    simp only
    refine ImprovedOwned.io_addLog ?_ _
    exact foldl_keeps ImprovedOwned _ (fun st j hst => hst.io_loseOne i amount j) _ _ h
  | gamble winAmount loseAmount =>
    simp only
    split_ifs
    · exact (h.io_setPlayer i _).io_addLog _
    · exact (h.io_setPlayer i _).io_addLog _
    · exact (h.io_addLog _).io_bankrupt i

theorem ImprovedOwned.io_processJailTurn {s : GameState} (h : ImprovedOwned s)
    (i : Nat) (d : DiceRoll) : ImprovedOwned (s.processJailTurn i d).2 := by
  simp only [GameState.processJailTurn]
  have h1 := h.io_setPlayer i (s.getPlayer i).incrementJailTurn.2
  split_ifs
  · exact (h.io_setPlayer i _).io_addLog _
  · exact (h1.io_setPlayer i _).io_addLog _
  · exact h1.io_bankrupt i
  · exact h1.io_addLog _

theorem ImprovedOwned.io_payJailBail {s : GameState} (h : ImprovedOwned s)
    (i : Nat) : ImprovedOwned (s.payJailBail i).2 := by
  simp only [GameState.payJailBail]
  split_ifs
  · exact (h.io_setPlayer i _).io_addLog _
  · exact (h.io_setPlayer i _).io_addLog _
  · exact h

/-- A tile changes hands in a trade while every id is the index of a player. -/
theorem io_transferTile (g k t : Nat) (st : GameState)
    (h : ImprovedOwned st ∧ ∀ j, (st.getPlayer j).id < st.players.length) :
    ImprovedOwned (TradeSystem.transferTile g k st t) ∧
      ∀ j, ((TradeSystem.transferTile g k st t).getPlayer j).id
        < (TradeSystem.transferTile g k st t).players.length := by
  have hid : ∀ j, (((st.setPlayer g ((st.getPlayer g).removeProperty t)).setPlayer k
      (((st.setPlayer g ((st.getPlayer g).removeProperty t)).getPlayer k).addProperty
        t)).getPlayer j).id = (st.getPlayer j).id := by
    intro j
    rw [getPlayer_setPlayer_id _ k (Player.addProperty _ _) j (by simp),
      getPlayer_setPlayer_id st g ((st.getPlayer g).removeProperty t) j (by simp)]
  unfold TradeSystem.transferTile
  refine ⟨((h.1.io_setPlayer g _).io_setPlayer k _).io_setOwner _ _ ?_, fun j => ?_⟩
  · rw [hid]
    simpa using h.2 k
  · show (GameState.getPlayer _ j).id < _
    have := h.2 j
    rw [← hid j] at this
    simpa using this

theorem ImprovedOwned.io_transferMoney {s : GameState} (h : ImprovedOwned s)
    (a b : Nat) (v : Int) : ImprovedOwned (TradeSystem.transferMoney s a b v) := by
  simp only [TradeSystem.transferMoney]
  split_ifs with hm
  · exact (h.io_setPlayer a _).io_setPlayer b _
  · exact h

theorem ImprovedOwned.io_executeTrade {s : GameState} (h : ImprovedOwned s)
    (ts : TradeSystem) (hids : ∀ j, (s.getPlayer j).id < s.players.length) :
    ImprovedOwned (ts.executeTrade s).2.2 := by
  unfold TradeSystem.executeTrade
  split
  · exact h
  · exact h
  · split
    · exact h
    · split
      · refine ImprovedOwned.io_addLog ?_ _
        refine ImprovedOwned.io_transferMoney (ImprovedOwned.io_transferMoney ?_ _ _ _) _ _ _
        unfold TradeSystem.transferTiles
        exact (foldl_keeps
          (fun st => ImprovedOwned st ∧ ∀ j, (st.getPlayer j).id < st.players.length) _
          (fun st t hst => io_transferTile _ _ t st hst) _ _
          (foldl_keeps
            (fun st => ImprovedOwned st ∧ ∀ j, (st.getPlayer j).id < st.players.length) _
            (fun st t hst => io_transferTile _ _ t st hst) _ _ ⟨h, hids⟩)).1
      · exact h

end GameState
end Fortunopoly

namespace Fortunopoly
open GameState

namespace GameState

/-- Where the ids are the list positions and the list is not empty, every
id is the index of a player. -/
theorem OwnershipOk.ids_lt {s : GameState} (h : s.OwnershipOk) (hn : 0 < s.players.length)
    (j : Nat) : (s.getPlayer j).id < s.players.length := by
  by_cases hj : j < s.players.length
  · rw [h.ids j hj]; exact hj
  · have : s.getPlayer j = default := by
      simp [getPlayer, List.getD_eq_getElem?_getD, List.getElem?_eq_none (Nat.le_of_not_lt hj)]
    rw [this]
    exact hn

theorem ImprovedOwned.io_run {n : Nat} {s : GameState} (h : ImprovedOwned s) (hown : Own n s)
    (hn : 0 < n) (c : EngineCall) : ImprovedOwned (c.run s) := by
  have hids := hown.1.ids_lt (hown.2 ▸ hn)
  cases c with
  | rollDice d1 d2 => exact h.io_rollDice d1 d2
  | moveCurrentPlayer m => exact h.io_moveCurrentPlayer m
  | processLanding i d rnd => exact h.io_processLanding d rnd i
  | buyProperty i tile => exact h.io_buyProperty i tile
  | buildHouse i tile => exact h.io_buildHouse i tile hown.1
  | sabotageProperty i tile => exact h.io_sabotageProperty i tile
  | mortgageProperty i tile =>
    simp only [EngineCall.run]
    cases hr : s.mortgageProperty i tile with
    | none => exact h
    | some r => exact h.io_mortgageProperty i tile r hr
  | unmortgageProperty i tile => exact h.io_unmortgageProperty i tile
  | payRent i o amount => exact h.io_payRent i o amount (hids o)
  | processTax i tile => exact h.io_processTax i tile
  | applyCardEffect i card won => exact h.io_applyCardEffect i card won
  | sendToJail i => exact h.io_sendToJail i
  | processJailTurn i d => exact h.io_processJailTurn i d
  | payJailBail i => exact h.io_payJailBail i
  | declareBankruptcy i cr => exact h.io_declareBankruptcy i cr (fun k _ => hids k)
  | endTurn =>
    simp only [EngineCall.run]
    cases hr : s.endTurn with
    | none => exact h
    | some r =>
      obtain ⟨hp, ho, hh⟩ := endTurn_players s r hr
      exact h.io_same (by rw [hp]) ho hh
  | executeTrade ts => exact h.io_executeTrade ts hids

end GameState

/-- The ownership records agree and the improved tiles have owners in every
state of a game played by guarded calls. -/
theorem improvedOwned_of_reachableGuarded (s : GameState) (hs : ReachableGuarded s) :
    ∃ n, 0 < n ∧ Own n s ∧ s.ImprovedOwned := by
  induction hs with
  | init pd rules s hs =>
    refine ⟨s.players.length, ?_, Own.own_init pd rules s hs, ?_⟩
    · simp only [GameState.init] at hs
      split_ifs at hs with h0
      simp only [Option.some.injEq] at hs
      subst hs
      exact Nat.pos_of_ne_zero h0
    · intro u hu
      rw [(init_players pd rules s hs).2.2] at hu
      simp at hu
  | step s c _ hw hg ih =>
    obtain ⟨n, hn, hown, hio⟩ := ih
    exact ⟨n, hn, hown.own_run c hw hg, hio.io_run hown hn c⟩

/-- In every state of a game played by guarded calls, a tile with a level
above 0 has a player of the game recorded as its owner: the state
`sabotageProperty` needs to find the owner it names in the log. -/
theorem improved_has_owner (s : GameState) (hs : ReachableGuarded s) (t : Nat)
    (ht : (s.propertyHouses t).getD 0 > 0) :
    ∃ o, o < s.players.length ∧ s.propertyOwners t = some (s.getPlayer o).id := by
  obtain ⟨n, hn, hown, hio⟩ := improvedOwned_of_reachableGuarded s hs
  obtain ⟨o, ho, e⟩ := hio t ht
  exact ⟨o, ho, by rw [hown.1.ids o ho]; exact e⟩

end Fortunopoly

namespace Fortunopoly
open GameState

/-- Claim C24: in every state of a game played by guarded calls, and in any
state where the tile, if its level is above 0, has the id of a player of the
game in `propertyOwners[tile.id]`, `sabotageProperty(actor, tile)` returns a
boolean, and it returns true exactly when
the tile's level (`propertyHouses[tile.id] || 0`) is above 0,
`propertyOwners[tile.id]` is not the actor's id and the actor's money is at
least 150.  On true the level drops by exactly 1, the actor's money by
exactly 150, and nothing else but the log changes; on false the whole state
is unchanged.  The conditions do not mention a monopoly.  Where the three
conditions hold but no player carries the recorded owner id, the source
throws on `owner.name` after the fee and the level have been written. -/
theorem sabotageProperty_spec (s : GameState) (i : Nat) (tile : Tile) (hi : i < s.players.length) :
    ((ReachableGuarded s ∨ ((s.propertyHouses tile.id).getD 0 > 0 →
        ∃ o, o < s.players.length ∧ s.propertyOwners tile.id = some (s.getPlayer o).id)) →
      ((s.sabotageProperty i tile).1 = some true ↔
        ((s.propertyHouses tile.id).getD 0 > 0 ∧
          s.propertyOwners tile.id ≠ some (s.getPlayer i).id ∧ (s.getPlayer i).money ≥ 150)) ∧
      ((s.sabotageProperty i tile).1 = some true ∨ (s.sabotageProperty i tile).1 = some false)) ∧
    ((s.sabotageProperty i tile).1 = some true →
      ((s.sabotageProperty i tile).2.propertyHouses tile.id).getD 0
        = (s.propertyHouses tile.id).getD 0 - 1 ∧
      ((s.sabotageProperty i tile).2.getPlayer i).money = (s.getPlayer i).money - 150 ∧
      ((s.sabotageProperty i tile).2.getPlayer i).properties = (s.getPlayer i).properties ∧
      (∀ j, j ≠ i → (s.sabotageProperty i tile).2.getPlayer j = s.getPlayer j) ∧
      (∀ t, t ≠ tile.id →
        (s.sabotageProperty i tile).2.propertyHouses t = s.propertyHouses t) ∧
      (s.sabotageProperty i tile).2.propertyOwners = s.propertyOwners) ∧
    ((s.sabotageProperty i tile).1 = some false → (s.sabotageProperty i tile).2 = s) ∧
    ((s.sabotageProperty i tile).1 = none ↔
      ((s.propertyHouses tile.id).getD 0 > 0 ∧
        s.propertyOwners tile.id ≠ some (s.getPlayer i).id ∧ (s.getPlayer i).money ≥ 150 ∧
        ¬ ∃ o, o < s.players.length ∧ s.propertyOwners tile.id = some (s.getPlayer o).id)) := by
  have hdom : (ReachableGuarded s ∨ ((s.propertyHouses tile.id).getD 0 > 0 →
      ∃ o, o < s.players.length ∧ s.propertyOwners tile.id = some (s.getPlayer o).id)) →
      (s.propertyHouses tile.id).getD 0 > 0 →
      ∃ o, o < s.players.length ∧ s.propertyOwners tile.id = some (s.getPlayer o).id := by
    rintro (hs | h) hl
    · exact improved_has_owner s hs tile.id hl
    · exact h hl
  rcases sabotageProperty_cases s i tile with ⟨hc, e⟩ | ⟨hc, ⟨hex, e⟩ | ⟨hex, e⟩⟩
  · rw [e]
    refine ⟨fun _ => ⟨⟨fun h => (by cases h), fun h => absurd h hc⟩, Or.inr rfl⟩,
      fun h => (by cases h), fun _ => rfl, ⟨fun h => (by cases h), fun h => ?_⟩⟩
    exact absurd ⟨h.1, h.2.1, h.2.2.1⟩ hc
  · rw [e]
    refine ⟨fun _ => ⟨⟨fun _ => hc, fun _ => rfl⟩, Or.inl rfl⟩, fun _ => ?_,
      fun h => (by cases h), ⟨fun h => (by cases h), fun h => absurd hex h.2.2.2⟩⟩
    have hji : ∀ j, j ≠ i → ¬ i = j := fun j hj e => hj e.symm
    refine ⟨?_, ?_, ?_, ?_, ?_, ?_⟩
    · simp [setKey]
    · simp [getPlayer_setPlayer, hi]
    · simp [getPlayer_setPlayer, hi]
    · intro j hj; simp [getPlayer_setPlayer, hji j hj]
    · intro t ht; simp [setKey, ht]
    · simp
  · rw [e]
    refine ⟨fun h => absurd (hdom h hc.1) hex, fun h => (by cases h), fun h => (by cases h),
      ⟨fun _ => ⟨hc.1, hc.2.1, hc.2.2, hex⟩, fun _ => rfl⟩⟩


/-- Buying the two brown tiles and building a house on tile 3 are guarded
calls. -/
theorem reachableGuarded_siblingImproved : ReachableGuarded siblingImproved :=
  ReachableGuarded.step _ _
    (ReachableGuarded.step _ _
      (ReachableGuarded.step _ _ (ReachableGuarded.init [{}, {}] {} startOfGame rfl)
        ⟨by decide, by decide⟩ (by unfold EngineCall.Guarded; decide))
      ⟨by decide, by decide⟩ (by unfold EngineCall.Guarded; decide))
    ⟨by decide, by decide⟩ trivial

/-- Witness for C24: player 1 sabotages tile 3, which player 0 has built one
house on. -/
theorem sabotageProperty_spec_witness :
    ReachableGuarded siblingImproved ∧ 1 < siblingImproved.players.length ∧ siblingImproved.propertyHouses 3 = some 1 ∧
    siblingImproved.propertyOwners 3 = some 0 ∧
    (siblingImproved.sabotageProperty 1 (tileAt 3)).1 = some true ∧
    ((siblingImproved.sabotageProperty 1 (tileAt 3)).2.propertyHouses 3).getD 0 = 0 ∧
    ((siblingImproved.sabotageProperty 1 (tileAt 3)).2.getPlayer 1).money = 1350 ∧
    (siblingImproved.sabotageProperty 0 (tileAt 3)).1 = some false := by
  have h := sabotageProperty_spec siblingImproved 1 (tileAt 3) (by decide)
  have ht : (siblingImproved.sabotageProperty 1 (tileAt 3)).1 = some true :=
    (h.1 (Or.inl reachableGuarded_siblingImproved)).1.2 ⟨by decide, by decide, by decide⟩
  have k := h.2.1 ht
  exact ⟨reachableGuarded_siblingImproved, by decide, by decide, by decide, ht, k.1.trans (by decide), k.2.1.trans (by decide),
    by decide⟩

end Fortunopoly

namespace Fortunopoly
open GameState

/-- The answers of `unmortgageProperty`: the bare `false` for a tile that is
not owned, and for an owned tile success or a failure with a reason that
leaves the state as it was. -/
theorem unmortgageProperty_answers (s : GameState) (i : Nat) (tile : Tile) :
    (tile.id ∉ (s.getPlayer i).properties ∧ s.unmortgageProperty i tile = (.bareFalse, s)) ∨
    (tile.id ∈ (s.getPlayer i).properties ∧
      ((s.unmortgageProperty i tile).1 = .success ∨
        ∃ reason, s.unmortgageProperty i tile = (.failure reason, s))) := by
  by_cases hown : tile.id ∈ (s.getPlayer i).properties
  swap
  · left
    exact ⟨hown, by simp [unmortgageProperty, Player.ownsProperty, hown]⟩
  right
  refine ⟨hown, ?_⟩
  cases hp : tile.price with
  | none =>
    right
    by_cases hm : tile.id ∈ (s.getPlayer i).mortgagedProperties
    · exact ⟨.notEnoughMoney, by
        simp [unmortgageProperty, Player.ownsProperty, hown, Player.isMortgaged, hm, hp]⟩
    · exact ⟨.notMortgaged, by
        simp [unmortgageProperty, Player.ownsProperty, hown, Player.isMortgaged, hm]⟩
  | some price =>
    rcases unmortgageProperty_cases s i tile price hp with
      ⟨h, _⟩ | ⟨_, _, e⟩ | ⟨_, _, _, e⟩ | ⟨_, _, _, e⟩
    · exact absurd hown h
    · exact Or.inr ⟨_, e⟩
    · exact Or.inr ⟨_, e⟩
    · left; rw [e]

/-- The answers of `mortgageProperty` where it returns: the bare `false` for
a tile that is not owned, and for an owned tile success or a failure with a
reason that leaves the state as it was. -/
theorem mortgageProperty_answers (s : GameState) (i : Nat) (tile : Tile)
    (r : MortgageResult × GameState) (hr : s.mortgageProperty i tile = some r) :
    (tile.id ∉ (s.getPlayer i).properties ∧ r = (.bareFalse, s)) ∨
    (tile.id ∈ (s.getPlayer i).properties ∧
      (r.1 = .success ∨ ∃ reason, r = (.failure reason, s))) := by
  by_cases hown : tile.id ∈ (s.getPlayer i).properties
  · right
    refine ⟨hown, ?_⟩
    simp only [GameState.mortgageProperty, Player.ownsProperty, hown, decide_True,
      Bool.not_true, Bool.false_eq_true, if_false] at hr
    split_ifs at hr
    · cases hr; exact Or.inr ⟨_, rfl⟩
    · cases hr; exact Or.inr ⟨_, rfl⟩
    · cases hp : tile.price with
      | none => simp [hp] at hr
      | some price =>
        simp only [hp, Option.some.injEq] at hr
        subst hr
        exact Or.inl rfl
    · cases hr; exact Or.inr ⟨_, rfl⟩
  · left
    simp only [GameState.mortgageProperty, Player.ownsProperty, hown, decide_False,
      Bool.not_false, if_true, Option.some.injEq] at hr
    exact ⟨hown, hr.symm⟩

/-- What the four functions answer when they reject a request: the state
(and the active proposal) is the one before the call; `buildHouse` answers
`false`; `mortgageProperty` and `unmortgageProperty` answer a failure with a
reason for a tile the player owns and the bare `false`, which has no reason,
for a tile the player does not own; `executeTrade` hands on the reason of
`validateTrade`. -/
theorem rejection_answers (s : GameState) (i : Nat) (tile : Tile) (ts : TradeSystem) :
    ((s.buildHouse i tile).1 = false → (s.buildHouse i tile).2 = s) ∧
    (∀ r, s.mortgageProperty i tile = some r → r.1 ≠ .success →
      r.2 = s ∧
      (tile.id ∉ (s.getPlayer i).properties → r.1 = .bareFalse ∧ r.1.reason = none) ∧
      (tile.id ∈ (s.getPlayer i).properties →
        ∃ reason, r.1 = .failure reason ∧ r.1.reason = some reason)) ∧
    ((s.unmortgageProperty i tile).1 ≠ .success →
      (s.unmortgageProperty i tile).2 = s ∧
      (tile.id ∉ (s.getPlayer i).properties →
        (s.unmortgageProperty i tile).1 = .bareFalse ∧
        (s.unmortgageProperty i tile).1.reason = none) ∧
      (tile.id ∈ (s.getPlayer i).properties →
        ∃ reason, (s.unmortgageProperty i tile).1 = .failure reason ∧
          (s.unmortgageProperty i tile).1.reason = some reason)) ∧
    ((ts.executeTrade s).1 ≠ .success → (ts.executeTrade s).2 = (ts, s)) ∧
    (∀ reason, ts.validateTrade s = .invalid reason →
      ts.executeTrade s = (.failure reason, ts, s) ∧
      (ts.executeTrade s).1.reason = some reason) := by
  refine ⟨?_, ?_, ?_, ?_, ?_⟩
  · intro h
    rcases buildHouse_cases s i tile with ⟨_, e⟩ | ⟨_, _, _, _, _, _, ht, _⟩
    · exact e
    · rw [ht] at h; cases h
  · intro r hr hne
    rcases mortgageProperty_answers s i tile r hr with ⟨hn, e⟩ | ⟨hown, hs | ⟨reason, e⟩⟩
    · subst e
      exact ⟨rfl, fun _ => ⟨rfl, rfl⟩, fun h => absurd h hn⟩
    · exact absurd hs hne
    · subst e
      exact ⟨rfl, fun h => absurd hown h, fun _ => ⟨_, rfl, rfl⟩⟩
  · intro hne
    rcases unmortgageProperty_answers s i tile with ⟨hn, e⟩ | ⟨hown, hs | ⟨reason, e⟩⟩
    · rw [e]
      exact ⟨rfl, fun _ => ⟨rfl, rfl⟩, fun h => absurd h hn⟩
    · exact absurd hs hne
    · rw [e]
      exact ⟨rfl, fun h => absurd hown h, fun _ => ⟨_, rfl, rfl⟩⟩
  · intro hne
    unfold TradeSystem.executeTrade at hne ⊢
    split at hne
    · rfl
    · rfl
    · split at hne
      · rfl
      · split at hne
        · exact absurd rfl hne
        · rfl
  · intro reason hv
    have e : ts.executeTrade s = (.failure reason, ts, s) := by
      simp only [TradeSystem.executeTrade, hv]
    rw [e]
    exact ⟨rfl, rfl⟩

/-- Claim C31 against the code: a rejection is to carry a reason and leave
the state unchanged.  The state is unchanged by every rejection, and
`mortgageProperty` and `unmortgageProperty` build a failure with a reason for
every rejection but one: for a tile the player does not own they return the
bare `false`, which has no reason to read.  At the start of the game player 0
owns no tile, and both calls on tile 1 answer the bare `false`; the sibling
rejections of the same two functions (a house in the group, a tile already
mortgaged, a tile not mortgaged) and the rejection by `executeTrade` carry
their reasons.  `buildHouse` reports by its boolean alone. -/
theorem rejection_bareFalse :
    ((startOfGame.getPlayer 0).properties = [] ∧
      (startOfGame.mortgageProperty 0 (tileAt 1)).map Prod.fst = some .bareFalse ∧
      (startOfGame.unmortgageProperty 0 (tileAt 1)).1 = .bareFalse ∧
      (GameState.MortgageResult.bareFalse).reason = none) ∧
    ((siblingImproved.mortgageProperty 0 (tileAt 1)).map (fun r => r.1.reason)
        = some (some .sellBuildingsInGroupFirst) ∧
      (mortgagedOne.mortgageProperty 0 (tileAt 1)).map (fun r => r.1.reason)
        = some (some .alreadyMortgaged) ∧
      (oneTileEach.unmortgageProperty 0 (tileAt 1)).1.reason = some .notMortgaged ∧
      (({} : TradeSystem).executeTrade oneTileEach).1.reason = some .noActiveTrade ∧
      (startOfGame.buildHouse 0 (tileAt 1)).1 = false) ∧
    (∀ (s : GameState) (i : Nat) (tile : Tile) (ts : TradeSystem),
      ((s.buildHouse i tile).1 = false → (s.buildHouse i tile).2 = s) ∧
      (∀ r, s.mortgageProperty i tile = some r → r.1 ≠ .success →
        r.2 = s ∧
        (tile.id ∉ (s.getPlayer i).properties → r.1 = .bareFalse ∧ r.1.reason = none) ∧
        (tile.id ∈ (s.getPlayer i).properties →
          ∃ reason, r.1 = .failure reason ∧ r.1.reason = some reason)) ∧
      ((s.unmortgageProperty i tile).1 ≠ .success →
        (s.unmortgageProperty i tile).2 = s ∧
        (tile.id ∉ (s.getPlayer i).properties →
          (s.unmortgageProperty i tile).1 = .bareFalse ∧
          (s.unmortgageProperty i tile).1.reason = none) ∧
        (tile.id ∈ (s.getPlayer i).properties →
          ∃ reason, (s.unmortgageProperty i tile).1 = .failure reason ∧
            (s.unmortgageProperty i tile).1.reason = some reason)) ∧
      ((ts.executeTrade s).1 ≠ .success → (ts.executeTrade s).2 = (ts, s)) ∧
      (∀ reason, ts.validateTrade s = .invalid reason →
        ts.executeTrade s = (.failure reason, ts, s) ∧
        (ts.executeTrade s).1.reason = some reason)) :=
  ⟨⟨by decide, by decide, by decide, rfl⟩,
    ⟨by decide, by decide, by decide, by decide, by decide⟩, rejection_answers⟩

end Fortunopoly

namespace Fortunopoly
open GameState

theorem mem_group_keys (g : Group) : g ∈ Group.keys := by
  cases g <;> decide

namespace BotAI

/-- The `some` over the keys of `PROPERTY_GROUPS` in `shouldPayJailBail`. -/
theorem hasAnyMonopoly_iff (player : Player) :
    Group.keys.any (fun group => player.hasMonopoly (some group)) = true ↔
      ∃ g : Group, player.hasMonopoly (some g) = true := by
  rw [List.any_eq_true]
  constructor
  · rintro ⟨g, _, h⟩; exact ⟨g, h⟩
  · rintro ⟨g, h⟩; exact ⟨g, mem_group_keys g, h⟩

/-- The late rules of `shouldPayJailBail`, for a player without the card who
owns at least three tiles. -/
theorem shouldPayJailBail_late (player : Player) (settings : Option BotSettings)
    (hc : player.hasJailFreeCard = false) (h3 : 3 ≤ player.properties.length) :
    shouldPayJailBail player settings = true ↔
      ((player.money > 800 ∧ player.properties.length > 5) ∨
        ((∃ g : Group, player.hasMonopoly (some g) = true) ∧ player.money > 300) ∨
        (settings.isSome = true ∧ player.botDifficulty = .hard ∧ player.money > 400)) ∨
      player.money > 600 := by
  have hlt : ¬ player.properties.length < 3 := by omega
  unfold shouldPayJailBail
  simp only [hc, Bool.false_eq_true, if_false, hlt]
  by_cases h1 : player.money > 800 ∧ player.properties.length > 5
  · simp [h1.1, h1.2]
  · have h1b : (decide (player.money > 800) && decide (player.properties.length > 5)) = false := by
      simpa [not_and] using h1
    simp only [h1b, Bool.false_eq_true, if_false]
    by_cases h2 : (∃ g : Group, player.hasMonopoly (some g) = true) ∧ player.money > 300
    · have h2b : (Group.keys.any (fun group => player.hasMonopoly (some group))
          && decide (player.money > 300)) = true := by
        rw [Bool.and_eq_true]
        exact ⟨(hasAnyMonopoly_iff player).2 h2.1, by simpa using h2.2⟩
      simp only [h2b, if_true, true_iff]
      exact Or.inl (Or.inr (Or.inl h2))
    · have h2b : (Group.keys.any (fun group => player.hasMonopoly (some group))
          && decide (player.money > 300)) = false := by
        rw [Bool.eq_false_iff]
        intro h
        rw [Bool.and_eq_true] at h
        exact h2 ⟨(hasAnyMonopoly_iff player).1 h.1, by simpa using h.2⟩
      simp only [h2b, Bool.false_eq_true, if_false]
      by_cases h3 : settings.isSome = true ∧ player.botDifficulty = .hard ∧ player.money > 400
      · have h3b : (settings.isSome && decide (player.botDifficulty = .hard)
            && decide (player.money > 400)) = true := by
          simp [h3.1, h3.2.1, h3.2.2]
        simp only [h3b, if_true, true_iff]
        exact Or.inl (Or.inr (Or.inr h3))
      · have h3b : (settings.isSome && decide (player.botDifficulty = .hard)
            && decide (player.money > 400)) = false := by
          rw [Bool.eq_false_iff]
          intro h
          simp only [Bool.and_eq_true, decide_eq_true_eq] at h
          exact h3 ⟨h.1.1, h.1.2, h.2⟩
        simp only [h3b, Bool.false_eq_true, if_false, decide_eq_true_eq]
        constructor
        · exact fun h => Or.inr h
        · rintro ((h | h | h) | h)
          · exact absurd h h1
          · exact absurd h h2
          · exact absurd h h3
          · exact h

end BotAI

/-- Claim C33: `shouldPayJailBail(player, settings)` has no random input, and
its value is: true for a player who holds the jail-free card; otherwise false
for a player who owns fewer than 3 tiles; otherwise true when the money is
above 800 with more than 5 tiles owned, or the player has a monopoly on some
group with money above 300, or settings are given, the difficulty is hard and
the money is above 400; and otherwise it is `money > 600`. -/
theorem shouldPayJailBail_spec (player : Player) (settings : Option BotSettings) :
    (player.hasJailFreeCard = true → BotAI.shouldPayJailBail player settings = true) ∧
    (player.hasJailFreeCard = false → player.properties.length < 3 →
      BotAI.shouldPayJailBail player settings = false) ∧
    (player.hasJailFreeCard = false → 3 ≤ player.properties.length →
      ((player.money > 800 ∧ player.properties.length > 5) ∨
        ((∃ g : Group, player.hasMonopoly (some g) = true) ∧ player.money > 300) ∨
        (settings.isSome = true ∧ player.botDifficulty = .hard ∧ player.money > 400)) →
      BotAI.shouldPayJailBail player settings = true) ∧
    (player.hasJailFreeCard = false → 3 ≤ player.properties.length →
      ¬ ((player.money > 800 ∧ player.properties.length > 5) ∨
        ((∃ g : Group, player.hasMonopoly (some g) = true) ∧ player.money > 300) ∨
        (settings.isSome = true ∧ player.botDifficulty = .hard ∧ player.money > 400)) →
      (BotAI.shouldPayJailBail player settings = true ↔ player.money > 600)) := by
  refine ⟨?_, ?_, ?_, ?_⟩
  · intro hc
    simp [BotAI.shouldPayJailBail, hc]
  · intro hc hlt
    simp [BotAI.shouldPayJailBail, hc, hlt]
  · intro hc h3 h
    exact (BotAI.shouldPayJailBail_late player settings hc h3).2 (Or.inl h)
  · intro hc h3 hn
    rw [BotAI.shouldPayJailBail_late player settings hc h3]
    constructor
    · rintro (h | h)
      · exact absurd h hn
      · exact h
    · exact fun h => Or.inr h

/-- Claim C40: `shouldPayJailBail` is monotone in the money: for two players
equal in every field but the money and the same settings, if it is true for
the player with less money it is true for the player with more. -/
theorem shouldPayJailBail_mono (player : Player) (settings : Option BotSettings) (more : Int)
    (hm : player.money ≤ more) (h : BotAI.shouldPayJailBail player settings = true) :
    BotAI.shouldPayJailBail (player.setMoney more) settings = true := by
  by_cases hc : player.hasJailFreeCard = true
  · simp [BotAI.shouldPayJailBail, Player.setMoney, hc]
  · have hc0 : player.hasJailFreeCard = false := by simpa using hc
    by_cases hlt : player.properties.length < 3
    · simp [BotAI.shouldPayJailBail, hc0, hlt] at h
    · have h3 : 3 ≤ player.properties.length := by omega
      have hmon : ∀ g : Group, (player.setMoney more).hasMonopoly (some g)
          = player.hasMonopoly (some g) := fun _ => rfl
      rw [BotAI.shouldPayJailBail_late player settings hc0 h3] at h
      rw [BotAI.shouldPayJailBail_late (player.setMoney more) settings hc0 h3]
      simp only [hmon]
      show ((more > 800 ∧ player.properties.length > 5) ∨
        ((∃ g : Group, player.hasMonopoly (some g) = true) ∧ more > 300) ∨
        (settings.isSome = true ∧ player.botDifficulty = .hard ∧ more > 400)) ∨ more > 600
      rcases h with (⟨h1, h2⟩ | ⟨h1, h2⟩ | ⟨h1, h2, h3⟩) | h
      · exact Or.inl (Or.inl ⟨by omega, h2⟩)
      · exact Or.inl (Or.inr (Or.inl ⟨h1, by omega⟩))
      · exact Or.inl (Or.inr (Or.inr ⟨h1, h2, by omega⟩))
      · exact Or.inr (by omega)

end Fortunopoly

namespace Fortunopoly
open GameState

/-- Counting the members of a duplicate-free list that lie in a second
duplicate-free list, when all of the second but one are in the first. -/
theorem filter_mem_length_all_but_one (props G : List Nat) (hp : props.Nodup) (hG : G.Nodup)
    (x0 : Nat) (h0 : x0 ∈ G) (hn : x0 ∉ props) (hall : ∀ x ∈ G, x ≠ x0 → x ∈ props) :
    (props.filter (fun x => decide (x ∈ G))).length + 1 = G.length := by
  have h1 : (props.filter (fun x => decide (x ∈ G))).length
      = (props.toFinset ∩ G.toFinset).card := by
    rw [← List.toFinset_card_of_nodup (hp.filter _)]
    congr 1
    ext x
    simp [List.mem_filter]
  have h2 : G.length = G.toFinset.card := (List.toFinset_card_of_nodup hG).symm
  have h3 : props.toFinset ∩ G.toFinset = G.toFinset.erase x0 := by
    ext x
    simp only [Finset.mem_inter, List.mem_toFinset, Finset.mem_erase]
    constructor
    · rintro ⟨hx, hxG⟩
      exact ⟨fun e => hn (e ▸ hx), hxG⟩
    · rintro ⟨hne, hxG⟩
      exact ⟨hall x hxG hne, hxG⟩
  rw [h1, h2, h3, Finset.card_erase_of_mem (List.mem_toFinset.2 h0)]
  have : 0 < G.toFinset.card := Finset.card_pos.2 ⟨x0, List.mem_toFinset.2 h0⟩
  omega

/-- The number of tiles of group `g` in a properties list, counted through
the ids of the group. -/
theorem countPropertiesInGroup_eq (p : Player) (g : Group) :
    p.countPropertiesInGroup (some g)
      = (p.properties.filter (fun x =>
          decide (x ∈ (getPropertiesInGroup (some g)).map (fun t => t.id)))).length := by
  unfold Player.countPropertiesInGroup
  congr 1
  apply List.filter_congr
  intro x _
  exact board_group_ids g x

namespace BotAI

/-- A player whose duplicate-free list holds all tiles of the group but one
is one short of the group. -/
theorem oneShort_of_all_but_one (player : Player) (g : Group) (hnd : player.properties.Nodup)
    (t0 : Tile) (h0 : t0 ∈ getPropertiesInGroup (some g)) (hn : t0.id ∉ player.properties)
    (hall : ∀ t ∈ getPropertiesInGroup (some g), t ≠ t0 → t.id ∈ player.properties) :
    oneShort player (some g) = true := by
  have h := filter_mem_length_all_but_one player.properties
    ((getPropertiesInGroup (some g)).map (fun t => t.id)) hnd (board_group_nodup g).1 t0.id
    (List.mem_map.2 ⟨t0, h0, rfl⟩) hn (by
      intro x hx hne
      obtain ⟨t, ht, rfl⟩ := List.mem_map.1 hx
      exact hall t ht (fun e => hne (by rw [e])))
  rw [← countPropertiesInGroup_eq, List.length_map] at h
  simp only [oneShort, decide_eq_true_eq]
  omega

end BotAI

/-- Claim C32: for every difficulty, every amount of money and every outcome
of the draw, `shouldBuyProperty` is true when the tile has a colour group and
the player is one tile short of it (`countPropertiesInGroup` is the size of
the group less one, as it is for a duplicate-free list that holds every tile
of the group but one).  Where the tile has a price, no earlier rule applies
(the hard-tier purchase of a railroad or utility, the completion of a
monopoly, the hard-tier block of an opponent) and the money is below the
price plus the `minMoneyBuffer` of the tier, it is false whatever the draw. -/
theorem shouldBuyProperty_spec (player : Player) (tile : Tile) (gameState : GameState)
    (rnd : ℚ) :
    (∀ g, tile.group = some g →
      (player.countPropertiesInGroup (some g) : Int)
        = ((getPropertiesInGroup (some g)).length : Int) - 1 →
      BotAI.shouldBuyProperty player tile gameState rnd = true) ∧
    (∀ g, tile.group = some g → player.properties.Nodup →
      (∃ t0 ∈ getPropertiesInGroup (some g), t0.id ∉ player.properties ∧
        ∀ t ∈ getPropertiesInGroup (some g), t ≠ t0 → t.id ∈ player.properties) →
      BotAI.shouldBuyProperty player tile gameState rnd = true) ∧
    (∀ price, tile.price = some price →
      ¬ (player.botDifficulty = .hard ∧ (tile.type = .railroad ∨ tile.type = .utility) ∧
          player.money > price + 50) →
      ¬ (∃ g, tile.group = some g ∧
          (player.countPropertiesInGroup (some g) : Int)
            = ((getPropertiesInGroup (some g)).length : Int) - 1) →
      ¬ (player.botDifficulty = .hard ∧ (∃ g, tile.group = some g) ∧
          (∃ j ∈ gameState.getActivePlayers, (gameState.getPlayer j).id ≠ player.id ∧
            ((gameState.getPlayer j).countPropertiesInGroup tile.group : Int)
              = ((getPropertiesInGroup tile.group).length : Int) - 1) ∧
          player.money > price) →
      player.money < price + (BotAI.DIFFICULTY (BotAI.getDifficulty player)).minMoneyBuffer →
      BotAI.shouldBuyProperty player tile gameState rnd = false) := by
  have hcompl : ∀ g, tile.group = some g → BotAI.oneShort player (some g) = true →
      BotAI.shouldBuyProperty player tile gameState rnd = true := by
    intro g hg h1
    unfold BotAI.shouldBuyProperty
    simp only [hg, h1, Option.isSome_some, Bool.and_self, if_true]
    split_ifs <;> rfl
  refine ⟨?_, ?_, ?_⟩
  · intro g hg hcount
    exact hcompl g hg (by simpa [BotAI.oneShort] using hcount)
  · rintro g hg hnd ⟨t0, h0, hn, hall⟩
    exact hcompl g hg (BotAI.oneShort_of_all_but_one player g hnd t0 h0 hn hall)
  · intro price hp h1 h2 h3 hlt
    have e1 : (decide (BotAI.getDifficulty player = .hard)
        && (decide (tile.type = .railroad) || decide (tile.type = .utility))
        && decide (player.money > price + 50)) = false := by
      rw [Bool.eq_false_iff]
      intro h
      simp only [Bool.and_eq_true, Bool.or_eq_true, decide_eq_true_eq] at h
      exact h1 ⟨h.1.1, h.1.2, h.2⟩
    have e2 : (tile.group.isSome && BotAI.oneShort player tile.group) = false := by
      rw [Bool.eq_false_iff]
      intro h
      simp only [Bool.and_eq_true, Option.isSome_iff_exists] at h
      obtain ⟨⟨g, hg⟩, h⟩ := h
      rw [hg] at h
      exact h2 ⟨g, hg, by simpa [BotAI.oneShort] using h⟩
    have e3 : (decide (BotAI.getDifficulty player = .hard) && tile.group.isSome
        && gameState.getActivePlayers.any (fun j =>
          if (gameState.getPlayer j).id = player.id then false
          else BotAI.oneShort (gameState.getPlayer j) tile.group)
        && decide (player.money > price + 0)) = false := by
      rw [Bool.eq_false_iff]
      intro h
      simp only [Bool.and_eq_true, decide_eq_true_eq, List.any_eq_true,
        Option.isSome_iff_exists, add_zero] at h
      obtain ⟨⟨⟨hd, hg⟩, j, hj, hjp⟩, hm⟩ := h
      refine h3 ⟨hd, hg, ⟨j, hj, ?_⟩, hm⟩
      by_cases hid : (gameState.getPlayer j).id = player.id
      · simp [hid] at hjp
      · simp only [hid, if_false] at hjp
        exact ⟨hid, by simpa [BotAI.oneShort] using hjp⟩
    have e4 : decide (player.money
        < price + (BotAI.DIFFICULTY (BotAI.getDifficulty player)).minMoneyBuffer) = true := by
      simpa using hlt
    unfold BotAI.shouldBuyProperty
    simp only [hp, e1, e2, e3, e4, Bool.false_eq_true, if_false, if_true]

end Fortunopoly

namespace Fortunopoly
open GameState

/-- Claim C34 against the code: `evaluateTrade` reads `requestMoney`,
`offerMoney`, `requestProperties` and `offerProperties`, none of which a
proposal of `TradeSystem` has, so both values are 0, `0 >= 0 * 1.2` holds,
and every such proposal is accepted for every player, tier and draw.  By the
rule in words (receive what is offered, give what is requested) a hard bot,
whose `tradeAcceptChance` is 0.1, rejects at the draw 1/2 both the request of
100 for nothing and the exchange of 100 for 100, in which neither side is
worth 1.2 times the other. -/
theorem evaluateTrade_built :
    (∀ (player : Player) (t : TradeProposal) (gameState : GameState) (rnd : ℚ),
      BotAI.evaluateTrade player (BotAI.ofTrade t) gameState rnd = true) ∧
    BotAI.evaluateTradeRule hardBot askForMoney (1 / 2) = false ∧
    BotAI.evaluateTrade hardBot (BotAI.ofTrade askForMoney) startOfGame (1 / 2) = true ∧
    BotAI.evaluateTradeRule hardBot moneyForMoney (1 / 2) = false ∧
    BotAI.evaluateTrade hardBot (BotAI.ofTrade moneyForMoney) startOfGame (1 / 2) = true := by
  have h : ∀ (player : Player) (t : TradeProposal) (gameState : GameState) (rnd : ℚ),
      BotAI.evaluateTrade player (BotAI.ofTrade t) gameState rnd = true := by
    intro player t gameState rnd
    simp [BotAI.evaluateTrade, BotAI.ofTrade]
  refine ⟨h, ?_, h _ _ _ _, ?_, h _ _ _ _⟩
  · simp only [BotAI.evaluateTradeRule, BotAI.faceValue, askForMoney, hardBot,
      BotAI.getDifficulty, BotAI.DIFFICULTY, List.map_nil, List.sum_nil, List.any_nil]
    norm_num
  · simp only [BotAI.evaluateTradeRule, BotAI.faceValue, moneyForMoney, hardBot,
      BotAI.getDifficulty, BotAI.DIFFICULTY, List.map_nil, List.sum_nil, List.any_nil]
    norm_num

end Fortunopoly

namespace Fortunopoly
open GameState

/-- The sum of a list after one entry is replaced. -/
theorem sum_map_set (f : Player → Int) : ∀ (l : List Player) (i : Nat) (p : Player),
    i < l.length → ((l.set i p).map f).sum = (l.map f).sum - f (l.getD i default) + f p := by
  intro l
  induction l with
  | nil => intro i p h; simp at h
  | cons q qs ih =>
    intro i p h
    cases i with
    | zero =>
      simp only [List.set_cons_zero, List.map_cons, List.sum_cons, List.getD_cons_zero]
      omega
    | succ k =>
      have hk : k < qs.length := by simpa using h
      simp only [List.set_cons_succ, List.map_cons, List.sum_cons, ih k p hk,
        List.getD_cons_succ]
      omega

namespace GameState

@[simp] theorem houseRules_setPlayer (s : GameState) (i : Nat) (p : Player) :
    (s.setPlayer i p).houseRules = s.houseRules := rfl
@[simp] theorem houseRules_addLog (s : GameState) (t : LogType) :
    (s.addLog t).houseRules = s.houseRules := rfl
@[simp] theorem houseRules_endGame (s : GameState) : s.endGame.houseRules = s.houseRules := rfl
@[simp] theorem freeParkingPot_setPlayer (s : GameState) (i : Nat) (p : Player) :
    (s.setPlayer i p).freeParkingPot = s.freeParkingPot := rfl
@[simp] theorem freeParkingPot_addLog (s : GameState) (t : LogType) :
    (s.addLog t).freeParkingPot = s.freeParkingPot := rfl
@[simp] theorem freeParkingPot_endGame (s : GameState) :
    s.endGame.freeParkingPot = s.freeParkingPot := rfl
@[simp] theorem freeParkingPot_setFreeParkingPot (s : GameState) (v : Option Int) :
    (s.setFreeParkingPot v).freeParkingPot = v := rfl

theorem totalMoney_setPlayer (s : GameState) (i : Nat) (p : Player) (hi : i < s.players.length) :
    (s.setPlayer i p).totalMoney = s.totalMoney - (s.getPlayer i).money + p.money :=
  sum_map_set (fun q => q.money) s.players i p hi

theorem totalMoney_congr (s s1 : GameState) (e : s1.players = s.players) :
    s1.totalMoney = s.totalMoney := by
  unfold totalMoney; rw [e]

/-- Two states with the same players, index by index, have the same list. -/
theorem players_ext (s1 s2 : GameState) (hl : s1.players.length = s2.players.length)
    (h : ∀ j, s1.getPlayer j = s2.getPlayer j) : s1.players = s2.players := by
  apply List.ext_getElem hl
  intro j h1 h2
  have := h j
  simp only [GameState.getPlayer, List.getD_eq_getElem?_getD, List.getElem?_eq_getElem h1,
    List.getElem?_eq_getElem h2, Option.getD_some] at this
  exact this

/-- A bankruptcy writes neither the house rules nor the jackpot. -/
theorem declareBankruptcy_pot (s : GameState) (i : Nat) (c : Option Nat) :
    (s.declareBankruptcy i c).houseRules = s.houseRules ∧
    (s.declareBankruptcy i c).freeParkingPot = s.freeParkingPot := by
  have hfold : ∀ (α : Type) (f : GameState → α → GameState) (l : List α) (st : GameState),
      (∀ st x, (f st x).houseRules = st.houseRules ∧ (f st x).freeParkingPot = st.freeParkingPot) →
      (l.foldl f st).houseRules = st.houseRules ∧
        (l.foldl f st).freeParkingPot = st.freeParkingPot := by
    intro α f l
    induction l with
    | nil => intro st _; exact ⟨rfl, rfl⟩
    | cons x rest ih =>
      intro st hf
      obtain ⟨a, b⟩ := ih (f st x) hf
      exact ⟨a.trans (hf st x).1, b.trans (hf st x).2⟩
  have hcore : (bankruptcyCore s i c).houseRules = s.houseRules ∧
      (bankruptcyCore s i c).freeParkingPot = s.freeParkingPot := by
    unfold bankruptcyCore
    cases c with
    | none =>
      obtain ⟨a, b⟩ := hfold Nat bankTakes
        (((s.setPlayer i (s.getPlayer i).goBankrupt).addLog .jail).getPlayer i).properties
        ((s.setPlayer i (s.getPlayer i).goBankrupt).addLog .jail) (fun _ _ => ⟨rfl, rfl⟩)
      exact ⟨a, b⟩
    | some c =>
      obtain ⟨a, b⟩ := hfold Nat (creditorTakes c)
        (((s.setPlayer i (s.getPlayer i).goBankrupt).addLog .jail).getPlayer i).properties
        ((s.setPlayer i (s.getPlayer i).goBankrupt).addLog .jail) (fun _ _ => ⟨rfl, rfl⟩)
      exact ⟨a, b⟩
  rw [declareBankruptcy_eq]
  split
  · exact hcore
  · exact hcore

end GameState


namespace GameState

/-- The two steps of `processTax`: the payment, then the jackpot. -/
theorem processTax_cases (s : GameState) (i : Nat) (tile : Tile) (amount : Int)
    (ha : tile.amount = some amount) :
    ∃ s1 : GameState,
      (((s.getPlayer i).money ≥ amount ∧
          s1 = (s.setPlayer i ((s.getPlayer i).setMoney ((s.getPlayer i).money - amount))).addLog
            .rent) ∨
        ((s.getPlayer i).money < amount ∧
          s1 = (((s.setPlayer i ((s.getPlayer i).setMoney 0)).addLog .rent).addLog
            .rent).declareBankruptcy i none)) ∧
      s1.houseRules = s.houseRules ∧ s1.freeParkingPot = s.freeParkingPot ∧
      (s.processTax i tile).2 =
        if s.houseRules.parkingJackpot = true then
          (s1.setFreeParkingPot (s.freeParkingPot.map (fun pot => pot + amount))).addLog
        else s1 := by
  by_cases hm : (s.getPlayer i).money ≥ amount
  · refine ⟨_, Or.inl ⟨hm, rfl⟩, rfl, rfl, ?_⟩
    simp only [GameState.processTax, ha, Player.subtractMoney, hm, if_true, houseRules_addLog,
      houseRules_setPlayer, freeParkingPot_addLog, freeParkingPot_setPlayer]
    cases s.freeParkingPot <;> rfl
  · obtain ⟨hr0, hp0⟩ := declareBankruptcy_pot
      (((s.setPlayer i ((s.getPlayer i).setMoney 0)).addLog .rent).addLog .rent) i none
    refine ⟨_, Or.inr ⟨by omega, rfl⟩, hr0, hp0, ?_⟩
    simp only [GameState.processTax, ha, Player.subtractMoney, hm, if_false,
      Bool.false_eq_true]
    rw [hr0, hp0]
    simp only [houseRules_addLog, houseRules_setPlayer, freeParkingPot_addLog,
      freeParkingPot_setPlayer]
    cases s.freeParkingPot <;> rfl

end GameState

/-- Claim C36: for a tax tile (an amount is defined) and a jackpot that is a
number, `processTax` with the `parkingJackpot` rule adds exactly the tile's
amount to `freeParkingPot`, also when the player had less than the amount,
paid only the money that was left and was made bankrupt; without the rule
the pot is unchanged.  In the jackpot game player 0 pays 30 on the tax tile of
200, the pot grows by 200, and player 1 then collects 200 on Free Parking. -/
theorem processTax_pot (s : GameState) (i : Nat) (tile : Tile) (amount pot : Int)
    (ha : tile.amount = some amount) (hpot : s.freeParkingPot = some pot) :
    (s.houseRules.parkingJackpot = true →
      (s.processTax i tile).2.freeParkingPot = some (pot + amount)) ∧
    (s.houseRules.parkingJackpot = false →
      (s.processTax i tile).2.freeParkingPot = some pot) ∧
    (i < s.players.length → (s.getPlayer i).money < amount →
      ((s.processTax i tile).2.getPlayer i).money = 0 ∧
      ((s.processTax i tile).2.getPlayer i).isBankrupt = true ∧
      (∀ j, j ≠ i → (s.processTax i tile).2.getPlayer j = s.getPlayer j) ∧
      (s.processTax i tile).2.totalMoney = s.totalMoney - (s.getPlayer i).money) ∧
    (i < s.players.length → (s.getPlayer i).money ≥ amount →
      ((s.processTax i tile).2.getPlayer i).money = (s.getPlayer i).money - amount ∧
      (∀ j, j ≠ i → (s.processTax i tile).2.getPlayer j = s.getPlayer j) ∧
      (s.processTax i tile).2.totalMoney = s.totalMoney - amount) ∧
    ((jackpotGame.getPlayer 0).money = 30 ∧ jackpotGame.freeParkingPot = some 0 ∧
      (jackpotGame.processTax 0 (tileAt 4)).2.freeParkingPot = some 200 ∧
      ((jackpotGame.processTax 0 (tileAt 4)).2.getPlayer 0).money = 0 ∧
      (jackpotTaxed.getPlayer 1).money = 1500 ∧
      ((jackpotTaxed.processLanding {} (fun _ => 0) 1).2.1.getPlayer 1).money = 1700) := by
  obtain ⟨s1, hcase, hr, hp, e⟩ := GameState.processTax_cases s i tile amount ha
  have hplayers : (s.processTax i tile).2.players = s1.players := by
    rw [e]; split_ifs <;> rfl
  have hget : ∀ j, (s.processTax i tile).2.getPlayer j = s1.getPlayer j := by
    intro j; simp only [GameState.getPlayer, hplayers]
  have htot : (s.processTax i tile).2.totalMoney = s1.totalMoney :=
    GameState.totalMoney_congr _ _ hplayers
  refine ⟨?_, ?_, ?_, ?_, by decide⟩
  · intro h
    rw [e, if_pos h, hpot]; rfl
  · intro h
    rw [e, if_neg (by simp [h]), hp, hpot]
  · intro hi hlt
    rcases hcase with ⟨hge, _⟩ | ⟨_, e1⟩
    · omega
    have hi1 : i < (((s.setPlayer i ((s.getPlayer i).setMoney 0)).addLog .rent).addLog
        .rent).players.length := by simpa using hi
    obtain ⟨b1, b2, b3, -, -⟩ := bankruptcyCore_bank _ i hi1
    have hgp : ∀ j, s1.getPlayer j
        = (s.setPlayer i ((((s.getPlayer i).setMoney 0).goBankrupt).setProperties [])).getPlayer
          j := by
      intro j
      rw [e1, declareBankruptcy_getPlayer]
      by_cases hj : j = i
      · subst hj
        rw [b2]
        simp [getPlayer_setPlayer_self _ _ _ hi]
      · rw [b3 j hj]
        simp [getPlayer_setPlayer_of_ne _ _ _ _ (Ne.symm hj)]
    have hlen : s1.players.length
        = (s.setPlayer i ((((s.getPlayer i).setMoney 0).goBankrupt).setProperties
          [])).players.length := by
      rw [e1, declareBankruptcy_players, b1]; simp
    refine ⟨?_, ?_, ?_, ?_⟩
    · rw [hget, hgp, getPlayer_setPlayer_self _ _ _ hi]; rfl
    · rw [hget, hgp, getPlayer_setPlayer_self _ _ _ hi]; rfl
    · intro j hj
      rw [hget, hgp, getPlayer_setPlayer_of_ne _ _ _ _ (Ne.symm hj)]
    · rw [htot, GameState.totalMoney_congr _ _ (GameState.players_ext _ _ hlen hgp),
        GameState.totalMoney_setPlayer _ _ _ hi]
      show s.totalMoney - (s.getPlayer i).money + 0 = _
      omega
  · intro hi hge
    rcases hcase with ⟨_, e1⟩ | ⟨hlt, _⟩
    swap
    · omega
    refine ⟨?_, ?_, ?_⟩
    · rw [hget, e1, getPlayer_addLog, getPlayer_setPlayer_self _ _ _ hi]; rfl
    · intro j hj
      rw [hget, e1, getPlayer_addLog, getPlayer_setPlayer_of_ne _ _ _ _ (Ne.symm hj)]
    · have e2 : s1.totalMoney = (s.setPlayer i ((s.getPlayer i).setMoney
          ((s.getPlayer i).money - amount))).totalMoney := by rw [e1]; rfl
      rw [htot, e2, GameState.totalMoney_setPlayer _ _ _ hi]
      show s.totalMoney - (s.getPlayer i).money + ((s.getPlayer i).money - amount) = _
      omega

end Fortunopoly

namespace Fortunopoly
open GameState

/-- Half a price, rounded down, and the ceiling of a tenth of it, as the
integer expressions the embedding computes with. -/
theorem half_and_interest (price : Int) :
    ⌊(price : ℚ) / 2⌋ = price / 2 ∧
    ⌈((⌊(price : ℚ) / 2⌋ : Int) : ℚ) / 10⌉ = -(-(price / 2) / 10) := by
  have h := Rat.floor_intCast_div_natCast price 2
  have e : ((price : Int) : ℚ) / ((2 : Nat) : ℚ) = (price : ℚ) / 2 := by push_cast; ring
  rw [e] at h
  have h2 : ⌊(price : ℚ) / 2⌋ = price / 2 := h
  exact ⟨h2, by rw [h2, ceil_tenth]⟩

/-- Claim C39: mortgage then unmortgage is a round trip up to interest.  For a
buyable board tile that player `i` owns, with no improvement on it or in its
group and not mortgaged, `mortgageProperty` succeeds; `unmortgageProperty`
right after succeeds exactly when the money before the mortgage was at least
the interest `ceil(floor(price / 2) / 10)`, and then the player is the
original player with the money lowered by the interest (so the mortgaged
list and the properties are the original ones), every other player and both
ledgers are unchanged.  With less money the second call is rejected and
changes nothing. -/
theorem mortgage_roundTrip (s : GameState) (i : Nat) (tile : Tile)
    (ht : tile ∈ TILES) (hb : isTileBuyable tile = true)
    (hown : tile.id ∈ (s.getPlayer i).properties)
    (hh : (s.propertyHouses tile.id).getD 0 ≤ 0)
    (hg : ∀ t ∈ getPropertiesInGroup tile.group, (s.propertyHouses t.id).getD 0 ≤ 0)
    (hm : tile.id ∉ (s.getPlayer i).mortgagedProperties) :
    ∃ price s1, tile.price = some price ∧
      s.mortgageProperty i tile = some (.success, s1) ∧
      ((s.getPlayer i).money ≥ ⌈((⌊(price : ℚ) / 2⌋ : Int) : ℚ) / 10⌉ →
        ∃ s2, s1.unmortgageProperty i tile = (.success, s2) ∧
          s2.getPlayer i = (s.getPlayer i).setMoney
            ((s.getPlayer i).money - ⌈((⌊(price : ℚ) / 2⌋ : Int) : ℚ) / 10⌉) ∧
          (s2.getPlayer i).mortgagedProperties = (s.getPlayer i).mortgagedProperties ∧
          (s2.getPlayer i).money
            = (s.getPlayer i).money - ⌈((⌊(price : ℚ) / 2⌋ : Int) : ℚ) / 10⌉ ∧
          (s2.getPlayer i).properties = (s.getPlayer i).properties ∧
          (∀ j, j ≠ i → s2.getPlayer j = s.getPlayer j) ∧
          s2.propertyOwners = s.propertyOwners ∧ s2.propertyHouses = s.propertyHouses) ∧
      ((s.getPlayer i).money < ⌈((⌊(price : ℚ) / 2⌋ : Int) : ℚ) / 10⌉ →
        s1.unmortgageProperty i tile = (.failure .notEnoughMoney, s1)) := by
  obtain ⟨price, hprice, -⟩ := board_buyable_price tile ht hb
  obtain ⟨-, hint⟩ := half_and_interest price
  refine ⟨price, ?_⟩
  rw [hint]
  have hi : i < s.players.length := by
    by_contra h
    rw [getPlayer_properties_of_not_lt s i h] at hown
    cases hown
  have hmort : s.mortgageProperty i tile = some (.success,
      (s.setPlayer i (((s.getPlayer i).addMoney (price / 2)).setMortgaged
        ((s.getPlayer i).mortgagedProperties ++ [tile.id]))).addLog .money) := by
    rcases mortgageProperty_cases s i tile price hprice with
      ⟨h, -⟩ | ⟨-, h, -⟩ | ⟨-, -, ⟨t, ht1, ht2⟩, -⟩ | ⟨-, -, -, h, -⟩ | ⟨-, -, -, -, h⟩
    · exact absurd hown h
    · omega
    · have := hg t ht1; omega
    · exact absurd h hm
    · exact h
  refine ⟨_, hprice, hmort, ?_, ?_⟩
  · intro hge
    have hp1 : ((s.setPlayer i (((s.getPlayer i).addMoney (price / 2)).setMortgaged
        ((s.getPlayer i).mortgagedProperties ++ [tile.id]))).addLog .money).getPlayer i
        = ((s.getPlayer i).addMoney (price / 2)).setMortgaged
          ((s.getPlayer i).mortgagedProperties ++ [tile.id]) := by
      rw [getPlayer_addLog, getPlayer_setPlayer_self _ _ _ hi]
    rcases unmortgageProperty_cases _ i tile price hprice with
      ⟨h, -⟩ | ⟨-, h, -⟩ | ⟨-, -, h, -⟩ | ⟨-, -, -, h⟩
    · rw [hp1] at h; exact absurd hown h
    · rw [hp1] at h
      exact absurd (List.mem_append_right _ (List.mem_singleton_self _)) h
    · rw [hp1] at h
      have : ((s.getPlayer i).addMoney (price / 2)).money = (s.getPlayer i).money + price / 2 :=
        rfl
      change (s.getPlayer i).money + price / 2 < _ at h
      omega
    · rw [hp1] at h
      have herase : ((s.getPlayer i).mortgagedProperties ++ [tile.id]).erase tile.id
          = (s.getPlayer i).mortgagedProperties := by
        rw [List.erase_append_right _ hm]
        simp
      have hplayer : (((((s.getPlayer i).addMoney (price / 2)).setMortgaged
            ((s.getPlayer i).mortgagedProperties ++ [tile.id])).setMoney
            ((((s.getPlayer i).addMoney (price / 2)).setMortgaged
              ((s.getPlayer i).mortgagedProperties ++ [tile.id])).money
              - (price / 2 + -(-(price / 2) / 10)))).setMortgaged
            ((((s.getPlayer i).addMoney (price / 2)).setMortgaged
              ((s.getPlayer i).mortgagedProperties ++ [tile.id])).mortgagedProperties.erase
              tile.id))
          = (s.getPlayer i).setMoney ((s.getPlayer i).money - -(-(price / 2) / 10)) := by
        show ({ (s.getPlayer i) with
          money := (s.getPlayer i).money + price / 2 - (price / 2 + -(-(price / 2) / 10)),
          mortgagedProperties :=
            ((s.getPlayer i).mortgagedProperties ++ [tile.id]).erase tile.id } : Player) = _
        rw [herase]
        have e : (s.getPlayer i).money + price / 2 - (price / 2 + -(-(price / 2) / 10))
            = (s.getPlayer i).money - -(-(price / 2) / 10) := by omega
        rw [e]
        rfl
      rw [hplayer] at h
      have hi1 : i < ((s.setPlayer i (((s.getPlayer i).addMoney (price / 2)).setMortgaged
          ((s.getPlayer i).mortgagedProperties ++ [tile.id]))).addLog .money).players.length := by
        simpa using hi
      refine ⟨_, h, ?_, ?_, ?_, ?_, ?_, rfl, rfl⟩
      · rw [getPlayer_addLog, getPlayer_setPlayer_self _ _ _ hi1]
      · rw [getPlayer_addLog, getPlayer_setPlayer_self _ _ _ hi1]; rfl
      · rw [getPlayer_addLog, getPlayer_setPlayer_self _ _ _ hi1]; rfl
      · rw [getPlayer_addLog, getPlayer_setPlayer_self _ _ _ hi1]; rfl
      · intro j hj
        rw [getPlayer_addLog, getPlayer_setPlayer_of_ne _ _ _ _ (Ne.symm hj), getPlayer_addLog,
          getPlayer_setPlayer_of_ne _ _ _ _ (Ne.symm hj)]
  · intro hlt
    have hp1 : ((s.setPlayer i (((s.getPlayer i).addMoney (price / 2)).setMortgaged
        ((s.getPlayer i).mortgagedProperties ++ [tile.id]))).addLog .money).getPlayer i
        = ((s.getPlayer i).addMoney (price / 2)).setMortgaged
          ((s.getPlayer i).mortgagedProperties ++ [tile.id]) := by
      rw [getPlayer_addLog, getPlayer_setPlayer_self _ _ _ hi]
    rcases unmortgageProperty_cases _ i tile price hprice with
      ⟨h, -⟩ | ⟨-, h, -⟩ | ⟨-, -, -, h⟩ | ⟨-, -, h, -⟩
    · rw [hp1] at h; exact absurd hown h
    · rw [hp1] at h
      exact absurd (List.mem_append_right _ (List.mem_singleton_self _)) h
    · exact h
    · rw [hp1] at h
      change (s.getPlayer i).money + price / 2 ≥ _ at h
      omega

end Fortunopoly

namespace Fortunopoly
open GameState

theorem subtractMoney_of_le (p : Player) (a : Int) (h : a ≤ p.money) :
    (p.subtractMoney a).2 = p.setMoney (p.money - a) := by
  have h2 : p.money ≥ a := h
  simp only [Player.subtractMoney, h2, if_true]

/-- The sum over the entries that pass a test, written with a filter. -/
theorem sum_map_ite_eq_filter (p : Nat → Bool) (f : Nat → Int) (l : List Nat) :
    (l.map (fun j => if p j = true then f j else 0)).sum = ((l.filter p).map f).sum := by
  induction l with
  | nil => rfl
  | cons x rest ih =>
    by_cases hx : p x = true
    · simp only [List.map_cons, List.sum_cons, hx, if_true, List.filter_cons_of_pos, ih]
    · simp only [List.map_cons, List.sum_cons, hx, if_false, List.filter_cons_of_neg, ih,
        Bool.false_eq_true, not_false_eq_true, zero_add]

/-- One step of the `forEach` of `collectFromAll` and `stealFromAll`. -/
theorem takeFromOne_step (i : Nat) (amount : Int) (acc : GameState × Int) (x : Nat)
    (hx : x < acc.1.players.length) :
    (takeFromOne i amount acc x).1.players.length = acc.1.players.length ∧
    (takeFromOne i amount acc x).1.getPlayer x
      = (if (acc.1.getPlayer x).id ≠ (acc.1.getPlayer i).id then
          (acc.1.getPlayer x).setMoney
            ((acc.1.getPlayer x).money - min amount (acc.1.getPlayer x).money)
        else acc.1.getPlayer x) ∧
    (∀ k, k ≠ x → (takeFromOne i amount acc x).1.getPlayer k = acc.1.getPlayer k) ∧
    (takeFromOne i amount acc x).2
      = acc.2 + (if (acc.1.getPlayer x).id ≠ (acc.1.getPlayer i).id then
          min amount (acc.1.getPlayer x).money else 0) ∧
    (takeFromOne i amount acc x).1.propertyOwners = acc.1.propertyOwners ∧
    (takeFromOne i amount acc x).1.propertyHouses = acc.1.propertyHouses ∧
    (takeFromOne i amount acc x).1.totalMoney + (takeFromOne i amount acc x).2
      = acc.1.totalMoney + acc.2 := by
  by_cases hid : (acc.1.getPlayer x).id ≠ (acc.1.getPlayer i).id
  · have e : takeFromOne i amount acc x
        = (acc.1.setPlayer x ((acc.1.getPlayer x).setMoney
            ((acc.1.getPlayer x).money - min amount (acc.1.getPlayer x).money)),
          acc.2 + min amount (acc.1.getPlayer x).money) := by
      simp only [takeFromOne, hid, if_true, ne_eq, not_false_eq_true,
        subtractMoney_of_le _ _ (min_le_right amount (acc.1.getPlayer x).money)]
    rw [e]
    refine ⟨by simp, ?_, ?_, ?_, rfl, rfl, ?_⟩
    · rw [if_pos hid]; exact getPlayer_setPlayer_self _ _ _ hx
    · intro k hk; exact getPlayer_setPlayer_of_ne _ _ _ _ (Ne.symm hk)
    · rw [if_pos hid]
    · show (acc.1.setPlayer x _).totalMoney + _ = _
      rw [GameState.totalMoney_setPlayer _ _ _ hx]
      simp only [Player.setMoney_money]
      omega
  · have e : takeFromOne i amount acc x = acc := by
      simp only [takeFromOne, hid, if_false]
    rw [e]
    refine ⟨rfl, ?_, fun _ _ => rfl, ?_, rfl, rfl, rfl⟩
    · rw [if_neg hid]
    · rw [if_neg hid]; omega

/-- The whole `forEach` of `collectFromAll` and `stealFromAll` over a list of
different player indices. -/
theorem takeFromOne_foldl (i : Nat) (amount : Int) :
    ∀ (l : List Nat) (acc : GameState × Int), l.Nodup →
      (∀ j ∈ l, j < acc.1.players.length) →
      (l.foldl (takeFromOne i amount) acc).1.players.length = acc.1.players.length ∧
      (∀ k, (l.foldl (takeFromOne i amount) acc).1.getPlayer k
        = (if k ∈ l ∧ (acc.1.getPlayer k).id ≠ (acc.1.getPlayer i).id then
            (acc.1.getPlayer k).setMoney
              ((acc.1.getPlayer k).money - min amount (acc.1.getPlayer k).money)
          else acc.1.getPlayer k)) ∧
      (l.foldl (takeFromOne i amount) acc).2
        = acc.2 + (l.map (fun j =>
            if decide ((acc.1.getPlayer j).id ≠ (acc.1.getPlayer i).id) = true then
              min amount (acc.1.getPlayer j).money else 0)).sum ∧
      (l.foldl (takeFromOne i amount) acc).1.propertyOwners = acc.1.propertyOwners ∧
      (l.foldl (takeFromOne i amount) acc).1.propertyHouses = acc.1.propertyHouses ∧
      (l.foldl (takeFromOne i amount) acc).1.totalMoney + (l.foldl (takeFromOne i amount) acc).2
        = acc.1.totalMoney + acc.2 := by
  intro l
  induction l with
  | nil =>
    intro acc _ _
    refine ⟨rfl, fun k => by simp, by simp, rfl, rfl, rfl⟩
  | cons x rest ih =>
    intro acc hnd hall
    have hx : x < acc.1.players.length := hall x (List.mem_cons_self _ _)
    obtain ⟨s1, s2, s3, s4, s5, s6, s7⟩ := takeFromOne_step i amount acc x hx
    have hxr : x ∉ rest := (List.nodup_cons.1 hnd).1
    obtain ⟨h1, h2, h3, h4, h5, h6⟩ := ih (takeFromOne i amount acc x) (List.nodup_cons.1 hnd).2
      (fun j hj => by rw [s1]; exact hall j (List.mem_cons_of_mem _ hj))
    have hid : ∀ k, ((takeFromOne i amount acc x).1.getPlayer k).id = (acc.1.getPlayer k).id := by
      intro k
      by_cases hk : k = x
      · subst hk
        rw [s2]
        split_ifs <;> rfl
      · rw [s3 k hk]
    simp only [List.foldl_cons]
    refine ⟨h1.trans s1, ?_, ?_, h4.trans s5, h5.trans s6, h6.trans s7⟩
    · intro k
      rw [h2 k, hid k, hid i]
      by_cases hk : k = x
      · subst hk
        have : ¬ (k ∈ rest ∧ (acc.1.getPlayer k).id ≠ (acc.1.getPlayer i).id) := fun h => hxr h.1
        rw [if_neg this, s2]
        simp only [List.mem_cons, true_or, true_and]
      · rw [s3 k hk]
        simp only [List.mem_cons, hk, false_or]
    · rw [h3, s4]
      have hmap : rest.map (fun j =>
            if decide (((takeFromOne i amount acc x).1.getPlayer j).id
              ≠ ((takeFromOne i amount acc x).1.getPlayer i).id) = true then
              min amount ((takeFromOne i amount acc x).1.getPlayer j).money else 0)
          = rest.map (fun j =>
            if decide ((acc.1.getPlayer j).id ≠ (acc.1.getPlayer i).id) = true then
              min amount (acc.1.getPlayer j).money else 0) := by
        apply List.map_congr_left
        intro j hj
        have hjx : j ≠ x := fun e => hxr (e ▸ hj)
        rw [hid j, hid i, s3 j hjx]
      rw [hmap]
      simp only [List.map_cons, List.sum_cons, decide_eq_true_eq]
      omega

end Fortunopoly

namespace Fortunopoly
open GameState

/-- The first entry of a list of players sorted by decreasing money is one of
the list with the most money; there is none only for the empty list. -/
theorem head_insertionSort_richest (s : GameState) (l : List Nat) :
    ((l.insertionSort (fun a b => (s.getPlayer a).money ≥ (s.getPlayer b).money)).head? = none
      ↔ l = []) ∧
    ∀ r, (l.insertionSort (fun a b => (s.getPlayer a).money ≥ (s.getPlayer b).money)).head?
        = some r → r ∈ l ∧ ∀ j ∈ l, (s.getPlayer j).money ≤ (s.getPlayer r).money := by
  haveI : IsTotal Nat (fun a b => (s.getPlayer a).money ≥ (s.getPlayer b).money) :=
    ⟨fun a b => le_total _ _⟩
  haveI : IsTrans Nat (fun a b => (s.getPlayer a).money ≥ (s.getPlayer b).money) :=
    ⟨fun a b c hab hbc => le_trans hbc hab⟩
  have hsorted := List.sorted_insertionSort
    (fun a b => (s.getPlayer a).money ≥ (s.getPlayer b).money) l
  have hperm := List.perm_insertionSort
    (fun a b => (s.getPlayer a).money ≥ (s.getPlayer b).money) l
  cases hl : l.insertionSort (fun a b => (s.getPlayer a).money ≥ (s.getPlayer b).money) with
  | nil =>
    rw [hl] at hperm
    refine ⟨⟨fun _ => List.Perm.eq_nil hperm.symm, fun _ => rfl⟩, fun r h => ?_⟩
    cases h
  | cons x rest =>
    rw [hl] at hsorted hperm
    refine ⟨⟨fun h => (by cases h), fun h => ?_⟩, ?_⟩
    · subst h
      have := hperm.length_eq
      simp at this
    · intro r h
      have hx : x = r := by simpa using h
      subst hx
      refine ⟨hperm.subset (List.mem_cons_self _ _), fun j hj => ?_⟩
      rcases List.mem_cons.1 (hperm.symm.subset hj) with rfl | hr
      · exact le_refl _
      · exact List.rel_of_sorted_cons hsorted j hr

namespace GameState

theorem mem_getActivePlayers_iff (s : GameState) (j : Nat) :
    j ∈ s.getActivePlayers ↔ j < s.players.length ∧ (s.getPlayer j).isBankrupt = false := by
  simp [getActivePlayers, List.mem_filter]

theorem applyCardEffect_takeFromOthers (s : GameState) (i : Nat) (card : Card) (won : Bool)
    (amount : Int)
    (hc : card.effect = .collectFromAll amount ∨ card.effect = .stealFromAll amount) :
    (s.applyCardEffect i card won).2
      = ((s.takeFromOthers i amount).1.setPlayer i
          (((s.takeFromOthers i amount).1.getPlayer i).addMoney
            (s.takeFromOthers i amount).2)).addLog .card := by
  rcases hc with hc | hc <;>
  · unfold applyCardEffect
    rw [hc]

theorem applyCardEffect_stealFromRichest (s : GameState) (i : Nat) (card : Card) (won : Bool)
    (amount : Int) (hc : card.effect = .stealFromRichest amount) :
    (((s.getActivePlayers.filter
        (fun j => decide ((s.getPlayer j).id ≠ (s.getPlayer i).id))).insertionSort
        (fun a b => (s.getPlayer a).money ≥ (s.getPlayer b).money)).head? = none →
      (s.applyCardEffect i card won).2 = s) ∧
    (∀ r, ((s.getActivePlayers.filter
        (fun j => decide ((s.getPlayer j).id ≠ (s.getPlayer i).id))).insertionSort
        (fun a b => (s.getPlayer a).money ≥ (s.getPlayer b).money)).head? = some r →
      (s.applyCardEffect i card won).2
        = (((s.setPlayer r ((s.getPlayer r).setMoney
              ((s.getPlayer r).money - min amount (s.getPlayer r).money))).setPlayer i
            (((s.setPlayer r ((s.getPlayer r).setMoney
              ((s.getPlayer r).money - min amount (s.getPlayer r).money))).getPlayer i).addMoney
              (min amount (s.getPlayer r).money))).addLog .card)) := by
  constructor
  · intro h
    unfold applyCardEffect
    rw [hc]
    simp only [h]
  · intro r h
    unfold applyCardEffect
    rw [hc]
    simp only [h, subtractMoney_of_le _ _ (min_le_right amount (s.getPlayer r).money)]

end GameState
end Fortunopoly

namespace Fortunopoly
open GameState

/-- Claim C35: the card effects `collectFromAll`, `stealFromAll` and
`stealFromRichest` move money between players and keep the total.  An
opponent is a player of the list who is not bankrupt and whose id differs
from the drawing player's.  For `collectFromAll` and `stealFromAll` every
opponent loses exactly `min amount money`, the drawing player gains the sum
of these losses over the opponents, and every other player is untouched.
For `stealFromRichest` with no opponent the state is unchanged; otherwise
one opponent whose money is maximal among the opponents loses
`min amount money`, the drawing player gains the same, and every other
player is untouched.  In every case a player changes in the money only (no
bankruptcy flag changes), the sum of all players' money and both ledgers
are the same as before. -/
theorem cardTransfers_conserve (s : GameState) (i : Nat) (card : Card) (won : Bool)
    (amount : Int) (hi : i < s.players.length) :
    ((card.effect = .collectFromAll amount ∨ card.effect = .stealFromAll amount) →
      (∀ j, j < s.players.length → (s.getPlayer j).isBankrupt = false →
        (s.getPlayer j).id ≠ (s.getPlayer i).id →
        (s.applyCardEffect i card won).2.getPlayer j
          = (s.getPlayer j).setMoney
              ((s.getPlayer j).money - min amount (s.getPlayer j).money)) ∧
      (s.applyCardEffect i card won).2.getPlayer i
        = (s.getPlayer i).setMoney ((s.getPlayer i).money +
            ((s.getActivePlayers.filter
                (fun j => decide ((s.getPlayer j).id ≠ (s.getPlayer i).id))).map
              (fun j => min amount (s.getPlayer j).money)).sum) ∧
      (∀ j, j ≠ i → ((s.getPlayer j).isBankrupt = true ∨
          (s.getPlayer j).id = (s.getPlayer i).id ∨ ¬ j < s.players.length) →
        (s.applyCardEffect i card won).2.getPlayer j = s.getPlayer j) ∧
      (∀ j, ((s.applyCardEffect i card won).2.getPlayer j).isBankrupt
        = (s.getPlayer j).isBankrupt) ∧
      (s.applyCardEffect i card won).2.totalMoney = s.totalMoney ∧
      (s.applyCardEffect i card won).2.propertyOwners = s.propertyOwners ∧
      (s.applyCardEffect i card won).2.propertyHouses = s.propertyHouses) ∧
    (card.effect = .stealFromRichest amount →
      ((∀ j, j < s.players.length → (s.getPlayer j).isBankrupt = false →
          (s.getPlayer j).id = (s.getPlayer i).id) →
        (s.applyCardEffect i card won).2 = s) ∧
      ((∃ j, j < s.players.length ∧ (s.getPlayer j).isBankrupt = false ∧
          (s.getPlayer j).id ≠ (s.getPlayer i).id) →
        ∃ r, r < s.players.length ∧ (s.getPlayer r).isBankrupt = false ∧
          (s.getPlayer r).id ≠ (s.getPlayer i).id ∧
          (∀ j, j < s.players.length → (s.getPlayer j).isBankrupt = false →
            (s.getPlayer j).id ≠ (s.getPlayer i).id →
            (s.getPlayer j).money ≤ (s.getPlayer r).money) ∧
          (s.applyCardEffect i card won).2.getPlayer r
            = (s.getPlayer r).setMoney
                ((s.getPlayer r).money - min amount (s.getPlayer r).money) ∧
          (s.applyCardEffect i card won).2.getPlayer i
            = (s.getPlayer i).setMoney
                ((s.getPlayer i).money + min amount (s.getPlayer r).money) ∧
          (∀ j, j ≠ r → j ≠ i →
            (s.applyCardEffect i card won).2.getPlayer j = s.getPlayer j) ∧
          (∀ j, ((s.applyCardEffect i card won).2.getPlayer j).isBankrupt
            = (s.getPlayer j).isBankrupt) ∧
          (s.applyCardEffect i card won).2.totalMoney = s.totalMoney ∧
          (s.applyCardEffect i card won).2.propertyOwners = s.propertyOwners ∧
          (s.applyCardEffect i card won).2.propertyHouses = s.propertyHouses)) := by
  constructor
  · intro hc
    rw [GameState.applyCardEffect_takeFromOthers s i card won amount hc]
    obtain ⟨f1, f2, f3, f4, f5, f6⟩ := takeFromOne_foldl i amount s.getActivePlayers (s, 0)
      s.getActivePlayers_nodup (fun j hj => mem_getActivePlayers s j hj)
    change (s.takeFromOthers i amount).1.players.length = s.players.length at f1
    change ∀ k, (s.takeFromOthers i amount).1.getPlayer k = _ at f2
    change (s.takeFromOthers i amount).2 = _ at f3
    change (s.takeFromOthers i amount).1.propertyOwners = s.propertyOwners at f4
    change (s.takeFromOthers i amount).1.propertyHouses = s.propertyHouses at f5
    change (s.takeFromOthers i amount).1.totalMoney + (s.takeFromOthers i amount).2
      = s.totalMoney + 0 at f6
    simp only at f2 f3
    rw [sum_map_ite_eq_filter] at f3
    have hi1 : i < (s.takeFromOthers i amount).1.players.length := by rw [f1]; exact hi
    have hti : (s.takeFromOthers i amount).1.getPlayer i = s.getPlayer i := by
      rw [f2 i, if_neg (fun h => h.2 rfl)]
    have hgi : (((s.takeFromOthers i amount).1.setPlayer i
          (((s.takeFromOthers i amount).1.getPlayer i).addMoney
            (s.takeFromOthers i amount).2)).addLog .card).getPlayer i
        = (s.getPlayer i).setMoney ((s.getPlayer i).money +
            ((s.getActivePlayers.filter
                (fun j => decide ((s.getPlayer j).id ≠ (s.getPlayer i).id))).map
              (fun j => min amount (s.getPlayer j).money)).sum) := by
      rw [getPlayer_addLog, getPlayer_setPlayer_self _ _ _ hi1, hti, f3, zero_add]
      rfl
    have hgo : ∀ j, j ≠ i → (((s.takeFromOthers i amount).1.setPlayer i
          (((s.takeFromOthers i amount).1.getPlayer i).addMoney
            (s.takeFromOthers i amount).2)).addLog .card).getPlayer j
        = (s.takeFromOthers i amount).1.getPlayer j := by
      intro j hj
      rw [getPlayer_addLog, getPlayer_setPlayer_of_ne _ _ _ _ (Ne.symm hj)]
    refine ⟨?_, hgi, ?_, ?_, ?_, f4, f5⟩
    · intro j hj hb hid
      have hji : j ≠ i := fun e => hid (e ▸ rfl)
      rw [hgo j hji, f2 j, if_pos ⟨(s.mem_getActivePlayers_iff j).2 ⟨hj, hb⟩, hid⟩]
    · intro j hji hcase
      rw [hgo j hji, f2 j, if_neg]
      rintro ⟨hmem, hid⟩
      obtain ⟨hj, hb⟩ := (s.mem_getActivePlayers_iff j).1 hmem
      rcases hcase with h | h | h
      · rw [hb] at h; cases h
      · exact hid h
      · exact h hj
    · intro j
      by_cases hji : j = i
      · subst hji; rw [hgi]; rfl
      · rw [hgo j hji, f2 j]
        split_ifs <;> rfl
    · show ((s.takeFromOthers i amount).1.setPlayer i _).totalMoney = _
      rw [GameState.totalMoney_setPlayer _ _ _ hi1]
      simp only [Player.addMoney_money]
      omega
  · intro hc
    obtain ⟨en, es⟩ := GameState.applyCardEffect_stealFromRichest s i card won amount hc
    obtain ⟨hnone, hsome⟩ := head_insertionSort_richest s
      (s.getActivePlayers.filter (fun j => decide ((s.getPlayer j).id ≠ (s.getPlayer i).id)))
    have hmem : ∀ j, j ∈ s.getActivePlayers.filter
          (fun j => decide ((s.getPlayer j).id ≠ (s.getPlayer i).id))
        ↔ j < s.players.length ∧ (s.getPlayer j).isBankrupt = false ∧
          (s.getPlayer j).id ≠ (s.getPlayer i).id := by
      intro j
      rw [List.mem_filter, s.mem_getActivePlayers_iff j, decide_eq_true_eq, and_assoc]
    constructor
    · intro hno
      apply en
      rw [hnone]
      apply List.eq_nil_iff_forall_not_mem.2
      intro j hj
      obtain ⟨h1, h2, h3⟩ := (hmem j).1 hj
      exact h3 (hno j h1 h2)
    · rintro ⟨j, hj1, hj2, hj3⟩
      cases hh : ((s.getActivePlayers.filter
          (fun j => decide ((s.getPlayer j).id ≠ (s.getPlayer i).id))).insertionSort
          (fun a b => (s.getPlayer a).money ≥ (s.getPlayer b).money)).head? with
      | none =>
        have := hnone.1 hh
        have hjm := (hmem j).2 ⟨hj1, hj2, hj3⟩
        rw [this] at hjm
        cases hjm
      | some r =>
        obtain ⟨hr, hmax⟩ := hsome r hh
        obtain ⟨hr1, hr2, hr3⟩ := (hmem r).1 hr
        have hri : r ≠ i := fun e => hr3 (e ▸ rfl)
        have hi1 : i < (s.setPlayer r ((s.getPlayer r).setMoney
            ((s.getPlayer r).money - min amount (s.getPlayer r).money))).players.length := by
          simpa using hi
        have hgi0 : (s.setPlayer r ((s.getPlayer r).setMoney
            ((s.getPlayer r).money - min amount (s.getPlayer r).money))).getPlayer i
            = s.getPlayer i := getPlayer_setPlayer_of_ne _ _ _ _ hri
        rw [es r hh, hgi0]
        have hgr : (((s.setPlayer r ((s.getPlayer r).setMoney
              ((s.getPlayer r).money - min amount (s.getPlayer r).money))).setPlayer i
              ((s.getPlayer i).addMoney (min amount (s.getPlayer r).money))).addLog
              .card).getPlayer r
            = (s.getPlayer r).setMoney
              ((s.getPlayer r).money - min amount (s.getPlayer r).money) := by
          rw [getPlayer_addLog, getPlayer_setPlayer_of_ne _ _ _ _ (Ne.symm hri),
            getPlayer_setPlayer_self _ _ _ hr1]
        have hgi : (((s.setPlayer r ((s.getPlayer r).setMoney
              ((s.getPlayer r).money - min amount (s.getPlayer r).money))).setPlayer i
              ((s.getPlayer i).addMoney (min amount (s.getPlayer r).money))).addLog
              .card).getPlayer i
            = (s.getPlayer i).setMoney
              ((s.getPlayer i).money + min amount (s.getPlayer r).money) := by
          rw [getPlayer_addLog, getPlayer_setPlayer_self _ _ _ hi1]
          rfl
        have hgo : ∀ k, k ≠ r → k ≠ i → (((s.setPlayer r ((s.getPlayer r).setMoney
              ((s.getPlayer r).money - min amount (s.getPlayer r).money))).setPlayer i
              ((s.getPlayer i).addMoney (min amount (s.getPlayer r).money))).addLog
              .card).getPlayer k = s.getPlayer k := by
          intro k hkr hki
          rw [getPlayer_addLog, getPlayer_setPlayer_of_ne _ _ _ _ (Ne.symm hki),
            getPlayer_setPlayer_of_ne _ _ _ _ (Ne.symm hkr)]
        refine ⟨r, hr1, hr2, hr3, fun k hk1 hk2 hk3 => hmax k ((hmem k).2 ⟨hk1, hk2, hk3⟩),
          hgr, hgi, hgo, ?_, ?_, rfl, rfl⟩
        · intro k
          by_cases hkr : k = r
          · subst hkr; rw [hgr]; rfl
          · by_cases hki : k = i
            · subst hki; rw [hgi]; rfl
            · rw [hgo k hkr hki]
        · show ((s.setPlayer r _).setPlayer i _).totalMoney = _
          rw [GameState.totalMoney_setPlayer _ _ _ hi1, hgi0,
            GameState.totalMoney_setPlayer _ _ _ hr1]
          simp only [Player.addMoney_money, Player.setMoney_money]
          omega

end Fortunopoly

namespace Fortunopoly
open GameState

/-- One step of the `forEach` of `everyoneLoses`. -/
theorem loseOne_step (i : Nat) (amount : Int) (st : GameState) (x : Nat)
    (hx : x < st.players.length) :
    (loseOne i amount st x).players.length = st.players.length ∧
    (loseOne i amount st x).getPlayer x
      = (if (st.getPlayer x).money ≥ amount then
          (st.getPlayer x).setMoney ((st.getPlayer x).money - amount)
        else if (st.getPlayer x).id ≠ (st.getPlayer i).id then
          (((st.getPlayer x).setMoney 0).goBankrupt).setProperties []
        else (st.getPlayer x).setMoney 0) ∧
    (∀ k, k ≠ x → (loseOne i amount st x).getPlayer k = st.getPlayer k) ∧
    (∀ t, st.propertyOwners t = none → (loseOne i amount st x).propertyOwners t = none) ∧
    (∀ t, st.propertyHouses t = none → (loseOne i amount st x).propertyHouses t = none) ∧
    (¬ (st.getPlayer x).money ≥ amount → (st.getPlayer x).id ≠ (st.getPlayer i).id →
      ∀ t ∈ (st.getPlayer x).properties,
        (loseOne i amount st x).propertyOwners t = none ∧
        (loseOne i amount st x).propertyHouses t = none) := by
  by_cases hm : (st.getPlayer x).money ≥ amount
  · have e : loseOne i amount st x
        = st.setPlayer x ((st.getPlayer x).setMoney ((st.getPlayer x).money - amount)) := by
      simp only [loseOne, Player.canAfford, hm, decide_True, if_true,
        subtractMoney_of_le _ _ hm]
    rw [e]
    refine ⟨by simp, ?_, ?_, fun _ h => h, fun _ h => h, fun h => absurd hm h⟩
    · rw [if_pos hm]; exact getPlayer_setPlayer_self _ _ _ hx
    · intro k hk; exact getPlayer_setPlayer_of_ne _ _ _ _ (Ne.symm hk)
  · have hidi : ((st.setPlayer x ((st.getPlayer x).setMoney 0)).getPlayer i).id
        = (st.getPlayer i).id := getPlayer_setPlayer_id st x _ i rfl
    by_cases hid : (st.getPlayer x).id ≠ (st.getPlayer i).id
    · have e : loseOne i amount st x
          = (st.setPlayer x ((st.getPlayer x).setMoney 0)).declareBankruptcy x none := by
        simp only [loseOne, Player.canAfford, hm, decide_False, Bool.false_eq_true, if_false,
          hidi, hid, ne_eq, not_false_eq_true, if_true]
      have hx1 : x < (st.setPlayer x ((st.getPlayer x).setMoney 0)).players.length := by
        simpa using hx
      obtain ⟨b1, b2, b3, b4, b5⟩ := bankruptcyCore_bank _ x hx1
      rw [getPlayer_setPlayer_self _ _ _ hx] at b2 b4 b5
      rw [e]
      refine ⟨?_, ?_, ?_, ?_, ?_, ?_⟩
      · rw [declareBankruptcy_players, b1]; simp
      · rw [declareBankruptcy_getPlayer, b2, if_neg hm, if_pos hid]
      · intro k hk
        rw [declareBankruptcy_getPlayer, b3 k hk]
        exact getPlayer_setPlayer_of_ne _ _ _ _ (Ne.symm hk)
      · intro t ht
        rw [declareBankruptcy_propertyOwners, b5 t]
        split_ifs
        · rfl
        · exact ht
      · intro t ht
        rw [declareBankruptcy_propertyHouses, b4 t]
        split_ifs
        · rfl
        · exact ht
      · intro _ _ t ht
        have ht1 : t ∈ ((st.getPlayer x).setMoney 0).properties := ht
        rw [declareBankruptcy_propertyOwners, declareBankruptcy_propertyHouses, b5 t, b4 t,
          if_pos ht1, if_pos ht1]
        exact ⟨rfl, rfl⟩
    · have e : loseOne i amount st x = st.setPlayer x ((st.getPlayer x).setMoney 0) := by
        simp only [loseOne, Player.canAfford, hm, decide_False, Bool.false_eq_true, if_false,
          hidi, hid]
      rw [e]
      refine ⟨by simp, ?_, ?_, fun _ h => h, fun _ h => h, fun _ h => absurd h hid⟩
      · rw [if_neg hm, if_neg hid]; exact getPlayer_setPlayer_self _ _ _ hx
      · intro k hk; exact getPlayer_setPlayer_of_ne _ _ _ _ (Ne.symm hk)

/-- The whole `forEach` of `everyoneLoses` over a list of different player
indices. -/
theorem loseOne_foldl (i : Nat) (amount : Int) :
    ∀ (l : List Nat) (st : GameState), l.Nodup → (∀ j ∈ l, j < st.players.length) →
      (l.foldl (loseOne i amount) st).players.length = st.players.length ∧
      (∀ k, (l.foldl (loseOne i amount) st).getPlayer k
        = (if k ∈ l then
            (if (st.getPlayer k).money ≥ amount then
              (st.getPlayer k).setMoney ((st.getPlayer k).money - amount)
            else if (st.getPlayer k).id ≠ (st.getPlayer i).id then
              (((st.getPlayer k).setMoney 0).goBankrupt).setProperties []
            else (st.getPlayer k).setMoney 0)
          else st.getPlayer k)) ∧
      (∀ t, st.propertyOwners t = none → (l.foldl (loseOne i amount) st).propertyOwners t = none) ∧
      (∀ t, st.propertyHouses t = none → (l.foldl (loseOne i amount) st).propertyHouses t = none) ∧
      (∀ k ∈ l, ¬ (st.getPlayer k).money ≥ amount → (st.getPlayer k).id ≠ (st.getPlayer i).id →
        ∀ t ∈ (st.getPlayer k).properties,
          (l.foldl (loseOne i amount) st).propertyOwners t = none ∧
          (l.foldl (loseOne i amount) st).propertyHouses t = none) := by
  intro l
  induction l with
  | nil =>
    intro st _ _
    refine ⟨rfl, fun k => by simp, fun _ h => h, fun _ h => h, fun k hk => by cases hk⟩
  | cons x rest ih =>
    intro st hnd hall
    have hx : x < st.players.length := hall x (List.mem_cons_self _ _)
    obtain ⟨s1, s2, s3, s4, s5, s6⟩ := loseOne_step i amount st x hx
    have hxr : x ∉ rest := (List.nodup_cons.1 hnd).1
    obtain ⟨h1, h2, h3, h4, h5⟩ := ih (loseOne i amount st x) (List.nodup_cons.1 hnd).2
      (fun j hj => by rw [s1]; exact hall j (List.mem_cons_of_mem _ hj))
    have hid : ∀ k, ((loseOne i amount st x).getPlayer k).id = (st.getPlayer k).id := by
      intro k
      by_cases hk : k = x
      · subst hk
        rw [s2]
        split_ifs <;> rfl
      · rw [s3 k hk]
    simp only [List.foldl_cons]
    refine ⟨h1.trans s1, ?_, fun t ht => h3 t (s4 t ht), fun t ht => h4 t (s5 t ht), ?_⟩
    · intro k
      rw [h2 k]
      by_cases hk : k = x
      · subst hk
        rw [if_neg hxr, s2]
        simp only [List.mem_cons, true_or, if_true]
      · rw [hid k, hid i, s3 k hk]
        simp only [List.mem_cons, hk, false_or]
    · intro k hk hm hidk t ht
      rcases List.mem_cons.1 hk with rfl | hkr
      · obtain ⟨a, b⟩ := s6 hm hidk t ht
        exact ⟨h3 t a, h4 t b⟩
      · have hkx : k ≠ x := fun e => hxr (e ▸ hkr)
        apply h5 k hkr
        · rw [s3 k hkx]; exact hm
        · rw [hid k, hid i]; exact hidk
        · rw [s3 k hkx]; exact ht

end Fortunopoly

namespace Fortunopoly
open GameState

namespace GameState

theorem applyCardEffect_everyoneLoses (s : GameState) (i : Nat) (card : Card) (won : Bool)
    (amount : Int) (hc : card.effect = .everyoneLoses amount) :
    (s.applyCardEffect i card won).2
      = (s.getActivePlayers.foldl (loseOne i amount) s).addLog .card := by
  unfold applyCardEffect
  rw [hc]

end GameState

/-- Claim C37: the card effect `everyoneLoses`.  Every player who is not
bankrupt ends with the money `max 0 (money - amount)`: who can afford the
amount pays it; who cannot and has another id than the drawing player is
declared bankrupt with no creditor (money 0, flag set, tiles given up and
their ledger entries deleted); who cannot and is the drawing player is set
to money 0 and is not declared bankrupt.  Players who were bankrupt are
untouched, the drawing player's flag never changes, nobody gains a tile,
and for an amount that is not negative nobody with money that is not
negative has more money afterwards. -/
theorem everyoneLoses_spec (s : GameState) (i : Nat) (card : Card) (won : Bool) (amount : Int)
    (hc : card.effect = .everyoneLoses amount) :
    (∀ k, k < s.players.length → (s.getPlayer k).isBankrupt = false →
      ((s.applyCardEffect i card won).2.getPlayer k).money
        = max 0 ((s.getPlayer k).money - amount) ∧
      ((s.getPlayer k).money ≥ amount →
        (s.applyCardEffect i card won).2.getPlayer k
          = (s.getPlayer k).setMoney ((s.getPlayer k).money - amount)) ∧
      ((s.getPlayer k).money < amount → (s.getPlayer k).id ≠ (s.getPlayer i).id →
        (s.applyCardEffect i card won).2.getPlayer k
          = (((s.getPlayer k).setMoney 0).goBankrupt).setProperties [] ∧
        ((s.applyCardEffect i card won).2.getPlayer k).isBankrupt = true ∧
        ∀ t ∈ (s.getPlayer k).properties,
          (s.applyCardEffect i card won).2.propertyOwners t = none ∧
          (s.applyCardEffect i card won).2.propertyHouses t = none) ∧
      ((s.getPlayer k).money < amount → (s.getPlayer k).id = (s.getPlayer i).id →
        (s.applyCardEffect i card won).2.getPlayer k = (s.getPlayer k).setMoney 0 ∧
        ((s.applyCardEffect i card won).2.getPlayer k).isBankrupt = false)) ∧
    (∀ k, ((s.getPlayer k).isBankrupt = true ∨ ¬ k < s.players.length) →
      (s.applyCardEffect i card won).2.getPlayer k = s.getPlayer k) ∧
    ((s.applyCardEffect i card won).2.getPlayer i).isBankrupt = (s.getPlayer i).isBankrupt ∧
    (∀ k, ((s.applyCardEffect i card won).2.getPlayer k).properties
      ⊆ (s.getPlayer k).properties) ∧
    (0 ≤ amount → ∀ k, 0 ≤ (s.getPlayer k).money →
      ((s.applyCardEffect i card won).2.getPlayer k).money ≤ (s.getPlayer k).money) := by
  rw [GameState.applyCardEffect_everyoneLoses s i card won amount hc]
  obtain ⟨-, f2, f3, f4, f5⟩ := loseOne_foldl i amount s.getActivePlayers s
    s.getActivePlayers_nodup (fun j hj => mem_getActivePlayers s j hj)
  have hg : ∀ k, ((s.getActivePlayers.foldl (loseOne i amount) s).addLog .card).getPlayer k
      = (if k ∈ s.getActivePlayers then
            (if (s.getPlayer k).money ≥ amount then
              (s.getPlayer k).setMoney ((s.getPlayer k).money - amount)
            else if (s.getPlayer k).id ≠ (s.getPlayer i).id then
              (((s.getPlayer k).setMoney 0).goBankrupt).setProperties []
            else (s.getPlayer k).setMoney 0)
          else s.getPlayer k) := fun k => by rw [getPlayer_addLog, f2 k]
  refine ⟨?_, ?_, ?_, ?_, ?_⟩
  · intro k hk hb
    have hmem : k ∈ s.getActivePlayers := (s.mem_getActivePlayers_iff k).2 ⟨hk, hb⟩
    refine ⟨?_, ?_, ?_, ?_⟩
    · rw [hg k, if_pos hmem]
      by_cases hm : (s.getPlayer k).money ≥ amount
      · rw [if_pos hm, Player.setMoney_money, max_eq_right (by omega)]
      · rw [if_neg hm]
        have h0 : (s.getPlayer k).money - amount ≤ 0 := by omega
        rw [max_eq_left h0]
        split_ifs <;> rfl
    · intro hm
      rw [hg k, if_pos hmem, if_pos hm]
    · intro hm hid
      have hm2 : ¬ (s.getPlayer k).money ≥ amount := by omega
      refine ⟨?_, ?_, ?_⟩
      · rw [hg k, if_pos hmem, if_neg hm2, if_pos hid]
      · rw [hg k, if_pos hmem, if_neg hm2, if_pos hid]; rfl
      · intro t ht
        exact f5 k hmem hm2 hid t ht
    · intro hm hid
      have hm2 : ¬ (s.getPlayer k).money ≥ amount := by omega
      have hid2 : ¬ (s.getPlayer k).id ≠ (s.getPlayer i).id := fun h => h hid
      refine ⟨?_, ?_⟩
      · rw [hg k, if_pos hmem, if_neg hm2, if_neg hid2]
      · rw [hg k, if_pos hmem, if_neg hm2, if_neg hid2]; exact hb
  · intro k hcase
    rw [hg k, if_neg]
    intro hmem
    obtain ⟨hk, hb⟩ := (s.mem_getActivePlayers_iff k).1 hmem
    rcases hcase with h | h
    · rw [hb] at h; cases h
    · exact h hk
  · rw [hg i]
    split_ifs <;> first | rfl | exact absurd rfl ‹_›
  · intro k
    rw [hg k]
    split_ifs
    · exact fun _ h => h
    · exact fun _ h => by cases h
    · exact fun _ h => h
    · exact fun _ h => h
  · intro ha k hk0
    rw [hg k]
    split_ifs with h1 h2 h3
    · rw [Player.setMoney_money]; omega
    · exact hk0
    · exact hk0
    · exact le_refl _

end Fortunopoly

namespace Fortunopoly
open GameState

/-- Two rent payments and a bankruptcy to the bank are guarded calls. -/
theorem reachableGuarded_tiedAtZero : ReachableGuarded tiedAtZero :=
  ReachableGuarded.step _ _
    (ReachableGuarded.step _ _
      (ReachableGuarded.step _ _ (ReachableGuarded.init [{}, {}, {}] {} threePlayers rfl)
        ⟨by decide, by decide, by decide⟩ (by unfold EngineCall.Guarded; decide))
      ⟨by decide, by decide, by decide⟩ (by unfold EngineCall.Guarded; decide))
    ⟨by decide, fun c h => by cases h⟩ (by unfold EngineCall.Guarded; decide)

/-- With one player left, or with a player who is not bankrupt and has a
positive net worth, `getWinner` names a player who is not bankrupt, provided
bankrupt players hold no money and no tiles. -/
theorem getWinner_active (s : GameState)
    (hb : ∀ j, j < s.players.length → (s.getPlayer j).isBankrupt = true →
      (s.getPlayer j).money = 0 ∧ (s.getPlayer j).properties = [])
    (h : s.getActivePlayers.length = 1 ∨
      ∃ a, a < s.players.length ∧ (s.getPlayer a).isBankrupt = false ∧
        0 < (s.getPlayer a).getNetWorth) :
    ∃ w, s.getWinner = some w ∧ w < s.players.length ∧ (s.getPlayer w).isBankrupt = false := by
  by_cases h1 : s.getActivePlayers.length = 1
  · obtain ⟨w, hw⟩ := List.length_eq_one.1 h1
    have hmem : w ∈ s.getActivePlayers := by rw [hw]; exact List.mem_singleton_self w
    obtain ⟨hl, hnb⟩ := (s.mem_getActivePlayers_iff w).1 hmem
    exact ⟨w, by simp [getWinner, hw], hl, hnb⟩
  · rcases h with h | ⟨a, ha, hab, hpos⟩
    · exact absurd h h1
    cases hh : ((List.range s.players.length).insertionSort
        (fun a b => (s.getPlayer a).getNetWorth ≥ (s.getPlayer b).getNetWorth)).head? with
    | none =>
      exfalso
      have hperm := List.perm_insertionSort
        (fun a b => (s.getPlayer a).getNetWorth ≥ (s.getPlayer b).getNetWorth)
        (List.range s.players.length)
      rw [List.head?_eq_none_iff] at hh
      rw [hh] at hperm
      have := hperm.length_eq
      simp at this
      omega
    | some w =>
      obtain ⟨hw, hmax⟩ := head_insertionSort_max s _ w hh
      refine ⟨w, by simp [getWinner, h1, hh], hw, ?_⟩
      cases hbw : (s.getPlayer w).isBankrupt with
      | false => rfl
      | true =>
        exfalso
        obtain ⟨hm, hp⟩ := hb w hw hbw
        have h0 : (s.getPlayer w).getNetWorth = 0 := by
          rw [getNetWorth_eq_sum, hm, hp]; simp
        have := hmax a ha
        omega

/-- Claim C38: `getWinner` can name a bankrupt player.  In the game
`tiedAtZero`, reached by guarded calls and still being played, players 1 and
2 are not bankrupt and have no money and no tiles, and the bankrupt player 0
has none either; the net worths tie at 0, the stable sort over all players
keeps player 0 first, and `getWinner` returns player 0, whom `getStandings`
ranks last.  With exactly one player left, or when some player who is not
bankrupt has a positive net worth, the winner is not bankrupt. -/
theorem getWinner_bankrupt_tie :
    ReachableGuarded tiedAtZero ∧ tiedAtZero.phase = .playing ∧
    tiedAtZero.getActivePlayers = [1, 2] ∧
    (∀ j, j < tiedAtZero.players.length → (tiedAtZero.getPlayer j).isBankrupt = true →
      (tiedAtZero.getPlayer j).money = 0 ∧ (tiedAtZero.getPlayer j).properties = []) ∧
    (∀ j, j < tiedAtZero.players.length → (tiedAtZero.getPlayer j).getNetWorth = 0) ∧
    tiedAtZero.getWinner = some 0 ∧ (tiedAtZero.getPlayer 0).isBankrupt = true ∧
    tiedAtZero.getStandings = [1, 2, 0] ∧
    (∀ s : GameState,
      (∀ j, j < s.players.length → (s.getPlayer j).isBankrupt = true →
        (s.getPlayer j).money = 0 ∧ (s.getPlayer j).properties = []) →
      (s.getActivePlayers.length = 1 ∨
        ∃ a, a < s.players.length ∧ (s.getPlayer a).isBankrupt = false ∧
          0 < (s.getPlayer a).getNetWorth) →
      ∃ w, s.getWinner = some w ∧ w < s.players.length ∧
        (s.getPlayer w).isBankrupt = false) :=
  ⟨reachableGuarded_tiedAtZero, by decide, by decide, by decide, by decide, by decide,
    by decide, by decide, getWinner_active⟩

end Fortunopoly

namespace Fortunopoly
open GameState

/-- Witness for C32: an easy bot with no money that holds tile 1 buys tile 3,
the other brown tile, even on the highest draw; a medium bot with 100 in
money and no tiles refuses tile 1 (price 60, buffer 250) even on the lowest
draw. -/
theorem shouldBuyProperty_spec_witness :
    BotAI.shouldBuyProperty { id := 0, money := 0, properties := [1], botDifficulty := .easy }
      (tileAt 3) startOfGame 1 = true ∧
    BotAI.shouldBuyProperty { id := 0, money := 100 } (tileAt 1) startOfGame 0 = false := by
  have h := shouldBuyProperty_spec
    { id := 0, money := 0, properties := [1], botDifficulty := .easy } (tileAt 3) startOfGame 1
  have k := shouldBuyProperty_spec { id := 0, money := 100 } (tileAt 1) startOfGame 0
  refine ⟨h.1 .brown (by decide) (by decide), k.2.2 60 (by decide) ?_ ?_ ?_ (by decide)⟩
  · exact fun h => absurd h.1 (by decide)
  · rintro ⟨g, hg, hc⟩
    have hb : (tileAt 1).group = some .brown := by decide
    rw [hb] at hg
    cases hg
    revert hc
    decide
  · exact fun h => absurd h.1 (by decide)

/-- Witness for C33: with the brown monopoly among three tiles and 700 in
money the bot pays; with two tiles it does not, whatever the money. -/
theorem shouldPayJailBail_spec_witness :
    BotAI.shouldPayJailBail { id := 0, money := 700, properties := [1, 3, 5] } none = true ∧
    BotAI.shouldPayJailBail { id := 0, money := 5000, properties := [1, 3] } none = false := by
  have h := shouldPayJailBail_spec { id := 0, money := 700, properties := [1, 3, 5] } none
  have k := shouldPayJailBail_spec { id := 0, money := 5000, properties := [1, 3] } none
  exact ⟨h.2.2.1 rfl (by decide) (Or.inr (Or.inl ⟨⟨.brown, by decide⟩, by decide⟩)),
    k.2.1 rfl (by decide)⟩

/-- Witness for C40: three scattered tiles, 700 in money against 900. -/
theorem shouldPayJailBail_mono_witness :
    ({ id := 0, money := 700, properties := [1, 6, 11] } : Player).money ≤ 900 ∧
    BotAI.shouldPayJailBail { id := 0, money := 700, properties := [1, 6, 11] } none = true ∧
    BotAI.shouldPayJailBail
      (({ id := 0, money := 700, properties := [1, 6, 11] } : Player).setMoney 900) none = true :=
  ⟨by decide, by decide,
    shouldPayJailBail_mono { id := 0, money := 700, properties := [1, 6, 11] } none 900
      (by decide) (by decide)⟩

/-- Witness for C36: in the jackpot game player 0 has 30 in money and lands
on the tax tile of 200. -/
theorem processTax_pot_witness :
    (tileAt 4).amount = some 200 ∧ jackpotGame.freeParkingPot = some 0 ∧
    jackpotGame.houseRules.parkingJackpot = true ∧ (jackpotGame.getPlayer 0).money < 200 ∧
    (jackpotGame.processTax 0 (tileAt 4)).2.freeParkingPot = some (0 + 200) ∧
    (jackpotGame.processTax 0 (tileAt 4)).2.totalMoney
      = jackpotGame.totalMoney - (jackpotGame.getPlayer 0).money := by
  have h := processTax_pot jackpotGame 0 (tileAt 4) 200 0 (by decide) (by decide)
  exact ⟨by decide, by decide, by decide, by decide, h.1 (by decide),
    (h.2.2.1 (by decide) (by decide)).2.2.2⟩

/-- Witness for C35: player 0 draws `stealFromAll 50` while player 1 has 40
and player 2 has 100. -/
theorem cardTransfers_conserve_witness :
    0 < unevenPurses.players.length ∧
    ((unevenPurses.applyCardEffect 0 ⟨25, .stealFromAll 50⟩ false).2.getPlayer 1).money = 0 ∧
    ((unevenPurses.applyCardEffect 0 ⟨25, .stealFromAll 50⟩ false).2.getPlayer 2).money = 50 ∧
    ((unevenPurses.applyCardEffect 0 ⟨25, .stealFromAll 50⟩ false).2.getPlayer 0).money
      = 1590 ∧
    (unevenPurses.applyCardEffect 0 ⟨25, .stealFromAll 50⟩ false).2.totalMoney
      = unevenPurses.totalMoney := by
  have h := (cardTransfers_conserve unevenPurses 0 ⟨25, .stealFromAll 50⟩ false 50
    (by decide)).1 (Or.inr rfl)
  refine ⟨by decide, ?_, ?_, ?_, h.2.2.2.2.1⟩
  · rw [h.1 1 (by decide) (by decide) (by decide)]; decide
  · rw [h.1 2 (by decide) (by decide) (by decide)]; decide
  · rw [h.2.1]; decide

/-- Witness for C37: `everyoneLoses 75` while player 1 has 40 and player 2
has 100: drawn by player 0, player 1 goes bankrupt; drawn by player 1, player
1 is left with no money and is not bankrupt. -/
theorem everyoneLoses_spec_witness :
    ((unevenPurses.applyCardEffect 0 ⟨27, .everyoneLoses 75⟩ false).2.getPlayer 1).isBankrupt
      = true ∧
    ((unevenPurses.applyCardEffect 0 ⟨27, .everyoneLoses 75⟩ false).2.getPlayer 2).money
      = max 0 ((unevenPurses.getPlayer 2).money - 75) ∧
    ((unevenPurses.applyCardEffect 1 ⟨27, .everyoneLoses 75⟩ false).2.getPlayer 1).isBankrupt
      = false ∧
    ((unevenPurses.applyCardEffect 1 ⟨27, .everyoneLoses 75⟩ false).2.getPlayer 1).money
      = max 0 ((unevenPurses.getPlayer 1).money - 75) := by
  have h := everyoneLoses_spec unevenPurses 0 ⟨27, .everyoneLoses 75⟩ false 75 rfl
  have k := everyoneLoses_spec unevenPurses 1 ⟨27, .everyoneLoses 75⟩ false 75 rfl
  exact ⟨((h.1 1 (by decide) (by decide)).2.2.1 (by decide) (by decide)).2.1,
    (h.1 2 (by decide) (by decide)).1,
    ((k.1 1 (by decide) (by decide)).2.2.2 (by decide) (by decide)).2,
    (k.1 1 (by decide) (by decide)).1⟩

/-- Witness for C39: player 0 holds tile 1 (price 60) with 1440 in money;
mortgage and unmortgage cost the interest of 3. -/
theorem mortgage_roundTrip_witness :
    (tileAt 1 ∈ TILES ∧ isTileBuyable (tileAt 1) = true ∧
      (tileAt 1).id ∈ (oneTileEach.getPlayer 0).properties ∧
      (oneTileEach.getPlayer 0).money = 1440) ∧
    ∃ s1 s2, oneTileEach.mortgageProperty 0 (tileAt 1) = some (.success, s1) ∧
      s1.unmortgageProperty 0 (tileAt 1) = (.success, s2) ∧
      (s2.getPlayer 0).money = 1437 ∧ (s2.getPlayer 0).mortgagedProperties = [] ∧
      s2.getPlayer 1 = oneTileEach.getPlayer 1 := by
  obtain ⟨price, s1, hp, h1, h2, -⟩ := mortgage_roundTrip oneTileEach 0 (tileAt 1)
    (by decide) (by decide) (by decide) (by decide) (by decide) (by decide)
  have hprice : price = 60 := by
    have h60 : (tileAt 1).price = some 60 := by decide
    rw [h60] at hp
    exact (Option.some.inj hp).symm
  subst hprice
  have hint : ⌈((⌊((60 : Int) : ℚ) / 2⌋ : Int) : ℚ) / 10⌉ = 3 := by
    rw [(half_and_interest 60).2]; decide
  rw [hint] at h2
  obtain ⟨s2, e2, -, g2, g3, -, g5, -, -⟩ := h2 (by decide)
  refine ⟨⟨by decide, by decide, by decide, by decide⟩, s1, s2, h1, e2, ?_, ?_,
    g5 1 (by decide)⟩
  · rw [g3]; decide
  · rw [g2]; decide

end Fortunopoly
